import Mathlib

/-!
# A shallow embedding of the terminal core of `st.go`

The Go program keeps its terminal in package-level variables (`term`, `sel`,
`csiescseq`, `strescseq`, `win`).  Here they are the fields of one record,
`State`, that every operation receives and returns.  An operation that the Go
runtime would abort with an index-out-of-range panic returns `none`; so does
the one loop of the program that can run for ever, the CRLF loop of `ttywrite`.

Go `int` values are `Int`; bit sets (`mode`, `esc`, glyph attributes) are `Nat`
with the bitwise operators.  Arithmetic on CSI arguments, which may be as large
as a 64-bit integer, is wrapped with `wrap64`.
-/

namespace GoSt

/-! ## Constants of `st.go` and `config.go` -/

def ATTR_NULL : Nat := 0
def ATTR_BOLD : Nat := 1
def ATTR_FAINT : Nat := 2
def ATTR_ITALIC : Nat := 4
def ATTR_UNDERLINE : Nat := 8
def ATTR_BLINK : Nat := 16
def ATTR_REVERSE : Nat := 32
def ATTR_INVISIBLE : Nat := 64
def ATTR_STRUCK : Nat := 128
def ATTR_WRAP : Nat := 256
def ATTR_WIDE : Nat := 512
def ATTR_WDUMMY : Nat := 1024

def SEL_IDLE : Int := 0
def SEL_EMPTY : Int := 1
def SEL_READY : Int := 2

def SEL_REGULAR : Int := 1
def SEL_RECTANGULAR : Int := 2

def SNAP_WORD : Int := 1
def SNAP_LINE : Int := 2

def MODE_WRAP : Nat := 1
def MODE_INSERT : Nat := 2
def MODE_ALTSCREEN : Nat := 4
def MODE_CRLF : Nat := 8
def MODE_ECHO : Nat := 16
def MODE_PRINT : Nat := 32
def MODE_UTF8 : Nat := 64
def MODE_SIXEL : Nat := 128

def CURSOR_SAVE : Int := 0
def CURSOR_LOAD : Int := 1

def CURSOR_DEFAULT : Nat := 0
def CURSOR_WRAPNEXT : Nat := 1
def CURSOR_ORIGIN : Nat := 2

def CS_GRAPHIC0 : Nat := 0
def CS_GRAPHIC1 : Nat := 1
def CS_UK : Nat := 2
def CS_USA : Nat := 3
def CS_MULTI : Nat := 4
def CS_GER : Nat := 5
def CS_FIN : Nat := 6

def ESC_START : Nat := 1
def ESC_CSI : Nat := 2
def ESC_STR : Nat := 4
def ESC_ALTCHARSET : Nat := 8
def ESC_STR_END : Nat := 16
def ESC_TEST : Nat := 32
def ESC_UTF8 : Nat := 64
def ESC_DCS : Nat := 128

def UTFMax : Nat := 4
def ESC_BUF_SIZ : Nat := 128 * UTFMax
def ESC_ARG_SIZ : Nat := 16
def STR_BUF_SIZ : Nat := ESC_BUF_SIZ
def STR_ARG_SIZ : Nat := ESC_ARG_SIZ

/-- Window mode flags of `x.go`. -/
def MODE_VISIBLE : Nat := 1
def MODE_FOCUSED : Nat := 2
def MODE_APPKEYPAD : Nat := 4
def MODE_MOUSEBTN : Nat := 8
def MODE_MOUSEMOTION : Nat := 16
def MODE_REVERSE : Nat := 32
def MODE_KBDLOCK : Nat := 64
def MODE_HIDE : Nat := 128
def MODE_APPCURSOR : Nat := 256
def MODE_MOUSESGR : Nat := 512
def MODE_8BIT : Nat := 1024
def MODE_BLINK : Nat := 2048
def MODE_FBLINK : Nat := 4096
def MODE_FOCUS : Nat := 8192
def MODE_MOUSEX10 : Nat := 16384
def MODE_MOUSEMANY : Nat := 32768
def MODE_BRCKTPASTE : Nat := 65536
def MODE_NUMLOCK : Nat := 131072
def MODE_MOUSE : Nat := MODE_MOUSEBTN ||| MODE_MOUSEMOTION ||| MODE_MOUSEX10 ||| MODE_MOUSEMANY

/-- The identification sequence `vtiden` of `config.go`: ESC [ ? 6 c. -/
def vtiden : List Nat := [27, 91, 63, 54, 99]
/-- The word delimiters `worddelimiters` of `config.go`: the space. -/
def worddelimiters : List Int := [32]
def allowaltscreen : Bool := true
def tabspaces : Int := 8
def defaultfg : Nat := 7
def defaultbg : Nat := 0

/-! ## Integer and bit helpers -/

/-- Go's `a &^ b` (bit clear) on a non-negative bit set. -/
def andNot (a b : Nat) : Nat := a ^^^ (a &&& b)

/-- The test `m & f != 0`. -/
def has (m f : Nat) : Bool := (m &&& f) != 0

/-- Two's-complement wrap-around of a 64-bit signed integer. -/
def wrap64 (i : Int) : Int := (i + 9223372036854775808) % 18446744073709551616 - 9223372036854775808

/-- The `min` of `x.go`. -/
def imin (a b : Int) : Int := if a < b then a else b

/-- The `max` of `x.go`. -/
def imax (a b : Int) : Int := if a > b then a else b

/-- The `clamp` of `x.go`. -/
def clamp (x a b : Int) : Int := imin (imax x a) b

/-! ## Data model -/

structure Glyph where
  u : Int
  mode : Nat
  fg : Nat
  bg : Nat
deriving DecidableEq, Repr

instance : Inhabited Glyph := ⟨⟨0, 0, 0, 0⟩⟩

abbrev Line := List Glyph

structure TCursor where
  attr : Glyph
  x : Int
  y : Int
  state : Nat
deriving DecidableEq, Repr

instance : Inhabited TCursor := ⟨⟨default, 0, 0, 0⟩⟩

structure Point where
  x : Int
  y : Int
deriving DecidableEq, Repr

instance : Inhabited Point := ⟨⟨0, 0⟩⟩

structure Selection where
  mode : Int
  typ : Int
  snap : Int
  nb : Point
  ne : Point
  ob : Point
  oe : Point
  alt : Bool
deriving DecidableEq, Repr

instance : Inhabited Selection := ⟨⟨0, 0, 0, default, default, default, default, false⟩⟩

/-- The `Term` record.  The two saved cursors `tc[0]`, `tc[1]` are `tc0`, `tc1`;
the inbound byte buffer and the rendezvous channel are left to `twrite`'s caller. -/
structure Term where
  row : Int
  col : Int
  line : List Line
  alt : List Line
  dirty : List Bool
  c : TCursor
  ocx : Int
  ocy : Int
  top : Int
  bot : Int
  mode : Nat
  esc : Nat
  trantbl : List Nat
  charset : Int
  icharset : Int
  tabs : List Bool
  tc0 : TCursor
  tc1 : TCursor
deriving DecidableEq, Repr

structure CSIEscape where
  buf : List Nat
  priv : Bool
  arg : List Int
  narg : Int
  mode0 : Int
  mode1 : Int
deriving DecidableEq, Repr

/-- The zero value `CSIEscape{}`: an empty raw buffer and sixteen zero arguments. -/
def CSIEscape.zero : CSIEscape := ⟨[], false, List.replicate 16 0, 0, 0, 0⟩

structure STREscape where
  typ : Int
  buf : List Nat
  args : List (List Nat)
  narg : Int
deriving DecidableEq, Repr

/-- The zero value `STREscape{}`. -/
def STREscape.zero : STREscape := ⟨0, [], List.replicate 16 [], 0⟩

/-- The two fields of `TermWindow` that the terminal core writes. -/
structure TermWindow where
  mode : Nat
  cursor : Int
deriving DecidableEq, Repr

/-- The package-level variables of the program, and the bytes it has sent to the
pty (`tty`) and to the printer file (`prn`); `iofile` tells whether the printer
file is open. -/
structure State where
  term : Term
  sel : Selection
  csiescseq : CSIEscape
  strescseq : STREscape
  win : TermWindow
  tty : List Nat
  iofile : Bool
  prn : List Nat
deriving DecidableEq, Repr

/-! ## Checked indexing -/

/-- The element `l[i]`, or a panic. -/
def idx? {α : Type} (l : List α) (i : Int) : Option α :=
  if 0 ≤ i then l[i.toNat]? else none

/-- The list after `l[i] = v`, or a panic. -/
def upd? {α : Type} (l : List α) (i : Int) (v : α) : Option (List α) :=
  if 0 ≤ i ∧ i < l.length then some (l.set i.toNat v) else none

/-- The glyph `g[y][x]`, or a panic. -/
def cell? (g : List Line) (y x : Int) : Option Glyph :=
  (idx? g y).bind (fun l => idx? l x)

/-- The grid after `g[y][x] = v`, or a panic. -/
def setCell? (g : List Line) (y x : Int) (v : Glyph) : Option (List Line) :=
  (idx? g y).bind (fun l => (upd? l x v).bind (fun l2 => upd? g y l2))

/-- The loop `for i := lo; n > 0; i++, n-- { body }`. -/
def forUp {σ : Type} (body : Int → σ → Option σ) : Nat → Int → σ → Option σ
  | 0, _, s => some s
  | n + 1, i, s => (body i s).bind (forUp body n (i + 1))

/-- The loop `for i := hi; n > 0; i--, n-- { body }`. -/
def forDown {σ : Type} (body : Int → σ → Option σ) : Nat → Int → σ → Option σ
  | 0, _, s => some s
  | n + 1, i, s => (body i s).bind (forDown body n (i - 1))

/-! ## Dirty rows, selection membership, cursor motion -/

/-- The Go `tsetdirt`. -/
def tsetdirt (top bot : Int) (s : State) : Option State :=
  let t := clamp top 0 (s.term.row - 1)
  let b := clamp bot 0 (s.term.row - 1)
  forUp (fun i s1 => (upd? s1.term.dirty i true).map
      (fun d => { s1 with term := { s1.term with dirty := d } }))
    (b + 1 - t).toNat t s

/-- The Go `tfulldirt`. -/
def tfulldirt (s : State) : Option State :=
  tsetdirt 0 (s.term.row - 1) s

/-- The Go `selected`. -/
def selected (x y : Int) (s : State) : Bool :=
  if s.sel.mode = SEL_EMPTY ∨ s.sel.ob.x = -1 ∨ s.sel.alt ≠ has s.term.mode MODE_ALTSCREEN then
    false
  else if s.sel.typ = SEL_RECTANGULAR then
    decide (s.sel.nb.y ≤ y ∧ y ≤ s.sel.ne.y ∧ s.sel.nb.x ≤ x ∧ x ≤ s.sel.ne.x)
  else
    decide (s.sel.nb.y ≤ y ∧ y ≤ s.sel.ne.y ∧
      (y ≠ s.sel.nb.y ∨ x ≥ s.sel.nb.x) ∧ (y ≠ s.sel.ne.y ∨ x ≤ s.sel.ne.x))

/-- The Go `selclear`. -/
def selclear (s : State) : Option State :=
  if s.sel.ob.x = -1 then some s
  else
    tsetdirt s.sel.nb.y s.sel.ne.y
      { s with sel := { s.sel with mode := SEL_IDLE, ob := { s.sel.ob with x := -1 } } }

/-- The Go `tmoveto`. -/
def tmoveto (x y : Int) (s : State) : State :=
  let miny := if has s.term.c.state CURSOR_ORIGIN then s.term.top else 0
  let maxy := if has s.term.c.state CURSOR_ORIGIN then s.term.bot else s.term.row - 1
  { s with term := { s.term with c := { s.term.c with
      state := andNot s.term.c.state CURSOR_WRAPNEXT,
      x := clamp x 0 (s.term.col - 1),
      y := clamp y miny maxy } } }

/-- The Go `tmoveato`: the row is an argument of a CSI sequence, so the sum wraps. -/
def tmoveato (x y : Int) (s : State) : State :=
  tmoveto x (if has s.term.c.state CURSOR_ORIGIN then wrap64 (y + s.term.top) else y) s

/-- The Go `tsetscroll`. -/
def tsetscroll (t b : Int) (s : State) : State :=
  let t1 := clamp t 0 (s.term.row - 1)
  let b1 := clamp b 0 (s.term.row - 1)
  { s with term := { s.term with top := if t1 > b1 then b1 else t1, bot := if t1 > b1 then t1 else b1 } }

/-! ## Selection -/

/-- The Go `wcschr`: the first index of `u` in `w`, or -1. -/
def wcschr : List Int → Int → Int
  | [], _ => -1
  | c :: w, u => if u = c then 0 else (if wcschr w u < 0 then -1 else wcschr w u + 1)

/-- The Go `isdelim`. -/
def isdelim (u : Int) : Bool :=
  decide (u ≠ 0 ∧ wcschr worddelimiters u ≥ 0)

/-- The loop of `tlinelen`: step `i` down while `l[i-1]` is a space. -/
def tlinelenLoop (l : Line) : Nat → Int → Option Int
  | 0, i => some i
  | n + 1, i =>
    if i > 0 then
      (idx? l (i - 1)).bind (fun g => if g.u = 32 then tlinelenLoop l n (i - 1) else some i)
    else some i

/-- The Go `tlinelen`. -/
def tlinelen (y : Int) (s : State) : Option Int :=
  (idx? s.term.line y).bind fun l =>
  (idx? l (s.term.col - 1)).bind fun g =>
  if has g.mode ATTR_WRAP then some s.term.col
  else tlinelenLoop l s.term.col.toNat s.term.col

/-- First half of one round of the word-snap loop of `selsnap`: the candidate
cell, or `none` for `break`. -/
def snapTarget (s : State) (direction x y : Int) : Option (Option (Int × Int)) :=
  let newx := x + direction
  if 0 ≤ newx ∧ newx ≤ s.term.col - 1 then
    let newy := y + direction
    let newx1 := (newx + s.term.col) % s.term.col
    if ¬ (0 ≤ newy ∧ newy ≤ s.term.row - 1) then some none
    else
      (cell? s.term.line (if direction > 0 then y else newy) (if direction > 0 then x else newx1)).bind
        fun g => if ¬ has g.mode ATTR_WRAP then some none else some (some (newx1, newy))
  else some (some (newx, y))

/-- Second half of one round of the word-snap loop of `selsnap`: the glyph and
delimiter class of the accepted cell, or `none` for `break`. -/
def snapAccept (s : State) (prevgp : Glyph) (prevdelim : Bool) (newx newy : Int) :
    Option (Option (Glyph × Bool)) :=
  (tlinelen newy s).bind fun len =>
  if newx ≥ len then some none
  else
    (cell? s.term.line newy newx).bind fun gp =>
    if ¬ has gp.mode ATTR_WDUMMY ∧
        (isdelim gp.u ≠ prevdelim ∨ (isdelim gp.u = true ∧ gp.u ≠ prevgp.u)) then some none
    else some (some (gp, isdelim gp.u))

/-- The word-snap loop of `selsnap`. -/
def selsnapWord (s : State) (direction : Int) : Nat → Int → Int → Glyph → Bool → Option (Int × Int)
  | 0, x, y, _, _ => some (x, y)
  | fuel + 1, x, y, prevgp, prevdelim =>
    (snapTarget s direction x y).bind fun t =>
    match t with
    | none => some (x, y)
    | some (newx, newy) =>
      (snapAccept s prevgp prevdelim newx newy).bind fun a =>
      match a with
      | none => some (x, y)
      | some (gp, delim) => selsnapWord s direction fuel newx newy gp delim

/-- The upward line-snap loop of `selsnap` (`direction < 0`). -/
def selsnapLineUp (s : State) (direction : Int) : Nat → Int → Option Int
  | 0, y => some y
  | fuel + 1, y =>
    if y > 0 then
      (cell? s.term.line (y - 1) (s.term.col - 1)).bind fun g =>
      if ¬ has g.mode ATTR_WRAP then some y else selsnapLineUp s direction fuel (y + direction)
    else some y

/-- The downward line-snap loop of `selsnap` (`direction > 0`). -/
def selsnapLineDown (s : State) (direction : Int) : Nat → Int → Option Int
  | 0, y => some y
  | fuel + 1, y =>
    if y < s.term.row - 1 then
      (cell? s.term.line y (s.term.col - 1)).bind fun g =>
      if ¬ has g.mode ATTR_WRAP then some y else selsnapLineDown s direction fuel (y + direction)
    else some y

/-- The Go `selsnap`, returning the new `(*x, *y)`. -/
def selsnap (x y direction : Int) (s : State) : Option (Int × Int) :=
  if s.sel.snap = SNAP_WORD then
    (cell? s.term.line y x).bind fun prevgp =>
    selsnapWord s direction (s.term.row.toNat + 1) x y prevgp (isdelim prevgp.u)
  else if s.sel.snap = SNAP_LINE then
    let x1 := if direction < 0 then 0 else s.term.col - 1
    if direction < 0 then (selsnapLineUp s direction y.toNat y).map (fun y1 => (x1, y1))
    else if direction > 0 then
      (selsnapLineDown s direction (s.term.row - 1 - y).toNat y).map (fun y1 => (x1, y1))
    else some (x1, y)
  else some (x, y)

/-- The Go `selnormalize`. -/
def selnormalize (s : State) : Option State :=
  let regular2 := s.sel.typ = SEL_REGULAR ∧ s.sel.ob.y ≠ s.sel.oe.y
  let nbx := if regular2 then (if s.sel.ob.y < s.sel.oe.y then s.sel.ob.x else s.sel.oe.x)
             else imin s.sel.ob.x s.sel.oe.x
  let nex := if regular2 then (if s.sel.ob.y < s.sel.oe.y then s.sel.oe.x else s.sel.ob.x)
             else imax s.sel.ob.x s.sel.oe.x
  let nby := imin s.sel.ob.y s.sel.oe.y
  let ney := imax s.sel.ob.y s.sel.oe.y
  (selsnap nbx nby (-1) s).bind fun b =>
  (selsnap nex ney 1 s).bind fun e =>
  if s.sel.typ = SEL_RECTANGULAR then
    some { s with sel := { s.sel with nb := ⟨b.1, b.2⟩, ne := ⟨e.1, e.2⟩ } }
  else
    (tlinelen b.2 s).bind fun i =>
    (tlinelen e.2 s).bind fun j =>
    some { s with sel := { s.sel with
      nb := ⟨if i < b.1 then i else b.1, b.2⟩,
      ne := ⟨if j ≤ e.1 then s.term.col - 1 else e.1, e.2⟩ } }

/-- The Go `selstart`. -/
def selstart (col row snap : Int) (s : State) : Option State :=
  (selclear s).bind fun s1 =>
  (selnormalize { s1 with sel := { s1.sel with
      mode := SEL_EMPTY, typ := SEL_REGULAR, alt := has s1.term.mode MODE_ALTSCREEN,
      snap := snap, oe := ⟨col, row⟩, ob := ⟨col, row⟩ } }).bind fun s2 =>
  let s3 := if s2.sel.snap ≠ 0 then { s2 with sel := { s2.sel with mode := SEL_READY } } else s2
  tsetdirt s3.sel.nb.y s3.sel.ne.y s3

/-- The Go `selextend`. -/
def selextend (col row typ : Int) (done : Bool) (s : State) : Option State :=
  if s.sel.mode = SEL_IDLE then some s
  else if done ∧ s.sel.mode = SEL_EMPTY then selclear s
  else
    (selnormalize { s with sel := { s.sel with oe := ⟨col, row⟩ } }).bind fun s1 =>
    let s2 := { s1 with sel := { s1.sel with typ := typ } }
    (if s.sel.oe.y ≠ s2.sel.oe.y ∨ s.sel.oe.x ≠ s2.sel.oe.x ∨ s.sel.typ ≠ s2.sel.typ
          ∨ s2.sel.mode = SEL_EMPTY then
        tsetdirt (imin s2.sel.nb.y s.sel.nb.y) (imax s2.sel.ne.y s.sel.ne.y) s2
      else some s2).bind fun s3 =>
    some { s3 with sel := { s3.sel with mode := if done then SEL_IDLE else SEL_READY } }

/-- The Go `selscroll`. -/
def selscroll (orig n : Int) (s : State) : Option State :=
  if s.sel.ob.x = -1 then some s
  else if (s.sel.ob.y ≤ orig ∧ orig ≤ s.term.bot) ∨ (s.sel.oe.y ≤ orig ∧ orig ≤ s.term.bot) then
    let oby := s.sel.ob.y + n
    let oey := s.sel.oe.y + n
    let s1 := { s with sel := { s.sel with ob := ⟨s.sel.ob.x, oby⟩, oe := ⟨s.sel.oe.x, oey⟩ } }
    if oby > s.term.bot ∨ oey < s.term.top then selclear s1
    else if s.sel.typ = SEL_RECTANGULAR then
      selnormalize { s1 with sel := { s1.sel with
        ob := ⟨s.sel.ob.x, if oby < s.term.top then s.term.top else oby⟩,
        oe := ⟨s.sel.oe.x, if oey > s.term.bot then s.term.bot else oey⟩ } }
    else
      selnormalize { s1 with sel := { s1.sel with
        ob := if oby < s.term.top then ⟨0, s.term.top⟩ else ⟨s.sel.ob.x, oby⟩,
        oe := if oey > s.term.bot then ⟨s.term.col, s.term.bot⟩ else ⟨s.sel.oe.x, oey⟩ } }
  else some s

/-! ## Grid operations -/

/-- One cell of the inner loop of `tclearregion`. -/
def tclearcell (y x : Int) (s : State) : Option State :=
  (cell? s.term.line y x).bind fun _ =>
  (if selected x y s then selclear s else some s).bind fun s1 =>
  (setCell? s1.term.line y x ⟨32, 0, s1.term.c.attr.fg, s1.term.c.attr.bg⟩).map
    fun g => { s1 with term := { s1.term with line := g } }

/-- One row of the outer loop of `tclearregion`. -/
def tclearrow (x1 x2 y : Int) (s : State) : Option State :=
  (upd? s.term.dirty y true).bind fun d =>
  forUp (tclearcell y) (x2 + 1 - x1).toNat x1 { s with term := { s.term with dirty := d } }

/-- The Go `tclearregion`. -/
def tclearregion (x1 y1 x2 y2 : Int) (s : State) : Option State :=
  let xa := clamp (if x1 > x2 then x2 else x1) 0 (s.term.col - 1)
  let xb := clamp (if x1 > x2 then x1 else x2) 0 (s.term.col - 1)
  let ya := clamp (if y1 > y2 then y2 else y1) 0 (s.term.row - 1)
  let yb := clamp (if y1 > y2 then y1 else y2) 0 (s.term.row - 1)
  forUp (tclearrow xa xb) (yb + 1 - ya).toNat ya s

/-- The statement `g[i], g[j] = g[j], g[i]`. -/
def swapRows (g : List Line) (i j : Int) : Option (List Line) :=
  (idx? g j).bind fun a => (idx? g i).bind fun b =>
  (upd? g i a).bind fun g1 => upd? g1 j b

/-- The Go `tscrolldown`. -/
def tscrolldown (orig n : Int) (s : State) : Option State :=
  let k := clamp n 0 (s.term.bot - orig + 1)
  (tsetdirt orig (s.term.bot - k) s).bind fun s1 =>
  (tclearregion 0 (s1.term.bot - k + 1) (s1.term.col - 1) s1.term.bot s1).bind fun s2 =>
  (forDown (fun i t => (swapRows t.term.line i (i - k)).map
        (fun g => { t with term := { t.term with line := g } }))
      (s2.term.bot + 1 - (orig + k)).toNat s2.term.bot s2).bind fun s3 =>
  selscroll orig k s3

/-- The Go `tscrollup`. -/
def tscrollup (orig n : Int) (s : State) : Option State :=
  let k := clamp n 0 (s.term.bot - orig + 1)
  (tclearregion 0 orig (s.term.col - 1) (orig + k - 1) s).bind fun s1 =>
  (tsetdirt (orig + k) s1.term.bot s1).bind fun s2 =>
  (forUp (fun i t => (swapRows t.term.line i (i + k)).map
        (fun g => { t with term := { t.term with line := g } }))
      (s2.term.bot - k + 1 - orig).toNat orig s2).bind fun s3 =>
  selscroll orig (-k) s3

/-- The Go `tnewline`. -/
def tnewline (first_col : Bool) (s : State) : Option State :=
  if s.term.c.y = s.term.bot then
    (tscrollup s.term.top 1 s).map fun s1 =>
      tmoveto (if first_col then 0 else s1.term.c.x) s.term.c.y s1
  else
    some (tmoveto (if first_col then 0 else s.term.c.x) (s.term.c.y + 1) s)

/-- The table `vt100_0` of `tsetchar`, for the runes 0x41 to 0x7e; 0 stands for
the empty string, which fills the rows H to O and P to W and the row X to `_`
up to its last entry. -/
def vt100_0 : List Int :=
  [0x2191, 0x2193, 0x2192, 0x2190, 0x2588, 0x259a, 0x2603] ++
  List.replicate 8 0 ++ List.replicate 8 0 ++ List.replicate 7 0 ++
  [0x20,
   0x25c6, 0x2592, 0x2409, 0x240c, 0x240d, 0x240a, 0xb0, 0xb1,
   0x2424, 0x240b, 0x2518, 0x2510, 0x250c, 0x2514, 0x253c, 0x23ba,
   0x23bb, 0x2500, 0x23bc, 0x23bd, 0x251c, 0x2524, 0x2534, 0x252c,
   0x2502, 0x2264, 0x2265, 0x3c0, 0x2260, 0xa3, 0xb7]

/-- The rune that `tsetchar` stores for `u`: translated through `vt100_0` when
the active charset is the graphic one. -/
def tsetcharRune (u : Int) (s : State) : Option Int :=
  (idx? s.term.trantbl s.term.charset).bind fun cs =>
  if cs = CS_GRAPHIC0 ∧ 0x41 ≤ u ∧ u ≤ 0x7e then
    (idx? vt100_0 (u - 0x41)).bind fun v => if v ≠ 0 then some v else some u
  else some u

/-- The repair of the other half of a wide pair in `tsetchar`. -/
def tsetcharFix (x y : Int) (s : State) : Option (List Line) :=
  (cell? s.term.line y x).bind fun g =>
  if has g.mode ATTR_WIDE then
    if x + 1 < s.term.col then
      (cell? s.term.line y (x + 1)).bind fun h =>
      setCell? s.term.line y (x + 1) { h with u := 32, mode := andNot h.mode ATTR_WDUMMY }
    else some s.term.line
  else if has g.mode ATTR_WDUMMY then
    (cell? s.term.line y (x - 1)).bind fun h =>
    setCell? s.term.line y (x - 1) { h with u := 32, mode := andNot h.mode ATTR_WIDE }
  else some s.term.line

/-- The Go `tsetchar`; `attr` is the glyph the pointer argument refers to. -/
def tsetchar (u : Int) (attr : Glyph) (x y : Int) (s : State) : Option State :=
  (tsetcharRune u s).bind fun u1 =>
  (tsetcharFix x y s).bind fun g1 =>
  (upd? s.term.dirty y true).bind fun d =>
  (setCell? g1 y x { attr with u := u1 }).map fun g2 =>
  { s with term := { s.term with line := g2, dirty := d } }

/-- The Go `copy(l[dst:dst+size], l[src:])` within one slice whose capacity is its
length. -/
def copyWithin {α : Type} (l : List α) (dst size src : Int) : Option (List α) :=
  if 0 ≤ dst ∧ dst ≤ dst + size ∧ dst + size ≤ l.length ∧ 0 ≤ src ∧ src ≤ l.length then
    let k := min size.toNat (l.length - src.toNat)
    some (l.take dst.toNat ++ (l.drop src.toNat).take k ++ l.drop (dst.toNat + k))
  else none

/-- The Go `tdeletechar`. -/
def tdeletechar (n : Int) (s : State) : Option State :=
  let k := clamp n 0 (s.term.col - s.term.c.x)
  let dst := s.term.c.x
  let src := s.term.c.x + k
  let size := s.term.col - src
  (idx? s.term.line s.term.c.y).bind fun line =>
  (copyWithin line dst size src).bind fun l2 =>
  (upd? s.term.line s.term.c.y l2).bind fun g =>
  tclearregion (s.term.col - k) s.term.c.y (s.term.col - 1) s.term.c.y
    { s with term := { s.term with line := g } }

/-- The Go `tinsertblank`. -/
def tinsertblank (n : Int) (s : State) : Option State :=
  let k := clamp n 0 (s.term.col - s.term.c.x)
  let dst := s.term.c.x + k
  let src := s.term.c.x
  let size := s.term.col - dst
  (idx? s.term.line s.term.c.y).bind fun line =>
  (copyWithin line dst size src).bind fun l2 =>
  (upd? s.term.line s.term.c.y l2).bind fun g =>
  tclearregion src s.term.c.y (dst - 1) s.term.c.y
    { s with term := { s.term with line := g } }

/-- The Go `tinsertblankline`. -/
def tinsertblankline (n : Int) (s : State) : Option State :=
  if s.term.top ≤ s.term.c.y ∧ s.term.c.y ≤ s.term.bot then tscrolldown s.term.c.y n s
  else some s

/-- The Go `tdeleteline`. -/
def tdeleteline (n : Int) (s : State) : Option State :=
  if s.term.top ≤ s.term.c.y ∧ s.term.c.y ≤ s.term.bot then tscrollup s.term.c.y n s
  else some s

/-- The Go `tswapscreen`. -/
def tswapscreen (s : State) : Option State :=
  tfulldirt { s with term := { s.term with
    line := s.term.alt, alt := s.term.line, mode := s.term.mode ^^^ MODE_ALTSCREEN } }

/-- The Go `tcursor`. -/
def tcursor (mode : Int) (s : State) : State :=
  if mode = CURSOR_SAVE then
    if has s.term.mode MODE_ALTSCREEN then { s with term := { s.term with tc1 := s.term.c } }
    else { s with term := { s.term with tc0 := s.term.c } }
  else
    let tc := if has s.term.mode MODE_ALTSCREEN then s.term.tc1 else s.term.tc0
    tmoveto tc.x tc.y { s with term := { s.term with c := tc } }

/-- The inner loop of `tputtab`, forward: `for x++; x < col && !tabs[x]; x++`. -/
def nextTab (s : State) : Nat → Int → Option Int
  | 0, x => some x
  | fuel + 1, x =>
    if x < s.term.col then
      (idx? s.term.tabs x).bind fun t => if ¬ t then nextTab s fuel (x + 1) else some x
    else some x

/-- The inner loop of `tputtab`, backward: `for x--; x > 0 && !tabs[x]; x--`. -/
def prevTab (s : State) : Nat → Int → Option Int
  | 0, x => some x
  | fuel + 1, x =>
    if x > 0 then
      (idx? s.term.tabs x).bind fun t => if ¬ t then prevTab s fuel (x - 1) else some x
    else some x

/-- The outer loop of `tputtab` for `n > 0`. -/
def tputtabFwd (s : State) : Nat → Int → Int → Option Int
  | 0, x, _ => some x
  | fuel + 1, x, n =>
    if x < s.term.col ∧ n ≠ 0 then
      (nextTab s (s.term.col - x).toNat (x + 1)).bind fun x1 => tputtabFwd s fuel x1 (n - 1)
    else some x

/-- The outer loop of `tputtab` for `n < 0`. -/
def tputtabBwd (s : State) : Nat → Int → Int → Option Int
  | 0, x, _ => some x
  | fuel + 1, x, n =>
    if x > 0 ∧ n ≠ 0 then
      (prevTab s x.toNat (x - 1)).bind fun x1 => tputtabBwd s fuel x1 (n + 1)
    else some x

/-- The Go `tputtab`. -/
def tputtab (n : Int) (s : State) : Option State :=
  (if n > 0 then tputtabFwd s (s.term.col - s.term.c.x).toNat s.term.c.x n
   else if n < 0 then tputtabBwd s s.term.c.x.toNat s.term.c.x n
   else some s.term.c.x).map fun x =>
  { s with term := { s.term with c := { s.term.c with x := clamp x 0 (s.term.col - 1) } } }

/-! ## Resize and reset -/

/-- The Go built-in `copy(dst, src)` of two slices that do not overlap: the new
contents of `dst`. -/
def goCopy {α : Type} (dst src : List α) : List α :=
  src.take dst.length ++ dst.drop src.length

/-- The loop `for bp--; bp > len(term.tabs) && !term.tabs[bp]; { bp-- }` of
`tresize`, entered with `bp` already decremented. -/
def tresizeTabBack (tabs : List Bool) : Nat → Int → Option Int
  | 0, bp => some bp
  | fuel + 1, bp =>
    if bp > tabs.length then
      (idx? tabs bp).bind fun t => if ¬ t then tresizeTabBack tabs fuel (bp - 1) else some bp
    else some bp

/-- The loop `for bp += tabspaces; bp < col; bp += tabspaces { term.tabs[bp] = true }`
of `tresize`, entered with `bp` already advanced. -/
def tresizeTabSet (col : Int) : Nat → Int → List Bool → Option (List Bool)
  | 0, _, tabs => some tabs
  | fuel + 1, bp, tabs =>
    if bp < col then (upd? tabs bp true).bind (tresizeTabSet col fuel (bp + tabspaces))
    else some tabs

/-- The tab-stop part of `tresize`: `tabs` is the new table, `oldcol` is `term.col`. -/
def tresizeTabs (col oldcol : Int) (tabs : List Bool) : Option (List Bool) :=
  if col > oldcol then
    (forUp (fun i t => upd? t (oldcol + i) false) (col - oldcol).toNat 0 tabs).bind fun t1 =>
    (tresizeTabBack t1 oldcol.toNat (oldcol - 1)).bind fun bp =>
    tresizeTabSet col col.toNat (bp + tabspaces) t1
  else some tabs

/-- One round of the final loop of `tresize`. -/
def tresizeClear (col row mincol minrow : Int) (s : State) : Option State :=
  (if mincol < col ∧ 0 < minrow then tclearregion mincol 0 (col - 1) (minrow - 1) s
   else some s).bind fun s1 =>
  (if 0 < col ∧ minrow < row then tclearregion 0 minrow (col - 1) (row - 1) s1
   else some s1).bind fun s2 =>
  (tswapscreen s2).map (tcursor CURSOR_LOAD)

/-- The Go `tresize`. -/
def tresize (col row : Int) (s : State) : Option State :=
  let minrow := imin row s.term.row
  let mincol := imin col s.term.col
  if col < 1 ∨ row < 1 then some s
  else
    let i := s.term.c.y - row
    (if i > 0 then copyWithin s.term.line 0 row i else some s.term.line).bind fun line0 =>
    (if i > 0 then copyWithin s.term.alt 0 row i else some s.term.alt).bind fun alt0 =>
    let line1 := goCopy (List.replicate row.toNat ([] : Line)) line0
    let alt1 := goCopy (List.replicate row.toNat ([] : Line)) alt0
    let dirty1 := goCopy (List.replicate row.toNat false) s.term.dirty
    let tabs1 := goCopy (List.replicate col.toNat false) s.term.tabs
    let line2 := line1.map (fun l => goCopy (List.replicate col.toNat (default : Glyph)) l)
    let alt2 := alt1.map (fun l => goCopy (List.replicate col.toNat (default : Glyph)) l)
    (tresizeTabs col s.term.col tabs1).bind fun tabs2 =>
    let s1 : State := { s with term := { s.term with
      line := line2, alt := alt2, dirty := dirty1, tabs := tabs2, col := col, row := row } }
    let s2 := tsetscroll 0 (row - 1) s1
    let s3 := tmoveto s2.term.c.x s2.term.c.y s2
    (tresizeClear col row mincol minrow s3).bind fun s4 =>
    (tresizeClear col row mincol minrow s4).map fun s5 =>
    { s5 with term := { s5.term with c := s3.term.c } }

/-- One round of the final loop of `treset`. -/
def tresetScreen (s : State) : Option State :=
  let s1 := tcursor CURSOR_SAVE (tmoveto 0 0 s)
  (tclearregion 0 0 (s1.term.col - 1) (s1.term.row - 1) s1).bind tswapscreen

/-- The loop `for i := tabspaces; i < term.col; i += tabspaces { term.tabs[i] = true }`
of `treset`. -/
def tresetTabSet (col : Int) : Nat → Int → List Bool → Option (List Bool)
  | 0, _, tabs => some tabs
  | fuel + 1, i, tabs =>
    if i < col then (upd? tabs i true).bind (tresetTabSet col fuel (i + tabspaces))
    else some tabs

/-- The Go `treset`. -/
def treset (s : State) : Option State :=
  (forUp (fun i t => upd? t i false) s.term.col.toNat 0 s.term.tabs).bind fun t1 =>
  (tresetTabSet s.term.col s.term.col.toNat tabspaces t1).bind fun t2 =>
  let s1 : State := { s with term := { s.term with
    c := ⟨⟨0, ATTR_NULL, defaultfg, defaultbg⟩, 0, 0, CURSOR_DEFAULT⟩,
    tabs := t2, top := 0, bot := s.term.row - 1, mode := MODE_WRAP ||| MODE_UTF8,
    trantbl := s.term.trantbl.map (fun _ => CS_USA) } }
  (tresetScreen s1).bind tresetScreen

/-- The zero value of `Term` with the cursor colours set, as built by `tnew`. -/
def Term.zero : Term :=
  { row := 0, col := 0, line := [], alt := [], dirty := [],
    c := ⟨⟨0, 0, defaultfg, defaultbg⟩, 0, 0, 0⟩, ocx := 0, ocy := 0, top := 0, bot := 0,
    mode := 0, esc := 0, trantbl := [0, 0, 0, 0], charset := 0, icharset := 0, tabs := [],
    tc0 := default, tc1 := default }

/-- The Go `tnew`. -/
def tnew (col row : Int) (s : State) : Option State :=
  (tresize col row { s with term := Term.zero }).bind treset

/-! ## Decimal parsing and UTF-8 -/

/-- The C `isspace` on a byte. -/
def isspaceC (c : Nat) : Bool := c = 32 || (9 ≤ c && c ≤ 13)

/-- The decimal digits at the head of `p`: their value and their number. -/
def strtolDigits : List Nat → Int → Nat → Int × Nat
  | [], acc, k => (acc, k)
  | c :: p, acc, k =>
    if 48 ≤ c ∧ c ≤ 57 then strtolDigits p (acc * 10 + ((c : Int) - 48)) (k + 1) else (acc, k)

/-- Modelled from the spec: `posix.Strtol` belongs to a library outside the
repository; it is taken to be the C function `strtol` in base 10, which the spec
describes as parsing a decimal integer with a sentinel for an overflowing field.
White space and one sign are skipped, the digits are read, the value saturates at
the 64-bit bounds, and the number of bytes read is 0 when there is no digit. -/
def strtol (p : List Nat) : Int × Int :=
  let ws := (p.takeWhile isspaceC).length
  let p1 := p.drop ws
  let neg := p1.head? = some 45
  let sg := if p1.head? = some 45 ∨ p1.head? = some 43 then 1 else 0
  let r := strtolDigits (p1.drop sg) 0 0
  if r.2 = 0 then (0, 0)
  else
    let v := if neg then -r.1 else r.1
    (clamp v (-9223372036854775808) 9223372036854775807, ((ws + sg + r.2 : Nat) : Int))

/-- The argument loop of `csiparse`: the rest of the buffer, the arguments and
their number. -/
def csiparseArgs : Nat → List Nat → List Int → Int → Option (List Nat × List Int × Int)
  | 0, p, arg, narg => some (p, arg, narg)
  | fuel + 1, p, arg, narg =>
    if p.length > 0 then
      let r := strtol p
      let v := if r.2 = 0 then 0 else r.1
      let v1 := if v = 9223372036854775807 ∨ v = -9223372036854775808 then -1 else v
      (upd? arg narg v1).bind fun arg1 =>
      let p1 := p.drop r.2.toNat
      if p1.length > 0 then
        if p1.head? ≠ some 59 ∨ narg + 1 = 16 then some (p1, arg1, narg + 1)
        else csiparseArgs fuel (p1.drop 1) arg1 (narg + 1)
      else some (p1, arg1, narg + 1)
    else some (p, arg, narg)

/-- The Go `csiparse`. -/
def csiparse (s : State) : Option State :=
  let q := s.csiescseq.buf.head? = some 63
  let p := if q then s.csiescseq.buf.drop 1 else s.csiescseq.buf
  (csiparseArgs (p.length + 1) p s.csiescseq.arg 0).map fun r =>
  let p1 := r.1
  let m0 : Int := if 0 < p1.length then (p1.headD 0 : Nat) else 0
  let p2 := if 0 < p1.length then p1.drop 1 else p1
  let m1 : Int := if 1 < p2.length then (p2.getD 1 0 : Nat) else 0
  { s with csiescseq := { s.csiescseq with
      priv := if q then true else s.csiescseq.priv,
      arg := r.2.1, narg := r.2.2, mode0 := m0, mode1 := m1 } }

/-- The Go `utf8.EncodeRune`. -/
def encodeRune (r : Int) : List Nat :=
  if 0 ≤ r ∧ r < 0x80 then [r.toNat]
  else if 0 ≤ r ∧ r < 0x800 then [0xc0 ||| (r.toNat >>> 6), 0x80 ||| (r.toNat &&& 0x3f)]
  else if r < 0 ∨ r > 0x10ffff ∨ (0xd800 ≤ r ∧ r ≤ 0xdfff) then [0xef, 0xbf, 0xbd]
  else if r < 0x10000 then
    [0xe0 ||| (r.toNat >>> 12), 0x80 ||| ((r.toNat >>> 6) &&& 0x3f), 0x80 ||| (r.toNat &&& 0x3f)]
  else
    [0xf0 ||| (r.toNat >>> 18), 0x80 ||| ((r.toNat >>> 12) &&& 0x3f),
     0x80 ||| ((r.toNat >>> 6) &&& 0x3f), 0x80 ||| (r.toNat &&& 0x3f)]

/-! ## Attributes and modes -/

/-- The Go `truecolor`, for components already checked to lie in 0..255. -/
def truecolor (r g b : Int) : Int :=
  ((16777216 ||| (r.toNat <<< 16) ||| (g.toNat <<< 8) ||| b.toNat : Nat) : Int)

/-- The Go `tdefcolor`: the colour index, or -1, and the new value of `*npar`. -/
def tdefcolor (attr : List Int) (npar : Int) : Option (Int × Int) :=
  (idx? attr (npar + 1)).bind fun k =>
  if k = 2 then
    if npar + 4 ≥ attr.length then some (-1, npar)
    else
      (idx? attr (npar + 2)).bind fun r =>
      (idx? attr (npar + 3)).bind fun g =>
      (idx? attr (npar + 4)).bind fun b =>
      if ¬ (0 ≤ r ∧ r ≤ 255) ∨ ¬ (0 ≤ g ∧ g ≤ 255) ∨ ¬ (0 ≤ b ∧ b ≤ 255) then some (-1, npar + 4)
      else some (truecolor r g b, npar + 4)
  else if k = 5 then
    if npar + 2 ≥ attr.length then some (-1, npar)
    else
      (idx? attr (npar + 2)).bind fun v =>
      if ¬ (0 ≤ v ∧ v ≤ 255) then some (-1, npar + 2) else some (v, npar + 2)
  else some (-1, npar)

/-- The state with the cursor template's attribute bits replaced. -/
def setAttrMode (m : Nat) (s : State) : State :=
  { s with term := { s.term with c := { s.term.c with attr := { s.term.c.attr with mode := m } } } }

/-- The state with the cursor template's foreground replaced. -/
def setAttrFg (v : Nat) (s : State) : State :=
  { s with term := { s.term with c := { s.term.c with attr := { s.term.c.attr with fg := v } } } }

/-- The state with the cursor template's background replaced. -/
def setAttrBg (v : Nat) (s : State) : State :=
  { s with term := { s.term with c := { s.term.c with attr := { s.term.c.attr with bg := v } } } }

/-- One round of the loop of `tsetattr` on `attr[i] = a`: the new state and the
new value of `i` before the increment. -/
def tsetattrOne (attr : List Int) (i a : Int) (s : State) : Option (State × Int) :=
  let m := s.term.c.attr.mode
  if a = 0 then
    some (setAttrBg defaultbg (setAttrFg defaultfg (setAttrMode
      (andNot m (ATTR_BOLD ||| ATTR_FAINT ||| ATTR_ITALIC ||| ATTR_UNDERLINE ||| ATTR_BLINK |||
        ATTR_REVERSE ||| ATTR_INVISIBLE ||| ATTR_STRUCK)) s)), i)
  else if a = 1 then some (setAttrMode (m ||| ATTR_BOLD) s, i)
  else if a = 2 then some (setAttrMode (m ||| ATTR_FAINT) s, i)
  else if a = 3 then some (setAttrMode (m ||| ATTR_ITALIC) s, i)
  else if a = 4 then some (setAttrMode (m ||| ATTR_UNDERLINE) s, i)
  else if a = 5 ∨ a = 6 then some (setAttrMode (m ||| ATTR_BLINK) s, i)
  else if a = 7 then some (setAttrMode (m ||| ATTR_REVERSE) s, i)
  else if a = 8 then some (setAttrMode (m ||| ATTR_INVISIBLE) s, i)
  else if a = 9 then some (setAttrMode (m ||| ATTR_STRUCK) s, i)
  else if a = 22 then some (setAttrMode (andNot m (ATTR_BOLD ||| ATTR_FAINT)) s, i)
  else if a = 23 then some (setAttrMode (andNot m ATTR_ITALIC) s, i)
  else if a = 24 then some (setAttrMode (andNot m ATTR_UNDERLINE) s, i)
  else if a = 25 then some (setAttrMode (andNot m ATTR_BLINK) s, i)
  else if a = 27 then some (setAttrMode (andNot m ATTR_REVERSE) s, i)
  else if a = 28 then some (setAttrMode (andNot m ATTR_INVISIBLE) s, i)
  else if a = 29 then some (setAttrMode (andNot m ATTR_STRUCK) s, i)
  else if a = 38 then
    (tdefcolor attr i).map fun r => (if r.1 ≥ 0 then setAttrFg r.1.toNat s else s, r.2)
  else if a = 39 then some (setAttrFg defaultfg s, i)
  else if a = 48 then
    (tdefcolor attr i).map fun r => (if r.1 ≥ 0 then setAttrBg r.1.toNat s else s, r.2)
  else if a = 49 then some (setAttrBg defaultbg s, i)
  else if 30 ≤ a ∧ a ≤ 37 then some (setAttrFg (a - 30).toNat s, i)
  else if 40 ≤ a ∧ a ≤ 47 then some (setAttrBg (a - 40).toNat s, i)
  else if 90 ≤ a ∧ a ≤ 97 then some (setAttrFg (a - 90 + 8).toNat s, i)
  else if 100 ≤ a ∧ a ≤ 107 then some (setAttrBg (a - 100 + 8).toNat s, i)
  else some (s, i)

/-- The loop of `tsetattr`. -/
def tsetattrLoop (attr : List Int) : Nat → Int → State → Option State
  | 0, _, s => some s
  | fuel + 1, i, s =>
    if i < attr.length then
      (idx? attr i).bind fun a =>
      (tsetattrOne attr i a s).bind fun r => tsetattrLoop attr fuel (r.2 + 1) r.1
    else some s

/-- The Go `tsetattr`. -/
def tsetattr (attr : List Int) (s : State) : Option State :=
  tsetattrLoop attr attr.length 0 s

/-- The loop of `drawregion(0, 0, term.col, term.row)`: dirty rows are handed to
the renderer and marked clean. -/
def drawregion (s : State) : Option State :=
  forUp (fun y t => (idx? t.term.dirty y).bind fun d =>
      if ¬ d then some t
      else (upd? t.term.dirty y false).map fun d1 => { t with term := { t.term with dirty := d1 } })
    s.term.row.toNat 0 s

/-- The Go `draw` of `st.go`, as far as it reads and writes the terminal; the
calls into the renderer leave the terminal alone. -/
def draw (s : State) : Option State :=
  if ¬ has s.win.mode MODE_VISIBLE then some s
  else
    let ocx := clamp s.term.ocx 0 (s.term.col - 1)
    let ocy := clamp s.term.ocy 0 (s.term.row - 1)
    (cell? s.term.line ocy ocx).bind fun g =>
    let ocx1 := if has g.mode ATTR_WDUMMY then ocx - 1 else ocx
    (cell? s.term.line s.term.c.y s.term.c.x).bind fun h =>
    let cx := if has h.mode ATTR_WDUMMY then s.term.c.x - 1 else s.term.c.x
    (drawregion { s with term := { s.term with ocx := ocx1, ocy := ocy } }).bind fun s1 =>
    (cell? s1.term.line s1.term.c.y cx).bind fun _ =>
    (cell? s1.term.line ocy ocx1).bind fun _ =>
    some { s1 with term := { s1.term with ocx := cx, ocy := s1.term.c.y } }

/-- The Go `redraw`. -/
def redraw (s : State) : Option State :=
  (tfulldirt s).bind draw

/-- The Go `xsetmode` of `x.go`. -/
def xsetmode (set : Bool) (flags : Nat) (s : State) : Option State :=
  let m := if set then andNot s.win.mode flags ||| flags else andNot s.win.mode flags
  if (m &&& MODE_REVERSE) ≠ (s.win.mode &&& MODE_REVERSE) then
    redraw { s with win := { s.win with mode := m } }
  else some { s with win := { s.win with mode := m } }

/-- The Go `xsetcursor` of `x.go`: the new state and the error flag. -/
def xsetcursor (cursor : Int) (s : State) : State × Bool :=
  let c := if cursor = 0 then 1 else cursor
  if ¬ (0 ≤ c ∧ c ≤ 6) then (s, true)
  else ({ s with win := { s.win with cursor := c } }, false)

/-- The state with `term.mode` replaced. -/
def setTermMode (m : Nat) (s : State) : State :=
  { s with term := { s.term with mode := m } }

/-- The cases 47 and 1047 of `tsetmode`, into which case 1049 falls, and the
case 1048 into which they fall for `arg == 1049`. -/
def tsetmodeAlt (set : Bool) (arg : Int) (s : State) : Option State :=
  if ¬ allowaltscreen then some s
  else
    (if has s.term.mode MODE_ALTSCREEN then
        tclearregion 0 0 (s.term.col - 1) (s.term.row - 1) s
      else some s).bind fun s1 =>
    (if (set ∧ ¬ has s.term.mode MODE_ALTSCREEN) ∨ (¬ set ∧ has s.term.mode MODE_ALTSCREEN) then
        tswapscreen s1
      else some s1).bind fun s2 =>
    if arg ≠ 1049 then some s2
    else some (tcursor (if set then CURSOR_SAVE else CURSOR_LOAD) s2)

/-- One round of the loop of `tsetmode`. -/
def tsetmodeOne (priv set : Bool) (arg : Int) (s : State) : Option State :=
  if priv then
    if arg = 1 then xsetmode set MODE_APPCURSOR s
    else if arg = 5 then xsetmode set MODE_REVERSE s
    else if arg = 6 then
      let st := andNot s.term.c.state CURSOR_ORIGIN
      some (tmoveato 0 0 { s with term := { s.term with c := { s.term.c with
        state := if set then st ||| CURSOR_ORIGIN else st } } })
    else if arg = 7 then
      some (setTermMode (if set then andNot s.term.mode MODE_WRAP ||| MODE_WRAP
        else andNot s.term.mode MODE_WRAP) s)
    else if arg = 0 ∨ arg = 2 ∨ arg = 3 ∨ arg = 4 ∨ arg = 8 ∨ arg = 18 ∨ arg = 19 ∨ arg = 42
        ∨ arg = 12 then some s
    else if arg = 25 then xsetmode (!set) MODE_HIDE s
    else if arg = 9 then (xsetmode false MODE_MOUSE s).bind (xsetmode set MODE_MOUSEX10)
    else if arg = 1000 then (xsetmode false MODE_MOUSE s).bind (xsetmode set MODE_MOUSEBTN)
    else if arg = 1002 then (xsetmode false MODE_MOUSE s).bind (xsetmode set MODE_MOUSEMOTION)
    else if arg = 1003 then (xsetmode false MODE_MOUSE s).bind (xsetmode set MODE_MOUSEMANY)
    else if arg = 1004 then xsetmode set MODE_FOCUS s
    else if arg = 1006 then xsetmode set MODE_MOUSESGR s
    else if arg = 1034 then xsetmode set MODE_8BIT s
    else if arg = 1049 then
      if ¬ allowaltscreen then some s
      else tsetmodeAlt set arg (tcursor (if set then CURSOR_SAVE else CURSOR_LOAD) s)
    else if arg = 47 ∨ arg = 1047 then tsetmodeAlt set arg s
    else if arg = 1048 then some (tcursor (if set then CURSOR_SAVE else CURSOR_LOAD) s)
    else if arg = 2004 then xsetmode set MODE_BRCKTPASTE s
    else some s
  else
    if arg = 0 then some s
    else if arg = 2 then xsetmode set MODE_KBDLOCK s
    else if arg = 4 then
      some (setTermMode (if set then andNot s.term.mode MODE_INSERT ||| MODE_INSERT
        else andNot s.term.mode MODE_INSERT) s)
    else if arg = 12 then
      some (setTermMode (if ¬ set then andNot s.term.mode MODE_ECHO ||| MODE_ECHO
        else andNot s.term.mode MODE_ECHO) s)
    else if arg = 20 then
      some (setTermMode (if set then andNot s.term.mode MODE_CRLF ||| MODE_CRLF
        else andNot s.term.mode MODE_CRLF) s)
    else some s

/-- The Go `tsetmode`. -/
def tsetmode (priv set : Bool) : List Int → State → Option State
  | [], s => some s
  | arg :: args, s => (tsetmodeOne priv set arg s).bind (tsetmode priv set args)

/-! ## Output to the pty and to the printer -/

/-- The Go `ttywriteraw`, for a pty that accepts every chunk in full: the bytes
are appended to the output. -/
def ttywriteraw (b : List Nat) (s : State) : State :=
  { s with tty := s.tty ++ b }

/-- The Go slice expression `b[lo:hi]` of a slice whose capacity is its length. -/
def slice? {α : Type} (b : List α) (lo hi : Int) : Option (List α) :=
  if 0 ≤ lo ∧ lo ≤ hi ∧ hi ≤ b.length then some ((b.drop lo.toNat).take (hi - lo).toNat) else none

/-- The Go `bytes.IndexByte`. -/
def indexByte : List Nat → Nat → Int
  | [], _ => -1
  | c :: b, v => if c = v then 0 else (if indexByte b v < 0 then -1 else indexByte b v + 1)

/-- The CRLF loop of `ttywrite`, on the loop variables `i` and `n`; `none` when a
slice bound is out of range or the fuel, one more than the length of the data,
is spent (the loop then never ends). -/
def ttywriteLoop (b : List Nat) : Nat → Int → Int → State → Option State
  | 0, i, n, s => if i < n then none else some s
  | fuel + 1, i, n, s =>
    if i < n then
      (idx? b i).bind fun c =>
      if c = 13 then
        ttywriteLoop b fuel (i + 1) (n - (i + 1 - i)) (ttywriteraw [13, 10] s)
      else
        (slice? b i n).bind fun sub =>
        let next := if indexByte sub 13 = 0 then n else indexByte sub 13
        (slice? b i (n - i)).bind fun out =>
        ttywriteLoop b fuel next (n - (next - i)) (ttywriteraw out s)
    else some s

/-- The Go `ttywrite(s, false)`: the part of `ttywrite` after the local echo. -/
def ttywriteNoEcho (b : List Nat) (s : State) : Option State :=
  if ¬ has s.term.mode MODE_CRLF then some (ttywriteraw b s)
  else ttywriteLoop b (b.length + 1) 0 b.length s

/-- The Go `tprinter`, for a printer file that accepts every write. -/
def tprinter (b : List Nat) (s : State) : State :=
  if ¬ s.iofile then s else { s with prn := s.prn ++ b }

/-- The loop of `tdumpline`. -/
def tdumplineLoop (bp : Line) (e : Int) : Nat → Int → State → Option State
  | 0, _, s => some s
  | fuel + 1, i, s =>
    if i ≤ e then
      (idx? bp i).bind fun g =>
      if g.u ≠ 32 then tdumplineLoop bp e fuel (i + 1) (tprinter (encodeRune g.u) s) else some s
    else some s

/-- The Go `tdumpline`. -/
def tdumpline (n : Int) (s : State) : Option State :=
  (idx? s.term.line n).bind fun bp =>
  (tlinelen n s).bind fun len =>
  let e := imin len s.term.col - 1
  (if e > 0 then tdumplineLoop bp e (e + 1).toNat 0 s
   else (idx? bp 0).bind fun g =>
     if g.u ≠ 32 then tdumplineLoop bp e (e + 1).toNat 0 s else some s).map
  (tprinter [10])

/-- The Go `tdump`. -/
def tdump (s : State) : Option State :=
  forUp tdumpline s.term.row.toNat 0 s

/-- The trailing-blank loop of `getsel`: `for lasti >= gpi && gp[lasti].u == 32`. -/
def getselTrim (gp : Line) (gpi : Int) : Nat → Int → Option Int
  | 0, lasti => some lasti
  | fuel + 1, lasti =>
    if lasti ≥ gpi then
      (idx? gp lasti).bind fun g => if g.u = 32 then getselTrim gp gpi fuel (lasti - 1) else some lasti
    else some lasti

/-- The copy loop of `getsel`: the bytes written so far and the room left in the
buffer. -/
def getselEmit (gp : Line) (lasti : Int) : Nat → Int → List Nat × Int → Option (List Nat × Int)
  | 0, _, o => some o
  | fuel + 1, gpi, o =>
    if gpi ≤ lasti then
      (idx? gp gpi).bind fun g =>
      if has g.mode ATTR_WDUMMY then getselEmit gp lasti fuel (gpi + 1) o
      else if ((encodeRune g.u).length : Int) ≤ o.2 then
        getselEmit gp lasti fuel (gpi + 1) (o.1 ++ encodeRune g.u, o.2 - (encodeRune g.u).length)
      else none
    else some o

/-- The statement `ptr[0], ptr = 10, ptr[1:]` of `getsel`. -/
def getselNewline (o : List Nat × Int) : Option (List Nat × Int) :=
  if 1 ≤ o.2 then some (o.1 ++ [10], o.2 - 1) else none

/-- One row of the loop of `getsel`. -/
def getselRow (s : State) (y : Int) (o : List Nat × Int) : Option (List Nat × Int) :=
  (tlinelen y s).bind fun linelen =>
  if linelen = 0 then getselNewline o
  else
    (idx? s.term.line y).bind fun gp =>
    let gpi := if s.sel.typ = SEL_RECTANGULAR then s.sel.nb.x
               else if s.sel.nb.y = y then s.sel.nb.x else 0
    let lastx := if s.sel.typ = SEL_RECTANGULAR then s.sel.ne.x
                 else if s.sel.ne.y = y then s.sel.ne.x else s.term.col - 1
    (getselTrim gp gpi (imin lastx (linelen - 1) + 2 - gpi).toNat (imin lastx (linelen - 1))).bind
      fun lasti =>
    (getselEmit gp lasti (lasti + 1 - gpi).toNat gpi o).bind fun o1 =>
    if y < s.sel.ne.y ∨ lastx ≥ linelen then
      (idx? gp lasti).bind fun g => if ¬ has g.mode ATTR_WRAP then getselNewline o1 else some o1
    else some o1

/-- The Go `bytes.TrimRight(str, "\x00")` on the written part of the buffer. -/
def trimRightZeros (b : List Nat) : List Nat :=
  (b.reverse.dropWhile (fun c => c = 0)).reverse

/-- The Go `getsel`: `some none` is the nil slice. -/
def getsel (s : State) : Option (Option (List Nat)) :=
  if s.sel.ob.x = -1 then some none
  else
    let bufsize := (s.term.col + 1) * (s.sel.ne.y - s.sel.nb.y + 1) * 4
    if bufsize < 0 then none
    else
      (forUp (getselRow s) (s.sel.ne.y + 1 - s.sel.nb.y).toNat s.sel.nb.y ([], bufsize)).map
        fun o => some (trimRightZeros o.1)

/-- The Go `tdumpsel`. -/
def tdumpsel (s : State) : Option State :=
  (getsel s).map fun r =>
    match r with
    | none => s
    | some b => tprinter b s

/-- The decimal digits of `fmt.Sprintf("%d", i)`. -/
def itoa (i : Int) : List Nat :=
  if i < 0 then 45 :: (Nat.toDigits 10 i.natAbs).map Char.toNat
  else (Nat.toDigits 10 i.natAbs).map Char.toNat

/-! ## CSI dispatch -/

/-- The value of `csiescseq.arg[0]`. -/
def arg0 (s : State) : Int := s.csiescseq.arg.getD 0 0

/-- The value of `csiescseq.arg[1]`. -/
def arg1 (s : State) : Int := s.csiescseq.arg.getD 1 0

/-- The statement `if csiescseq.arg[0] == 0 { csiescseq.arg[0] = 1 }`. -/
def defArg0 (s : State) : State :=
  if arg0 s = 0 then { s with csiescseq := { s.csiescseq with arg := s.csiescseq.arg.set 0 1 } }
  else s

/-- The statement `if csiescseq.arg[1] == 0 { csiescseq.arg[1] = v }`. -/
def defArg1 (v : Int) (s : State) : State :=
  if arg1 s = 0 then { s with csiescseq := { s.csiescseq with arg := s.csiescseq.arg.set 1 v } }
  else s

/-- The slice `csiescseq.arg[:csiescseq.narg]`. -/
def csiArgs (s : State) : List Int := s.csiescseq.arg.take s.csiescseq.narg.toNat

/-- The case `J` (erase in display) of `csihandle`. -/
def csiED (s : State) : Option State :=
  if arg0 s = 0 then
    (tclearregion s.term.c.x s.term.c.y (s.term.col - 1) s.term.c.y s).bind fun s1 =>
    if s1.term.c.y < s1.term.row - 1 then
      tclearregion 0 (s1.term.c.y + 1) (s1.term.col - 1) (s1.term.row - 1) s1
    else some s1
  else if arg0 s = 1 then
    (if s.term.c.y > 1 then tclearregion 0 0 (s.term.col - 1) (s.term.c.y - 1) s
     else some s).bind fun s1 =>
    tclearregion 0 s1.term.c.y s1.term.c.x s1.term.c.y s1
  else if arg0 s = 2 then tclearregion 0 0 (s.term.col - 1) (s.term.row - 1) s
  else some s

/-- The case `K` (erase in line) of `csihandle`. -/
def csiEL (s : State) : Option State :=
  if arg0 s = 0 then tclearregion s.term.c.x s.term.c.y (s.term.col - 1) s.term.c.y s
  else if arg0 s = 1 then tclearregion 0 s.term.c.y s.term.c.x s.term.c.y s
  else if arg0 s = 2 then tclearregion 0 s.term.c.y (s.term.col - 1) s.term.c.y s
  else some s

/-- The case `i` (media copy) of `csihandle`. -/
def csiMC (s : State) : Option State :=
  if arg0 s = 0 then tdump s
  else if arg0 s = 1 then tdumpline s.term.c.y s
  else if arg0 s = 2 then tdumpsel s
  else if arg0 s = 4 then some (setTermMode (andNot s.term.mode MODE_PRINT) s)
  else if arg0 s = 5 then some (setTermMode (s.term.mode ||| MODE_PRINT) s)
  else some s

/-- The case `g` (tabulation clear) of `csihandle`. -/
def csiTBC (s : State) : Option State :=
  if arg0 s = 0 then
    (upd? s.term.tabs s.term.c.x false).map fun t => { s with term := { s.term with tabs := t } }
  else if arg0 s = 3 then
    some { s with term := { s.term with tabs := s.term.tabs.map (fun _ => false) } }
  else some s

/-- The Go `csihandle`: a switch on the first mode byte. -/
def csihandle (s : State) : Option State :=
  let m := s.csiescseq.mode0
  let d := defArg0 s
  if m = 64 then tinsertblank (arg0 d) d
  else if m = 65 then some (tmoveto d.term.c.x (wrap64 (d.term.c.y - arg0 d)) d)
  else if m = 66 ∨ m = 101 then some (tmoveto d.term.c.x (wrap64 (d.term.c.y + arg0 d)) d)
  else if m = 105 then csiMC s
  else if m = 99 then (if arg0 s = 0 then ttywriteNoEcho vtiden s else some s)
  else if m = 67 ∨ m = 97 then some (tmoveto (wrap64 (d.term.c.x + arg0 d)) d.term.c.y d)
  else if m = 68 then some (tmoveto (wrap64 (d.term.c.x - arg0 d)) d.term.c.y d)
  else if m = 69 then some (tmoveto 0 (wrap64 (d.term.c.y + arg0 d)) d)
  else if m = 70 then some (tmoveto 0 (wrap64 (d.term.c.y - arg0 d)) d)
  else if m = 103 then csiTBC s
  else if m = 71 ∨ m = 96 then some (tmoveto (wrap64 (arg0 d - 1)) d.term.c.y d)
  else if m = 72 ∨ m = 102 then
    let e := defArg1 1 d
    some (tmoveato (wrap64 (arg1 e - 1)) (wrap64 (arg0 e - 1)) e)
  else if m = 73 then tputtab (arg0 d) d
  else if m = 74 then csiED s
  else if m = 75 then csiEL s
  else if m = 83 then tscrollup d.term.top (arg0 d) d
  else if m = 84 then tscrolldown d.term.top (arg0 d) d
  else if m = 76 then tinsertblankline (arg0 d) d
  else if m = 108 then tsetmode s.csiescseq.priv false (csiArgs s) s
  else if m = 77 then tdeleteline (arg0 d) d
  else if m = 88 then
    tclearregion d.term.c.x d.term.c.y (wrap64 (wrap64 (d.term.c.x + arg0 d) - 1)) d.term.c.y d
  else if m = 80 then tdeletechar (arg0 d) d
  else if m = 90 then tputtab (wrap64 (-(arg0 d))) d
  else if m = 100 then some (tmoveato d.term.c.x (wrap64 (arg0 d - 1)) d)
  else if m = 104 then tsetmode s.csiescseq.priv true (csiArgs s) s
  else if m = 109 then tsetattr (csiArgs s) s
  else if m = 110 then
    (if arg0 s = 6 then
      ttywriteNoEcho ([27, 91] ++ itoa (s.term.c.y + 1) ++ [59] ++ itoa (s.term.c.x + 1) ++ [82]) s
     else some s)
  else if m = 114 then
    (if s.csiescseq.priv then some s
     else
      let e := defArg1 d.term.row d
      some (tmoveato 0 0 (tsetscroll (wrap64 (arg0 e - 1)) (wrap64 (arg1 e - 1)) e)))
  else if m = 115 then some (tcursor CURSOR_SAVE s)
  else if m = 117 then some (tcursor CURSOR_LOAD s)
  else if m = 32 then
    (if s.csiescseq.mode1 = 113 then some (xsetcursor (arg0 s) s).1 else some s)
  else some s

/-! ## String sequences, control codes and `tputc` -/

/-- What the terminal core asks of code outside the repository or of the
renderer: `posix.Wcwidth`, and the outcome of `xsetcolorname`, which depends on
the colour table of the X server (`none` when it indexes past that table). -/
structure Env where
  wcwidth : Int → Int
  xsetcolorname : Int → List Nat → Option Bool

/-- The Go `iscontrolc0`. -/
def iscontrolc0 (c : Int) : Bool := decide ((0 ≤ c ∧ c ≤ 0x1f) ∨ c = 127)

/-- The Go `iscontrolc1`. -/
def iscontrolc1 (c : Int) : Bool := decide (0x80 ≤ c ∧ c ≤ 0x9f)

/-- The Go `iscontrol`. -/
def iscontrol (c : Int) : Bool := iscontrolc0 c || iscontrolc1 c

/-- The Go `csireset`. -/
def csireset (s : State) : State := { s with csiescseq := CSIEscape.zero }

/-- The Go `strreset`. -/
def strreset (s : State) : State := { s with strescseq := STREscape.zero }

/-- The state with `term.esc` replaced. -/
def setEsc (e : Nat) (s : State) : State :=
  { s with term := { s.term with esc := e } }

/-- The Go `strings.Split(p, ";")` on bytes. -/
def splitSemi : List Nat → List (List Nat)
  | [] => [[]]
  | c :: b =>
    if c = 59 then [] :: splitSemi b
    else match splitSemi b with
      | [] => [[c]]
      | t :: ts => (c :: t) :: ts

/-- The Go `strparse`. -/
def strparse (s : State) : State :=
  if s.strescseq.buf.length = 0 then { s with strescseq := { s.strescseq with narg := 0 } }
  else
    let toks := (splitSemi s.strescseq.buf).take STR_ARG_SIZ
    { s with strescseq := { s.strescseq with
        args := goCopy s.strescseq.args toks, narg := toks.length } }

/-- The value that `strconv.Atoi` returns next to its error: the decimal value of
an optional sign and at least one digit, saturated at the 64-bit bounds, and 0
for any other string. -/
def atoi (b : List Nat) : Int :=
  let sg := if b.head? = some 45 ∨ b.head? = some 43 then 1 else 0
  let r := strtolDigits (b.drop sg) 0 0
  if r.2 = 0 ∨ sg + r.2 ≠ b.length then 0
  else clamp (if b.head? = some 45 then -r.1 else r.1) (-9223372036854775808) 9223372036854775807

/-- The Go `strhandle`; setting the title and the X selection leave the terminal
alone. -/
def strhandle (env : Env) (s : State) : Option State :=
  let s1 := strparse (setEsc (andNot s.term.esc (ESC_STR_END ||| ESC_STR)) s)
  let narg := s1.strescseq.narg
  let par := if narg > 0 then atoi (s1.strescseq.args.getD 0 []) else 0
  if s1.strescseq.typ = 93 then
    if par = 0 ∨ par = 1 ∨ par = 2 then some s1
    else if par = 52 then some s1
    else if (par = 4 ∧ ¬ narg < 3) ∨ par = 104 then
      (env.xsetcolorname (if narg > 1 then atoi (s1.strescseq.args.getD 1 []) else -1)
          (if par = 4 then s1.strescseq.args.getD 2 [] else [])).bind fun err =>
        if err then some s1 else redraw s1
    else some s1
  else if s1.strescseq.typ = 107 then some s1
  else if s1.strescseq.typ = 80 then some (setTermMode (s1.term.mode ||| ESC_DCS) s1)
  else some s1

/-- The Go `tstrsequence`. -/
def tstrsequence (c : Int) (s : State) : State :=
  let s1 := strreset s
  let c1 := if c = 0x90 then 80 else if c = 0x9f then 95 else if c = 0x9e then 94
            else if c = 0x9d then 93 else c
  let e := if c = 0x90 then s1.term.esc ||| ESC_DCS else s1.term.esc
  { setEsc (e ||| ESC_STR) s1 with strescseq := { s1.strescseq with typ := c1 } }

/-- The statement `term.esc &^= (ESC_STR_END | ESC_STR)` that ends `tcontrolcode`. -/
def escInterrupt (s : State) : State :=
  setEsc (andNot s.term.esc (ESC_STR_END ||| ESC_STR)) s

/-- The Go `tcontrolcode`.  A `case` with an empty body does nothing in Go. -/
def tcontrolcode (env : Env) (ascii : Int) (s : State) : Option State :=
  if ascii = 9 then tputtab 1 s
  else if ascii = 8 then some (tmoveto (s.term.c.x - 1) s.term.c.y s)
  else if ascii = 13 then some (tmoveto 0 s.term.c.y s)
  else if ascii = 12 ∨ ascii = 11 ∨ ascii = 10 then tnewline (has s.term.mode MODE_CRLF) s
  else if ascii = 7 then
    (if has s.term.esc ESC_STR_END then strhandle env s else some s).map escInterrupt
  else if ascii = 27 then
    some (setEsc (andNot s.term.esc (ESC_CSI ||| ESC_ALTCHARSET ||| ESC_TEST) ||| ESC_START)
      (csireset s))
  else if ascii = 14 then some (escInterrupt s)
  else if ascii = 15 then some { s with term := { s.term with charset := 1 - (ascii - 14) } }
  else if ascii = 26 then
    (tsetchar 63 s.term.c.attr s.term.c.x s.term.c.y s).map fun s1 => escInterrupt (csireset s1)
  else if ascii = 24 then some (escInterrupt (csireset s))
  else if ascii = 5 ∨ ascii = 0 ∨ ascii = 17 ∨ ascii = 19 ∨ ascii = 127 then some s
  else if ascii = 0x85 then (tnewline true s).map escInterrupt
  else if ascii = 0x88 then
    (upd? s.term.tabs s.term.c.x true).map fun t =>
      escInterrupt { s with term := { s.term with tabs := t } }
  else if ascii = 0x9a then (ttywriteNoEcho vtiden s).map escInterrupt
  else if ascii = 0x90 ∨ ascii = 0x9d ∨ ascii = 0x9e ∨ ascii = 0x9f then
    some (tstrsequence ascii s)
  else some (escInterrupt s)

/-- The Go `tdefutf8`. -/
def tdefutf8 (ascii : Int) (s : State) : State :=
  if ascii = 71 then setTermMode (s.term.mode ||| MODE_UTF8) s
  else if ascii = 64 then setTermMode (andNot s.term.mode MODE_UTF8) s
  else s

/-- The Go `tdeftran`. -/
def tdeftran (ascii : Int) (s : State) : Option State :=
  if ascii = 48 then
    (upd? s.term.trantbl s.term.icharset CS_GRAPHIC0).map fun t =>
      { s with term := { s.term with trantbl := t } }
  else if ascii = 66 then
    (upd? s.term.trantbl s.term.icharset CS_USA).map fun t =>
      { s with term := { s.term with trantbl := t } }
  else some s

/-- The Go `tdectest`. -/
def tdectest (c : Int) (s : State) : Option State :=
  if c = 56 then
    forUp (fun x t => forUp (fun y t1 => tsetchar 69 t1.term.c.attr x y t1) t.term.row.toNat 0 t)
      s.term.col.toNat 0 s
  else some s

/-- The Go `eschandle`: the new state and the result. -/
def eschandle (env : Env) (ascii : Int) (s : State) : Option (State × Bool) :=
  if ascii = 91 then some (setEsc (s.term.esc ||| ESC_CSI) s, false)
  else if ascii = 35 then some (setEsc (s.term.esc ||| ESC_TEST) s, false)
  else if ascii = 37 then some (setEsc (s.term.esc ||| ESC_UTF8) s, false)
  else if ascii = 80 ∨ ascii = 95 ∨ ascii = 94 ∨ ascii = 93 ∨ ascii = 107 then
    some (tstrsequence ascii s, false)
  else if ascii = 110 then some (s, true)
  else if ascii = 111 then
    some ({ s with term := { s.term with charset := 2 + (ascii - 110) } }, true)
  else if ascii = 40 ∨ ascii = 41 ∨ ascii = 42 ∨ ascii = 43 then
    some (setEsc (s.term.esc ||| ESC_ALTCHARSET)
      { s with term := { s.term with icharset := ascii - 40 } }, false)
  else if ascii = 68 then
    (if s.term.c.y = s.term.bot then tscrollup s.term.top 1 s
     else some (tmoveto s.term.c.x (s.term.c.y + 1) s)).map fun t => (t, true)
  else if ascii = 69 then (tnewline true s).map fun t => (t, true)
  else if ascii = 72 then
    (upd? s.term.tabs s.term.c.x true).map fun t =>
      ({ s with term := { s.term with tabs := t } }, true)
  else if ascii = 77 then
    (if s.term.c.y = s.term.top then tscrolldown s.term.top 1 s
     else some (tmoveto s.term.c.x (s.term.c.y - 1) s)).map fun t => (t, true)
  else if ascii = 90 then (ttywriteNoEcho vtiden s).map fun t => (t, true)
  else if ascii = 99 then (treset s).map fun t => (t, true)
  else if ascii = 61 then (xsetmode true MODE_APPKEYPAD s).map fun t => (t, true)
  else if ascii = 62 then (xsetmode false MODE_APPKEYPAD s).map fun t => (t, true)
  else if ascii = 55 then some (tcursor CURSOR_SAVE s, true)
  else if ascii = 56 then some (tcursor CURSOR_LOAD s, true)
  else if ascii = 92 then
    (if has s.term.esc ESC_STR_END then strhandle env s else some s).map fun t => (t, true)
  else some (s, true)

/-- The Go `copy(gpu[width:], gpu[:k])` of `tputc`, where `gpu` is `l[x:]`. -/
def copyShift {α : Type} (l : List α) (x width k : Int) : Option (List α) :=
  if 0 ≤ x ∧ 0 ≤ width ∧ x + width ≤ l.length ∧ 0 ≤ k ∧ x + k ≤ l.length then
    let n := min (l.length - (x + width).toNat) k.toNat
    some (l.take (x + width).toNat ++ (l.drop x.toNat).take n ++ l.drop ((x + width).toNat + n))
  else none

/-- The state with the cell under the cursor, and the slice from it to the end of
its row, checked to exist: `gp := &term.line[term.c.y][term.c.x]` and
`gpu := term.line[term.c.y][term.c.x:]`. -/
def tputcFetch (s : State) : Option State :=
  (cell? s.term.line s.term.c.y s.term.c.x).map fun _ => s

/-- The last statement of `tputc`: the cursor advances by the width of the glyph,
or the wrap-pending flag is set at the right margin. -/
def tputcAdvance (width : Int) (s7 : State) : State :=
  if s7.term.c.x + width < s7.term.col then tmoveto (s7.term.c.x + width) s7.term.c.y s7
  else { s7 with term := { s7.term with c := { s7.term.c with
          state := s7.term.c.state ||| CURSOR_WRAPNEXT } } }

/-- The second half of the printable path of `tputc`, from the insert-mode shift
on: the glyph is stored at the cursor and the cursor advances. -/
def tputcPlace (u width : Int) (s3 : State) : Option State :=
  (if has s3.term.mode MODE_INSERT ∧ s3.term.c.x + width < s3.term.col then
      (idx? s3.term.line s3.term.c.y).bind fun row =>
      (copyShift row s3.term.c.x width (s3.term.col - s3.term.c.x - width)).bind fun row1 =>
      (upd? s3.term.line s3.term.c.y row1).map fun l => { s3 with term := { s3.term with line := l } }
    else some s3).bind fun s4 =>
  (if s4.term.c.x + width > s4.term.col then (tnewline true s4).bind tputcFetch
    else some s4).bind fun s5 =>
  (tsetchar u s5.term.c.attr s5.term.c.x s5.term.c.y s5).bind fun s6 =>
  (if width = 2 then
      (cell? s6.term.line s6.term.c.y s6.term.c.x).bind fun g =>
      (setCell? s6.term.line s6.term.c.y s6.term.c.x { g with mode := g.mode ||| ATTR_WIDE }).bind
        fun l =>
      if s6.term.c.x + 1 < s6.term.col then
        (cell? l s6.term.c.y (s6.term.c.x + 1)).bind fun h =>
        (setCell? l s6.term.c.y (s6.term.c.x + 1) { h with u := 0, mode := ATTR_WDUMMY }).map
          fun l1 => { s6 with term := { s6.term with line := l1 } }
      else some { s6 with term := { s6.term with line := l } }
    else some s6).map (tputcAdvance width)

/-- The printable path of `tputc`: a glyph of the given display width is stored at
the cursor, after the deferred wrap if one is pending. -/
def tputcPrint (u width : Int) (s : State) : Option State :=
  (if s.sel.ob.x ≠ -1 ∧ s.sel.ob.y ≤ s.term.c.y ∧ s.term.c.y ≤ s.sel.oe.y then selclear s
   else some s).bind fun s1 =>
  (tputcFetch s1).bind fun s2 =>
  (if has s2.term.mode MODE_WRAP ∧ has s2.term.c.state CURSOR_WRAPNEXT then
      (cell? s2.term.line s2.term.c.y s2.term.c.x).bind fun g =>
      (setCell? s2.term.line s2.term.c.y s2.term.c.x { g with mode := g.mode ||| ATTR_WRAP }).bind
        fun l => (tnewline true { s2 with term := { s2.term with line := l } }).bind tputcFetch
    else some s2).bind fun s3 =>
  tputcPlace u width s3

/-- The label `check_control_code` of `tputc` and what follows it. -/
def tputcDispatch (env : Env) (u width : Int) (s : State) : Option State :=
  if iscontrol u then tcontrolcode env u s
  else if has s.term.esc ESC_START then
    if has s.term.esc ESC_CSI then
      let s1 := { s with csiescseq := { s.csiescseq with
        buf := s.csiescseq.buf ++ [(u % 256).toNat] } }
      if (0x40 ≤ u ∧ u ≤ 0x7e) ∨ s1.csiescseq.buf.length ≥ ESC_BUF_SIZ - 1 then
        (csiparse (setEsc 0 s1)).bind csihandle
      else some s1
    else if has s.term.esc ESC_UTF8 then some (setEsc 0 (tdefutf8 u s))
    else if has s.term.esc ESC_ALTCHARSET then (tdeftran u s).map (setEsc 0)
    else if has s.term.esc ESC_TEST then (tdectest u s).map (setEsc 0)
    else (eschandle env u s).map fun r => if ¬ r.2 then r.1 else setEsc 0 r.1
  else tputcPrint u width s

/-- The test `term.mode&MODE_UTF8 == 0 && term.mode&MODE_SIXEL == 0` of `tputc`. -/
def tputcRaw (s : State) : Bool := !has s.term.mode MODE_UTF8 && !has s.term.mode MODE_SIXEL

/-- The test under which `tputc` replaces the encoding by that of U+FFFD. -/
def tputcInvalid (env : Env) (u : Int) (s : State) : Bool :=
  !tputcRaw s && !iscontrol u && decide (env.wcwidth u = -1)

/-- The value of `len_` in `tputc`. -/
def tputcLen (u : Int) (s : State) : Nat :=
  if tputcRaw s then 1 else (encodeRune u).length

/-- The value of `width` in `tputc`. -/
def tputcWidth (env : Env) (u : Int) (s : State) : Int :=
  if tputcRaw s then 1 else if tputcInvalid env u s then 1 else env.wcwidth u

/-- The bytes `c[:len_]` in `tputc`. -/
def tputcBytes (env : Env) (u : Int) (s : State) : List Nat :=
  if tputcRaw s then [(u % 256).toNat]
  else if tputcInvalid env u s then
    (goCopy (encodeRune u ++ [0, 0, 0, 0]) [0xef, 0xbf, 0xbd]).take (tputcLen u s)
  else encodeRune u

/-- The branch of `tputc` taken while a string sequence is open. -/
def tputcStr (env : Env) (u : Int) (s : State) : Option State :=
  if u = 7 ∨ u = 24 ∨ u = 26 ∨ u = 27 ∨ iscontrolc1 u then
    let s1 := setEsc (andNot s.term.esc (ESC_START ||| ESC_STR ||| ESC_DCS)) s
    if has s1.term.mode MODE_SIXEL then some (setTermMode (andNot s1.term.mode MODE_SIXEL) s1)
    else tputcDispatch env u (tputcWidth env u s) (setEsc (s1.term.esc ||| ESC_STR_END) s1)
  else if has s.term.mode MODE_SIXEL then some s
  else
    let s1 := if has s.term.esc ESC_DCS ∧ s.strescseq.buf.length = 0 ∧ u = 113 then
                setTermMode (s.term.mode ||| MODE_SIXEL) s else s
    if s1.strescseq.buf.length + tputcLen u s ≥ STR_BUF_SIZ - 1 then some s1
    else some { s1 with strescseq := { s1.strescseq with
      buf := s1.strescseq.buf ++ tputcBytes env u s } }

/-- The statement `if term.mode&MODE_PRINT != 0 { tprinter(c[:len_]) }` of `tputc`. -/
def tputcPrn (env : Env) (u : Int) (s : State) : State :=
  if has s.term.mode MODE_PRINT then tprinter (tputcBytes env u s) s else s

/-- The Go `tputc`. -/
def tputc (env : Env) (u : Int) (s : State) : Option State :=
  if has (tputcPrn env u s).term.esc ESC_STR then tputcStr env u (tputcPrn env u s)
  else tputcDispatch env u (tputcWidth env u s) (tputcPrn env u s)

/-- Successive calls of `tputc` on a sequence of codepoints. -/
def feed (env : Env) : List Int → State → Option State
  | [], s => some s
  | u :: us, s => (tputc env u s).bind (feed env us)

/-! ## Sample states -/

/-- A blank cell in the default colours. -/
def blankGlyph : Glyph := ⟨32, 0, defaultfg, defaultbg⟩

/-- An environment in which every glyph is one column wide. -/
def narrowEnv : Env := ⟨fun _ => 1, fun _ _ => some false⟩

/-- An environment in which every glyph is two columns wide. -/
def wideEnv : Env := ⟨fun _ => 2, fun _ _ => some false⟩

/-- The state that `tnew(col, row)` builds, with the two screens given and the
cursor moved to `(cx, cy)`: wrap and UTF-8 modes on, full scroll region, a tab
stop every eight columns, no selection. -/
def sampleState (col row : Nat) (line alt : List Line) (cx cy : Int) : State :=
  { term :=
      { row := row, col := col, line := line, alt := alt,
        dirty := List.replicate row true,
        c := ⟨⟨0, 0, defaultfg, defaultbg⟩, cx, cy, 0⟩, ocx := 0, ocy := 0,
        top := 0, bot := (row : Int) - 1, mode := MODE_WRAP ||| MODE_UTF8, esc := 0,
        trantbl := [CS_USA, CS_USA, CS_USA, CS_USA], charset := 0, icharset := 0,
        tabs := (List.range col).map (fun i => decide (i % 8 = 0 ∧ i ≠ 0)),
        tc0 := ⟨⟨0, 0, defaultfg, defaultbg⟩, 0, 0, 0⟩,
        tc1 := ⟨⟨0, 0, defaultfg, defaultbg⟩, 0, 0, 0⟩ },
    sel := ⟨SEL_IDLE, 0, 0, ⟨0, 0⟩, ⟨0, 0⟩, ⟨-1, 0⟩, ⟨0, 0⟩, false⟩,
    csiescseq := CSIEscape.zero, strescseq := STREscape.zero,
    win := ⟨MODE_VISIBLE, 0⟩, tty := [], iofile := false, prn := [] }

/-- A screen of `row` blank rows of `col` cells. -/
def blankScreen (col row : Nat) : List Line :=
  List.replicate row (List.replicate col blankGlyph)

/-! ## Well-formed states -/

/-- A grid of `row` rows of `col` cells. -/
def Rect (g : List Line) (row col : Int) : Prop :=
  (g.length : Int) = row ∧ ∀ l ∈ g, (l.length : Int) = col

instance (g : List Line) (row col : Int) : Decidable (Rect g row col) := by
  unfold Rect; infer_instance

/-- The dimensions of the active screen and of the dirty flags agree with
`term.row` and `term.col`, which are positive. -/
def Dims (s : State) : Prop :=
  1 ≤ s.term.row ∧ 1 ≤ s.term.col ∧ Rect s.term.line s.term.row s.term.col ∧
    (s.term.dirty.length : Int) = s.term.row

instance (s : State) : Decidable (Dims s) := by
  unfold Dims; infer_instance

/-- The state `s` with the active screen, the dirty flags and the selection
replaced. -/
def State.withLDS (s : State) (L : List Line) (D : List Bool) (S : Selection) : State :=
  { s with term := { s.term with line := L, dirty := D }, sel := S }

/-- The dirty flags `D` have the length of `D0` and keep every flag that `D0`
has set. -/
def DirtyGe (D D0 : List Bool) : Prop :=
  D.length = D0.length ∧ ∀ j : Int, idx? D0 j = some true → idx? D j = some true

/-- The blank cell that `tclearregion` writes: a space in the colours of the
cursor template. -/
def clearGlyph (s : State) : Glyph := ⟨32, 0, s.term.c.attr.fg, s.term.c.attr.bg⟩

/-- A primary screen of two rows of three cells holding `abc` and `de`. -/
def abcScreen : List Line :=
  [[⟨97, 0, 7, 0⟩, ⟨98, 0, 7, 0⟩, ⟨99, 0, 7, 0⟩], [⟨100, 0, 7, 0⟩, ⟨101, 0, 7, 0⟩, ⟨32, 0, 7, 0⟩]]

/-- A state with the alternate screen active, `xyz` written on it and the cursor
moved, over the primary screen `abcScreen` whose cursor was saved at `(2, 1)`. -/
def altDemo : State :=
  { sampleState 3 2 [[⟨120, 0, 7, 0⟩, ⟨121, 0, 7, 0⟩, ⟨122, 0, 7, 0⟩], List.replicate 3 blankGlyph]
      abcScreen 0 0 with
    term := { (sampleState 3 2
        [[⟨120, 0, 7, 0⟩, ⟨121, 0, 7, 0⟩, ⟨122, 0, 7, 0⟩], List.replicate 3 blankGlyph]
        abcScreen 0 0).term with
      mode := MODE_WRAP ||| MODE_UTF8 ||| MODE_ALTSCREEN,
      tc0 := ⟨⟨0, 0, defaultfg, defaultbg⟩, 2, 1, 0⟩ } }

/-- The row `foo bar` followed by three blanks. -/
def fooBarRow : Line :=
  [⟨102, 0, 7, 0⟩, ⟨111, 0, 7, 0⟩, ⟨111, 0, 7, 0⟩, ⟨32, 0, 7, 0⟩, ⟨98, 0, 7, 0⟩, ⟨97, 0, 7, 0⟩,
   ⟨114, 0, 7, 0⟩, ⟨32, 0, 7, 0⟩, ⟨32, 0, 7, 0⟩, ⟨32, 0, 7, 0⟩]

/-- A terminal of three rows of ten cells whose middle row is `fooBarRow`. -/
def fooBarState : State :=
  sampleState 10 3 [List.replicate 10 blankGlyph, fooBarRow, List.replicate 10 blankGlyph]
    (blankScreen 10 3) 0 0

/-- An environment in which the codepoints from U+1100 on are two columns wide. -/
def cjkEnv : Env := ⟨fun u => if u ≥ 0x1100 then 2 else 1, fun _ _ => some false⟩

/-- The wide-pair predicate on one row: every wide-dummy cell has a wide cell
immediately to its left, and every wide cell not in the last column has a
wide-dummy cell immediately to its right. -/
def pairOkRow (l : Line) : Bool :=
  (List.range l.length).all fun x =>
    (!has (l.getD x default).mode ATTR_WDUMMY ||
      (decide (1 ≤ x) && has (l.getD (x - 1) default).mode ATTR_WIDE)) &&
    (!(has (l.getD x default).mode ATTR_WIDE && decide (x + 1 < l.length)) ||
      has (l.getD (x + 1) default).mode ATTR_WDUMMY)

/-- The wide-pair predicate on every row of a screen. -/
def pairOk (g : List Line) : Bool := g.all pairOkRow

/-- A row of four cells: U+4E2D as a wide pair, then `a` and `b`. -/
def widePairRow : Line :=
  [⟨0x4e2d, ATTR_WIDE, 7, 0⟩, ⟨0, ATTR_WDUMMY, 7, 0⟩, ⟨97, 0, 7, 0⟩, ⟨98, 0, 7, 0⟩]

/-- The invariant of the row loop of `tscrollup`, before the round on row `i`:
rows below `i` hold the rows `k` further down of the grid `g0`, the next `k`
rows hold cleared rows, every other row is as in `g0`. -/
def ScrollUpInv (g0 G : List Line) (orig k i : Int) : Prop :=
  ∀ y : Int,
    ((y < orig ∨ i + k ≤ y) → ∀ x, cell? G y x = cell? g0 y x) ∧
    ((orig ≤ y ∧ y < i) → ∀ x, cell? G y x = cell? g0 (y + k) x) ∧
    ((i ≤ y ∧ y < i + k) → ∃ r, orig ≤ r ∧ r < orig + k ∧ ∀ x, cell? G y x = cell? g0 r x)

/-- A row of four cells whose cell 0 is wide and whose cell 1 carries both the
wide and the wide-dummy tag. -/
def bothTagsRow : Line :=
  [⟨0x4e2d, ATTR_WIDE, 7, 0⟩, ⟨0, ATTR_WIDE ||| ATTR_WDUMMY, 7, 0⟩, ⟨32, 0, 7, 0⟩, ⟨32, 0, 7, 0⟩]

/-- The state `fooBarState` after a selection was dragged on its middle row from
column 1 to column 3 and the button released: `selstart`, `selextend` while
dragging, `selextend` with `done`. -/
def releasedSelection : Option State :=
  ((selstart 1 1 0 fooBarState).bind (selextend 3 1 SEL_REGULAR false)).bind
    (selextend 3 1 SEL_REGULAR true)

/-- Three rows of three cells holding `aaa`, `bbb` and `ccc`. -/
def abcRows : List Line :=
  [List.replicate 3 ⟨97, 0, 7, 0⟩, List.replicate 3 ⟨98, 0, 7, 0⟩, List.replicate 3 ⟨99, 0, 7, 0⟩]

/-- A fresh terminal of four columns and two rows with CRLF mode set. -/
def crlfState : State :=
  { sampleState 4 2 (blankScreen 4 2) (blankScreen 4 2) 0 0 with
    term := { (sampleState 4 2 (blankScreen 4 2) (blankScreen 4 2) 0 0).term with
      mode := MODE_WRAP ||| MODE_UTF8 ||| MODE_CRLF } }

/-! ## Reading from the pty: `twrite` -/

/-- The Go constant `utf8.RuneError`. -/
def RuneError : Int := 0xfffd

/-- The Go standard library's `utf8.DecodeRune`: the rune at the head of `p` and
the number of bytes of its encoding; `(RuneError, 0)` for no bytes and
`(RuneError, 1)` for an encoding that is invalid or cut short. The accepted
range of the second byte depends on the first, which excludes overlong forms,
surrogates and values above U+10FFFF. -/
def decodeRune (p : List Nat) : Int × Int :=
  match p with
  | [] => (RuneError, 0)
  | p0 :: rest =>
    if p0 < 0x80 then ((p0 : Int), 1)
    else if p0 < 0xc2 ∨ 0xf4 < p0 then (RuneError, 1)
    else
      let sz : Nat := if p0 < 0xe0 then 2 else if p0 < 0xf0 then 3 else 4
      let lo : Nat := if p0 = 0xe0 then 0xa0 else if p0 = 0xf0 then 0x90 else 0x80
      let hi : Nat := if p0 = 0xed then 0x9f else if p0 = 0xf4 then 0x8f else 0xbf
      if p.length < sz then (RuneError, 1)
      else
        let b1 := rest.getD 0 0
        let b2 := rest.getD 1 0
        let b3 := rest.getD 2 0
        if b1 < lo ∨ hi < b1 then (RuneError, 1)
        else if sz ≤ 2 then ((((p0 &&& 0x1f) <<< 6 ||| (b1 &&& 0x3f) : Nat) : Int), 2)
        else if b2 < 0x80 ∨ 0xbf < b2 then (RuneError, 1)
        else if sz ≤ 3 then
          ((((p0 &&& 0x0f) <<< 12 ||| (b1 &&& 0x3f) <<< 6 ||| (b2 &&& 0x3f) : Nat) : Int), 3)
        else if b3 < 0x80 ∨ 0xbf < b3 then (RuneError, 1)
        else
          ((((p0 &&& 0x07) <<< 18 ||| (b1 &&& 0x3f) <<< 12 ||| (b2 &&& 0x3f) <<< 6 |||
            (b3 &&& 0x3f) : Nat) : Int), 4)

/-- The rune and its size that one round of the loop of `twrite` reads at offset
`n`, or `none` for `break`. -/
def twriteFetch (buf : List Nat) (n : Int) (s : State) : Option (Option (Int × Int)) :=
  if has s.term.mode MODE_UTF8 ∧ ¬ has s.term.mode MODE_SIXEL then
    let r := decodeRune (buf.drop n.toNat)
    if r.2 = 0 ∨ r.1 = RuneError then some none else some (some r)
  else (idx? buf n).map fun b => some (((b &&& 0xff : Nat) : Int), 1)

/-- The body of the loop of `twrite` after the rune `u` is read: control codes
are shown as `^X` or `^[X` when `show_ctrl` is set, then the rune is put. -/
def twritePut (env : Env) (show_ctrl : Bool) (u : Int) (s : State) : Option State :=
  if show_ctrl ∧ iscontrol u then
    if u.toNat &&& 0x80 ≠ 0 then
      ((tputc env 94 s).bind (tputc env 91)).bind (tputc env ((u.toNat &&& 0x7f : Nat) : Int))
    else if u ≠ 10 ∧ u ≠ 13 ∧ u ≠ 9 then
      (tputc env 94 s).bind (tputc env ((u.toNat ^^^ 0x40 : Nat) : Int))
    else tputc env u s
  else tputc env u s

/-- The loop of `twrite` on the offset `n`: the state and the offset it stops at.
Every round advances by at least one byte, so the fuel, the length of the data,
is never spent before the end. -/
def twriteLoop (env : Env) (buf : List Nat) (show_ctrl : Bool) :
    Nat → Int → State → Option (State × Int)
  | 0, n, s => if n < buf.length then none else some (s, n)
  | fuel + 1, n, s =>
    if n < buf.length then
      (twriteFetch buf n s).bind fun r =>
      match r with
      | none => some (s, n)
      | some (u, charsize) =>
        (twritePut env show_ctrl u s).bind fun s1 =>
        twriteLoop env buf show_ctrl fuel (n + charsize) s1
    else some (s, n)

/-- The Go `twrite`: the state and the number of bytes consumed. -/
def twrite (env : Env) (buf : List Nat) (show_ctrl : Bool) (s : State) : Option (State × Int) :=
  twriteLoop env buf show_ctrl buf.length 0 s

/-- The Go `ttywrite`. -/
def ttywrite (env : Env) (b : List Nat) (may_echo : Bool) (s : State) : Option State :=
  (if may_echo ∧ has s.term.mode MODE_ECHO then (twrite env b true s).map Prod.fst
   else some s).bind (ttywriteNoEcho b)

/-- The cursor with the dimensions and the scroll region of the terminal: what
the operations on cells, dirty flags and the selection leave alone. -/
def State.fixed (s : State) : TCursor × Int × Int × Int × Int :=
  (s.term.c, s.term.row, s.term.col, s.term.top, s.term.bot)

/-- The terminal has at least one row and one column and its scroll region lies
inside the screen. -/
def Geom (s : State) : Prop :=
  1 ≤ s.term.col ∧ 1 ≤ s.term.row ∧ 0 ≤ s.term.top ∧ s.term.top ≤ s.term.bot ∧
    s.term.bot ≤ s.term.row - 1

instance (s : State) : Decidable (Geom s) := by
  unfold Geom; infer_instance

/-- The cursor is inside the screen: `0 ≤ x ≤ cols - 1` and `0 ≤ y ≤ rows - 1`. -/
def InBounds (s : State) : Prop :=
  0 ≤ s.term.c.x ∧ s.term.c.x ≤ s.term.col - 1 ∧ 0 ≤ s.term.c.y ∧ s.term.c.y ≤ s.term.row - 1

instance (s : State) : Decidable (InBounds s) := by
  unfold InBounds; infer_instance

/-- A row of ten cells, blank but for an `x` in column 3. -/
def xRow : Line :=
  List.replicate 3 blankGlyph ++ [⟨120, 0, defaultfg, defaultbg⟩] ++ List.replicate 6 blankGlyph

/-- A terminal of three rows of ten cells whose first row is `xRow`. -/
def xState : State :=
  sampleState 10 3 [xRow, List.replicate 10 blankGlyph, List.replicate 10 blankGlyph]
    (blankScreen 10 3) 0 0

/-- A fresh terminal of two rows of four cells with the cursor on the last row. -/
def smallState : State := sampleState 4 2 (blankScreen 4 2) (blankScreen 4 2) 0 1

/-- The test `u == '\a' || u == 030 || u == 032 || u == 033 || iscontrolc1(u)` of
`tputc`: the codepoints that end a string sequence. -/
def strTerminator (u : Int) : Bool :=
  decide (u = 7 ∨ u = 24 ∨ u = 26 ∨ u = 27) || iscontrolc1 u

/-- The state after ESC ] and 508 bytes `a` on a fresh terminal: an OSC string
is open and its accumulator holds the 508 bytes. -/
def strFullState : State :=
  { tstrsequence 93 (setEsc ESC_START smallState) with
    strescseq := { (tstrsequence 93 (setEsc ESC_START smallState)).strescseq with
      buf := List.replicate 508 97 } }

/-! ## Vocabulary for CSI parameter fields -/

/-- A field of decimal digits. -/
def isDigits (ds : List Nat) : Prop := ∀ c ∈ ds, 48 ≤ c ∧ c ≤ 57

instance (ds : List Nat) : Decidable (isDigits ds) := by
  unfold isDigits; infer_instance

/-- The decimal value of a field of digits; 0 for the empty field. -/
def digitsVal (ds : List Nat) : Int := ds.foldl (fun a c => a * 10 + ((c : Int) - 48)) 0

/-- The value that the amended C23 gives to a field: the decimal value when it
is below `2^63 - 1`, and -1 otherwise. -/
def fieldArg (ds : List Nat) : Int :=
  if digitsVal ds ≥ 9223372036854775807 then -1 else digitsVal ds

/-- The bytes of fields separated by `;`. -/
def joinFields : List (List Nat) → List Nat
  | [] => []
  | [fl] => fl
  | fl :: fl2 :: fls => fl ++ 59 :: joinFields (fl2 :: fls)

/-- The argument array after the values of the fields are stored from index `n`
on. -/
def storeFields : List Int → Nat → List (List Nat) → List Int
  | arg, _, [] => arg
  | arg, n, fl :: fls => storeFields (arg.set n (fieldArg fl)) (n + 1) fls
/-- The digits of 9223372036854775807, which is `2^63 - 1`. -/
def maxFieldDigits : List Nat :=
  [57, 50, 50, 51, 51, 55, 50, 48, 51, 54, 56, 53, 52, 55, 55, 53, 56, 48, 55]

/-- The bytes of `n` more fields `1` and the final byte `m`. -/
def sgrOnes : Nat → List Int
  | 0 => [109]
  | n + 1 => 59 :: 49 :: sgrOnes n

/-- A terminal of three rows `aaa`, `bbb`, `ccc` with the cursor at `(cx, cy)`. -/
def abcState (cx cy : Int) : State := sampleState 3 3 abcRows (blankScreen 3 3) cx cy

/-- The codepoints of the rows of the active screen. -/
def screenRunes (s : State) : List (List Int) := s.term.line.map fun l => l.map Glyph.u

/-- A fresh terminal of three rows of ten cells after ten spaces and an `x`:
row 0 holds ten spaces, the last with the wrap attribute, and row 1 the `x`. -/
def wrappedBlankState : Option State :=
  feed narrowEnv (List.replicate 10 32 ++ [120])
    (sampleState 10 3 (blankScreen 10 3) (blankScreen 10 3) 0 0)

/-! ## Colour helpers of `x.go` -/

/-- The Go `truered` of `x.go`, on a 32-bit colour value. -/
def truered (x : Nat) : Nat := (x &&& 0xff0000) >>> 8

/-- The Go `truegreen` of `x.go`. -/
def truegreen (x : Nat) : Nat := x &&& 0xff00

/-- The Go `trueblue` of `x.go`, with the wrap-around of the 32-bit shift. -/
def trueblue (x : Nat) : Nat := ((x &&& 0xff) <<< 8) % 4294967296

/-- The Go `istruecol` of `x.go`. -/
def istruecol (x : Nat) : Bool := (16777216 &&& x) != 0

/-- The invariant of the row loop of `tscrolldown`, before the round on row `i`:
rows above `i` down to `bot` hold the rows `k` further up of the grid `g0`, the
`k` rows up to `i` hold cleared rows, every other row is as in `g0`. -/
def ScrollDownInv (g0 G : List Line) (bot k i : Int) : Prop :=
  ∀ y : Int,
    ((bot < y ∨ y ≤ i - k) → ∀ x, cell? G y x = cell? g0 y x) ∧
    ((i < y ∧ y ≤ bot) → ∀ x, cell? G y x = cell? g0 (y - k) x) ∧
    ((i - k < y ∧ y ≤ i) → ∃ r, bot - k < r ∧ r ≤ bot ∧ ∀ x, cell? G y x = cell? g0 r x)

/-! ## Lemmas on bit sets -/

theorem has_iff (m f : Nat) :
    has m f = true ↔ ∃ i, m.testBit i = true ∧ f.testBit i = true := by
  unfold has
  constructor
  · intro h
    have hne : m &&& f ≠ 0 := by simpa using h
    obtain ⟨i, hi⟩ := Nat.ne_zero_implies_bit_true hne
    exact ⟨i, by simpa using hi⟩
  · rintro ⟨i, h1, h2⟩
    have hne : m &&& f ≠ 0 := by
      intro h0
      have := congrArg (fun n => Nat.testBit n i) h0
      simp [h1, h2] at this
    simpa using hne

theorem has_or (m f g : Nat) : has (m ||| f) g = (has m g || has f g) := by
  rw [Bool.eq_iff_iff]
  simp only [has_iff, Bool.or_eq_true, Nat.testBit_or]
  constructor
  · rintro ⟨i, h1 | h1, h2⟩
    · exact Or.inl ⟨i, h1, h2⟩
    · exact Or.inr ⟨i, h1, h2⟩
  · rintro (⟨i, h1, h2⟩ | ⟨i, h1, h2⟩)
    · exact ⟨i, Or.inl h1, h2⟩
    · exact ⟨i, Or.inr h1, h2⟩

theorem testBit_andNot (m f i : Nat) :
    (andNot m f).testBit i = (m.testBit i && !f.testBit i) := by
  unfold andNot
  simp only [Nat.testBit_xor, Nat.testBit_and]
  cases m.testBit i <;> cases f.testBit i <;> rfl

theorem has_andNot_of_disjoint (m f g : Nat) (h : g &&& f = 0) :
    has (andNot m f) g = has m g := by
  rw [Bool.eq_iff_iff]
  simp only [has_iff, testBit_andNot, Bool.and_eq_true, Bool.not_eq_true']
  constructor
  · rintro ⟨i, ⟨h1, _⟩, h2⟩
    exact ⟨i, h1, h2⟩
  · rintro ⟨i, h1, h2⟩
    refine ⟨i, ⟨h1, ?_⟩, h2⟩
    have := congrArg (fun n => Nat.testBit n i) h
    simp only [Nat.testBit_and, h2, Bool.true_and, Nat.zero_testBit] at this
    exact this

theorem has_andNot_of_subset (m f g : Nat) (h : g &&& f = g) :
    has (andNot m f) g = false := by
  rw [Bool.eq_false_iff]
  intro hh
  obtain ⟨i, h1, h2⟩ := (has_iff _ _).1 hh
  rw [testBit_andNot] at h1
  have := congrArg (fun n => Nat.testBit n i) h
  simp only [Nat.testBit_and, h2, Bool.true_and] at this
  simp [this] at h1

theorem has_xor_of_disjoint (m f g : Nat) (h : g &&& f = 0) :
    has (m ^^^ f) g = has m g := by
  have hf : ∀ i, g.testBit i = true → f.testBit i = false := by
    intro i hi
    have := congrArg (fun n => Nat.testBit n i) h
    simpa [hi] using this
  rw [Bool.eq_iff_iff]
  simp only [has_iff, Nat.testBit_xor]
  constructor
  · rintro ⟨i, h1, h2⟩
    refine ⟨i, ?_, h2⟩
    simpa [hf i h2] using h1
  · rintro ⟨i, h1, h2⟩
    refine ⟨i, ?_, h2⟩
    simp [hf i h2, h1]

theorem has_two_pow (m k : Nat) : has m (2 ^ k) = m.testBit k := by
  rw [Bool.eq_iff_iff, has_iff]
  constructor
  · rintro ⟨i, h1, h2⟩
    rw [Nat.testBit_two_pow] at h2
    have : k = i := by simpa using h2
    rw [this]; exact h1
  · intro h
    exact ⟨k, h, Nat.testBit_two_pow_self⟩

theorem has_xor_two_pow (m k : Nat) : has (m ^^^ 2 ^ k) (2 ^ k) = !has m (2 ^ k) := by
  rw [has_two_pow, has_two_pow, Nat.testBit_xor, Nat.testBit_two_pow_self]
  cases m.testBit k <;> rfl

theorem has_one_bit_or (m f g : Nat) (hf : has f g = true) : has (m ||| f) g = true := by
  rw [has_or, hf, Bool.or_true]

/-! ## Lemmas on integers -/

theorem clamp_of_mem (x a b : Int) (h1 : a ≤ x) (h2 : x ≤ b) : clamp x a b = x := by
  unfold clamp imin imax
  split <;> split <;> omega

theorem wrap64_of_fits (i : Int) (h1 : -9223372036854775808 ≤ i) (h2 : i ≤ 9223372036854775807) :
    wrap64 i = i := by
  unfold wrap64; omega

/-! ## The decoder from the ground state to a CSI dispatch -/

theorem tprinter_eq (b : List Nat) (s : State) : tprinter b s = { s with prn := (tprinter b s).prn } := by
  unfold tprinter; split <;> rfl

theorem tputcPrn_eq (env : Env) (u : Int) (s : State) :
    tputcPrn env u s = { s with prn := (tputcPrn env u s).prn } := by
  unfold tputcPrn; split
  · exact tprinter_eq _ _
  · rfl

/-- Outside a string sequence `tputc` is `tputcDispatch`, up to printer output. -/
theorem tputc_of_not_str (env : Env) (u : Int) (s : State) (h : has s.term.esc ESC_STR = false) :
    tputc env u s = tputcDispatch env u (tputcWidth env u s)
      { s with prn := (tputcPrn env u s).prn } := by
  unfold tputc
  rw [tputcPrn_eq]
  simp [h]

theorem tputc_esc (env : Env) (s : State) (h0 : s.term.esc = 0) :
    tputc env 27 s = some { s with
      prn := (tputcPrn env 27 s).prn, csiescseq := CSIEscape.zero,
      term := { s.term with esc := 1 } } := by
  rw [tputc_of_not_str env 27 s (by rw [h0]; decide)]
  simp +decide [tputcDispatch, tcontrolcode, iscontrol, iscontrolc0, setEsc, csireset, h0]

theorem tputc_bracket (env : Env) (s : State) (h0 : s.term.esc = 1) :
    tputc env 91 s = some { s with
      prn := (tputcPrn env 91 s).prn, term := { s.term with esc := 3 } } := by
  rw [tputc_of_not_str env 91 s (by rw [h0]; decide)]
  simp +decide [tputcDispatch, eschandle, iscontrol, iscontrolc0, iscontrolc1, setEsc, h0]

theorem tputc_csi_final (env : Env) (u : Int) (s : State) (h0 : s.term.esc = 3)
    (hu : 0x40 ≤ u ∧ u ≤ 0x7e) :
    tputc env u s = (csiparse { s with
      prn := (tputcPrn env u s).prn
      csiescseq := { s.csiescseq with buf := s.csiescseq.buf ++ [(u % 256).toNat] }
      term := { s.term with esc := 0 } }).bind csihandle := by
  rw [tputc_of_not_str env u s (by rw [h0]; decide)]
  have hc : iscontrol u = false := by
    simp [iscontrol, iscontrolc0, iscontrolc1]; omega
  simp +decide [tputcDispatch, hc, setEsc, h0, hu]

theorem tputc_csi_param (env : Env) (u : Int) (s : State) (h0 : s.term.esc = 3)
    (hu : 0x20 ≤ u ∧ u < 0x40) (hlen : s.csiescseq.buf.length + 1 < ESC_BUF_SIZ - 1) :
    tputc env u s = some { s with
      prn := (tputcPrn env u s).prn
      csiescseq := { s.csiescseq with buf := s.csiescseq.buf ++ [(u % 256).toNat] } } := by
  rw [tputc_of_not_str env u s (by rw [h0]; decide)]
  have hc : iscontrol u = false := by
    simp [iscontrol, iscontrolc0, iscontrolc1]; omega
  have h1 : ¬ (64 ≤ u ∧ u ≤ 126) := by omega
  simp +decide [tputcDispatch, hc, setEsc, h0, h1]
  simp [ESC_BUF_SIZ, UTFMax] at hlen ⊢
  omega

theorem csi_cuu_default (s : State) (buf : List Nat) (hbuf : buf = [65] ∨ buf = [48, 65])
    (hcsi : s.csiescseq = { CSIEscape.zero with buf := buf }) :
    (csiparse s).bind csihandle =
      some (tmoveto s.term.c.x (wrap64 (s.term.c.y - 1)) { s with csiescseq :=
        ⟨buf, false, 1 :: List.replicate 15 0, 1, 65, 0⟩ }) := by
  rcases hbuf with rfl | rfl
  · simp +decide [csiparse, hcsi, CSIEscape.zero, csiparseArgs, strtol, strtolDigits, upd?, csihandle,
      defArg0, arg0]
  · simp +decide [csiparse, hcsi, CSIEscape.zero, csiparseArgs, strtol, strtolDigits, upd?, csihandle,
      defArg0, arg0, clamp, imin, imax]

/-! ## C1 -/

/-- C1: from the ground state, with the cursor in bounds on a row `y ≥ 1` (above
the scroll-region top when origin mode is on), the sequences ESC [ A and
ESC [ 0 A both leave the cursor on row `y - 1` in the same column. -/
theorem C1_cursor_up_default (env : Env) (s : State)
    (h0 : s.term.esc = 0)
    (hy : 1 ≤ s.term.c.y) (hyfit : s.term.c.y ≤ 9223372036854775807)
    (hx : 0 ≤ s.term.c.x ∧ s.term.c.x ≤ s.term.col - 1)
    (hrow : s.term.c.y ≤ s.term.row - 1)
    (horigin : has s.term.c.state CURSOR_ORIGIN = true →
      s.term.top < s.term.c.y ∧ s.term.c.y ≤ s.term.bot) :
    (∃ s1, feed env [27, 91, 65] s = some s1 ∧
        s1.term.c.y = s.term.c.y - 1 ∧ s1.term.c.x = s.term.c.x) ∧
    (∃ s2, feed env [27, 91, 48, 65] s = some s2 ∧
        s2.term.c.y = s.term.c.y - 1 ∧ s2.term.c.x = s.term.c.x) := by
  have hmove : ∀ t : State, t.term = { s.term with esc := 0 } →
      (tmoveto t.term.c.x (wrap64 (t.term.c.y - 1)) t).term.c.y = s.term.c.y - 1 ∧
      (tmoveto t.term.c.x (wrap64 (t.term.c.y - 1)) t).term.c.x = s.term.c.x := by
    intro t ht
    have hw : wrap64 (s.term.c.y - 1) = s.term.c.y - 1 := wrap64_of_fits _ (by omega) (by omega)
    have hc : t.term.c = s.term.c := by rw [ht]
    have h1 : t.term.top = s.term.top := by rw [ht]
    have h2 : t.term.bot = s.term.bot := by rw [ht]
    have h3 : t.term.row = s.term.row := by rw [ht]
    have h4 : t.term.col = s.term.col := by rw [ht]
    simp only [tmoveto, hc, h1, h2, h3, h4]
    rw [hw]
    refine ⟨?_, clamp_of_mem _ _ _ hx.1 hx.2⟩
    by_cases ho : has s.term.c.state CURSOR_ORIGIN = true
    · have := horigin ho
      simp only [ho, if_true]
      exact clamp_of_mem _ _ _ (by omega) (by omega)
    · simp only [ho, Bool.false_eq_true, if_false]
      exact clamp_of_mem _ _ _ (by omega) (by omega)
  constructor
  · simp only [feed, tputc_esc env s h0, Option.some_bind]
    rw [tputc_bracket env _ rfl]
    simp only [Option.some_bind]
    rw [tputc_csi_final env 65 _ rfl (by omega)]
    simp only [Option.bind_some]
    rw [csi_cuu_default _ [65] (Or.inl rfl) rfl]
    exact ⟨_, rfl, hmove _ rfl⟩
  · simp only [feed, tputc_esc env s h0, Option.some_bind]
    rw [tputc_bracket env _ rfl]
    simp only [Option.some_bind]
    rw [tputc_csi_param env 48 _ rfl (by omega) (by simp [ESC_BUF_SIZ, UTFMax, CSIEscape.zero])]
    simp only [Option.some_bind]
    rw [tputc_csi_final env 65 _ rfl (by omega)]
    simp only [Option.bind_some]
    rw [csi_cuu_default _ [48, 65] (Or.inr rfl) rfl]
    exact ⟨_, rfl, hmove _ rfl⟩

theorem C1_cursor_up_default_witness :
    (∃ s1, feed narrowEnv [27, 91, 65] (sampleState 4 3 (blankScreen 4 3) (blankScreen 4 3) 2 1)
        = some s1 ∧ s1.term.c.y = 1 - 1 ∧ s1.term.c.x = 2) ∧
    (∃ s2, feed narrowEnv [27, 91, 48, 65] (sampleState 4 3 (blankScreen 4 3) (blankScreen 4 3) 2 1)
        = some s2 ∧ s2.term.c.y = 1 - 1 ∧ s2.term.c.x = 2) :=
  C1_cursor_up_default narrowEnv (sampleState 4 3 (blankScreen 4 3) (blankScreen 4 3) 2 1)
    (by decide) (by decide) (by decide) (by decide) (by decide) (by decide)

/-! ## C9 -/

theorem csi_dsr (s : State) (hcsi : s.csiescseq = { CSIEscape.zero with buf := [54, 110] })
    (hcrlf : has s.term.mode MODE_CRLF = false) :
    (csiparse s).bind csihandle =
      some { s with
        csiescseq := ⟨[54, 110], false, 6 :: List.replicate 15 0, 1, 110, 0⟩
        tty := s.tty ++ ([27, 91] ++ itoa (s.term.c.y + 1) ++ [59] ++ itoa (s.term.c.x + 1) ++ [82]) } := by
  simp +decide [csiparse, hcsi, CSIEscape.zero, csiparseArgs, strtol, strtolDigits, upd?, csihandle,
    arg0, clamp, imin, imax, ttywriteNoEcho, hcrlf, ttywriteraw]

/-- C9: from the ground state with CRLF mode off, ESC [ 6 n appends to the pty
output exactly ESC [ decimal(y+1) ; decimal(x+1) R, and changes neither screen
nor the cursor. -/
theorem C9_cursor_position_report (env : Env) (s : State)
    (h0 : s.term.esc = 0) (hcrlf : has s.term.mode MODE_CRLF = false) :
    ∃ s1, feed env [27, 91, 54, 110] s = some s1 ∧
      s1.tty = s.tty ++ ([27, 91] ++ itoa (s.term.c.y + 1) ++ [59] ++ itoa (s.term.c.x + 1) ++ [82]) ∧
      s1.term.line = s.term.line ∧ s1.term.alt = s.term.alt ∧ s1.term.c = s.term.c := by
  simp only [feed, tputc_esc env s h0, Option.some_bind]
  rw [tputc_bracket env _ rfl]
  simp only [Option.some_bind]
  rw [tputc_csi_param env 54 _ rfl (by omega) (by simp [ESC_BUF_SIZ, UTFMax, CSIEscape.zero])]
  simp only [Option.some_bind]
  rw [tputc_csi_final env 110 _ rfl (by omega)]
  simp only [Option.bind_some]
  rw [csi_dsr _ rfl (by exact hcrlf)]
  exact ⟨_, rfl, rfl, rfl, rfl, rfl⟩

theorem C9_cursor_position_report_witness :
    ∃ s1, feed narrowEnv [27, 91, 54, 110]
        (sampleState 8 4 (blankScreen 8 4) (blankScreen 8 4) 4 2) = some s1 ∧
      s1.tty = [27, 91, 51, 59, 53, 82] ∧
      s1.term.line = blankScreen 8 4 ∧ s1.term.alt = blankScreen 8 4 ∧
      s1.term.c = ⟨⟨0, 0, defaultfg, defaultbg⟩, 4, 2, 0⟩ := by
  obtain ⟨s1, h1, h2, h3, h4, h5⟩ := C9_cursor_position_report narrowEnv
    (sampleState 8 4 (blankScreen 8 4) (blankScreen 8 4) 4 2) (by decide) (by decide)
  exact ⟨s1, h1, by rw [h2]; decide, h3, h4, h5⟩

/-! ## Lemmas on checked indexing -/

theorem idx?_eq_some_iff {α : Type} (l : List α) (i : Int) (v : α) :
    idx? l i = some v ↔ 0 ≤ i ∧ l[i.toNat]? = some v := by
  unfold idx?
  by_cases h : 0 ≤ i <;> simp [h]

theorem idx?_isSome {α : Type} (l : List α) (i : Int) (h0 : 0 ≤ i) (h1 : i < l.length) :
    ∃ v, idx? l i = some v := by
  unfold idx?
  have : i.toNat < l.length := by omega
  simp [h0, List.getElem?_eq_getElem this]

theorem idx?_bounds {α : Type} {l : List α} {i : Int} {v : α} (h : idx? l i = some v) :
    0 ≤ i ∧ i < l.length := by
  rw [idx?_eq_some_iff] at h
  obtain ⟨h0, h1⟩ := h
  have := (List.getElem?_eq_some_iff.1 h1).1
  omega

theorem idx?_mem {α : Type} {l : List α} {i : Int} {v : α} (h : idx? l i = some v) : v ∈ l := by
  rw [idx?_eq_some_iff] at h
  exact List.getElem?_mem h.2

theorem upd?_eq_some_iff {α : Type} (l : List α) (i : Int) (v : α) (l2 : List α) :
    upd? l i v = some l2 ↔ (0 ≤ i ∧ i < l.length) ∧ l2 = l.set i.toNat v := by
  unfold upd?
  by_cases h : 0 ≤ i ∧ i < l.length
  · simp [h, eq_comm]
  · simp [h]

theorem upd?_of_bounds {α : Type} (l : List α) (i : Int) (v : α) (h0 : 0 ≤ i) (h1 : i < l.length) :
    upd? l i v = some (l.set i.toNat v) := by
  unfold upd?; simp [h0, h1]

theorem upd?_length {α : Type} {l l2 : List α} {i : Int} {v : α} (h : upd? l i v = some l2) :
    l2.length = l.length := by
  rw [upd?_eq_some_iff] at h
  rw [h.2, List.length_set]

theorem idx?_upd? {α : Type} {l l2 : List α} {i : Int} {v : α} (h : upd? l i v = some l2)
    (j : Int) : idx? l2 j = if j = i then some v else idx? l j := by
  rw [upd?_eq_some_iff] at h
  obtain ⟨⟨h0, h1⟩, rfl⟩ := h
  unfold idx?
  by_cases hj : 0 ≤ j
  · simp only [hj, if_true]
    by_cases hji : j = i
    · subst hji
      have : j.toNat < l.length := by omega
      simp [List.getElem?_set_self this]
    · have : i.toNat ≠ j.toNat := by omega
      simp [hji, List.getElem?_set_ne this]
  · have : j ≠ i := by omega
    simp [hj, this]

theorem mem_of_upd? {α : Type} {l l2 : List α} {i : Int} {v : α} (h : upd? l i v = some l2)
    {w : α} (hw : w ∈ l2) : w = v ∨ w ∈ l := by
  rw [upd?_eq_some_iff] at h
  obtain ⟨_, rfl⟩ := h
  rcases List.mem_or_eq_of_mem_set hw with h1 | h1
  · exact Or.inr h1
  · exact Or.inl h1

theorem cell?_eq_some_iff (g : List Line) (y x : Int) (v : Glyph) :
    cell? g y x = some v ↔ ∃ l, idx? g y = some l ∧ idx? l x = some v := by
  unfold cell?
  cases h : idx? g y <;> simp

theorem cell?_isSome {g : List Line} {row col : Int} (hg : Rect g row col) (y x : Int)
    (hy : 0 ≤ y ∧ y < row) (hx : 0 ≤ x ∧ x < col) : ∃ v, cell? g y x = some v := by
  obtain ⟨l, hl⟩ := idx?_isSome g y hy.1 (by rw [hg.1]; exact hy.2)
  have hlen := hg.2 l (idx?_mem hl)
  obtain ⟨v, hv⟩ := idx?_isSome l x hx.1 (by rw [hlen]; exact hx.2)
  exact ⟨v, (cell?_eq_some_iff _ _ _ _).2 ⟨l, hl, hv⟩⟩

theorem cell?_bounds {g : List Line} {row col : Int} (hg : Rect g row col) {y x : Int} {v : Glyph}
    (h : cell? g y x = some v) : (0 ≤ y ∧ y < row) ∧ (0 ≤ x ∧ x < col) := by
  obtain ⟨l, hl, hv⟩ := (cell?_eq_some_iff _ _ _ _).1 h
  have h1 := idx?_bounds hl
  have h2 := idx?_bounds hv
  have hlen := hg.2 l (idx?_mem hl)
  rw [hg.1] at h1
  rw [hlen] at h2
  exact ⟨h1, h2⟩

theorem setCell?_isSome {g : List Line} {y x : Int} {c : Glyph} (h : cell? g y x = some c)
    (v : Glyph) : ∃ g2, setCell? g y x v = some g2 := by
  obtain ⟨l, hl, hv⟩ := (cell?_eq_some_iff _ _ _ _).1 h
  have h1 := idx?_bounds hl
  have h2 := idx?_bounds hv
  unfold setCell?
  simp [hl, upd?_of_bounds l x v h2.1 h2.2, upd?_of_bounds g y _ h1.1 h1.2]

theorem cell?_setCell? {g g2 : List Line} {y x : Int} {v : Glyph} (h : setCell? g y x v = some g2)
    (y1 x1 : Int) :
    cell? g2 y1 x1 = if y1 = y ∧ x1 = x then some v else cell? g y1 x1 := by
  unfold setCell? at h
  cases hl : idx? g y with
  | none => simp [hl] at h
  | some l =>
    simp only [hl, Option.some_bind] at h
    cases hl2 : upd? l x v with
    | none => simp [hl2] at h
    | some l2 =>
      simp only [hl2, Option.some_bind] at h
      unfold cell?
      rw [idx?_upd? h y1]
      by_cases hy : y1 = y
      · subst hy
        simp only [if_true, Option.some_bind, true_and, hl]
        exact idx?_upd? hl2 x1
      · simp [hy]

theorem setCell?_rect {g g2 : List Line} {row col : Int} (hg : Rect g row col) {y x : Int}
    {v : Glyph} (h : setCell? g y x v = some g2) : Rect g2 row col := by
  unfold setCell? at h
  cases hl : idx? g y with
  | none => simp [hl] at h
  | some l =>
    simp only [hl, Option.some_bind] at h
    cases hl2 : upd? l x v with
    | none => simp [hl2] at h
    | some l2 =>
      simp only [hl2, Option.some_bind] at h
      refine ⟨by rw [upd?_length h]; exact hg.1, ?_⟩
      intro w hw
      rcases mem_of_upd? h hw with rfl | hw
      · rw [upd?_length hl2]; exact hg.2 l (idx?_mem hl)
      · exact hg.2 w hw

theorem idx?_row_length {g : List Line} {row col : Int} (hg : Rect g row col) {y : Int} {l : Line}
    (h : idx? g y = some l) : (l.length : Int) = col :=
  hg.2 l (idx?_mem h)

/-! ## Lemmas on dirty flags and clearing -/

@[simp] theorem withLDS_term_line (s : State) (L : List Line) (D : List Bool) (S : Selection) :
    (s.withLDS L D S).term.line = L := rfl

@[simp] theorem withLDS_term_dirty (s : State) (L : List Line) (D : List Bool) (S : Selection) :
    (s.withLDS L D S).term.dirty = D := rfl

@[simp] theorem withLDS_sel (s : State) (L : List Line) (D : List Bool) (S : Selection) :
    (s.withLDS L D S).sel = S := rfl

@[simp] theorem withLDS_term_row (s : State) (L : List Line) (D : List Bool) (S : Selection) :
    (s.withLDS L D S).term.row = s.term.row := rfl

@[simp] theorem withLDS_term_col (s : State) (L : List Line) (D : List Bool) (S : Selection) :
    (s.withLDS L D S).term.col = s.term.col := rfl

@[simp] theorem withLDS_term_c (s : State) (L : List Line) (D : List Bool) (S : Selection) :
    (s.withLDS L D S).term.c = s.term.c := rfl

@[simp] theorem withLDS_term_mode (s : State) (L : List Line) (D : List Bool) (S : Selection) :
    (s.withLDS L D S).term.mode = s.term.mode := rfl

@[simp] theorem withLDS_term_top (s : State) (L : List Line) (D : List Bool) (S : Selection) :
    (s.withLDS L D S).term.top = s.term.top := rfl

@[simp] theorem withLDS_term_bot (s : State) (L : List Line) (D : List Bool) (S : Selection) :
    (s.withLDS L D S).term.bot = s.term.bot := rfl

@[simp] theorem withLDS_term_alt (s : State) (L : List Line) (D : List Bool) (S : Selection) :
    (s.withLDS L D S).term.alt = s.term.alt := rfl

@[simp] theorem withLDS_withLDS (s : State) (L L2 : List Line) (D D2 : List Bool)
    (S S2 : Selection) : (s.withLDS L D S).withLDS L2 D2 S2 = s.withLDS L2 D2 S2 := rfl

@[simp] theorem withLDS_self (s : State) : s.withLDS s.term.line s.term.dirty s.sel = s := rfl

theorem clamp_bounds (x a b : Int) (h : a ≤ b) : a ≤ clamp x a b ∧ clamp x a b ≤ b := by
  unfold clamp imin imax
  split <;> split <;> omega

theorem forUp_dirty (n : Nat) : ∀ (lo : Int) (s : State), 0 ≤ lo → lo + n ≤ s.term.dirty.length →
    ∃ D, forUp (fun i s1 => (upd? s1.term.dirty i true).map
        (fun d => { s1 with term := { s1.term with dirty := d } })) n lo s
        = some (s.withLDS s.term.line D s.sel) ∧ D.length = s.term.dirty.length ∧
      ∀ j, idx? D j = if lo ≤ j ∧ j < lo + n then some true else idx? s.term.dirty j := by
  induction n with
  | zero =>
    intro lo s _ _
    refine ⟨s.term.dirty, rfl, rfl, ?_⟩
    intro j
    split_ifs <;> first | rfl | (exfalso; omega)
  | succ n ih =>
    intro lo s h0 h1
    have hu := upd?_of_bounds s.term.dirty lo true h0 (by omega)
    obtain ⟨D, hD, hlen, hidx⟩ := ih (lo + 1)
      { s with term := { s.term with dirty := s.term.dirty.set lo.toNat true } } (by omega)
      (by simp only [List.length_set]; omega)
    refine ⟨D, ?_, ?_, ?_⟩
    · simp only [forUp, hu, Option.map_some', Option.some_bind]
      exact hD
    · rw [hlen, List.length_set]
    · intro j
      rw [hidx j, idx?_upd? hu j]
      split_ifs <;> first | rfl | (exfalso; omega)

theorem tsetdirt_spec (s : State) (top bot : Int) (hrow : 1 ≤ s.term.row)
    (hd : (s.term.dirty.length : Int) = s.term.row) :
    ∃ D, tsetdirt top bot s = some (s.withLDS s.term.line D s.sel) ∧
      D.length = s.term.dirty.length ∧
      ∀ j, idx? D j = if clamp top 0 (s.term.row - 1) ≤ j ∧ j ≤ clamp bot 0 (s.term.row - 1)
        then some true else idx? s.term.dirty j := by
  have ht := clamp_bounds top 0 (s.term.row - 1) (by omega)
  have hb := clamp_bounds bot 0 (s.term.row - 1) (by omega)
  obtain ⟨D, hD, hlen, hidx⟩ := forUp_dirty
    (clamp bot 0 (s.term.row - 1) + 1 - clamp top 0 (s.term.row - 1)).toNat
    (clamp top 0 (s.term.row - 1)) s ht.1 (by omega)
  refine ⟨D, hD, hlen, ?_⟩
  intro j
  rw [hidx j]
  split_ifs <;> first | rfl | (exfalso; omega)

theorem selclear_spec (s : State) (hrow : 1 ≤ s.term.row)
    (hd : (s.term.dirty.length : Int) = s.term.row) :
    ∃ D S, selclear s = some (s.withLDS s.term.line D S) ∧ D.length = s.term.dirty.length ∧
      S.ob.x = -1 ∧ (s.sel.ob.x = -1 → S = s.sel ∧ D = s.term.dirty) := by
  unfold selclear
  by_cases h : s.sel.ob.x = -1
  · exact ⟨s.term.dirty, s.sel, by simp [h], rfl, h, fun _ => ⟨rfl, rfl⟩⟩
  · obtain ⟨D, hD, hlen, _⟩ := tsetdirt_spec
      { s with sel := { s.sel with mode := SEL_IDLE, ob := { s.sel.ob with x := -1 } } }
      s.sel.nb.y s.sel.ne.y hrow hd
    refine ⟨D, { s.sel with mode := SEL_IDLE, ob := { s.sel.ob with x := -1 } }, ?_, hlen, rfl,
      fun h2 => absurd h2 h⟩
    simp only [h, if_false]
    exact hD

theorem DirtyGe.refl (D : List Bool) : DirtyGe D D := ⟨rfl, fun _ h => h⟩

theorem DirtyGe.trans {D2 D1 D0 : List Bool} (h2 : DirtyGe D2 D1) (h1 : DirtyGe D1 D0) :
    DirtyGe D2 D0 := ⟨h2.1.trans h1.1, fun j h => h2.2 j (h1.2 j h)⟩

theorem tsetdirt_dirtyGe (s : State) (top bot : Int) (hrow : 1 ≤ s.term.row)
    (hd : (s.term.dirty.length : Int) = s.term.row) :
    ∃ D, tsetdirt top bot s = some (s.withLDS s.term.line D s.sel) ∧ DirtyGe D s.term.dirty ∧
      ∀ j, clamp top 0 (s.term.row - 1) ≤ j ∧ j ≤ clamp bot 0 (s.term.row - 1) →
        idx? D j = some true := by
  obtain ⟨D, hD, hlen, hidx⟩ := tsetdirt_spec s top bot hrow hd
  refine ⟨D, hD, ⟨hlen, ?_⟩, ?_⟩
  · intro j hj
    rw [hidx j]
    split_ifs
    · rfl
    · exact hj
  · intro j hj
    rw [hidx j, if_pos hj]

theorem selclear_dirtyGe (s : State) (hrow : 1 ≤ s.term.row)
    (hd : (s.term.dirty.length : Int) = s.term.row) :
    ∃ D S, selclear s = some (s.withLDS s.term.line D S) ∧ DirtyGe D s.term.dirty ∧
      S.ob.x = -1 ∧ (s.sel.ob.x = -1 → S = s.sel) := by
  unfold selclear
  by_cases h : s.sel.ob.x = -1
  · exact ⟨s.term.dirty, s.sel, by simp [h], DirtyGe.refl _, h, fun _ => rfl⟩
  · obtain ⟨D, hD, hge, _⟩ := tsetdirt_dirtyGe
      { s with sel := { s.sel with mode := SEL_IDLE, ob := { s.sel.ob with x := -1 } } }
      s.sel.nb.y s.sel.ne.y hrow hd
    refine ⟨D, { s.sel with mode := SEL_IDLE, ob := { s.sel.ob with x := -1 } }, ?_, hge, rfl,
      fun h2 => absurd h2 h⟩
    simp only [h, if_false]
    exact hD

theorem tclearcell_spec (s : State) (hd : Dims s) (y x : Int)
    (hy : 0 ≤ y ∧ y < s.term.row) (hx : 0 ≤ x ∧ x < s.term.col) :
    ∃ L D S, tclearcell y x s = some (s.withLDS L D S) ∧ DirtyGe D s.term.dirty ∧
      (s.sel.ob.x = -1 → S = s.sel) ∧ setCell? s.term.line y x (clearGlyph s) = some L := by
  obtain ⟨hrow, hcol, hrect, hdl⟩ := hd
  obtain ⟨c, hc⟩ := cell?_isSome hrect y x hy hx
  obtain ⟨L, hL⟩ := setCell?_isSome hc (clearGlyph s)
  unfold tclearcell
  simp only [hc, Option.some_bind]
  by_cases hsel : selected x y s = true
  · obtain ⟨D, S, hs, hge, _, hS⟩ := selclear_dirtyGe s hrow hdl
    refine ⟨L, D, S, ?_, hge, hS, hL⟩
    simp only [hsel, if_true, hs, Option.some_bind, withLDS_term_line, withLDS_term_c]
    have : setCell? s.term.line y x ⟨32, 0, s.term.c.attr.fg, s.term.c.attr.bg⟩ = some L := hL
    rw [this]
    rfl
  · refine ⟨L, s.term.dirty, s.sel, ?_, DirtyGe.refl _, fun _ => rfl, hL⟩
    simp only [hsel, Bool.false_eq_true, if_false, Option.some_bind]
    have : setCell? s.term.line y x ⟨32, 0, s.term.c.attr.fg, s.term.c.attr.bg⟩ = some L := hL
    rw [this]
    rfl

theorem forUp_tclearcell (y : Int) (n : Nat) : ∀ (x : Int) (s : State), Dims s →
    0 ≤ y ∧ y < s.term.row → 0 ≤ x → x + n ≤ s.term.col →
    ∃ L D S, forUp (tclearcell y) n x s = some (s.withLDS L D S) ∧
      Rect L s.term.row s.term.col ∧ DirtyGe D s.term.dirty ∧ (s.sel.ob.x = -1 → S = s.sel) ∧
      ∀ y1 x1, cell? L y1 x1 =
        if y1 = y ∧ x ≤ x1 ∧ x1 < x + n then some (clearGlyph s) else cell? s.term.line y1 x1 := by
  induction n with
  | zero =>
    intro x s hd _ _ _
    refine ⟨s.term.line, s.term.dirty, s.sel, rfl, hd.2.2.1, DirtyGe.refl _, fun _ => rfl, ?_⟩
    intro y1 x1
    split_ifs <;> first | rfl | (exfalso; omega)
  | succ n ih =>
    intro x s hd hy hx0 hx1
    obtain ⟨L1, D1, S1, h1, hge1, hS1, hL1⟩ := tclearcell_spec s hd y x hy ⟨hx0, by omega⟩
    have hd1 : Dims (s.withLDS L1 D1 S1) :=
      ⟨hd.1, hd.2.1, setCell?_rect hd.2.2.1 hL1, by
        simp only [withLDS_term_dirty, withLDS_term_row]; rw [hge1.1]; exact hd.2.2.2⟩
    obtain ⟨L, D, S, h2, hrect, hge, hS, hcell⟩ := ih (x + 1) (s.withLDS L1 D1 S1) hd1 hy
      (by omega) (by simp only [withLDS_term_col]; omega)
    refine ⟨L, D, S, ?_, hrect, hge.trans hge1, ?_, ?_⟩
    · simp only [forUp, h1, Option.some_bind]
      exact h2
    · intro h
      rw [hS (by simp only [withLDS_sel]; rw [hS1 h]; exact h)]
      exact hS1 h
    · intro y1 x1
      rw [hcell y1 x1]
      simp only [withLDS_term_line, cell?_setCell? hL1 y1 x1]
      have e : clearGlyph (s.withLDS L1 D1 S1) = clearGlyph s := rfl
      rw [e]
      split_ifs <;> first | rfl | (exfalso; omega)

theorem tclearrow_spec (s : State) (hd : Dims s) (xa xb y : Int)
    (hy : 0 ≤ y ∧ y < s.term.row) (hxa : 0 ≤ xa ∧ xa < s.term.col) (hxb : xb < s.term.col) :
    ∃ L D S, tclearrow xa xb y s = some (s.withLDS L D S) ∧
      Rect L s.term.row s.term.col ∧ DirtyGe D s.term.dirty ∧ idx? D y = some true ∧
      (s.sel.ob.x = -1 → S = s.sel) ∧
      ∀ y1 x1, cell? L y1 x1 =
        if y1 = y ∧ xa ≤ x1 ∧ x1 ≤ xb then some (clearGlyph s) else cell? s.term.line y1 x1 := by
  have hu := upd?_of_bounds s.term.dirty y true hy.1 (by rw [hd.2.2.2]; exact hy.2)
  have hge0 : DirtyGe (s.term.dirty.set y.toNat true) s.term.dirty := by
    refine ⟨List.length_set _ _ _, ?_⟩
    intro j hj
    rw [idx?_upd? hu j]
    split_ifs
    · rfl
    · exact hj
  have hd1 : Dims (s.withLDS s.term.line (s.term.dirty.set y.toNat true) s.sel) :=
    ⟨hd.1, hd.2.1, hd.2.2.1, by
      simp only [withLDS_term_dirty, withLDS_term_row, List.length_set]; exact hd.2.2.2⟩
  obtain ⟨L, D, S, h, hrect, hge, hS, hcell⟩ := forUp_tclearcell y (xb + 1 - xa).toNat xa
    (s.withLDS s.term.line (s.term.dirty.set y.toNat true) s.sel) hd1 hy hxa.1
    (by simp only [withLDS_term_col]; omega)
  refine ⟨L, D, S, ?_, hrect, hge.trans hge0, ?_, hS, ?_⟩
  · unfold tclearrow
    simp only [hu, Option.some_bind]
    exact h
  · apply hge.2
    simp only [withLDS_term_dirty]
    rw [idx?_upd? hu y, if_pos rfl]
  · intro y1 x1
    rw [hcell y1 x1]
    have e : clearGlyph (s.withLDS s.term.line (s.term.dirty.set y.toNat true) s.sel)
      = clearGlyph s := rfl
    rw [e]
    simp only [withLDS_term_line]
    split_ifs <;> first | rfl | (exfalso; omega)

theorem forUp_tclearrow (xa xb : Int) (n : Nat) : ∀ (y : Int) (s : State), Dims s →
    0 ≤ xa ∧ xa < s.term.col → xb < s.term.col → 0 ≤ y → y + n ≤ s.term.row →
    ∃ L D S, forUp (tclearrow xa xb) n y s = some (s.withLDS L D S) ∧
      Rect L s.term.row s.term.col ∧ DirtyGe D s.term.dirty ∧
      (∀ j, y ≤ j ∧ j < y + n → idx? D j = some true) ∧
      (s.sel.ob.x = -1 → S = s.sel) ∧
      ∀ y1 x1, cell? L y1 x1 =
        if (y ≤ y1 ∧ y1 < y + n) ∧ xa ≤ x1 ∧ x1 ≤ xb then some (clearGlyph s)
        else cell? s.term.line y1 x1 := by
  induction n with
  | zero =>
    intro y s hd _ _ _ _
    refine ⟨s.term.line, s.term.dirty, s.sel, rfl, hd.2.2.1, DirtyGe.refl _, ?_, fun _ => rfl, ?_⟩
    · intro j hj; exfalso; omega
    · intro y1 x1
      split_ifs <;> first | rfl | (exfalso; omega)
  | succ n ih =>
    intro y s hd hxa hxb hy0 hy1
    obtain ⟨L1, D1, S1, h1, hrect1, hge1, hdy, hS1, hcell1⟩ :=
      tclearrow_spec s hd xa xb y ⟨hy0, by omega⟩ hxa hxb
    have hd1 : Dims (s.withLDS L1 D1 S1) :=
      ⟨hd.1, hd.2.1, hrect1, by
        simp only [withLDS_term_dirty, withLDS_term_row]; rw [hge1.1]; exact hd.2.2.2⟩
    obtain ⟨L, D, S, h2, hrect, hge, hdj, hS, hcell⟩ := ih (y + 1) (s.withLDS L1 D1 S1) hd1 hxa
      hxb (by omega) (by simp only [withLDS_term_row]; omega)
    refine ⟨L, D, S, ?_, hrect, hge.trans hge1, ?_, ?_, ?_⟩
    · simp only [forUp, h1, Option.some_bind]
      exact h2
    · intro j hj
      by_cases hjy : j = y
      · subst hjy
        exact hge.2 j hdy
      · exact hdj j (by omega)
    · intro h
      rw [hS (by simp only [withLDS_sel]; rw [hS1 h]; exact h)]
      exact hS1 h
    · intro y1 x1
      rw [hcell y1 x1]
      simp only [withLDS_term_line, hcell1 y1 x1]
      have e : clearGlyph (s.withLDS L1 D1 S1) = clearGlyph s := rfl
      rw [e]
      split_ifs <;> first | rfl | (exfalso; omega)

/-- What `tclearregion` does on a screen of consistent dimensions: the cells of
the clamped rectangle become blank, every other cell is kept, the rows of the
rectangle are dirty, and a selection that is not active stays as it is. -/
theorem tclearregion_spec (s : State) (hd : Dims s) (x1 y1 x2 y2 : Int) :
    ∃ L D S, tclearregion x1 y1 x2 y2 s = some (s.withLDS L D S) ∧
      Rect L s.term.row s.term.col ∧ DirtyGe D s.term.dirty ∧
      (∀ j, clamp (if y1 > y2 then y2 else y1) 0 (s.term.row - 1) ≤ j ∧
          j ≤ clamp (if y1 > y2 then y1 else y2) 0 (s.term.row - 1) → idx? D j = some true) ∧
      (s.sel.ob.x = -1 → S = s.sel) ∧
      ∀ y x, cell? L y x =
        if (clamp (if y1 > y2 then y2 else y1) 0 (s.term.row - 1) ≤ y ∧
            y ≤ clamp (if y1 > y2 then y1 else y2) 0 (s.term.row - 1)) ∧
           clamp (if x1 > x2 then x2 else x1) 0 (s.term.col - 1) ≤ x ∧
            x ≤ clamp (if x1 > x2 then x1 else x2) 0 (s.term.col - 1)
        then some (clearGlyph s) else cell? s.term.line y x := by
  have hxa := clamp_bounds (if x1 > x2 then x2 else x1) 0 (s.term.col - 1) (by have := hd.2.1; omega)
  have hxb := clamp_bounds (if x1 > x2 then x1 else x2) 0 (s.term.col - 1) (by have := hd.2.1; omega)
  have hya := clamp_bounds (if y1 > y2 then y2 else y1) 0 (s.term.row - 1) (by have := hd.1; omega)
  have hyb := clamp_bounds (if y1 > y2 then y1 else y2) 0 (s.term.row - 1) (by have := hd.1; omega)
  obtain ⟨L, D, S, h, hrect, hge, hdj, hS, hcell⟩ := forUp_tclearrow
    (clamp (if x1 > x2 then x2 else x1) 0 (s.term.col - 1))
    (clamp (if x1 > x2 then x1 else x2) 0 (s.term.col - 1))
    (clamp (if y1 > y2 then y1 else y2) 0 (s.term.row - 1) + 1 -
      clamp (if y1 > y2 then y2 else y1) 0 (s.term.row - 1)).toNat
    (clamp (if y1 > y2 then y2 else y1) 0 (s.term.row - 1)) s hd ⟨hxa.1, by omega⟩ (by omega) hya.1 (by omega)
  refine ⟨L, D, S, h, hrect, hge, ?_, hS, ?_⟩
  · intro j hj
    exact hdj j (by omega)
  · intro y x
    rw [hcell y x]
    split_ifs <;> first | rfl | (exfalso; omega)

/-! ## C10 -/

theorem tswapscreen_spec (s : State) (hrow : 1 ≤ s.term.row)
    (hd : (s.term.dirty.length : Int) = s.term.row) :
    ∃ D, tswapscreen s = some { s with term := { s.term with
        line := s.term.alt, alt := s.term.line, mode := s.term.mode ^^^ MODE_ALTSCREEN,
        dirty := D } } ∧ D.length = s.term.dirty.length := by
  obtain ⟨D, hD, hlen, _⟩ := tsetdirt_spec { s with term := { s.term with
    line := s.term.alt, alt := s.term.line, mode := s.term.mode ^^^ MODE_ALTSCREEN } }
    0 (s.term.row - 1) hrow hd
  exact ⟨D, hD, hlen⟩

theorem tmoveto_in_bounds (s : State) (x y : Int)
    (hx : 0 ≤ x ∧ x < s.term.col) (hy : 0 ≤ y ∧ y < s.term.row)
    (ho : has s.term.c.state CURSOR_ORIGIN = true → s.term.top ≤ y ∧ y ≤ s.term.bot) :
    (tmoveto x y s).term.c.x = x ∧ (tmoveto x y s).term.c.y = y := by
  simp only [tmoveto]
  refine ⟨clamp_of_mem _ _ _ hx.1 (by omega), ?_⟩
  by_cases h : has s.term.c.state CURSOR_ORIGIN = true
  · have := ho h
    simp only [h, if_true]
    exact clamp_of_mem _ _ _ this.1 this.2
  · simp only [h, Bool.false_eq_true, if_false]
    exact clamp_of_mem _ _ _ hy.1 (by omega)

theorem has_altscreen_xor (m : Nat) :
    has (m ^^^ MODE_ALTSCREEN) MODE_ALTSCREEN = !has m MODE_ALTSCREEN :=
  has_xor_two_pow m 2

theorem tsetmodeOne_1049_set (s : State) (hd : Dims s)
    (halt : has s.term.mode MODE_ALTSCREEN = false) :
    ∃ D, tsetmodeOne true true 1049 s = some { s with term := { s.term with
        line := s.term.alt, alt := s.term.line, mode := s.term.mode ^^^ MODE_ALTSCREEN,
        dirty := D, tc0 := s.term.c, tc1 := s.term.c } } := by
  obtain ⟨D, hD, _⟩ := tswapscreen_spec { s with term := { s.term with tc0 := s.term.c } }
    hd.1 hd.2.2.2
  refine ⟨D, ?_⟩
  have hm := has_altscreen_xor s.term.mode
  rw [halt] at hm
  simp +decide [tsetmodeOne, tsetmodeAlt, allowaltscreen, tcursor, CURSOR_SAVE, halt, hD, hm]

theorem tcursor_load_alt (s : State) (halt : has s.term.mode MODE_ALTSCREEN = true) :
    tcursor CURSOR_LOAD s =
      tmoveto s.term.tc1.x s.term.tc1.y { s with term := { s.term with c := s.term.tc1 } } := by
  simp +decide [tcursor, halt]

theorem tcursor_load_prim (s : State) (halt : has s.term.mode MODE_ALTSCREEN = false) :
    tcursor CURSOR_LOAD s =
      tmoveto s.term.tc0.x s.term.tc0.y { s with term := { s.term with c := s.term.tc0 } } := by
  simp +decide [tcursor, halt]

theorem tsetmodeOne_1049_reset (t : State) (hd : Dims t)
    (halt : has t.term.mode MODE_ALTSCREEN = true) :
    ∃ L D S, tsetmodeOne true false 1049 t = some
      (tmoveto t.term.tc0.x t.term.tc0.y { t with
        term := { t.term with
          line := t.term.alt, alt := L, mode := t.term.mode ^^^ MODE_ALTSCREEN,
          dirty := D, c := t.term.tc0 }
        sel := S }) := by
  have hd1 : Dims (tcursor CURSOR_LOAD t) := by
    rw [tcursor_load_alt t halt]
    exact hd
  have e1 : (tcursor CURSOR_LOAD t).term.mode = t.term.mode := by
    rw [tcursor_load_alt t halt]; rfl
  have e2 : (tcursor CURSOR_LOAD t).term.col = t.term.col := by
    rw [tcursor_load_alt t halt]; rfl
  have e3 : (tcursor CURSOR_LOAD t).term.row = t.term.row := by
    rw [tcursor_load_alt t halt]; rfl
  obtain ⟨L, D1, S, hc, hrect, hge, _, _, _⟩ := tclearregion_spec (tcursor CURSOR_LOAD t) hd1
    0 0 ((tcursor CURSOR_LOAD t).term.col - 1) ((tcursor CURSOR_LOAD t).term.row - 1)
  obtain ⟨D, hD, _⟩ := tswapscreen_spec ((tcursor CURSOR_LOAD t).withLDS L D1 S) hd1.1
    (by simp only [withLDS_term_dirty, withLDS_term_row]; rw [hge.1]; exact hd1.2.2.2)
  refine ⟨L, D, S, ?_⟩
  have hm := has_altscreen_xor t.term.mode
  rw [halt] at hm
  have hm2 : has ((tcursor CURSOR_LOAD t).term.mode ^^^ MODE_ALTSCREEN) MODE_ALTSCREEN = false := by
    rw [e1, hm]; rfl
  have step : tsetmodeOne true false 1049 t =
      (tclearregion 0 0 ((tcursor CURSOR_LOAD t).term.col - 1)
          ((tcursor CURSOR_LOAD t).term.row - 1) (tcursor CURSOR_LOAD t)).bind
        (fun a => (tswapscreen a).bind fun b => some (tcursor CURSOR_LOAD b)) := by
    simp +decide [tsetmodeOne, tsetmodeAlt, allowaltscreen, e1, halt]
  rw [step, hc]
  simp only [Option.some_bind]
  rw [hD]
  simp only [Option.some_bind]
  rw [tcursor_load_prim _ (by simpa using hm2)]
  rw [tcursor_load_alt t halt]
  rfl

/-- C10: with the primary screen active, `tsetmode(true, true, [1049])` saves the
cursor and makes the alternate screen active, keeping the primary screen as the
inactive one; and from any later state `t` that still holds that inactive screen,
that saved cursor, the geometry and the scroll region, and has the alternate
screen active, `tsetmode(true, false, [1049])` makes the primary screen active
again with every cell and the cursor column and row as before the first call. -/
theorem C10_altscreen_roundtrip (s t : State) (hd : Dims s)
    (halt : has s.term.mode MODE_ALTSCREEN = false)
    (hcx : 0 ≤ s.term.c.x ∧ s.term.c.x < s.term.col)
    (hcy : 0 ≤ s.term.c.y ∧ s.term.c.y < s.term.row)
    (horigin : has s.term.c.state CURSOR_ORIGIN = true →
      s.term.top ≤ s.term.c.y ∧ s.term.c.y ≤ s.term.bot)
    (htalt : has t.term.mode MODE_ALTSCREEN = true)
    (htd : Dims t)
    (hrow : t.term.row = s.term.row) (hcol : t.term.col = s.term.col)
    (htop : t.term.top = s.term.top) (hbot : t.term.bot = s.term.bot)
    (hprim : t.term.alt = s.term.line) (hsaved : t.term.tc0 = s.term.c) :
    (∃ s1, tsetmode true true [1049] s = some s1 ∧
      has s1.term.mode MODE_ALTSCREEN = true ∧ s1.term.alt = s.term.line ∧
      s1.term.tc0 = s.term.c ∧ s1.term.row = s.term.row ∧ s1.term.col = s.term.col ∧
      s1.term.top = s.term.top ∧ s1.term.bot = s.term.bot) ∧
    (∃ s2, tsetmode true false [1049] t = some s2 ∧
      s2.term.line = s.term.line ∧ s2.term.c.x = s.term.c.x ∧ s2.term.c.y = s.term.c.y ∧
      has s2.term.mode MODE_ALTSCREEN = false) := by
  constructor
  · obtain ⟨D, hD⟩ := tsetmodeOne_1049_set s hd halt
    have hm := has_altscreen_xor s.term.mode
    rw [halt] at hm
    refine ⟨{ s with term := { s.term with
        line := s.term.alt, alt := s.term.line, mode := s.term.mode ^^^ MODE_ALTSCREEN,
        dirty := D, tc0 := s.term.c, tc1 := s.term.c } }, ?_, hm, rfl, rfl, rfl, rfl, rfl, rfl⟩
    simp only [tsetmode, hD, Option.some_bind]
  · obtain ⟨L, D, S, h⟩ := tsetmodeOne_1049_reset t htd htalt
    have hm := has_altscreen_xor t.term.mode
    rw [htalt] at hm
    have hmv := tmoveto_in_bounds { t with
        term := { t.term with
          line := t.term.alt, alt := L, mode := t.term.mode ^^^ MODE_ALTSCREEN,
          dirty := D, c := t.term.tc0 }
        sel := S } t.term.tc0.x t.term.tc0.y
      (by show 0 ≤ t.term.tc0.x ∧ t.term.tc0.x < t.term.col; rw [hsaved, hcol]; exact hcx)
      (by show 0 ≤ t.term.tc0.y ∧ t.term.tc0.y < t.term.row; rw [hsaved, hrow]; exact hcy)
      (by
        show has t.term.tc0.state CURSOR_ORIGIN = true →
          t.term.top ≤ t.term.tc0.y ∧ t.term.tc0.y ≤ t.term.bot
        rw [hsaved, htop, hbot]; exact horigin)
    refine ⟨tmoveto t.term.tc0.x t.term.tc0.y { t with
        term := { t.term with
          line := t.term.alt, alt := L, mode := t.term.mode ^^^ MODE_ALTSCREEN,
          dirty := D, c := t.term.tc0 }
        sel := S }, ?_, ?_, ?_, ?_, ?_⟩
    · simp only [tsetmode, h, Option.some_bind]
    · exact hprim
    · rw [hmv.1, hsaved]
    · rw [hmv.2, hsaved]
    · exact hm

theorem C10_altscreen_roundtrip_witness :
    (∃ s1, tsetmode true true [1049] (sampleState 3 2 abcScreen (blankScreen 3 2) 2 1) = some s1 ∧
      has s1.term.mode MODE_ALTSCREEN = true ∧ s1.term.alt = abcScreen ∧
      s1.term.tc0 = ⟨⟨0, 0, defaultfg, defaultbg⟩, 2, 1, 0⟩ ∧ s1.term.row = 2 ∧ s1.term.col = 3 ∧
      s1.term.top = 0 ∧ s1.term.bot = 1) ∧
    (∃ s2, tsetmode true false [1049] altDemo = some s2 ∧
      s2.term.line = abcScreen ∧ s2.term.c.x = 2 ∧ s2.term.c.y = 1 ∧
      has s2.term.mode MODE_ALTSCREEN = false) :=
  C10_altscreen_roundtrip (sampleState 3 2 abcScreen (blankScreen 3 2) 2 1) altDemo
    (by decide) (by decide) (by decide) (by decide) (by decide) (by decide) (by decide)
    (by decide) (by decide) (by decide) (by decide) (by decide) (by decide)

/-! ## C7 -/

theorem tlinelenLoop_some (l : Line) (n : Nat) : ∀ i : Int, i ≤ l.length →
    ∃ r, tlinelenLoop l n i = some r ∧ r ≤ i ∧ (0 ≤ i → 0 ≤ r) := by
  induction n with
  | zero => intro i _; exact ⟨i, rfl, le_refl _, fun h => h⟩
  | succ n ih =>
    intro i hi
    unfold tlinelenLoop
    by_cases h : i > 0
    · obtain ⟨g, hg⟩ := idx?_isSome l (i - 1) (by omega) (by omega)
      simp only [h, if_true, hg, Option.some_bind]
      by_cases hu : g.u = 32
      · obtain ⟨r, hr, h1, h2⟩ := ih (i - 1) (by omega)
        simp only [hu, if_true]
        exact ⟨r, hr, by omega, fun _ => h2 (by omega)⟩
      · simp only [hu, if_false]
        exact ⟨i, rfl, le_refl _, fun h => h⟩
    · simp only [h, if_false]
      exact ⟨i, rfl, le_refl _, fun h => h⟩

theorem tlinelen_some (s : State) (y : Int) (hrect : Rect s.term.line s.term.row s.term.col)
    (hcol : 1 ≤ s.term.col) (hy : 0 ≤ y ∧ y < s.term.row) :
    ∃ r, tlinelen y s = some r ∧ 0 ≤ r ∧ r ≤ s.term.col := by
  obtain ⟨l, hl⟩ := idx?_isSome s.term.line y hy.1 (by rw [hrect.1]; exact hy.2)
  have hlen := idx?_row_length hrect hl
  obtain ⟨g, hg⟩ := idx?_isSome l (s.term.col - 1) (by omega) (by omega)
  unfold tlinelen
  simp only [hl, hg, Option.some_bind]
  by_cases hw : has g.mode ATTR_WRAP = true
  · simp only [hw, if_true]
    exact ⟨_, rfl, by omega, le_refl _⟩
  · obtain ⟨r, hr, h1, h2⟩ := tlinelenLoop_some l s.term.col.toNat s.term.col (by omega)
    simp only [hw, Bool.false_eq_true, if_false]
    exact ⟨r, hr, h2 (by omega), h1⟩

theorem selnormalize_two_rows (s : State) (i j : Int)
    (htyp : s.sel.typ = SEL_REGULAR) (hsnap : s.sel.snap = 0) (hne : s.sel.ob.y ≠ s.sel.oe.y)
    (hi : tlinelen (imin s.sel.ob.y s.sel.oe.y) s = some i)
    (hj : tlinelen (imax s.sel.ob.y s.sel.oe.y) s = some j) :
    selnormalize s = some { s with sel := { s.sel with
      nb := ⟨if i < (if s.sel.ob.y < s.sel.oe.y then s.sel.ob.x else s.sel.oe.x) then i
             else (if s.sel.ob.y < s.sel.oe.y then s.sel.ob.x else s.sel.oe.x),
             imin s.sel.ob.y s.sel.oe.y⟩,
      ne := ⟨if j ≤ (if s.sel.ob.y < s.sel.oe.y then s.sel.oe.x else s.sel.ob.x) then s.term.col - 1
             else (if s.sel.ob.y < s.sel.oe.y then s.sel.oe.x else s.sel.ob.x),
             imax s.sel.ob.y s.sel.oe.y⟩ } } := by
  simp +decide [selnormalize, selsnap, htyp, hsnap, hne, hi, hj, SEL_REGULAR,
    SEL_RECTANGULAR, SNAP_WORD, SNAP_LINE]

/-- C7: for a regular selection without snapping and two points with `y1 < y2`
on rows of the grid, `selnormalize` returns, and yields the same normalized
bounds `nb` and `ne` whichever of the two points is the anchor. -/
theorem C7_selnormalize_symmetric (s : State) (x1 y1 x2 y2 : Int)
    (hrect : Rect s.term.line s.term.row s.term.col) (hcol : 1 ≤ s.term.col)
    (hy : y1 < y2) (hy1 : 0 ≤ y1) (hy2 : y2 < s.term.row)
    (htyp : s.sel.typ = SEL_REGULAR) (hsnap : s.sel.snap = 0) :
    ∃ a b,
      selnormalize { s with sel := { s.sel with ob := ⟨x1, y1⟩, oe := ⟨x2, y2⟩ } } = some a ∧
      selnormalize { s with sel := { s.sel with ob := ⟨x2, y2⟩, oe := ⟨x1, y1⟩ } } = some b ∧
      a.sel.nb = b.sel.nb ∧ a.sel.ne = b.sel.ne ∧
      a.sel.nb.y = y1 ∧ a.sel.ne.y = y2 := by
  obtain ⟨i, hi, _⟩ := tlinelen_some s y1 hrect hcol ⟨hy1, by omega⟩
  obtain ⟨j, hj, _⟩ := tlinelen_some s y2 hrect hcol ⟨by omega, hy2⟩
  have hmin : imin y1 y2 = y1 := by unfold imin; simp [hy]
  have hmax : imax y1 y2 = y2 := by unfold imax; split <;> omega
  have hmin2 : imin y2 y1 = y1 := by unfold imin; split <;> omega
  have hmax2 : imax y2 y1 = y2 := by unfold imax; simp [hy]
  have hnlt : ¬ y2 < y1 := by omega
  have ea := selnormalize_two_rows
    { s with sel := { s.sel with ob := ⟨x1, y1⟩, oe := ⟨x2, y2⟩ } } i j htyp hsnap
    (by show y1 ≠ y2; omega) (by show tlinelen (imin y1 y2) _ = _; rw [hmin]; exact hi)
    (by show tlinelen (imax y1 y2) _ = _; rw [hmax]; exact hj)
  have eb := selnormalize_two_rows
    { s with sel := { s.sel with ob := ⟨x2, y2⟩, oe := ⟨x1, y1⟩ } } i j htyp hsnap
    (by show y2 ≠ y1; omega) (by show tlinelen (imin y2 y1) _ = _; rw [hmin2]; exact hi)
    (by show tlinelen (imax y2 y1) _ = _; rw [hmax2]; exact hj)
  refine ⟨_, _, ea, eb, ?_, ?_, ?_, ?_⟩
  · simp [hy, hnlt, hmin, hmin2]
  · simp [hy, hnlt, hmax, hmax2]
  · simp [hmin]
  · simp [hmax]

theorem C7_selnormalize_symmetric_witness :
    ∃ a b,
      selnormalize { sampleState 10 3 (blankScreen 10 3) (blankScreen 10 3) 0 0 with
        sel := ⟨SEL_EMPTY, SEL_REGULAR, 0, ⟨0, 0⟩, ⟨0, 0⟩, ⟨7, 0⟩, ⟨2, 2⟩, false⟩ } = some a ∧
      selnormalize { sampleState 10 3 (blankScreen 10 3) (blankScreen 10 3) 0 0 with
        sel := ⟨SEL_EMPTY, SEL_REGULAR, 0, ⟨0, 0⟩, ⟨0, 0⟩, ⟨2, 2⟩, ⟨7, 0⟩, false⟩ } = some b ∧
      a.sel.nb = b.sel.nb ∧ a.sel.ne = b.sel.ne ∧ a.sel.nb.y = 0 ∧ a.sel.ne.y = 2 :=
  C7_selnormalize_symmetric
    { sampleState 10 3 (blankScreen 10 3) (blankScreen 10 3) 0 0 with
      sel := ⟨SEL_EMPTY, SEL_REGULAR, 0, ⟨0, 0⟩, ⟨0, 0⟩, ⟨0, 0⟩, ⟨0, 0⟩, false⟩ }
    7 0 2 2 (by decide) (by decide) (by decide) (by decide) (by decide) (by decide) (by decide)

/-! ## C5 and C8: the program at the failing inputs -/

/-- C5: on a fresh terminal of one row of four cells the input `a`, U+4E2D, `b`
gives a row that satisfies the wide-pair predicate; after a carriage return, a
second U+4E2D printed at column 0 overwrites the wide cell at column 1 with a
dummy and leaves the dummy at column 2 without a wide cell to its left. -/
theorem C5_orphan_dummy :
    (feed cjkEnv [97, 0x4e2d, 98] (sampleState 4 1 (blankScreen 4 1) (blankScreen 4 1) 0 0)).map
        (fun t => (t.term.line.map (fun l => l.map Glyph.mode), pairOk t.term.line))
      = some ([[0, 512, 1024, 0]], true) ∧
    (feed cjkEnv [97, 0x4e2d, 98, 13, 0x4e2d]
        (sampleState 4 1 (blankScreen 4 1) (blankScreen 4 1) 0 0)).map
        (fun t => (t.term.line.map (fun l => l.map Glyph.mode), pairOk t.term.line))
      = some ([[512, 1024, 1024, 0]], false) := by
  constructor <;> decide

/-- C8: on the row `foo bar`, `selstart` with word snap at column 1 yields the
bounds 1 and 1, at column 2 the bounds 2 and 2, and at column 0 it indexes the
row at -1. -/
theorem C8_word_snap_stuck :
    (selstart 1 1 SNAP_WORD fooBarState).map (fun t => (t.sel.nb.x, t.sel.ne.x)) = some (1, 1) ∧
    (selstart 2 1 SNAP_WORD fooBarState).map (fun t => (t.sel.nb.x, t.sel.ne.x)) = some (2, 2) ∧
    selstart 0 1 SNAP_WORD fooBarState = none := by
  refine ⟨?_, ?_, ?_⟩ <;> decide

/-! ## `tsetchar` -/

theorem tsetcharRune_some (u : Int) (s : State)
    (hcs : 0 ≤ s.term.charset ∧ s.term.charset < s.term.trantbl.length) :
    ∃ u1, tsetcharRune u s = some u1 := by
  obtain ⟨cs, hcs1⟩ := idx?_isSome s.term.trantbl s.term.charset hcs.1 hcs.2
  unfold tsetcharRune
  simp only [hcs1, Option.some_bind]
  by_cases h : cs = CS_GRAPHIC0 ∧ 0x41 ≤ u ∧ u ≤ 0x7e
  · obtain ⟨v, hv⟩ := idx?_isSome vt100_0 (u - 0x41) (by omega)
      (by have : vt100_0.length = 62 := by decide
          rw [this]; omega)
    simp only [h, and_self, if_true, hv, Option.some_bind]
    split <;> exact ⟨_, rfl⟩
  · simp only [h, if_false]
    exact ⟨_, rfl⟩

/-- The four outcomes of the repair step of `tsetchar` on a cell `c` at `(x, y)`. -/
theorem tsetcharFix_cases (s : State) (x y : Int) (c : Glyph)
    (hrect : Rect s.term.line s.term.row s.term.col)
    (hc : cell? s.term.line y x = some c)
    (hx0 : has c.mode ATTR_WIDE = false → has c.mode ATTR_WDUMMY = true → 1 ≤ x) :
    ∃ g1, tsetcharFix x y s = some g1 ∧ Rect g1 s.term.row s.term.col ∧
      ((has c.mode ATTR_WIDE = true ∧ x + 1 < s.term.col ∧
          ∃ h, cell? s.term.line y (x + 1) = some h ∧
            setCell? s.term.line y (x + 1)
              { h with u := 32, mode := andNot h.mode ATTR_WDUMMY } = some g1) ∨
       (has c.mode ATTR_WIDE = true ∧ ¬ x + 1 < s.term.col ∧ g1 = s.term.line) ∨
       (has c.mode ATTR_WIDE = false ∧ has c.mode ATTR_WDUMMY = true ∧
          ∃ h, cell? s.term.line y (x - 1) = some h ∧
            setCell? s.term.line y (x - 1)
              { h with u := 32, mode := andNot h.mode ATTR_WIDE } = some g1) ∨
       (has c.mode ATTR_WIDE = false ∧ has c.mode ATTR_WDUMMY = false ∧ g1 = s.term.line)) := by
  have hb := cell?_bounds hrect hc
  by_cases hw : has c.mode ATTR_WIDE = true
  · by_cases hx : x + 1 < s.term.col
    · obtain ⟨h, hh⟩ := cell?_isSome hrect y (x + 1) hb.1 ⟨by omega, hx⟩
      obtain ⟨g1, hg1⟩ := setCell?_isSome hh { h with u := 32, mode := andNot h.mode ATTR_WDUMMY }
      have hval : tsetcharFix x y s = some g1 := by
        unfold tsetcharFix
        simp only [hc, Option.some_bind, hw, if_true, hx, hh]
        exact hg1
      exact ⟨g1, hval, setCell?_rect hrect hg1, Or.inl ⟨hw, hx, h, hh, hg1⟩⟩
    · have hval : tsetcharFix x y s = some s.term.line := by
        unfold tsetcharFix
        simp only [hc, Option.some_bind, hw, if_true, hx, if_false]
      exact ⟨_, hval, hrect, Or.inr (Or.inl ⟨hw, hx, rfl⟩)⟩
  · have hw2 : has c.mode ATTR_WIDE = false := by simpa using hw
    by_cases hdm : has c.mode ATTR_WDUMMY = true
    · have h1 := hx0 hw2 hdm
      obtain ⟨h, hh⟩ := cell?_isSome hrect y (x - 1) hb.1 ⟨by omega, by omega⟩
      obtain ⟨g1, hg1⟩ := setCell?_isSome hh { h with u := 32, mode := andNot h.mode ATTR_WIDE }
      have hval : tsetcharFix x y s = some g1 := by
        unfold tsetcharFix
        simp only [hc, Option.some_bind, hw2, Bool.false_eq_true, if_false, hdm, if_true, hh]
        exact hg1
      exact ⟨g1, hval, setCell?_rect hrect hg1, Or.inr (Or.inr (Or.inl ⟨hw2, hdm, h, hh, hg1⟩))⟩
    · have hdm2 : has c.mode ATTR_WDUMMY = false := by simpa using hdm
      have hval : tsetcharFix x y s = some s.term.line := by
        unfold tsetcharFix
        simp only [hc, Option.some_bind, hw2, Bool.false_eq_true, if_false, hdm2]
      exact ⟨_, hval, hrect, Or.inr (Or.inr (Or.inr ⟨hw2, hdm2, rfl⟩))⟩

/-- What `tsetchar` does on a screen of consistent dimensions: the repair step,
then the row is marked dirty and the cell takes the template with the
translated rune. -/
theorem tsetchar_spec (u : Int) (attr : Glyph) (x y : Int) (s : State) (c : Glyph)
    (hd : Dims s) (hcs : 0 ≤ s.term.charset ∧ s.term.charset < s.term.trantbl.length)
    (hc : cell? s.term.line y x = some c)
    (hx0 : has c.mode ATTR_WIDE = false → has c.mode ATTR_WDUMMY = true → 1 ≤ x) :
    ∃ u1 g1 L D, tsetcharRune u s = some u1 ∧ tsetcharFix x y s = some g1 ∧
      setCell? g1 y x { attr with u := u1 } = some L ∧
      tsetchar u attr x y s = some (s.withLDS L D s.sel) ∧
      Rect L s.term.row s.term.col ∧ DirtyGe D s.term.dirty ∧ idx? D y = some true := by
  obtain ⟨hrow, hcol, hrect, hdl⟩ := hd
  have hb := cell?_bounds hrect hc
  obtain ⟨u1, hu1⟩ := tsetcharRune_some u s hcs
  obtain ⟨g1, hg1, hrect1, _⟩ := tsetcharFix_cases s x y c hrect hc hx0
  obtain ⟨c1, hc1⟩ := cell?_isSome hrect1 y x hb.1 hb.2
  obtain ⟨L, hL⟩ := setCell?_isSome hc1 { attr with u := u1 }
  have hu := upd?_of_bounds s.term.dirty y true hb.1.1 (by rw [hdl]; exact hb.1.2)
  refine ⟨u1, g1, L, s.term.dirty.set y.toNat true, hu1, hg1, hL, ?_, setCell?_rect hrect1 hL,
    ⟨List.length_set _ _ _, ?_⟩, ?_⟩
  · unfold tsetchar
    simp only [hu1, hg1, hu, hL, Option.some_bind, Option.map_some']
    rfl
  · intro j hj
    rw [idx?_upd? hu j]
    split_ifs
    · rfl
    · exact hj
  · rw [idx?_upd? hu y, if_pos rfl]

/-! ## C4 -/

/-- C4: on a screen of consistent dimensions, `tsetchar` at a cell `(x, y)` that
carries the wide-dummy tag with `x ≥ 1` returns, and leaves cell `(x-1, y)` with
its wide tag cleared and the space as codepoint; at a cell that carries the wide
tag with `x + 1 < cols` it returns and leaves cell `(x+1, y)` with its wide-dummy
tag cleared and the space as codepoint. Colours and the other attribute bits of
the repaired cell are kept. The wide-dummy cell is taken without the wide tag,
as every cell of the screens of the program is: the wide tag is stored with
`|= ATTR_WIDE` on the copy of the cursor template that `tsetchar` has just
written, the wide-dummy tag with `= ATTR_WDUMMY` on the cell to its right, and
the two repairs of `tsetchar` clear a tag. -/
theorem C4_tsetchar_repairs_pair (u : Int) (attr : Glyph) (x y : Int) (s : State) (c : Glyph)
    (hd : Dims s) (hcs : 0 ≤ s.term.charset ∧ s.term.charset < s.term.trantbl.length)
    (hc : cell? s.term.line y x = some c) :
    (has c.mode ATTR_WDUMMY = true → has c.mode ATTR_WIDE = false → 1 ≤ x →
      ∃ s1 h, tsetchar u attr x y s = some s1 ∧ cell? s.term.line y (x - 1) = some h ∧
        cell? s1.term.line y (x - 1) = some { h with u := 32, mode := andNot h.mode ATTR_WIDE } ∧
        has (andNot h.mode ATTR_WIDE) ATTR_WIDE = false) ∧
    (has c.mode ATTR_WIDE = true → x + 1 < s.term.col →
      ∃ s1 h, tsetchar u attr x y s = some s1 ∧ cell? s.term.line y (x + 1) = some h ∧
        cell? s1.term.line y (x + 1) = some { h with u := 32, mode := andNot h.mode ATTR_WDUMMY } ∧
        has (andNot h.mode ATTR_WDUMMY) ATTR_WDUMMY = false) := by
  constructor
  · intro hdm hw hx
    obtain ⟨u1, g1, L, D, _, hfix, hL, hval, _⟩ :=
      tsetchar_spec u attr x y s c hd hcs hc (fun _ _ => hx)
    obtain ⟨g2, hfix2, _, hcase⟩ := tsetcharFix_cases s x y c hd.2.2.1 hc (fun _ _ => hx)
    have hg : g2 = g1 := by rw [hfix] at hfix2; exact (Option.some.inj hfix2).symm
    subst hg
    rcases hcase with ⟨h1, _⟩ | ⟨h1, _⟩ | ⟨_, _, h, hh, hset⟩ | ⟨_, h1, _⟩
    · rw [hw] at h1; exact absurd h1 (by decide)
    · rw [hw] at h1; exact absurd h1 (by decide)
    · refine ⟨_, h, hval, hh, ?_, has_andNot_of_subset _ _ _ (by decide)⟩
      simp only [withLDS_term_line]
      rw [cell?_setCell? hL, cell?_setCell? hset]
      have : ¬ (y = y ∧ x - 1 = x) := by omega
      simp [this]
    · rw [hdm] at h1; exact absurd h1 (by decide)
  · intro hw hx
    obtain ⟨u1, g1, L, D, _, hfix, hL, hval, _⟩ :=
      tsetchar_spec u attr x y s c hd hcs hc (fun h _ => by rw [hw] at h; exact absurd h (by decide))
    obtain ⟨g2, hfix2, _, hcase⟩ := tsetcharFix_cases s x y c hd.2.2.1 hc
      (fun h _ => by rw [hw] at h; exact absurd h (by decide))
    have hg : g2 = g1 := by rw [hfix] at hfix2; exact (Option.some.inj hfix2).symm
    subst hg
    rcases hcase with ⟨_, _, h, hh, hset⟩ | ⟨_, h1, _⟩ | ⟨h1, _⟩ | ⟨h1, _⟩
    · refine ⟨_, h, hval, hh, ?_, has_andNot_of_subset _ _ _ (by decide)⟩
      simp only [withLDS_term_line]
      rw [cell?_setCell? hL, cell?_setCell? hset]
      have : ¬ (y = y ∧ x + 1 = x) := by omega
      simp [this]
    · exact absurd hx h1
    · rw [hw] at h1; exact absurd h1 (by decide)
    · rw [hw] at h1; exact absurd h1 (by decide)

theorem C4_tsetchar_repairs_pair_witness :
    (∃ s1 h, tsetchar 120 ⟨0, 0, 7, 0⟩ 1 0 (sampleState 4 1 [widePairRow] (blankScreen 4 1) 0 0)
        = some s1 ∧ cell? [widePairRow] 0 (1 - 1) = some h ∧
        cell? s1.term.line 0 (1 - 1) = some { h with u := 32, mode := andNot h.mode ATTR_WIDE } ∧
        has (andNot h.mode ATTR_WIDE) ATTR_WIDE = false) ∧
    (∃ s1 h, tsetchar 120 ⟨0, 0, 7, 0⟩ 0 0 (sampleState 4 1 [widePairRow] (blankScreen 4 1) 0 0)
        = some s1 ∧ cell? [widePairRow] 0 (0 + 1) = some h ∧
        cell? s1.term.line 0 (0 + 1) = some { h with u := 32, mode := andNot h.mode ATTR_WDUMMY } ∧
        has (andNot h.mode ATTR_WDUMMY) ATTR_WDUMMY = false) :=
  ⟨(C4_tsetchar_repairs_pair 120 ⟨0, 0, 7, 0⟩ 1 0
      (sampleState 4 1 [widePairRow] (blankScreen 4 1) 0 0) ⟨0, ATTR_WDUMMY, 7, 0⟩
      (by decide) (by decide) (by decide)).1 (by decide) (by decide) (by decide),
   (C4_tsetchar_repairs_pair 120 ⟨0, 0, 7, 0⟩ 0 0
      (sampleState 4 1 [widePairRow] (blankScreen 4 1) 0 0) ⟨0x4e2d, ATTR_WIDE, 7, 0⟩
      (by decide) (by decide) (by decide)).2 (by decide) (by decide)⟩

/-- The function `tsetchar` keeps the two tags of a wide pair exclusive: when no
cell of the screen carries both the wide and the wide-dummy tag and the glyph to
store does not either, no cell does afterwards. The stored cell is a copy of the
glyph, and a repaired neighbour has lost one of the tags. -/
theorem tsetchar_tags_exclusive (u : Int) (attr : Glyph) (x y : Int) (s s1 : State) (c : Glyph)
    (hd : Dims s) (hcs : 0 ≤ s.term.charset ∧ s.term.charset < s.term.trantbl.length)
    (hc : cell? s.term.line y x = some c)
    (hx0 : has c.mode ATTR_WIDE = false → has c.mode ATTR_WDUMMY = true → 1 ≤ x)
    (h1 : tsetchar u attr x y s = some s1)
    (hattr : has attr.mode ATTR_WIDE = false ∨ has attr.mode ATTR_WDUMMY = false)
    (hall : ∀ y1 x1 g, cell? s.term.line y1 x1 = some g →
      has g.mode ATTR_WIDE = false ∨ has g.mode ATTR_WDUMMY = false) :
    ∀ y1 x1 g, cell? s1.term.line y1 x1 = some g →
      has g.mode ATTR_WIDE = false ∨ has g.mode ATTR_WDUMMY = false := by
  obtain ⟨u1, g1, L, D, _, hfix, hL, hval, _, _, _⟩ := tsetchar_spec u attr x y s c hd hcs hc hx0
  obtain ⟨g2, hfix2, _, hcase⟩ := tsetcharFix_cases s x y c hd.2.2.1 hc hx0
  have hgg : g2 = g1 := by rw [hfix] at hfix2; exact (Option.some.inj hfix2).symm
  subst hgg
  rw [hval] at h1
  have hs1 : s1.term.line = L := by rw [← Option.some.inj h1]; rfl
  intro y1 x1 g hg
  rw [hs1, cell?_setCell? hL] at hg
  by_cases hxy : y1 = y ∧ x1 = x
  · rw [if_pos hxy] at hg
    rw [← Option.some.inj hg]
    exact hattr
  · rw [if_neg hxy] at hg
    rcases hcase with ⟨_, _, h, _, hset⟩ | ⟨_, _, e⟩ | ⟨_, _, h, _, hset⟩ | ⟨_, _, e⟩
    · rw [cell?_setCell? hset] at hg
      by_cases hn : y1 = y ∧ x1 = x + 1
      · rw [if_pos hn] at hg
        rw [← Option.some.inj hg]
        exact Or.inr (has_andNot_of_subset _ _ _ (by decide))
      · rw [if_neg hn] at hg
        exact hall _ _ _ hg
    · rw [e] at hg
      exact hall _ _ _ hg
    · rw [cell?_setCell? hset] at hg
      by_cases hn : y1 = y ∧ x1 = x - 1
      · rw [if_pos hn] at hg
        rw [← Option.some.inj hg]
        exact Or.inl (has_andNot_of_subset _ _ _ (by decide))
      · rw [if_neg hn] at hg
        exact hall _ _ _ hg
    · rw [e] at hg
      exact hall _ _ _ hg

/-- The order of the two tests of `tsetchar` on a hand-built row: cell 1 of
`bothTagsRow` carries the wide and the wide-dummy tag at once, which no store of
the program produces; `tsetchar` at that cell takes the branch of the wide tag,
which it tests first, and leaves cell 0 as it was. -/
theorem tsetchar_both_tags :
    (cell? [bothTagsRow] 0 1).map (fun g => has g.mode ATTR_WDUMMY) = some true ∧
    (tsetchar 120 ⟨0, 0, 7, 0⟩ 1 0 (sampleState 4 1 [bothTagsRow] (blankScreen 4 1) 0 0)).bind
        (fun t => cell? t.term.line 0 0) = some ⟨0x4e2d, ATTR_WIDE, 7, 0⟩ ∧
    has (⟨0x4e2d, ATTR_WIDE, 7, 0⟩ : Glyph).mode ATTR_WIDE = true := by
  refine ⟨?_, ?_, ?_⟩ <;> decide

/-! ## The printable path of `tputc` -/

theorem idx?_take_append {α : Type} (a b : List α) (n : Nat) (j : Int) (hj : j < n)
    (hn : n ≤ a.length) : idx? (a.take n ++ b) j = idx? a j := by
  unfold idx?
  by_cases h0 : 0 ≤ j
  · have h1 : j.toNat < n := by omega
    simp only [h0, if_true]
    rw [List.getElem?_append_left (by simp; omega), List.getElem?_take_of_lt h1]
  · simp [h0]

theorem copyShift_spec {α : Type} (l : List α) (x width k : Int)
    (h : 0 ≤ x ∧ 0 ≤ width ∧ x + width ≤ l.length ∧ 0 ≤ k ∧ x + k ≤ l.length) :
    ∃ l1, copyShift l x width k = some l1 ∧ l1.length = l.length ∧
      ∀ j, j < x + width → idx? l1 j = idx? l j := by
  unfold copyShift
  simp only [h, and_self, if_true]
  refine ⟨_, rfl, ?_, ?_⟩
  · simp only [List.length_append, List.length_take, List.length_drop]
    omega
  · intro j hj
    rw [List.append_assoc]
    exact idx?_take_append _ _ _ j (by omega) (by omega)

theorem cell?_upd?_row {g g1 : List Line} {y : Int} {r : Line} (h : upd? g y r = some g1)
    (y1 x1 : Int) : cell? g1 y1 x1 = if y1 = y then idx? r x1 else cell? g y1 x1 := by
  unfold cell?
  rw [idx?_upd? h y1]
  split_ifs <;> rfl

theorem rect_upd?_row {g g1 : List Line} {row col : Int} (hg : Rect g row col) {y : Int}
    {r : Line} (h : upd? g y r = some g1) (hr : (r.length : Int) = col) : Rect g1 row col := by
  refine ⟨by rw [upd?_length h]; exact hg.1, ?_⟩
  intro w hw
  rcases mem_of_upd? h hw with rfl | hw
  · exact hr
  · exact hg.2 w hw

/-- The insert-mode shift of `tputcPlace` keeps the dimensions, the other rows
and, on the cursor row, the cells to the left of `x + width`. -/
theorem tputcShift_spec (s : State) (width : Int) (hrect : Rect s.term.line s.term.row s.term.col)
    (hx : 0 ≤ s.term.c.x) (hy : 0 ≤ s.term.c.y ∧ s.term.c.y < s.term.row) (hw : 0 ≤ width) :
    ∃ L, (if has s.term.mode MODE_INSERT ∧ s.term.c.x + width < s.term.col then
        (idx? s.term.line s.term.c.y).bind fun row =>
        (copyShift row s.term.c.x width (s.term.col - s.term.c.x - width)).bind fun row1 =>
        (upd? s.term.line s.term.c.y row1).map fun l =>
          { s with term := { s.term with line := l } }
      else some s) = some (s.withLDS L s.term.dirty s.sel) ∧
      Rect L s.term.row s.term.col ∧
      (∀ y1 x1, y1 ≠ s.term.c.y → cell? L y1 x1 = cell? s.term.line y1 x1) ∧
      (∀ x1, x1 < s.term.c.x + width → cell? L s.term.c.y x1 = cell? s.term.line s.term.c.y x1) := by
  by_cases hi : has s.term.mode MODE_INSERT = true ∧ s.term.c.x + width < s.term.col
  · obtain ⟨row, hrow⟩ := idx?_isSome s.term.line s.term.c.y hy.1 (by rw [hrect.1]; exact hy.2)
    have hlen := idx?_row_length hrect hrow
    obtain ⟨row1, h1, hl1, hidx⟩ := copyShift_spec row s.term.c.x width
      (s.term.col - s.term.c.x - width) ⟨hx, hw, by omega, by omega, by omega⟩
    have hu := upd?_of_bounds s.term.line s.term.c.y row1 hy.1 (by rw [hrect.1]; exact hy.2)
    refine ⟨_, ?_, rect_upd?_row hrect hu (by rw [hl1]; exact hlen), ?_, ?_⟩
    · simp only [hi, and_self, if_true, hrow, h1, hu, Option.some_bind, Option.map_some']
      rfl
    · intro y1 x1 hne
      rw [cell?_upd?_row hu, if_neg hne]
    · intro x1 hx1
      rw [cell?_upd?_row hu, if_pos rfl, hidx x1 hx1]
      unfold cell?
      rw [hrow]; rfl
  · refine ⟨s.term.line, ?_, hrect, fun _ _ _ => rfl, fun _ _ => rfl⟩
    simp only [hi, if_false]
    rfl

theorem tsetchar_cells (u : Int) (attr : Glyph) (x y : Int) (s : State) (c : Glyph)
    (hd : Dims s) (hcs : 0 ≤ s.term.charset ∧ s.term.charset < s.term.trantbl.length)
    (hc : cell? s.term.line y x = some c)
    (hx0 : has c.mode ATTR_WIDE = false → has c.mode ATTR_WDUMMY = true → 1 ≤ x) :
    ∃ u1 L D, tsetcharRune u s = some u1 ∧
      tsetchar u attr x y s = some (s.withLDS L D s.sel) ∧
      Rect L s.term.row s.term.col ∧ DirtyGe D s.term.dirty ∧
      cell? L y x = some { attr with u := u1 } ∧
      (∀ y1 x1, y1 ≠ y → cell? L y1 x1 = cell? s.term.line y1 x1) ∧
      (∀ x1, x1 ≠ x → x1 ≠ x - 1 → x1 ≠ x + 1 → cell? L y x1 = cell? s.term.line y x1) := by
  obtain ⟨u1, g1, L, D, hu1, hfix, hL, hval, hrect, hge, _⟩ :=
    tsetchar_spec u attr x y s c hd hcs hc hx0
  obtain ⟨g2, hfix2, _, hcase⟩ := tsetcharFix_cases s x y c hd.2.2.1 hc hx0
  have hg : g2 = g1 := by rw [hfix] at hfix2; exact (Option.some.inj hfix2).symm
  subst hg
  have hother : ∀ y1 x1, (y1 ≠ y ∨ (x1 ≠ x - 1 ∧ x1 ≠ x + 1)) →
      cell? g2 y1 x1 = cell? s.term.line y1 x1 := by
    intro y1 x1 hne
    rcases hcase with ⟨_, _, h, _, hset⟩ | ⟨_, _, e⟩ | ⟨_, _, h, _, hset⟩ | ⟨_, _, e⟩
    · rw [cell?_setCell? hset, if_neg (by omega)]
    · rw [e]
    · rw [cell?_setCell? hset, if_neg (by omega)]
    · rw [e]
  refine ⟨u1, L, D, hu1, hval, hrect, hge, ?_, ?_, ?_⟩
  · rw [cell?_setCell? hL, if_pos ⟨rfl, rfl⟩]
  · intro y1 x1 hne
    rw [cell?_setCell? hL, if_neg (by omega)]
    exact hother y1 x1 (Or.inl hne)
  · intro x1 h1 h2 h3
    rw [cell?_setCell? hL, if_neg (by omega)]
    exact hother y x1 (Or.inr ⟨h2, h3⟩)

/-- What `tputcPlace` does when the glyph fits on the cursor row: the cell under
the cursor takes the template with the translated rune (tagged wide for a
glyph of width 2, whose right neighbour then becomes a dummy holding
codepoint 0), the other rows are kept, and the cursor advances. -/
theorem tputcPlace_spec (u width : Int) (s : State) (c : Glyph)
    (hd : Dims s) (hcs : 0 ≤ s.term.charset ∧ s.term.charset < s.term.trantbl.length)
    (hw : width = 1 ∨ width = 2)
    (hx : 0 ≤ s.term.c.x ∧ s.term.c.x + width ≤ s.term.col)
    (hc : cell? s.term.line s.term.c.y s.term.c.x = some c)
    (hx0 : has c.mode ATTR_WIDE = false → has c.mode ATTR_WDUMMY = true → 1 ≤ s.term.c.x) :
    ∃ u1 L D, tsetcharRune u s = some u1 ∧
      tputcPlace u width s = some (tputcAdvance width (s.withLDS L D s.sel)) ∧
      Rect L s.term.row s.term.col ∧ DirtyGe D s.term.dirty ∧
      cell? L s.term.c.y s.term.c.x = some { s.term.c.attr with
        u := u1, mode := if width = 2 then s.term.c.attr.mode ||| ATTR_WIDE else s.term.c.attr.mode } ∧
      (width = 2 → ∃ h : Glyph, cell? L s.term.c.y (s.term.c.x + 1) =
        some { h with u := 0, mode := ATTR_WDUMMY }) ∧
      (∀ y1 x1, y1 ≠ s.term.c.y → cell? L y1 x1 = cell? s.term.line y1 x1) := by
  have hb := cell?_bounds hd.2.2.1 hc
  obtain ⟨L4, h4, hrect4, hrows4, hleft4⟩ :=
    tputcShift_spec s width hd.2.2.1 hx.1 hb.1 (by omega)
  have hd4 : Dims (s.withLDS L4 s.term.dirty s.sel) := ⟨hd.1, hd.2.1, hrect4, hd.2.2.2⟩
  have hc4 : cell? (s.withLDS L4 s.term.dirty s.sel).term.line s.term.c.y s.term.c.x = some c := by
    simp only [withLDS_term_line]
    rw [hleft4 _ (by omega)]; exact hc
  obtain ⟨u1, L6, D6, hu1, h6, hrect6, hge6, hcell6, hrows6, _⟩ :=
    tsetchar_cells u s.term.c.attr s.term.c.x s.term.c.y (s.withLDS L4 s.term.dirty s.sel) c
      hd4 hcs hc4 hx0
  have hrect6 : Rect L6 s.term.row s.term.col := hrect6
  have hge6 : DirtyGe D6 s.term.dirty := hge6
  have hu1 : tsetcharRune u s = some u1 := hu1
  have hrows6 : ∀ y1 x1, y1 ≠ s.term.c.y → cell? L6 y1 x1 = cell? L4 y1 x1 := hrows6
  have hnov : ¬ (s.term.c.x + width > s.term.col) := by omega
  have hstart : tputcPlace u width s =
      ((if width = 2 then
          (cell? L6 s.term.c.y s.term.c.x).bind fun g =>
          (setCell? L6 s.term.c.y s.term.c.x { g with mode := g.mode ||| ATTR_WIDE }).bind fun l =>
          if s.term.c.x + 1 < s.term.col then
            (cell? l s.term.c.y (s.term.c.x + 1)).bind fun h =>
            (setCell? l s.term.c.y (s.term.c.x + 1) { h with u := 0, mode := ATTR_WDUMMY }).map
              fun l1 => s.withLDS l1 D6 s.sel
          else some (s.withLDS l D6 s.sel)
        else some (s.withLDS L6 D6 s.sel)).map (tputcAdvance width)) := by
    unfold tputcPlace
    rw [h4]
    simp only [Option.some_bind, withLDS_term_c, withLDS_term_col, hnov, if_false]
    rw [h6]
    simp only [Option.some_bind, withLDS_term_c, withLDS_term_col, withLDS_term_line,
      withLDS_withLDS, withLDS_sel]
    rfl
  rcases hw with hw | hw
  · subst hw
    refine ⟨u1, L6, D6, hu1, ?_, hrect6, hge6, ?_, ?_, ?_⟩
    · rw [hstart]; simp
    · simpa using hcell6
    · intro h; omega
    · intro y1 x1 hne
      rw [hrows6 y1 x1 hne]
      exact hrows4 y1 x1 hne
  · subst hw
    obtain ⟨L7, hL7⟩ := setCell?_isSome hcell6
      { ({ s.term.c.attr with u := u1 } : Glyph) with
        mode := ({ s.term.c.attr with u := u1 } : Glyph).mode ||| ATTR_WIDE }
    have hrect7 := setCell?_rect hrect6 hL7
    obtain ⟨h, hh⟩ := cell?_isSome hrect7 s.term.c.y (s.term.c.x + 1) hb.1 ⟨by omega, by omega⟩
    obtain ⟨L8, hL8⟩ := setCell?_isSome hh { h with u := 0, mode := ATTR_WDUMMY }
    have hlt : s.term.c.x + 1 < s.term.col := by omega
    refine ⟨u1, L8, D6, hu1, ?_, setCell?_rect hrect7 hL8, hge6, ?_, ?_, ?_⟩
    · rw [hstart]
      simp only [if_true, hcell6, Option.some_bind, hL7, hlt, hh, hL8, Option.map_some']
    · rw [cell?_setCell? hL8, if_neg (by omega), cell?_setCell? hL7, if_pos ⟨rfl, rfl⟩]
      simp
    · intro _
      exact ⟨h, by rw [cell?_setCell? hL8, if_pos ⟨rfl, rfl⟩]⟩
    · intro y1 x1 hne
      rw [cell?_setCell? hL8, if_neg (by omega), cell?_setCell? hL7, if_neg (by omega),
        hrows6 y1 x1 hne]
      exact hrows4 y1 x1 hne

theorem tputc_printable (env : Env) (u : Int) (s : State) (hesc : s.term.esc = 0)
    (hctl : iscontrol u = false) :
    tputc env u s = tputcPrint u (tputcWidth env u s) { s with prn := (tputcPrn env u s).prn } := by
  rw [tputc_of_not_str env u s (by rw [hesc]; decide)]
  simp +decide [tputcDispatch, hctl, hesc]

/-- The prelude of the printable path when no wrap is pending: the selection may
be cleared, then the glyph is placed. -/
theorem tputcPrint_no_wrap (u width : Int) (s : State) (c : Glyph) (hd : Dims s)
    (hc : cell? s.term.line s.term.c.y s.term.c.x = some c)
    (hnw : ¬ (has s.term.mode MODE_WRAP = true ∧ has s.term.c.state CURSOR_WRAPNEXT = true)) :
    ∃ D S, tputcPrint u width s = tputcPlace u width (s.withLDS s.term.line D S) ∧
      DirtyGe D s.term.dirty ∧ (s.sel.ob.x = -1 → S = s.sel) := by
  by_cases hs : s.sel.ob.x ≠ -1 ∧ s.sel.ob.y ≤ s.term.c.y ∧ s.term.c.y ≤ s.sel.oe.y
  · obtain ⟨D, S, h, hge, _, hS⟩ := selclear_dirtyGe s hd.1 hd.2.2.2
    refine ⟨D, S, ?_, hge, hS⟩
    unfold tputcPrint
    rw [if_pos hs, h]
    simp only [Option.some_bind, tputcFetch, withLDS_term_line,
      withLDS_term_c, hc, Option.map_some', withLDS_term_mode, hnw, if_false]
  · refine ⟨s.term.dirty, s.sel, ?_, DirtyGe.refl _, fun _ => rfl⟩
    unfold tputcPrint
    rw [if_neg hs]
    simp only [Option.some_bind, tputcFetch, hc, Option.map_some', hnw, if_false]
    rfl

/-! ## C3 -/

/-- C3 (amended): in the ground decoder state with no wrap pending and the
cursor at column `C < cols - 1`, `tputc` of a printable glyph of display width 2
returns and leaves cell `C` tagged wide, holding the translated rune in the
template's colours, and cell `C + 1` with exactly the wide-dummy tag and the
codepoint 0. -/
theorem C3_wide_glyph (env : Env) (u : Int) (s : State) (c : Glyph) (hd : Dims s)
    (hcs : 0 ≤ s.term.charset ∧ s.term.charset < s.term.trantbl.length)
    (hesc : s.term.esc = 0) (hctl : iscontrol u = false) (hwidth : tputcWidth env u s = 2)
    (hx : s.term.c.x < s.term.col - 1)
    (hnw : ¬ (has s.term.mode MODE_WRAP = true ∧ has s.term.c.state CURSOR_WRAPNEXT = true))
    (hc : cell? s.term.line s.term.c.y s.term.c.x = some c)
    (hx0 : has c.mode ATTR_WIDE = false → has c.mode ATTR_WDUMMY = true → 1 ≤ s.term.c.x) :
    ∃ s1 u1 a b, tputc env u s = some s1 ∧ tsetcharRune u s = some u1 ∧
      cell? s1.term.line s.term.c.y s.term.c.x = some a ∧
      a = { s.term.c.attr with u := u1, mode := s.term.c.attr.mode ||| ATTR_WIDE } ∧
      has a.mode ATTR_WIDE = true ∧
      cell? s1.term.line s.term.c.y (s.term.c.x + 1) = some b ∧
      b.mode = ATTR_WDUMMY ∧ has b.mode ATTR_WDUMMY = true ∧ b.u = 0 := by
  have hb := cell?_bounds hd.2.2.1 hc
  rw [tputc_printable env u s hesc hctl, hwidth]
  obtain ⟨D, S, hp, hge, _⟩ := tputcPrint_no_wrap u 2 { s with prn := (tputcPrn env u s).prn } c
    hd hc hnw
  rw [hp]
  have hd1 : Dims (({ s with prn := (tputcPrn env u s).prn } : State).withLDS s.term.line D S) :=
    ⟨hd.1, hd.2.1, hd.2.2.1, by
      show (D.length : Int) = s.term.row
      rw [hge.1]; exact hd.2.2.2⟩
  obtain ⟨u1, L, D2, hu1, hval, _, _, hcell, hdum, _⟩ := tputcPlace_spec u 2 _ c hd1 hcs
    (Or.inr rfl) ⟨hb.2.1, by show s.term.c.x + 2 ≤ s.term.col; omega⟩ hc hx0
  obtain ⟨h, hh⟩ := hdum rfl
  refine ⟨_, u1, { s.term.c.attr with u := u1, mode := s.term.c.attr.mode ||| ATTR_WIDE },
    { h with u := 0, mode := ATTR_WDUMMY }, hval, hu1, ?_, rfl, ?_, ?_, rfl, ?_, rfl⟩
  · have : ∀ t : State, (tputcAdvance 2 t).term.line = t.term.line := by
      intro t; unfold tputcAdvance; split <;> rfl
    rw [this]
    simpa using hcell
  · exact has_one_bit_or _ _ _ (by decide)
  · have : ∀ t : State, (tputcAdvance 2 t).term.line = t.term.line := by
      intro t; unfold tputcAdvance; split <;> rfl
    rw [this]
    exact hh
  · show has ATTR_WDUMMY ATTR_WDUMMY = true
    decide

theorem C3_wide_glyph_witness :
    ∃ s1 u1 a b, tputc wideEnv 0x4e2d (sampleState 4 1 (blankScreen 4 1) (blankScreen 4 1) 1 0)
        = some s1 ∧
      tsetcharRune 0x4e2d (sampleState 4 1 (blankScreen 4 1) (blankScreen 4 1) 1 0) = some u1 ∧
      cell? s1.term.line 0 1 = some a ∧
      a = ⟨u1, 0 ||| ATTR_WIDE, defaultfg, defaultbg⟩ ∧
      has a.mode ATTR_WIDE = true ∧
      cell? s1.term.line 0 (1 + 1) = some b ∧
      b.mode = ATTR_WDUMMY ∧ has b.mode ATTR_WDUMMY = true ∧ b.u = 0 :=
  C3_wide_glyph wideEnv 0x4e2d (sampleState 4 1 (blankScreen 4 1) (blankScreen 4 1) 1 0)
    blankGlyph (by decide) (by decide) (by decide) (by decide) (by decide) (by decide)
    (by decide) (by decide) (by decide)

/-- C3, the claim as stated fails: after a wide glyph is printed at column 0 of a
fresh terminal, the cell at column 1 holds the codepoint 0, not the space. -/
theorem C3_dummy_is_not_space :
    (tputc wideEnv 0x4e2d (sampleState 4 1 (blankScreen 4 1) (blankScreen 4 1) 0 0)).bind
        (fun t => cell? t.term.line 0 1) = some ⟨0, ATTR_WDUMMY, 7, 0⟩ ∧
    ¬ ((tputc wideEnv 0x4e2d (sampleState 4 1 (blankScreen 4 1) (blankScreen 4 1) 0 0)).bind
        (fun t => (cell? t.term.line 0 1).map Glyph.u) = some 32) := by
  constructor <;> decide

/-! ## Scrolling -/

theorem swapRows_spec {g : List Line} {i j : Int} {a b : Line} (hi : idx? g i = some a)
    (hj : idx? g j = some b) :
    ∃ g2, swapRows g i j = some g2 ∧ g2.length = g.length ∧ (∀ w ∈ g2, w ∈ g) ∧
      ∀ m x, cell? g2 m x =
        if m = j then cell? g i x else if m = i then cell? g j x else cell? g m x := by
  have bi := idx?_bounds hi
  have bj := idx?_bounds hj
  have h1 := upd?_of_bounds g i b bi.1 bi.2
  have h2 := upd?_of_bounds (g.set i.toNat b) j a bj.1 (by rw [List.length_set]; exact bj.2)
  refine ⟨(g.set i.toNat b).set j.toNat a, ?_, ?_, ?_, ?_⟩
  · unfold swapRows
    simp only [hi, hj, Option.some_bind, h1, h2]
  · simp only [List.length_set]
  · intro w hw
    rcases mem_of_upd? h2 hw with rfl | hw
    · exact idx?_mem hi
    · rcases mem_of_upd? h1 hw with rfl | hw
      · exact idx?_mem hj
      · exact hw
  · intro m x
    unfold cell?
    rw [idx?_upd? h2 m, idx?_upd? h1 m]
    by_cases hmj : m = j
    · subst hmj; simp only [if_true, hi]
    · by_cases hmi : m = i
      · subst hmi; simp only [hmj, if_false, if_true, hj]
      · simp only [hmj, hmi, if_false]

theorem forUp_scrollup (g0 : List Line) (orig k : Int) (hk : 1 ≤ k) (row col : Int) (n : Nat) :
    ∀ (i : Int) (s : State), 0 ≤ orig → orig ≤ i → i + n + k ≤ row →
      Rect s.term.line row col → ScrollUpInv g0 s.term.line orig k i →
      ∃ G, forUp (fun i t => (swapRows t.term.line i (i + k)).map
            (fun g => { t with term := { t.term with line := g } })) n i s
          = some (s.withLDS G s.term.dirty s.sel) ∧
        Rect G row col ∧ ScrollUpInv g0 G orig k (i + n) := by
  induction n with
  | zero =>
    intro i s _ _ _ hrect hinv
    refine ⟨s.term.line, rfl, hrect, ?_⟩
    simpa using hinv
  | succ n ih =>
    intro i s h0 hi hlen hrect hinv
    obtain ⟨a, ha⟩ := idx?_isSome s.term.line (i + k) (by omega) (by rw [hrect.1]; omega)
    obtain ⟨b, hb⟩ := idx?_isSome s.term.line i (by omega) (by rw [hrect.1]; omega)
    obtain ⟨g2, hsw, hlen2, hmem, hcell⟩ := swapRows_spec hb ha
    have hrect2 : Rect g2 row col := ⟨by rw [hlen2]; exact hrect.1, fun w hw => hrect.2 w (hmem w hw)⟩
    have hinv2 : ScrollUpInv g0 g2 orig k (i + 1) := by
      intro y
      obtain ⟨c1, c2, c3⟩ := hinv y
      refine ⟨?_, ?_, ?_⟩
      · intro hy x
        rw [hcell y x, if_neg (by omega), if_neg (by omega)]
        exact c1 (by omega) x
      · intro hy x
        rw [hcell y x, if_neg (by omega)]
        by_cases hyi : y = i
        · subst hyi
          rw [if_pos rfl]
          exact (hinv (y + k)).1 (by omega) x
        · rw [if_neg hyi]
          exact c2 (by omega) x
      · intro hy
        by_cases hyk : y = i + k
        · subst hyk
          obtain ⟨r, hr1, hr2, hr⟩ := (hinv i).2.2 (by omega)
          refine ⟨r, hr1, hr2, fun x => ?_⟩
          rw [hcell (i + k) x, if_pos rfl]
          exact hr x
        · obtain ⟨r, hr1, hr2, hr⟩ := c3 (by omega)
          refine ⟨r, hr1, hr2, fun x => ?_⟩
          rw [hcell y x, if_neg hyk, if_neg (by omega)]
          exact hr x
    obtain ⟨G, hG, hrectG, hinvG⟩ := ih (i + 1) (s.withLDS g2 s.term.dirty s.sel) h0 (by omega)
      (by push_cast at hlen ⊢; omega) hrect2 hinv2
    refine ⟨G, ?_, hrectG, ?_⟩
    · simp only [forUp, hsw, Option.map_some', Option.some_bind]
      exact hG
    · have e : i + ((n + 1 : Nat) : Int) = i + 1 + (n : Int) := by push_cast; omega
      rw [e]; exact hinvG

theorem cell?_none_of_col {g : List Line} {row col : Int} (hg : Rect g row col) (y x : Int)
    (hx : ¬ (0 ≤ x ∧ x < col)) : cell? g y x = none := by
  cases h : cell? g y x with
  | none => rfl
  | some v => exact absurd (cell?_bounds hg h).2 hx

/-- What `tscrollup(orig, n)` does with no selection, for `n ≥ 1` and `orig` in
the scroll region of a screen of consistent dimensions: with `k` the clamped
count, row `y` of `orig .. bot-k` takes the former row `y + k`, the rows
`bot-k+1 .. bot` are blank, and every other row is kept. -/
theorem tscrollup_spec (s : State) (orig n : Int) (hd : Dims s) (hsel : s.sel.ob.x = -1)
    (ho : 0 ≤ orig ∧ orig ≤ s.term.bot) (hbot : s.term.bot < s.term.row) (hn : 1 ≤ n) :
    ∃ L D, tscrollup orig n s = some (s.withLDS L D s.sel) ∧
      Rect L s.term.row s.term.col ∧ DirtyGe D s.term.dirty ∧
      ∀ y x, cell? L y x =
        if orig ≤ y ∧ y ≤ s.term.bot - clamp n 0 (s.term.bot - orig + 1) then
          cell? s.term.line (y + clamp n 0 (s.term.bot - orig + 1)) x
        else if s.term.bot - clamp n 0 (s.term.bot - orig + 1) < y ∧ y ≤ s.term.bot then
          (if 0 ≤ x ∧ x < s.term.col then some (clearGlyph s) else none)
        else cell? s.term.line y x := by
  have hkb := clamp_bounds n 0 (s.term.bot - orig + 1) (by omega)
  have hk1 : 1 ≤ clamp n 0 (s.term.bot - orig + 1) := by
    unfold clamp imin imax
    split <;> split <;> omega
  generalize hk : clamp n 0 (s.term.bot - orig + 1) = k at hkb hk1 ⊢
  obtain ⟨hrow, hcol, hrect, hdl⟩ := hd
  obtain ⟨L1, D1, S1, h1, hrect1, hge1, _, hS1, hcell1⟩ :=
    tclearregion_spec s ⟨hrow, hcol, hrect, hdl⟩ 0 orig (s.term.col - 1) (orig + k - 1)
  have hS : S1 = s.sel := hS1 hsel
  subst hS
  have hx1 : clamp (if 0 > s.term.col - 1 then s.term.col - 1 else 0) 0 (s.term.col - 1) = 0 := by
    rw [if_neg (by omega)]; exact clamp_of_mem _ _ _ (le_refl _) (by omega)
  have hx2 : clamp (if 0 > s.term.col - 1 then 0 else s.term.col - 1) 0 (s.term.col - 1)
      = s.term.col - 1 := by
    rw [if_neg (by omega)]; exact clamp_of_mem _ _ _ (by omega) (le_refl _)
  have hy1 : clamp (if orig > orig + k - 1 then orig + k - 1 else orig) 0 (s.term.row - 1)
      = orig := by
    rw [if_neg (by omega)]; exact clamp_of_mem _ _ _ (by omega) (by omega)
  have hy2 : clamp (if orig > orig + k - 1 then orig else orig + k - 1) 0 (s.term.row - 1)
      = orig + k - 1 := by
    rw [if_neg (by omega)]; exact clamp_of_mem _ _ _ (by omega) (by omega)
  rw [hx1, hx2, hy1, hy2] at hcell1
  obtain ⟨D2, h2, hge2, _⟩ := tsetdirt_dirtyGe (s.withLDS L1 D1 s.sel) (orig + k) s.term.bot hrow
    (by simp only [withLDS_term_dirty, withLDS_term_row]; rw [hge1.1]; exact hdl)
  simp only [withLDS_term_line, withLDS_term_dirty, withLDS_sel, withLDS_withLDS] at h2 hge2
  have hinv0 : ScrollUpInv L1 L1 orig k orig := by
    intro y
    refine ⟨fun _ _ => rfl, fun h => by omega, fun h => ⟨y, h.1, h.2, fun _ => rfl⟩⟩
  obtain ⟨G, h3, hrectG, hinvG⟩ := forUp_scrollup L1 orig k hk1 s.term.row s.term.col
    (s.term.bot - k + 1 - orig).toNat orig (s.withLDS L1 D2 s.sel) ho.1 (le_refl _)
    (by omega) hrect1 hinv0
  simp only [withLDS_term_line, withLDS_term_dirty, withLDS_sel, withLDS_withLDS] at h3
  have hend : orig + ((s.term.bot - k + 1 - orig).toNat : Int) = s.term.bot - k + 1 := by omega
  rw [hend] at hinvG
  refine ⟨G, D2, ?_, hrectG, hge2.trans hge1, ?_⟩
  · unfold tscrollup
    simp only [hk, h1, Option.some_bind, withLDS_term_bot, h2, h3]
    unfold selscroll
    simp [hsel]
  · intro y x
    obtain ⟨c1, c2, c3⟩ := hinvG y
    by_cases ha : orig ≤ y ∧ y ≤ s.term.bot - k
    · rw [if_pos ha, c2 (by omega) x, hcell1, if_neg (by omega)]
    · rw [if_neg ha]
      by_cases hb : s.term.bot - k < y ∧ y ≤ s.term.bot
      · rw [if_pos hb]
        obtain ⟨r, hr1, hr2, hr⟩ := c3 (by omega)
        rw [hr x, hcell1]
        by_cases hx : 0 ≤ x ∧ x < s.term.col
        · rw [if_pos hx, if_pos ⟨⟨hr1, by omega⟩, hx.1, by omega⟩]
        · rw [if_neg hx, if_neg (by omega)]
          exact cell?_none_of_col hrect r x hx
      · rw [if_neg hb, c1 (by omega) x, hcell1, if_neg (by omega)]

/-! ## `tnewline` -/

/-- The row the cursor is on after `tnewline`: the same row on the scroll-region
bottom (the region scrolls) and on the last row, the next row otherwise. -/
theorem tmoveto_newline_row (s : State) (x : Int)
    (hy : 0 ≤ s.term.c.y ∧ s.term.c.y < s.term.row)
    (hreg : 0 ≤ s.term.top ∧ s.term.top ≤ s.term.bot ∧ s.term.bot < s.term.row)
    (ho : has s.term.c.state CURSOR_ORIGIN = true →
      s.term.top ≤ s.term.c.y ∧ s.term.c.y ≤ s.term.bot) :
    (tmoveto x (if s.term.c.y = s.term.bot then s.term.c.y else s.term.c.y + 1) s).term.c.y =
      (if s.term.c.y ≠ s.term.bot ∧ s.term.c.y + 1 < s.term.row then s.term.c.y + 1
       else s.term.c.y) := by
  simp only [tmoveto]
  by_cases h : has s.term.c.state CURSOR_ORIGIN = true
  · have := ho h
    simp only [h, if_true]
    unfold clamp imin imax
    split_ifs <;> omega
  · simp only [h, Bool.false_eq_true, if_false]
    unfold clamp imin imax
    split_ifs <;> omega

/-- What `tnewline` does with no selection on a screen of consistent dimensions:
on the scroll-region bottom the region scrolls up by one row and the cursor
stays; elsewhere no cell changes and the cursor moves down, clamped. -/
theorem tnewline_spec (first_col : Bool) (s : State) (hd : Dims s) (hsel : s.sel.ob.x = -1)
    (hreg : 0 ≤ s.term.top ∧ s.term.top ≤ s.term.bot ∧ s.term.bot < s.term.row) :
    ∃ L D, tnewline first_col s =
        some (tmoveto (if first_col then 0 else s.term.c.x)
          (if s.term.c.y = s.term.bot then s.term.c.y else s.term.c.y + 1)
          (s.withLDS L D s.sel)) ∧
      Rect L s.term.row s.term.col ∧ DirtyGe D s.term.dirty ∧
      (s.term.c.y ≠ s.term.bot → L = s.term.line) ∧
      (s.term.c.y = s.term.bot → ∀ y x, cell? L y x =
        if s.term.top ≤ y ∧ y ≤ s.term.bot - 1 then cell? s.term.line (y + 1) x
        else if y = s.term.bot then (if 0 ≤ x ∧ x < s.term.col then some (clearGlyph s) else none)
        else cell? s.term.line y x) := by
  by_cases hy : s.term.c.y = s.term.bot
  · obtain ⟨L, D, h, hrect, hge, hcell⟩ := tscrollup_spec s s.term.top 1 hd hsel
      ⟨hreg.1, hreg.2.1⟩ hreg.2.2 (le_refl _)
    have hk : clamp 1 0 (s.term.bot - s.term.top + 1) = 1 :=
      clamp_of_mem _ _ _ (by omega) (by omega)
    rw [hk] at hcell
    refine ⟨L, D, ?_, hrect, hge, fun h2 => absurd hy h2, fun _ y x => ?_⟩
    · unfold tnewline
      simp only [hy, if_true, h, Option.map_some', withLDS_term_c]
    · rw [hcell y x]
      split_ifs <;> first | rfl | (exfalso; omega)
  · refine ⟨s.term.line, s.term.dirty, ?_, hd.2.2.1, DirtyGe.refl _, fun _ => rfl,
      fun h2 => absurd h2 hy⟩
    unfold tnewline
    simp only [hy, if_false]
    rfl

/-! ## The deferred wrap -/

/-- The function `tsetchar` creates no wide-dummy cell: a cell of the written row
other than the target that is a dummy afterwards was one before. -/
theorem tsetchar_no_new_dummy (u : Int) (attr : Glyph) (x y : Int) (s s1 : State) (c : Glyph)
    (hd : Dims s) (hcs : 0 ≤ s.term.charset ∧ s.term.charset < s.term.trantbl.length)
    (hc : cell? s.term.line y x = some c)
    (hx0 : has c.mode ATTR_WIDE = false → has c.mode ATTR_WDUMMY = true → 1 ≤ x)
    (h1 : tsetchar u attr x y s = some s1) (x1 : Int) (g : Glyph) (hne : x1 ≠ x)
    (hg : cell? s1.term.line y x1 = some g) (hdum : has g.mode ATTR_WDUMMY = true) :
    ∃ g0, cell? s.term.line y x1 = some g0 ∧ has g0.mode ATTR_WDUMMY = true := by
  obtain ⟨u1, g1, L, D, _, hfix, hL, hval, _, _, _⟩ := tsetchar_spec u attr x y s c hd hcs hc hx0
  obtain ⟨g2, hfix2, _, hcase⟩ := tsetcharFix_cases s x y c hd.2.2.1 hc hx0
  have hgg : g2 = g1 := by rw [hfix] at hfix2; exact (Option.some.inj hfix2).symm
  subst hgg
  rw [hval] at h1
  have hs1 : s1.term.line = L := by rw [← Option.some.inj h1]; rfl
  rw [hs1, cell?_setCell? hL, if_neg (by omega)] at hg
  rcases hcase with ⟨_, _, h, hh, hset⟩ | ⟨_, _, e⟩ | ⟨_, _, h, hh, hset⟩ | ⟨_, _, e⟩
  · rw [cell?_setCell? hset] at hg
    by_cases hx1 : y = y ∧ x1 = x + 1
    · rw [if_pos hx1] at hg
      have hgm : g.mode = andNot h.mode ATTR_WDUMMY := by rw [← Option.some.inj hg]
      rw [hgm, has_andNot_of_subset _ _ _ (by decide)] at hdum
      exact absurd hdum (by decide)
    · rw [if_neg hx1] at hg
      exact ⟨g, hg, hdum⟩
  · rw [e] at hg; exact ⟨g, hg, hdum⟩
  · rw [cell?_setCell? hset] at hg
    by_cases hx1 : y = y ∧ x1 = x - 1
    · rw [if_pos hx1] at hg
      have hgm : g.mode = andNot h.mode ATTR_WIDE := by rw [← Option.some.inj hg]
      rw [hgm, has_andNot_of_disjoint _ _ _ (by decide)] at hdum
      exact ⟨h, by rw [hx1.2]; exact hh, hdum⟩
    · rw [if_neg hx1] at hg
      exact ⟨g, hg, hdum⟩
  · rw [e] at hg; exact ⟨g, hg, hdum⟩

/-- At the right margin a glyph of width 1 is stored by `tsetchar` alone: nothing
is shifted and no row is started. -/
theorem tputcPlace_margin (u : Int) (s : State) (hx : s.term.c.x + 1 = s.term.col) :
    tputcPlace u 1 s = (tsetchar u s.term.c.attr s.term.c.x s.term.c.y s).map (tputcAdvance 1) := by
  unfold tputcPlace
  have h1 : ¬ (has s.term.mode MODE_INSERT = true ∧ s.term.c.x + 1 < s.term.col) := by omega
  have h2 : ¬ (s.term.c.x + 1 > s.term.col) := by omega
  simp only [h1, if_false, Option.some_bind, h2]
  cases tsetchar u s.term.c.attr s.term.c.x s.term.c.y s with
  | none => rfl
  | some s6 => simp

theorem tputcAdvance_margin (w : Int) (s : State) (hx : ¬ (s.term.c.x + w < s.term.col)) :
    tputcAdvance w s = { s with term := { s.term with c := { s.term.c with
      state := s.term.c.state ||| CURSOR_WRAPNEXT } } } := by
  unfold tputcAdvance
  rw [if_neg hx]

theorem tputcAdvance_line (w : Int) (s : State) : (tputcAdvance w s).term.line = s.term.line := by
  unfold tputcAdvance
  split <;> rfl

theorem tsetcharRune_congr (u : Int) (s t : State) (h1 : t.term.trantbl = s.term.trantbl)
    (h2 : t.term.charset = s.term.charset) : tsetcharRune u t = tsetcharRune u s := by
  unfold tsetcharRune
  rw [h1, h2]

theorem tputcWidth_congr (env : Env) (u : Int) (s t : State) (h : t.term.mode = s.term.mode) :
    tputcWidth env u t = tputcWidth env u s := by
  unfold tputcWidth tputcInvalid tputcRaw
  rw [h]

theorem blankScreen_cell (col row : Nat) (y x : Int) (c : Glyph)
    (h : cell? (blankScreen col row) y x = some c) : c = blankGlyph := by
  obtain ⟨l, hl, hc⟩ := (cell?_eq_some_iff _ _ _ _).1 h
  have h1 : l = List.replicate col blankGlyph := List.eq_of_mem_replicate (idx?_mem hl)
  rw [h1] at hc
  exact List.eq_of_mem_replicate (idx?_mem hc)

/-! ## `tresize` -/

theorem goCopy_length {α : Type} (dst src : List α) : (goCopy dst src).length = dst.length := by
  unfold goCopy
  simp only [List.length_append, List.length_take, List.length_drop]
  omega

theorem idx?_goCopy {α : Type} (dst src : List α) (j : Int) (h1 : j < src.length)
    (h2 : j < dst.length) : idx? (goCopy dst src) j = idx? src j := by
  unfold idx? goCopy
  by_cases h0 : 0 ≤ j
  · have h3 : j.toNat < dst.length := by omega
    simp only [h0, if_true]
    rw [List.getElem?_append_left (by simp only [List.length_take]; omega),
      List.getElem?_take_of_lt h3]
  · simp only [h0, if_false]

/-- The grid that `tresize` builds from the rows `g`: `row` rows, the first ones
taken from `g`, each cut or zero-padded to `col` cells. -/
theorem resizeGrid_spec (g : List Line) (orow ocol row col : Int) (hg : Rect g orow ocol)
    (hrow : 0 ≤ row) (hcol : 0 ≤ col) :
    Rect ((goCopy (List.replicate row.toNat ([] : Line)) g).map
        (fun l => goCopy (List.replicate col.toNat (default : Glyph)) l)) row col ∧
      ∀ y x, y < row → y < orow → x < col → x < ocol →
        cell? ((goCopy (List.replicate row.toNat ([] : Line)) g).map
          (fun l => goCopy (List.replicate col.toNat (default : Glyph)) l)) y x = cell? g y x := by
  refine ⟨⟨?_, ?_⟩, ?_⟩
  · rw [List.length_map, goCopy_length, List.length_replicate]
    omega
  · intro l hl
    obtain ⟨l0, _, rfl⟩ := List.mem_map.1 hl
    rw [goCopy_length, List.length_replicate]
    omega
  · intro y x hy1 hy2 hx1 hx2
    unfold cell?
    by_cases h0 : 0 ≤ y
    · have e1 : idx? ((goCopy (List.replicate row.toNat ([] : Line)) g).map
          (fun l => goCopy (List.replicate col.toNat (default : Glyph)) l)) y =
          (idx? g y).map (fun l => goCopy (List.replicate col.toNat (default : Glyph)) l) := by
        rw [← idx?_goCopy (List.replicate row.toNat ([] : Line)) g y (by rw [hg.1]; exact hy2)
          (by rw [List.length_replicate]; omega)]
        unfold idx?
        simp only [h0, if_true, List.getElem?_map]
      rw [e1]
      cases hl : idx? g y with
      | none => rfl
      | some l =>
        have hlen := idx?_row_length hg hl
        simp only [Option.map_some', Option.some_bind]
        exact idx?_goCopy _ _ x (by rw [hlen]; exact hx2) (by rw [List.length_replicate]; omega)
    · have e1 : ∀ l : List Line, idx? l y = none := by
        intro l; unfold idx?; simp only [h0, if_false]
      rw [e1, e1]

theorem tresizeTabSet_some (col : Int) (fuel : Nat) : ∀ (bp : Int) (tabs : List Bool), 0 ≤ bp →
    (tabs.length : Int) = col → ∃ t, tresizeTabSet col fuel bp tabs = some t := by
  induction fuel with
  | zero => intro bp tabs _ _; exact ⟨tabs, rfl⟩
  | succ n ih =>
    intro bp tabs h0 hlen
    unfold tresizeTabSet
    by_cases hb : bp < col
    · have hu := upd?_of_bounds tabs bp true h0 (by omega)
      simp only [hb, if_true, hu, Option.some_bind]
      exact ih (bp + tabspaces) _ (by unfold tabspaces; omega) (by rw [List.length_set]; exact hlen)
    · simp only [hb, if_false]
      exact ⟨tabs, rfl⟩

theorem forUp_tabs_clear (off : Int) (n : Nat) : ∀ (lo : Int) (tabs : List Bool), 0 ≤ off + lo →
    off + lo + n ≤ tabs.length →
    ∃ t, forUp (fun i t => upd? t (off + i) false) n lo tabs = some t ∧
      t.length = tabs.length := by
  induction n with
  | zero => intro lo tabs _ _; exact ⟨tabs, rfl, rfl⟩
  | succ n ih =>
    intro lo tabs h0 h1
    have hu := upd?_of_bounds tabs (off + lo) false h0 (by omega)
    obtain ⟨t, ht, hlen⟩ := ih (lo + 1) (tabs.set (off + lo).toNat false) (by omega)
      (by rw [List.length_set]; omega)
    refine ⟨t, ?_, by rw [hlen, List.length_set]⟩
    simp only [forUp, hu, Option.some_bind]
    exact ht

theorem tresizeTabBack_stop (tabs : List Bool) (fuel : Nat) (bp : Int)
    (h : ¬ bp > tabs.length) : tresizeTabBack tabs fuel bp = some bp := by
  cases fuel with
  | zero => rfl
  | succ n => simp only [tresizeTabBack, h, if_false]

/-- The tab-stop part of `tresize` returns. -/
theorem tresizeTabs_some (col oldcol : Int) (tabs : List Bool) (ho : 1 ≤ oldcol)
    (hlen : (tabs.length : Int) = col) : ∃ t, tresizeTabs col oldcol tabs = some t := by
  unfold tresizeTabs
  by_cases h : col > oldcol
  · simp only [h, if_true]
    obtain ⟨t1, ht1, hl1⟩ := forUp_tabs_clear oldcol (col - oldcol).toNat 0 tabs (by omega)
      (by omega)
    rw [ht1, Option.some_bind, tresizeTabBack_stop t1 _ _ (by rw [hl1]; omega), Option.some_bind]
    exact tresizeTabSet_some col _ _ t1 (by unfold tabspaces; omega) (by rw [hl1]; exact hlen)
  · simp only [h, if_false]
    exact ⟨tabs, rfl⟩

theorem tcursor_load_frame (s : State) :
    (tcursor CURSOR_LOAD s).term.line = s.term.line ∧
    (tcursor CURSOR_LOAD s).term.alt = s.term.alt ∧
    (tcursor CURSOR_LOAD s).term.row = s.term.row ∧
    (tcursor CURSOR_LOAD s).term.col = s.term.col ∧
    (tcursor CURSOR_LOAD s).term.dirty = s.term.dirty := by
  cases halt : has s.term.mode MODE_ALTSCREEN with
  | true => rw [tcursor_load_alt s halt]; exact ⟨rfl, rfl, rfl, rfl, rfl⟩
  | false => rw [tcursor_load_prim s halt]; exact ⟨rfl, rfl, rfl, rfl, rfl⟩

/-- A call of `tclearregion` that is guarded by a test returns and keeps every
cell outside the rectangle. -/
theorem tclearregion_guarded (s : State) (hd : Dims s) (p : Prop) [Decidable p]
    (x1 y1 x2 y2 : Int) :
    ∃ L D S, (if p then tclearregion x1 y1 x2 y2 s else some s) = some (s.withLDS L D S) ∧
      Rect L s.term.row s.term.col ∧ D.length = s.term.dirty.length ∧
      ∀ y x, (p → ¬ ((clamp (if y1 > y2 then y2 else y1) 0 (s.term.row - 1) ≤ y ∧
            y ≤ clamp (if y1 > y2 then y1 else y2) 0 (s.term.row - 1)) ∧
           clamp (if x1 > x2 then x2 else x1) 0 (s.term.col - 1) ≤ x ∧
            x ≤ clamp (if x1 > x2 then x1 else x2) 0 (s.term.col - 1))) →
        cell? L y x = cell? s.term.line y x := by
  by_cases hp : p
  · obtain ⟨L, D, S, h, hrect, hge, _, _, hcell⟩ := tclearregion_spec s hd x1 y1 x2 y2
    refine ⟨L, D, S, by rw [if_pos hp]; exact h, hrect, hge.1, fun y x hn => ?_⟩
    rw [hcell y x, if_neg (hn hp)]
  · exact ⟨s.term.line, s.term.dirty, s.sel, by rw [if_neg hp]; rfl, hd.2.2.1, rfl,
      fun _ _ _ => rfl⟩

/-- One round of the final loop of `tresize` on a terminal whose two screens have
the dimensions of the terminal: the screens are exchanged, and the cells left
of `mincol` and above `minrow` of the screen that was active are kept. -/
theorem tresizeClear_spec (s : State) (hd : Dims s) (mincol minrow : Int)
    (hmc : 0 ≤ mincol) (hmr : 0 ≤ minrow) :
    ∃ s1, tresizeClear s.term.col s.term.row mincol minrow s = some s1 ∧
      s1.term.row = s.term.row ∧ s1.term.col = s.term.col ∧
      s1.term.line = s.term.alt ∧ Rect s1.term.alt s.term.row s.term.col ∧
      (s1.term.dirty.length : Int) = s.term.row ∧
      ∀ y x, y < minrow → x < mincol → cell? s1.term.alt y x = cell? s.term.line y x := by
  obtain ⟨L1, D1, S1, h1, hrect1, hlen1, hcell1⟩ := tclearregion_guarded s hd
    (mincol < s.term.col ∧ 0 < minrow) mincol 0 (s.term.col - 1) (minrow - 1)
  have hd1 : Dims (s.withLDS L1 D1 S1) := ⟨hd.1, hd.2.1, hrect1, by
    show (D1.length : Int) = s.term.row
    rw [hlen1]; exact hd.2.2.2⟩
  obtain ⟨L2, D2, S2, h2, hrect2, hlen2, hcell2⟩ := tclearregion_guarded (s.withLDS L1 D1 S1) hd1
    (0 < s.term.col ∧ minrow < s.term.row) 0 minrow (s.term.col - 1) (s.term.row - 1)
  have hrect2 : Rect L2 s.term.row s.term.col := hrect2
  have hlen2 : D2.length = D1.length := hlen2
  have hD2 : (D2.length : Int) = s.term.row := by rw [hlen2, hlen1]; exact hd.2.2.2
  obtain ⟨D3, h3, hlen3⟩ := tswapscreen_spec ((s.withLDS L1 D1 S1).withLDS L2 D2 S2) hd.1 hD2
  have hlen3 : D3.length = D2.length := hlen3
  have hf := tcursor_load_frame { ((s.withLDS L1 D1 S1).withLDS L2 D2 S2) with
    term := { ((s.withLDS L1 D1 S1).withLDS L2 D2 S2).term with
      line := s.term.alt, alt := L2, mode := s.term.mode ^^^ MODE_ALTSCREEN, dirty := D3 } }
  refine ⟨_, ?_, hf.2.2.1, hf.2.2.2.1, hf.1, ?_, ?_, ?_⟩
  · unfold tresizeClear
    rw [h1, Option.some_bind, h2, Option.some_bind, h3, Option.map_some']
    rfl
  · rw [hf.2.1]; exact hrect2
  · rw [hf.2.2.2.2]
    show (D3.length : Int) = s.term.row
    rw [hlen3]; exact hD2
  · intro y x hy hx
    rw [hf.2.1]
    show cell? L2 y x = _
    have e2 : cell? L2 y x = cell? L1 y x := by
      apply hcell2
      intro hp h
      have hh : clamp (if minrow > s.term.row - 1 then s.term.row - 1 else minrow) 0
          (s.term.row - 1) ≤ y := h.1.1
      have hr := hd.1
      unfold clamp imin imax at hh
      split_ifs at hh <;> omega
    have e1 : cell? L1 y x = cell? s.term.line y x := by
      apply hcell1
      intro hp h
      have hh := h.2.1
      have hr := hd.2.1
      unfold clamp imin imax at hh
      split_ifs at hh <;> omega
    rw [e2, e1]

theorem tmoveto_row_in_bounds (s : State) (x y : Int) (hy : 0 ≤ y ∧ y < s.term.row)
    (ho : has s.term.c.state CURSOR_ORIGIN = true → s.term.top ≤ y ∧ y ≤ s.term.bot) :
    (tmoveto x y s).term.c.y = y := by
  simp only [tmoveto]
  by_cases h : has s.term.c.state CURSOR_ORIGIN = true
  · have := ho h
    simp only [h, if_true]
    exact clamp_of_mem _ _ _ this.1 this.2
  · simp only [h, Bool.false_eq_true, if_false]
    exact clamp_of_mem _ _ _ hy.1 (by omega)

theorem tsetscroll_full (s : State) (hrow : 1 ≤ s.term.row) :
    (tsetscroll 0 (s.term.row - 1) s).term.top = 0 ∧
    (tsetscroll 0 (s.term.row - 1) s).term.bot = s.term.row - 1 := by
  simp only [tsetscroll]
  rw [clamp_of_mem 0 0 (s.term.row - 1) (le_refl _) (by omega),
    clamp_of_mem (s.term.row - 1) 0 (s.term.row - 1) (by omega) (le_refl _)]
  constructor <;> split_ifs <;> omega

/-- What `tresize` does when the cursor row does not force a slide, on a terminal
whose two screens have the dimensions of the terminal: it returns, both screens
take the new dimensions, and the cells inside both the old and the new
dimensions are kept on either screen. -/
theorem tresize_spec (s : State) (col row : Int) (hd : Dims s)
    (ha : Rect s.term.alt s.term.row s.term.col) (hcol : 1 ≤ col) (hrow : 1 ≤ row)
    (hy : s.term.c.y ≤ row) :
    ∃ s1, tresize col row s = some s1 ∧ s1.term.row = row ∧ s1.term.col = col ∧
      Rect s1.term.line row col ∧ Rect s1.term.alt row col ∧
      (s1.term.dirty.length : Int) = row ∧
      (0 ≤ s.term.c.y → s.term.c.y < row → s1.term.c.y = s.term.c.y) ∧
      ∀ y x, y < row → y < s.term.row → x < col → x < s.term.col →
        cell? s1.term.line y x = cell? s.term.line y x ∧
        cell? s1.term.alt y x = cell? s.term.alt y x := by
  obtain ⟨hrl, hcl⟩ := resizeGrid_spec s.term.line s.term.row s.term.col row col hd.2.2.1
    (by omega) (by omega)
  obtain ⟨hra, hca⟩ := resizeGrid_spec s.term.alt s.term.row s.term.col row col ha
    (by omega) (by omega)
  obtain ⟨tabs2, htabs⟩ := tresizeTabs_some col s.term.col
    (goCopy (List.replicate col.toNat false) s.term.tabs) hd.2.1
    (by rw [goCopy_length, List.length_replicate]; omega)
  have hdl : ((goCopy (List.replicate row.toNat false) s.term.dirty).length : Int) = row := by
    rw [goCopy_length, List.length_replicate]; omega
  obtain ⟨s3, hs3⟩ : ∃ s3 : State, s3 =
      tmoveto s.term.c.x s.term.c.y (tsetscroll 0 (row - 1) { s with term := { s.term with
        line := (goCopy (List.replicate row.toNat ([] : Line)) s.term.line).map
          (fun l => goCopy (List.replicate col.toNat (default : Glyph)) l)
        alt := (goCopy (List.replicate row.toNat ([] : Line)) s.term.alt).map
          (fun l => goCopy (List.replicate col.toNat (default : Glyph)) l)
        dirty := goCopy (List.replicate row.toNat false) s.term.dirty
        tabs := tabs2
        col := col
        row := row } }) := ⟨_, rfl⟩
  have key : tresize col row s =
      (tresizeClear col row (imin col s.term.col) (imin row s.term.row) s3).bind fun s4 =>
      (tresizeClear col row (imin col s.term.col) (imin row s.term.row) s4).map fun s5 =>
        { s5 with term := { s5.term with c := s3.term.c } } := by
    unfold tresize
    have h1 : ¬ (col < 1 ∨ row < 1) := by omega
    have h2 : ¬ (s.term.c.y - row > 0) := by omega
    simp only [h1, if_false, h2, Option.some_bind, htabs]
    rw [hs3]
    rfl
  have e3 : s3.term.row = row ∧ s3.term.col = col ∧
      s3.term.line = (goCopy (List.replicate row.toNat ([] : Line)) s.term.line).map
          (fun l => goCopy (List.replicate col.toNat (default : Glyph)) l) ∧
      s3.term.alt = (goCopy (List.replicate row.toNat ([] : Line)) s.term.alt).map
          (fun l => goCopy (List.replicate col.toNat (default : Glyph)) l) ∧
      s3.term.dirty = goCopy (List.replicate row.toNat false) s.term.dirty := by
    rw [hs3]; exact ⟨rfl, rfl, rfl, rfl, rfl⟩
  obtain ⟨e3r, e3c, e3l, e3a, e3d⟩ := e3
  have hmc : 0 ≤ imin col s.term.col := by
    have := hd.2.1
    unfold imin; split_ifs <;> omega
  have hmr : 0 ≤ imin row s.term.row := by
    have := hd.1
    unfold imin; split_ifs <;> omega
  have hd3 : Dims s3 := by
    refine ⟨by rw [e3r]; exact hrow, by rw [e3c]; exact hcol, ?_, ?_⟩
    · rw [e3l, e3r, e3c]; exact hrl
    · rw [e3d, e3r]; exact hdl
  obtain ⟨s4, h4, e4r, e4c, e4l, e4a, e4d, hc4⟩ := tresizeClear_spec s3 hd3 _ _ hmc hmr
  rw [e3r, e3c] at h4 e4a
  rw [e3r] at e4r e4d
  rw [e3c] at e4c
  have hd4 : Dims s4 := by
    refine ⟨by rw [e4r]; exact hrow, by rw [e4c]; exact hcol, ?_, ?_⟩
    · rw [e4l, e3a, e4r, e4c]; exact hra
    · rw [e4r]; exact e4d
  obtain ⟨s5, h5, e5r, e5c, e5l, e5a, e5d, hc5⟩ := tresizeClear_spec s4 hd4 _ _ hmc hmr
  rw [e4r, e4c] at h5 e5a
  rw [e4r] at e5r e5d
  rw [e4c] at e5c
  refine ⟨{ s5 with term := { s5.term with c := s3.term.c } }, ?_, e5r, e5c, ?_, e5a, e5d, ?_, ?_⟩
  · rw [key, h4, Option.some_bind, h5, Option.map_some']
  · show Rect s5.term.line row col
    rw [e5l]; exact e4a
  · intro h0 h1
    show s3.term.c.y = _
    rw [hs3]
    have hfull := tsetscroll_full { s with term := { s.term with
        line := (goCopy (List.replicate row.toNat ([] : Line)) s.term.line).map
          (fun l => goCopy (List.replicate col.toNat (default : Glyph)) l)
        alt := (goCopy (List.replicate row.toNat ([] : Line)) s.term.alt).map
          (fun l => goCopy (List.replicate col.toNat (default : Glyph)) l)
        dirty := goCopy (List.replicate row.toNat false) s.term.dirty
        tabs := tabs2
        col := col
        row := row } } hrow
    apply tmoveto_row_in_bounds _ _ _ ⟨h0, h1⟩
    intro _
    rw [hfull.1, hfull.2]
    exact ⟨h0, by show s.term.c.y ≤ row - 1; omega⟩
  · intro y x hy1 hy2 hx1 hx2
    have hym : y < imin row s.term.row := by unfold imin; split_ifs <;> omega
    have hxm : x < imin col s.term.col := by unfold imin; split_ifs <;> omega
    constructor
    · show cell? s5.term.line y x = _
      rw [e5l, hc4 y x hym hxm, e3l]
      exact hcl y x hy1 hy2 hx1 hx2
    · show cell? s5.term.alt y x = _
      rw [hc5 y x hym hxm, e4l, e3a]
      exact hca y x hy1 hy2 hx1 hx2

/-! ## C6 -/

/-- C6: on a terminal of `c` columns and `r` rows whose two screens have these
dimensions and whose cursor row is in bounds, `tresize` to any `c2 ≥ c` and
`r2 ≥ r` followed by `tresize` back to `(c, r)` returns both times and leaves
every cell `(x, y)` with `x < c` and `y < r` of the active and of the inactive
screen equal to its value before the two calls. -/
theorem C6_resize_roundtrip (s : State) (c2 r2 : Int) (hd : Dims s)
    (ha : Rect s.term.alt s.term.row s.term.col)
    (hcy : 0 ≤ s.term.c.y ∧ s.term.c.y < s.term.row)
    (hc : s.term.col ≤ c2) (hr : s.term.row ≤ r2) :
    ∃ s1 s2, tresize c2 r2 s = some s1 ∧ tresize s.term.col s.term.row s1 = some s2 ∧
      s2.term.col = s.term.col ∧ s2.term.row = s.term.row ∧
      ∀ y x, 0 ≤ y → y < s.term.row → 0 ≤ x → x < s.term.col →
        cell? s2.term.line y x = cell? s.term.line y x ∧
        cell? s2.term.alt y x = cell? s.term.alt y x := by
  obtain ⟨s1, h1, e1r, e1c, hl1, ha1, hd1, hy1, hcell1⟩ := tresize_spec s c2 r2 hd ha
    (by have := hd.2.1; omega) (by have := hd.1; omega) (by omega)
  have hy1 := hy1 hcy.1 (by omega)
  have hdims1 : Dims s1 := by
    refine ⟨?_, ?_, ?_, ?_⟩
    · rw [e1r]; have := hd.1; omega
    · rw [e1c]; have := hd.2.1; omega
    · rw [e1r, e1c]; exact hl1
    · rw [e1r]; exact hd1
  obtain ⟨s2, h2, e2r, e2c, _, _, _, _, hcell2⟩ := tresize_spec s1 s.term.col s.term.row hdims1
    (by rw [e1r, e1c]; exact ha1) hd.2.1 hd.1 (by rw [hy1]; omega)
  refine ⟨s1, s2, h1, h2, e2c, e2r, fun y x _ hy _ hx => ?_⟩
  obtain ⟨a1, a2⟩ := hcell2 y x hy (by rw [e1r]; omega) hx (by rw [e1c]; omega)
  obtain ⟨b1, b2⟩ := hcell1 y x (by omega) hy (by omega) hx
  exact ⟨a1.trans b1, a2.trans b2⟩

theorem C6_resize_roundtrip_witness :
    ∃ s1 s2, tresize 5 4 (sampleState 3 2 abcScreen (blankScreen 3 2) 1 1) = some s1 ∧
      tresize 3 2 s1 = some s2 ∧ s2.term.col = 3 ∧ s2.term.row = 2 ∧
      ∀ y x, 0 ≤ y → y < 2 → 0 ≤ x → x < 3 →
        cell? s2.term.line y x = cell? abcScreen y x ∧
        cell? s2.term.alt y x = cell? (blankScreen 3 2) y x :=
  C6_resize_roundtrip (sampleState 3 2 abcScreen (blankScreen 3 2) 1 1) 5 4 (by decide)
    (by decide) (by decide) (by decide) (by decide)

/-! ## C11 -/

/-- C11: `tresize(col, row)` with `col < 1` or `row < 1` returns the state it was
given: column and row counts, both screens, dirty flags, tab stops, cursor and
scroll region are unchanged, as is everything else. -/
theorem C11_degenerate_resize (s : State) (col row : Int) (h : col < 1 ∨ row < 1) :
    tresize col row s = some s := by
  unfold tresize
  simp only [h, if_true]

theorem C11_degenerate_resize_witness :
    tresize 0 5 (sampleState 3 2 abcScreen (blankScreen 3 2) 1 1) =
      some (sampleState 3 2 abcScreen (blankScreen 3 2) 1 1) :=
  C11_degenerate_resize (sampleState 3 2 abcScreen (blankScreen 3 2) 1 1) 0 5 (by decide)

/-! ## C12, C13: the program at the failing inputs -/

/-- C12: on a terminal of three rows `aaa`, `bbb`, `ccc` with the cursor on row 2,
`tresize(3, 2)` slides nothing (`i = 2 - 2`) and leaves on the last row 1 the old
row 1, `bbb`; `tresize(3, 1)` slides by one and leaves on row 0 the old row 1.
In both cases the row `ccc` the cursor was on is gone; the cursor is on the last
row. -/
theorem C12_slide_off_by_one :
    (tresize 3 2 (sampleState 3 3 abcRows (blankScreen 3 3) 0 2)).map
        (fun t => (t.term.line, t.term.c.y)) =
      some ([List.replicate 3 ⟨97, 0, 7, 0⟩, List.replicate 3 ⟨98, 0, 7, 0⟩], 1) ∧
    (tresize 3 1 (sampleState 3 3 abcRows (blankScreen 3 3) 0 2)).map
        (fun t => (t.term.line, t.term.c.y)) =
      some ([List.replicate 3 ⟨98, 0, 7, 0⟩], 0) := by
  constructor <;> decide

/-- C13: `tnew(10, 2)` sets the one tab stop at column 8; `tresize(20, 2)` then
adds a stop at column 17, which is `10 - 1 + 8`, and none at column 16. -/
theorem C13_new_tab_stops_shifted :
    (tnew 10 2 (sampleState 0 0 [] [] 0 0)).map (fun t => t.term.tabs) =
      some ((List.range 10).map (fun i => decide (i = 8))) ∧
    ((tnew 10 2 (sampleState 0 0 [] [] 0 0)).bind (tresize 20 2)).map (fun t => t.term.tabs) =
      some ((List.range 20).map (fun i => decide (i = 8 ∨ i = 17))) := by
  constructor <;> decide

/-! ## C18, C19: the program at the failing inputs -/

/-- C18: with CRLF mode set, `ttywrite` of `ab` indexes the data at -1 after it
has written `ab`; of `a`, CR, `b` it writes `a`, CR, `b`, CR, LF; of CR, `a` it
writes CR, LF only. -/
theorem C18_crlf_loop :
    ttywriteNoEcho [97, 98] crlfState = none ∧
    (ttywriteNoEcho [97, 13, 98] crlfState).map (fun t => t.tty) = some [97, 13, 98, 13, 10] ∧
    (ttywriteNoEcho [13, 97] crlfState).map (fun t => t.tty) = some [13, 10] := by
  refine ⟨?_, ?_, ?_⟩ <;> decide

/-- C19: `tsetattr` on the argument list `[38]`, and on `[1, 48]`, indexes the
list one past its end; so ESC [ 3 8 m, fed to a fresh terminal, aborts. -/
theorem C19_sgr_38_reads_past_end :
    tsetattr [38] (sampleState 4 2 (blankScreen 4 2) (blankScreen 4 2) 0 0) = none ∧
    tsetattr [1, 48] (sampleState 4 2 (blankScreen 4 2) (blankScreen 4 2) 0 0) = none ∧
    feed narrowEnv [27, 91, 51, 56, 109]
      (sampleState 4 2 (blankScreen 4 2) (blankScreen 4 2) 0 0) = none := by
  refine ⟨?_, ?_, ?_⟩ <;> decide

/-! ## C20 -/

/-- C20 (amended): `selected(x, y)` is false for every point when the selection
mode is empty, when no selection is set (`sel.ob.x = -1`, as `selclear` leaves
it together with the idle mode), and when the screen the selection was started
on is not the active one. -/
theorem C20_selected_rejects (s : State) (x y : Int)
    (h : s.sel.mode = SEL_EMPTY ∨ s.sel.ob.x = -1 ∨
      s.sel.alt ≠ has s.term.mode MODE_ALTSCREEN) :
    selected x y s = false := by
  unfold selected
  rw [if_pos h]

theorem C20_selected_rejects_witness :
    selected 2 1 { fooBarState with
      sel := ⟨SEL_READY, SEL_REGULAR, 0, ⟨1, 1⟩, ⟨3, 1⟩, ⟨1, 1⟩, ⟨3, 1⟩, true⟩ } = false :=
  C20_selected_rejects _ 2 1 (by decide)

/-- C20, the claim as stated fails: after a selection is dragged from column 1 to
column 3 of a row and the button released, the selection mode is idle, and
`selected` is true at column 2 of that row. -/
theorem C20_idle_selection_selected :
    releasedSelection.map (fun t => (t.sel.mode, t.sel.ob.x, selected 2 1 t)) =
      some (SEL_IDLE, 1, true) := by
  decide

/-! ## C17: the program at the failing input -/

/-- C17: in UTF-8 mode, `twrite` on the bytes 0xFF, `A` stops at once: it
consumes no byte, puts no glyph and leaves the state as it was. The same
happens on the three bytes that encode U+FFFD itself, while the valid bytes
`A`, `B` are consumed and stored. -/
theorem C17_invalid_byte_not_consumed :
    twrite narrowEnv [0xff, 65] false (sampleState 4 2 (blankScreen 4 2) (blankScreen 4 2) 0 0) =
      some (sampleState 4 2 (blankScreen 4 2) (blankScreen 4 2) 0 0, 0) ∧
    twrite narrowEnv [0xef, 0xbf, 0xbd] false
        (sampleState 4 2 (blankScreen 4 2) (blankScreen 4 2) 0 0) =
      some (sampleState 4 2 (blankScreen 4 2) (blankScreen 4 2) 0 0, 0) ∧
    (twrite narrowEnv [65, 66] false
        (sampleState 4 2 (blankScreen 4 2) (blankScreen 4 2) 0 0)).map
      (fun r => (r.2, (cell? r.1.term.line 0 0).map Glyph.u, (cell? r.1.term.line 0 1).map Glyph.u))
      = some (2, some 65, some 66) := by
  refine ⟨?_, ?_, ?_⟩ <;> decide

/-! ## `tresize` on any state -/

theorem copyWithin_some {α : Type} (l : List α) (size src : Int) (h0 : 0 ≤ size)
    (h1 : size ≤ l.length) (h2 : 0 ≤ src) (h3 : src ≤ l.length) :
    ∃ l1, copyWithin l 0 size src = some l1 := by
  unfold copyWithin
  have : 0 ≤ (0 : Int) ∧ (0 : Int) ≤ 0 + size ∧ 0 + size ≤ l.length ∧ 0 ≤ src ∧ src ≤ l.length :=
    ⟨le_refl _, by omega, by omega, h2, h3⟩
  rw [if_pos this]
  exact ⟨_, rfl⟩

theorem resizeGrid_rect (g : List Line) (row col : Int) (hrow : 0 ≤ row) (hcol : 0 ≤ col) :
    Rect ((goCopy (List.replicate row.toNat ([] : Line)) g).map
        (fun l => goCopy (List.replicate col.toNat (default : Glyph)) l)) row col := by
  refine ⟨?_, ?_⟩
  · rw [List.length_map, goCopy_length, List.length_replicate]
    omega
  · intro l hl
    obtain ⟨l0, _, rfl⟩ := List.mem_map.1 hl
    rw [goCopy_length, List.length_replicate]
    omega

theorem tresizeTabSet_length (col : Int) (fuel : Nat) : ∀ (bp : Int) (tabs : List Bool), 0 ≤ bp →
    (tabs.length : Int) = col →
    ∃ t, tresizeTabSet col fuel bp tabs = some t ∧ (t.length : Int) = col := by
  induction fuel with
  | zero => intro bp tabs _ h; exact ⟨tabs, rfl, h⟩
  | succ n ih =>
    intro bp tabs h0 hlen
    unfold tresizeTabSet
    by_cases hb : bp < col
    · have hu := upd?_of_bounds tabs bp true h0 (by omega)
      simp only [hb, if_true, hu, Option.some_bind]
      exact ih (bp + tabspaces) _ (by unfold tabspaces; omega) (by rw [List.length_set]; exact hlen)
    · simp only [hb, if_false]
      exact ⟨tabs, rfl, hlen⟩

/-- The tab-stop part of `tresize` returns a table of the new width. -/
theorem tresizeTabs_length (col oldcol : Int) (tabs : List Bool) (ho : 0 ≤ oldcol)
    (hlen : (tabs.length : Int) = col) :
    ∃ t, tresizeTabs col oldcol tabs = some t ∧ (t.length : Int) = col := by
  unfold tresizeTabs
  by_cases h : col > oldcol
  · simp only [h, if_true]
    obtain ⟨t1, ht1, hl1⟩ := forUp_tabs_clear oldcol (col - oldcol).toNat 0 tabs (by omega)
      (by omega)
    rw [ht1, Option.some_bind, tresizeTabBack_stop t1 _ _ (by rw [hl1]; omega), Option.some_bind]
    exact tresizeTabSet_length col _ _ t1 (by unfold tabspaces; omega) (by rw [hl1]; exact hlen)
  · simp only [h, if_false]
    exact ⟨tabs, rfl, hlen⟩

theorem tcursor_load_region (s : State) :
    (tcursor CURSOR_LOAD s).term.top = s.term.top ∧
    (tcursor CURSOR_LOAD s).term.bot = s.term.bot ∧
    (tcursor CURSOR_LOAD s).term.tabs = s.term.tabs := by
  cases halt : has s.term.mode MODE_ALTSCREEN with
  | true => rw [tcursor_load_alt s halt]; exact ⟨rfl, rfl, rfl⟩
  | false => rw [tcursor_load_prim s halt]; exact ⟨rfl, rfl, rfl⟩

/-- One round of the final loop of `tresize` returns; it exchanges the screens,
keeps their dimensions, the scroll region and the tab stops, and leaves every
row dirty. -/
theorem tresizeClear_frame (s : State) (hd : Dims s) (mincol minrow : Int) :
    ∃ s1, tresizeClear s.term.col s.term.row mincol minrow s = some s1 ∧
      s1.term.row = s.term.row ∧ s1.term.col = s.term.col ∧
      s1.term.top = s.term.top ∧ s1.term.bot = s.term.bot ∧ s1.term.tabs = s.term.tabs ∧
      s1.term.line = s.term.alt ∧ Rect s1.term.alt s.term.row s.term.col ∧
      (s1.term.dirty.length : Int) = s.term.row ∧
      ∀ j, 0 ≤ j → j < s.term.row → idx? s1.term.dirty j = some true := by
  obtain ⟨L1, D1, S1, h1, hrect1, hlen1, _⟩ := tclearregion_guarded s hd
    (mincol < s.term.col ∧ 0 < minrow) mincol 0 (s.term.col - 1) (minrow - 1)
  have hd1 : Dims (s.withLDS L1 D1 S1) := ⟨hd.1, hd.2.1, hrect1, by
    show (D1.length : Int) = s.term.row
    rw [hlen1]; exact hd.2.2.2⟩
  obtain ⟨L2, D2, S2, h2, hrect2, hlen2, _⟩ := tclearregion_guarded (s.withLDS L1 D1 S1) hd1
    (0 < s.term.col ∧ minrow < s.term.row) 0 minrow (s.term.col - 1) (s.term.row - 1)
  have hrect2 : Rect L2 s.term.row s.term.col := hrect2
  have hlen2 : D2.length = D1.length := hlen2
  have hD2 : (D2.length : Int) = s.term.row := by rw [hlen2, hlen1]; exact hd.2.2.2
  obtain ⟨D3, h3, hlen3, hidx3⟩ := tsetdirt_spec { ((s.withLDS L1 D1 S1).withLDS L2 D2 S2) with
    term := { ((s.withLDS L1 D1 S1).withLDS L2 D2 S2).term with
      line := s.term.alt, alt := L2, mode := s.term.mode ^^^ MODE_ALTSCREEN } }
    0 (s.term.row - 1) hd.1 hD2
  have hlen3 : D3.length = D2.length := hlen3
  have hidx3 : ∀ j, idx? D3 j = if clamp 0 0 (s.term.row - 1) ≤ j ∧
      j ≤ clamp (s.term.row - 1) 0 (s.term.row - 1) then some true else idx? D2 j := hidx3
  have hf := tcursor_load_frame { ((s.withLDS L1 D1 S1).withLDS L2 D2 S2) with
    term := { ((s.withLDS L1 D1 S1).withLDS L2 D2 S2).term with
      line := s.term.alt, alt := L2, mode := s.term.mode ^^^ MODE_ALTSCREEN, dirty := D3 } }
  have hg := tcursor_load_region { ((s.withLDS L1 D1 S1).withLDS L2 D2 S2) with
    term := { ((s.withLDS L1 D1 S1).withLDS L2 D2 S2).term with
      line := s.term.alt, alt := L2, mode := s.term.mode ^^^ MODE_ALTSCREEN, dirty := D3 } }
  refine ⟨_, ?_, hf.2.2.1, hf.2.2.2.1, hg.1, hg.2.1, hg.2.2, hf.1, ?_, ?_, ?_⟩
  · unfold tresizeClear
    have hsw : tswapscreen ((s.withLDS L1 D1 S1).withLDS L2 D2 S2) =
        some { ((s.withLDS L1 D1 S1).withLDS L2 D2 S2) with
          term := { ((s.withLDS L1 D1 S1).withLDS L2 D2 S2).term with
            line := s.term.alt, alt := L2, mode := s.term.mode ^^^ MODE_ALTSCREEN,
            dirty := D3 } } := h3
    rw [h1, Option.some_bind, h2, Option.some_bind, hsw, Option.map_some']
  · rw [hf.2.1]; exact hrect2
  · rw [hf.2.2.2.2]
    show (D3.length : Int) = s.term.row
    rw [hlen3]; exact hD2
  · intro j h0 hj
    rw [hf.2.2.2.2]
    show idx? D3 j = some true
    have hr := hd.1
    rw [hidx3 j, clamp_of_mem 0 0 (s.term.row - 1) (le_refl _) (by omega),
      clamp_of_mem (s.term.row - 1) 0 (s.term.row - 1) (by omega) (le_refl _),
      if_pos ⟨h0, by omega⟩]

/-- The cursor that `tmoveto` leaves is inside the screen, and inside the scroll
region under origin mode, whatever the target: the screen has at least one row
and one column and the scroll region lies inside it. -/
theorem tmoveto_bounds (s : State) (x y : Int) (hcol : 1 ≤ s.term.col) (hrow : 1 ≤ s.term.row)
    (hreg : 0 ≤ s.term.top ∧ s.term.top ≤ s.term.bot ∧ s.term.bot ≤ s.term.row - 1) :
    (0 ≤ (tmoveto x y s).term.c.x ∧ (tmoveto x y s).term.c.x ≤ s.term.col - 1 ∧
      0 ≤ (tmoveto x y s).term.c.y ∧ (tmoveto x y s).term.c.y ≤ s.term.row - 1) ∧
    (has s.term.c.state CURSOR_ORIGIN = true →
      s.term.top ≤ (tmoveto x y s).term.c.y ∧ (tmoveto x y s).term.c.y ≤ s.term.bot) := by
  have hx := clamp_bounds x 0 (s.term.col - 1) (by omega)
  simp only [tmoveto]
  by_cases h : has s.term.c.state CURSOR_ORIGIN = true
  · have hy := clamp_bounds y s.term.top s.term.bot hreg.2.1
    simp only [h, if_true]
    exact ⟨⟨hx.1, hx.2, by omega, by omega⟩, fun _ => hy⟩
  · have hy := clamp_bounds y 0 (s.term.row - 1) (by omega)
    simp only [h, Bool.false_eq_true, if_false]
    exact ⟨⟨hx.1, hx.2, hy.1, hy.2⟩, fun h2 => absurd h2 (by decide)⟩

/-- What `tresize` to at least one row and one column leaves once the slide of
the two screens and the tab-stop loop have returned: it returns; the terminal
has the new dimensions, both screens and the dirty flags have them too, every
row is dirty, the scroll region is the whole screen and the cursor is inside
the screen. -/
theorem tresize_of_prefix (s : State) (col row : Int) (hcol : 1 ≤ col) (hrow : 1 ≤ row)
    (line0 alt0 : List Line) (tabs2 : List Bool)
    (hline0 : (if s.term.c.y - row > 0 then
      copyWithin s.term.line 0 row (s.term.c.y - row) else some s.term.line) = some line0)
    (halt0 : (if s.term.c.y - row > 0 then
      copyWithin s.term.alt 0 row (s.term.c.y - row) else some s.term.alt) = some alt0)
    (htabs : tresizeTabs col s.term.col (goCopy (List.replicate col.toNat false) s.term.tabs) =
      some tabs2) :
    ∃ s1, tresize col row s = some s1 ∧ s1.term.row = row ∧ s1.term.col = col ∧
      Rect s1.term.line row col ∧ Rect s1.term.alt row col ∧
      (s1.term.dirty.length : Int) = row ∧
      (∀ j, 0 ≤ j → j < row → idx? s1.term.dirty j = some true) ∧
      s1.term.tabs = tabs2 ∧
      s1.term.top = 0 ∧ s1.term.bot = row - 1 ∧
      (0 ≤ s1.term.c.x ∧ s1.term.c.x ≤ col - 1 ∧ 0 ≤ s1.term.c.y ∧ s1.term.c.y ≤ row - 1) := by
  have hrl := resizeGrid_rect line0 row col (by omega) (by omega)
  have hra := resizeGrid_rect alt0 row col (by omega) (by omega)
  have hdl : ((goCopy (List.replicate row.toNat false) s.term.dirty).length : Int) = row := by
    rw [goCopy_length, List.length_replicate]; omega
  obtain ⟨t, ht⟩ : ∃ t : State, t = tsetscroll 0 (row - 1) { s with term := { s.term with
        line := (goCopy (List.replicate row.toNat ([] : Line)) line0).map
          (fun l => goCopy (List.replicate col.toNat (default : Glyph)) l)
        alt := (goCopy (List.replicate row.toNat ([] : Line)) alt0).map
          (fun l => goCopy (List.replicate col.toNat (default : Glyph)) l)
        dirty := goCopy (List.replicate row.toNat false) s.term.dirty
        tabs := tabs2
        col := col
        row := row } } := ⟨_, rfl⟩
  have hfull := tsetscroll_full { s with term := { s.term with
        line := (goCopy (List.replicate row.toNat ([] : Line)) line0).map
          (fun l => goCopy (List.replicate col.toNat (default : Glyph)) l)
        alt := (goCopy (List.replicate row.toNat ([] : Line)) alt0).map
          (fun l => goCopy (List.replicate col.toNat (default : Glyph)) l)
        dirty := goCopy (List.replicate row.toNat false) s.term.dirty
        tabs := tabs2
        col := col
        row := row } } hrow
  have et : t.term.row = row ∧ t.term.col = col ∧ t.term.top = 0 ∧ t.term.bot = row - 1 ∧
      t.term.tabs = tabs2 ∧
      t.term.line = (goCopy (List.replicate row.toNat ([] : Line)) line0).map
          (fun l => goCopy (List.replicate col.toNat (default : Glyph)) l) ∧
      t.term.alt = (goCopy (List.replicate row.toNat ([] : Line)) alt0).map
          (fun l => goCopy (List.replicate col.toNat (default : Glyph)) l) ∧
      t.term.dirty = goCopy (List.replicate row.toNat false) s.term.dirty ∧
      t.term.c = s.term.c := by
    rw [ht]; exact ⟨rfl, rfl, hfull.1, hfull.2, rfl, rfl, rfl, rfl, rfl⟩
  obtain ⟨etr, etc, ett, etb, ettabs, etl, eta, etd, etcur⟩ := et
  obtain ⟨s3, hs3⟩ : ∃ s3 : State, s3 = tmoveto t.term.c.x t.term.c.y t := ⟨_, rfl⟩
  have hb3 := (tmoveto_bounds t t.term.c.x t.term.c.y (by rw [etc]; exact hcol)
    (by rw [etr]; exact hrow) (by rw [ett, etb, etr]; omega)).1
  rw [← hs3, etc, etr] at hb3
  have e3 : s3.term.row = row ∧ s3.term.col = col ∧ s3.term.top = 0 ∧ s3.term.bot = row - 1 ∧
      s3.term.tabs = tabs2 ∧ Rect s3.term.line row col ∧ Rect s3.term.alt row col ∧
      (s3.term.dirty.length : Int) = row := by
    rw [hs3]
    exact ⟨etr, etc, ett, etb, ettabs, by show Rect t.term.line row col; rw [etl]; exact hrl,
      by show Rect t.term.alt row col; rw [eta]; exact hra,
      by show (t.term.dirty.length : Int) = row; rw [etd]; exact hdl⟩
  obtain ⟨e3r, e3c, e3t, e3b, e3tabs, e3l, e3a, e3d⟩ := e3
  have key : tresize col row s =
      (tresizeClear col row (imin col s.term.col) (imin row s.term.row) s3).bind fun s4 =>
      (tresizeClear col row (imin col s.term.col) (imin row s.term.row) s4).map fun s5 =>
        { s5 with term := { s5.term with c := s3.term.c } } := by
    unfold tresize
    have h1 : ¬ (col < 1 ∨ row < 1) := by omega
    simp only [h1, if_false, hline0, halt0, Option.some_bind, htabs]
    rw [hs3, ht]
  have hd3 : Dims s3 := by
    refine ⟨by rw [e3r]; exact hrow, by rw [e3c]; exact hcol, ?_, ?_⟩
    · rw [e3r, e3c]; exact e3l
    · rw [e3r]; exact e3d
  obtain ⟨s4, h4, e4r, e4c, e4t, e4b, e4tabs, e4l, e4a, e4d, _⟩ := tresizeClear_frame s3 hd3
    (imin col s.term.col) (imin row s.term.row)
  rw [e3r, e3c] at h4 e4a
  rw [e3r] at e4r e4d
  rw [e3c] at e4c
  have hd4 : Dims s4 := by
    refine ⟨by rw [e4r]; exact hrow, by rw [e4c]; exact hcol, ?_, ?_⟩
    · rw [e4l, e4r, e4c]; exact e3a
    · rw [e4r]; exact e4d
  obtain ⟨s5, h5, e5r, e5c, e5t, e5b, e5tabs, e5l, e5a, e5d, e5all⟩ := tresizeClear_frame s4 hd4
    (imin col s.term.col) (imin row s.term.row)
  rw [e4r, e4c] at h5 e5a
  rw [e4r] at e5r e5d e5all
  rw [e4c] at e5c
  refine ⟨{ s5 with term := { s5.term with c := s3.term.c } }, ?_, e5r, e5c, ?_, e5a, e5d,
    e5all, ?_, ?_, ?_, hb3⟩
  · rw [key, h4, Option.some_bind, h5, Option.map_some']
  · show Rect s5.term.line row col
    rw [e5l]; exact e4a
  · show s5.term.tabs = tabs2
    rw [e5tabs, e4tabs, e3tabs]
  · show s5.term.top = 0
    rw [e5t, e4t, e3t]
  · show s5.term.bot = row - 1
    rw [e5b, e4b, e3b]

/-- What `tresize` to at least one row and one column leaves, on any state whose
column count is not negative and whose cursor row is not beyond the rows that
the two screens hold: it returns; the terminal has the new dimensions, both
screens, the dirty flags and the tab stops have them too, every row is dirty,
the scroll region is the whole screen and the cursor is inside the screen. -/
theorem tresize_total (s : State) (col row : Int) (hcol : 1 ≤ col) (hrow : 1 ≤ row)
    (hoc : 0 ≤ s.term.col) (hl : s.term.c.y ≤ s.term.line.length)
    (hal : s.term.c.y ≤ s.term.alt.length) :
    ∃ s1, tresize col row s = some s1 ∧ s1.term.row = row ∧ s1.term.col = col ∧
      Rect s1.term.line row col ∧ Rect s1.term.alt row col ∧
      (s1.term.dirty.length : Int) = row ∧
      (∀ j, 0 ≤ j → j < row → idx? s1.term.dirty j = some true) ∧
      (s1.term.tabs.length : Int) = col ∧
      s1.term.top = 0 ∧ s1.term.bot = row - 1 ∧
      (0 ≤ s1.term.c.x ∧ s1.term.c.x ≤ col - 1 ∧ 0 ≤ s1.term.c.y ∧ s1.term.c.y ≤ row - 1) := by
  obtain ⟨line0, hline0⟩ : ∃ line0, (if s.term.c.y - row > 0 then
      copyWithin s.term.line 0 row (s.term.c.y - row) else some s.term.line) = some line0 := by
    by_cases hi : s.term.c.y - row > 0
    · rw [if_pos hi]
      exact copyWithin_some _ _ _ (by omega) (by omega) (by omega) (by omega)
    · rw [if_neg hi]; exact ⟨_, rfl⟩
  obtain ⟨alt0, halt0⟩ : ∃ alt0, (if s.term.c.y - row > 0 then
      copyWithin s.term.alt 0 row (s.term.c.y - row) else some s.term.alt) = some alt0 := by
    by_cases hi : s.term.c.y - row > 0
    · rw [if_pos hi]
      exact copyWithin_some _ _ _ (by omega) (by omega) (by omega) (by omega)
    · rw [if_neg hi]; exact ⟨_, rfl⟩
  obtain ⟨tabs2, htabs, htl⟩ := tresizeTabs_length col s.term.col
    (goCopy (List.replicate col.toNat false) s.term.tabs) hoc
    (by rw [goCopy_length, List.length_replicate]; omega)
  obtain ⟨s1, h, hr, hc, hline, halt, hdl, hall, htb, ht, hb, hcur⟩ :=
    tresize_of_prefix s col row hcol hrow line0 alt0 tabs2 hline0 halt0 htabs
  exact ⟨s1, h, hr, hc, hline, halt, hdl, hall, by rw [htb]; exact htl, ht, hb, hcur⟩

/-! ## C14 and C15 -/

/-- C14: `tresize(col, row)` with `col ≥ 1` and `row ≥ 1`, on a state whose column
count is not negative and whose cursor row is not beyond the rows the two
screens hold, returns and leaves the scroll region at `top = 0`, `bot = row - 1`,
the cursor with `0 ≤ x ≤ col - 1` and `0 ≤ y ≤ row - 1`, and each of the `row`
dirty flags set. -/
theorem C14_resize_region_cursor_dirty (s : State) (col row : Int) (hcol : 1 ≤ col)
    (hrow : 1 ≤ row) (hoc : 0 ≤ s.term.col) (hl : s.term.c.y ≤ s.term.line.length)
    (hal : s.term.c.y ≤ s.term.alt.length) :
    ∃ s1, tresize col row s = some s1 ∧ s1.term.top = 0 ∧ s1.term.bot = row - 1 ∧
      (0 ≤ s1.term.c.x ∧ s1.term.c.x ≤ col - 1 ∧ 0 ≤ s1.term.c.y ∧ s1.term.c.y ≤ row - 1) ∧
      (s1.term.dirty.length : Int) = row ∧
      ∀ j, 0 ≤ j → j < row → idx? s1.term.dirty j = some true := by
  obtain ⟨s1, h, _, _, _, _, hdl, hall, _, ht, hb, hc⟩ := tresize_total s col row hcol hrow hoc hl hal
  exact ⟨s1, h, ht, hb, hc, hdl, hall⟩

theorem C14_resize_region_cursor_dirty_witness :
    ∃ s1, tresize 2 1 (sampleState 3 3 abcRows (blankScreen 3 3) 2 2) = some s1 ∧
      s1.term.top = 0 ∧ s1.term.bot = 1 - 1 ∧
      (0 ≤ s1.term.c.x ∧ s1.term.c.x ≤ 2 - 1 ∧ 0 ≤ s1.term.c.y ∧ s1.term.c.y ≤ 1 - 1) ∧
      (s1.term.dirty.length : Int) = 1 ∧
      ∀ j, 0 ≤ j → j < 1 → idx? s1.term.dirty j = some true :=
  C14_resize_region_cursor_dirty (sampleState 3 3 abcRows (blankScreen 3 3) 2 2) 2 1
    (by decide) (by decide) (by decide) (by decide) (by decide)

/-- C15: `tresize(col, row)` with `col ≥ 1` and `row ≥ 1`, on a state whose column
count is not negative and whose cursor row is not beyond the rows the two
screens hold, returns and leaves the primary row array, the alternate row array
and the dirty array with exactly `row` entries, every row of both screens with
exactly `col` cells, and the tab-stop array with exactly `col` entries; `term.row`
and `term.col` are `row` and `col`. -/
theorem C15_resize_array_sizes (s : State) (col row : Int) (hcol : 1 ≤ col)
    (hrow : 1 ≤ row) (hoc : 0 ≤ s.term.col) (hl : s.term.c.y ≤ s.term.line.length)
    (hal : s.term.c.y ≤ s.term.alt.length) :
    ∃ s1, tresize col row s = some s1 ∧ s1.term.row = row ∧ s1.term.col = col ∧
      (s1.term.line.length : Int) = row ∧ (s1.term.alt.length : Int) = row ∧
      (s1.term.dirty.length : Int) = row ∧
      (∀ l ∈ s1.term.line, (l.length : Int) = col) ∧
      (∀ l ∈ s1.term.alt, (l.length : Int) = col) ∧
      (s1.term.tabs.length : Int) = col := by
  obtain ⟨s1, h, hr, hc, hline, halt, hdl, _, htl, _⟩ :=
    tresize_total s col row hcol hrow hoc hl hal
  exact ⟨s1, h, hr, hc, hline.1, halt.1, hdl, hline.2, halt.2, htl⟩

theorem C15_resize_array_sizes_witness :
    ∃ s1, tresize 5 4 (sampleState 3 2 abcScreen (blankScreen 3 2) 1 1) = some s1 ∧
      s1.term.row = 4 ∧ s1.term.col = 5 ∧
      (s1.term.line.length : Int) = 4 ∧ (s1.term.alt.length : Int) = 4 ∧
      (s1.term.dirty.length : Int) = 4 ∧
      (∀ l ∈ s1.term.line, (l.length : Int) = 5) ∧
      (∀ l ∈ s1.term.alt, (l.length : Int) = 5) ∧
      (s1.term.tabs.length : Int) = 5 :=
  C15_resize_array_sizes (sampleState 3 2 abcScreen (blankScreen 3 2) 1 1) 5 4
    (by decide) (by decide) (by decide) (by decide) (by decide)

/-! ## Operations that leave the cursor and the geometry alone -/

theorem Geom_of_fixed {s t : State} (h : t.fixed = s.fixed) (hg : Geom s) : Geom t := by
  unfold State.fixed at h
  simp only [Prod.mk.injEq] at h
  obtain ⟨_, h1, h2, h3, h4⟩ := h
  unfold Geom
  rw [h1, h2, h3, h4]; exact hg

theorem InBounds_of_fixed {s t : State} (h : t.fixed = s.fixed) (hb : InBounds s) :
    InBounds t := by
  unfold State.fixed at h
  simp only [Prod.mk.injEq] at h
  obtain ⟨h0, h1, h2, _, _⟩ := h
  unfold InBounds
  rw [h0, h1, h2]; exact hb

theorem forUp_fixed (body : Int → State → Option State)
    (h : ∀ i t t1, body i t = some t1 → t1.fixed = t.fixed) (n : Nat) :
    ∀ (i : Int) (s s1 : State), forUp body n i s = some s1 → s1.fixed = s.fixed := by
  induction n with
  | zero =>
    intro i s s1 hs
    rw [← Option.some.inj hs]
  | succ n ih =>
    intro i s s1 hs
    simp only [forUp, Option.bind_eq_some] at hs
    obtain ⟨t, ht, hs1⟩ := hs
    rw [ih _ _ _ hs1, h _ _ _ ht]

theorem tsetdirt_fixed {top bot : Int} {s s1 : State} (h : tsetdirt top bot s = some s1) :
    s1.fixed = s.fixed := by
  unfold tsetdirt at h
  refine forUp_fixed _ ?_ _ _ _ _ h
  intro i t t1 ht
  simp only [Option.map_eq_some'] at ht
  obtain ⟨d, _, rfl⟩ := ht
  rfl

theorem selclear_fixed {s s1 : State} (h : selclear s = some s1) : s1.fixed = s.fixed := by
  unfold selclear at h
  by_cases h0 : s.sel.ob.x = -1
  · rw [if_pos h0] at h
    rw [← Option.some.inj h]
  · rw [if_neg h0] at h
    have e := tsetdirt_fixed h
    exact e

theorem tclearcell_fixed {y x : Int} {s s1 : State} (h : tclearcell y x s = some s1) :
    s1.fixed = s.fixed := by
  unfold tclearcell at h
  simp only [Option.bind_eq_some, Option.map_eq_some'] at h
  obtain ⟨_, _, t, ht, g, _, rfl⟩ := h
  have e : t.fixed = s.fixed := by
    by_cases hs : selected x y s = true
    · rw [if_pos hs] at ht; exact selclear_fixed ht
    · rw [if_neg hs] at ht; rw [← Option.some.inj ht]
  exact e

theorem tclearrow_fixed {x1 x2 y : Int} {s s1 : State} (h : tclearrow x1 x2 y s = some s1) :
    s1.fixed = s.fixed := by
  unfold tclearrow at h
  simp only [Option.bind_eq_some] at h
  obtain ⟨d, _, h2⟩ := h
  have e := forUp_fixed (tclearcell y) (fun _ _ _ ht => tclearcell_fixed ht) _ _ _ _ h2
  exact e

theorem tclearregion_fixed {x1 y1 x2 y2 : Int} {s s1 : State}
    (h : tclearregion x1 y1 x2 y2 s = some s1) : s1.fixed = s.fixed := by
  unfold tclearregion at h
  exact forUp_fixed _ (fun _ _ _ ht => tclearrow_fixed ht) _ _ _ _ h

theorem selnormalize_fixed {s s1 : State} (h : selnormalize s = some s1) :
    s1.fixed = s.fixed := by
  unfold selnormalize at h
  simp only [Option.bind_eq_some] at h
  obtain ⟨b, _, e, _, h2⟩ := h
  by_cases hr : s.sel.typ = SEL_RECTANGULAR
  · rw [if_pos hr] at h2
    rw [← Option.some.inj h2]; rfl
  · rw [if_neg hr] at h2
    simp only [Option.bind_eq_some] at h2
    obtain ⟨i, _, j, _, h3⟩ := h2
    rw [← Option.some.inj h3]; rfl

theorem selscroll_fixed {orig n : Int} {s s1 : State} (h : selscroll orig n s = some s1) :
    s1.fixed = s.fixed := by
  unfold selscroll at h
  dsimp only at h
  split_ifs at h
  all_goals first
    | (rw [← Option.some.inj h])
    | (have e := selclear_fixed h; exact e)
    | (have e := selnormalize_fixed h; exact e)

theorem tscrollup_fixed {orig n : Int} {s s1 : State} (h : tscrollup orig n s = some s1) :
    s1.fixed = s.fixed := by
  unfold tscrollup at h
  simp only [Option.bind_eq_some] at h
  obtain ⟨a, ha, b, hb, c, hc, hd⟩ := h
  have e1 := tclearregion_fixed ha
  have e2 := tsetdirt_fixed hb
  have e3 : c.fixed = b.fixed := by
    refine forUp_fixed _ ?_ _ _ _ _ hc
    intro i t t1 ht
    simp only [Option.map_eq_some'] at ht
    obtain ⟨g, _, rfl⟩ := ht
    rfl
  rw [selscroll_fixed hd, e3, e2, e1]

theorem tsetchar_fixed {u : Int} {attr : Glyph} {x y : Int} {s s1 : State}
    (h : tsetchar u attr x y s = some s1) : s1.fixed = s.fixed := by
  unfold tsetchar at h
  simp only [Option.bind_eq_some, Option.map_eq_some'] at h
  obtain ⟨_, _, _, _, _, _, _, _, rfl⟩ := h
  rfl

/-! ## The cursor stays inside the screen -/

theorem tmoveto_ok (s : State) (x y : Int) (hg : Geom s) :
    Geom (tmoveto x y s) ∧ InBounds (tmoveto x y s) :=
  ⟨hg, (tmoveto_bounds s x y hg.1 hg.2.1 hg.2.2).1⟩

theorem tnewline_ok {first_col : Bool} {s s1 : State} (hg : Geom s)
    (h : tnewline first_col s = some s1) : Geom s1 ∧ InBounds s1 := by
  unfold tnewline at h
  by_cases hy : s.term.c.y = s.term.bot
  · rw [if_pos hy] at h
    simp only [Option.map_eq_some'] at h
    obtain ⟨t, ht, rfl⟩ := h
    exact tmoveto_ok t _ _ (Geom_of_fixed (tscrollup_fixed ht) hg)
  · rw [if_neg hy] at h
    rw [← Option.some.inj h]
    exact tmoveto_ok s _ _ hg

theorem tputcFetch_eq {s s1 : State} (h : tputcFetch s = some s1) : s1 = s := by
  unfold tputcFetch at h
  simp only [Option.map_eq_some'] at h
  obtain ⟨_, _, rfl⟩ := h
  rfl

theorem tputcAdvance_ok (w : Int) (s : State) (hg : Geom s) (hb : InBounds s) :
    Geom (tputcAdvance w s) ∧ InBounds (tputcAdvance w s) := by
  unfold tputcAdvance
  by_cases h : s.term.c.x + w < s.term.col
  · rw [if_pos h]; exact tmoveto_ok s _ _ hg
  · rw [if_neg h]; exact ⟨hg, hb⟩

theorem tputcPlace_ok {u w : Int} {s s1 : State} (hg : Geom s) (hb : InBounds s)
    (h : tputcPlace u w s = some s1) : Geom s1 ∧ InBounds s1 := by
  unfold tputcPlace at h
  simp only [Option.bind_eq_some, Option.map_eq_some'] at h
  obtain ⟨s4, h4, s5, h5, s6, h6, s7, h7, rfl⟩ := h
  have e4 : s4.fixed = s.fixed := by
    by_cases hi : has s.term.mode MODE_INSERT = true ∧ s.term.c.x + w < s.term.col
    · rw [if_pos hi] at h4
      simp only [Option.bind_eq_some, Option.map_eq_some'] at h4
      obtain ⟨_, _, _, _, _, _, rfl⟩ := h4
      rfl
    · rw [if_neg hi] at h4
      rw [← Option.some.inj h4]
  have ok4 : Geom s4 ∧ InBounds s4 := ⟨Geom_of_fixed e4 hg, InBounds_of_fixed e4 hb⟩
  have ok5 : Geom s5 ∧ InBounds s5 := by
    by_cases hn : s4.term.c.x + w > s4.term.col
    · rw [if_pos hn] at h5
      simp only [Option.bind_eq_some] at h5
      obtain ⟨t, ht, hf⟩ := h5
      rw [tputcFetch_eq hf]
      exact tnewline_ok ok4.1 ht
    · rw [if_neg hn] at h5
      rw [← Option.some.inj h5]
      exact ok4
  have e6 := tsetchar_fixed h6
  have e7 : s7.fixed = s6.fixed := by
    by_cases hw : w = 2
    · rw [if_pos hw] at h7
      simp only [Option.bind_eq_some] at h7
      obtain ⟨_, _, l, _, h8⟩ := h7
      by_cases hx : s6.term.c.x + 1 < s6.term.col
      · rw [if_pos hx] at h8
        simp only [Option.bind_eq_some, Option.map_eq_some'] at h8
        obtain ⟨_, _, _, _, rfl⟩ := h8
        rfl
      · rw [if_neg hx] at h8
        rw [← Option.some.inj h8]
        rfl
    · rw [if_neg hw] at h7
      rw [← Option.some.inj h7]
  exact tputcAdvance_ok w s7 (Geom_of_fixed (e7.trans e6) ok5.1)
    (InBounds_of_fixed (e7.trans e6) ok5.2)

theorem tputcPrint_ok {u w : Int} {s s1 : State} (hg : Geom s) (hb : InBounds s)
    (h : tputcPrint u w s = some s1) : Geom s1 ∧ InBounds s1 := by
  unfold tputcPrint at h
  simp only [Option.bind_eq_some] at h
  obtain ⟨a, ha, b, hb2, c, hc, hp⟩ := h
  have ea : a.fixed = s.fixed := by
    by_cases hs : s.sel.ob.x ≠ -1 ∧ s.sel.ob.y ≤ s.term.c.y ∧ s.term.c.y ≤ s.sel.oe.y
    · rw [if_pos hs] at ha; exact selclear_fixed ha
    · rw [if_neg hs] at ha; rw [← Option.some.inj ha]
  have eb := tputcFetch_eq hb2
  subst eb
  have okb : Geom b ∧ InBounds b := ⟨Geom_of_fixed ea hg, InBounds_of_fixed ea hb⟩
  have okc : Geom c ∧ InBounds c := by
    by_cases hw : has b.term.mode MODE_WRAP = true ∧ has b.term.c.state CURSOR_WRAPNEXT = true
    · rw [if_pos hw] at hc
      simp only [Option.bind_eq_some] at hc
      obtain ⟨_, _, l, _, t, ht, hf⟩ := hc
      rw [tputcFetch_eq hf]
      exact tnewline_ok (s := { b with term := { b.term with line := l } }) okb.1 ht
    · rw [if_neg hw] at hc
      rw [← Option.some.inj hc]
      exact okb
  exact tputcPlace_ok okc.1 okc.2 hp

theorem tputtab_ok {n : Int} {s s1 : State} (hg : Geom s) (hb : InBounds s)
    (h : tputtab n s = some s1) : InBounds s1 := by
  unfold tputtab at h
  simp only [Option.map_eq_some'] at h
  obtain ⟨x, _, rfl⟩ := h
  have hx := clamp_bounds x 0 (s.term.col - 1) (by have := hg.1; omega)
  exact ⟨hx.1, hx.2, hb.2.2.1, hb.2.2.2⟩

theorem tcursor_load_ok (s : State) (hg : Geom s) : InBounds (tcursor CURSOR_LOAD s) := by
  cases halt : has s.term.mode MODE_ALTSCREEN with
  | true =>
    rw [tcursor_load_alt s halt]
    exact (tmoveto_ok { s with term := { s.term with c := s.term.tc1 } } _ _ hg).2
  | false =>
    rw [tcursor_load_prim s halt]
    exact (tmoveto_ok { s with term := { s.term with c := s.term.tc0 } } _ _ hg).2

theorem tresize_ok {col row : Int} {s s1 : State} (hb : InBounds s)
    (h : tresize col row s = some s1) : InBounds s1 := by
  by_cases hd : col < 1 ∨ row < 1
  · unfold tresize at h
    simp only [hd, if_true] at h
    rw [← Option.some.inj h]; exact hb
  · have h2 := h
    unfold tresize at h2
    simp only [hd, if_false, Option.bind_eq_some] at h2
    obtain ⟨line0, hline0, alt0, halt0, tabs2, htabs, _⟩ := h2
    obtain ⟨s2, hs2, hr, hc, _, _, _, _, _, _, _, hcur⟩ :=
      tresize_of_prefix s col row (by omega) (by omega) line0 alt0 tabs2 hline0 halt0 htabs
    rw [h] at hs2
    rw [Option.some.inj hs2]
    unfold InBounds
    rw [hr, hc]; exact hcur

/-! ## C16 -/

/-- C16: on a terminal with at least one row and one column whose scroll region
lies inside the screen, started with the cursor inside the screen
(`0 ≤ x ≤ cols - 1`, `0 ≤ y ≤ rows - 1`), each of `tmoveto`, `tmoveato`,
`tputtab`, `tnewline`, `tcursor` with `CURSOR_LOAD`, `tresize` and `tputc` of a
printable glyph in the ground state ends with the cursor inside the screen it
leaves (for `tresize`, the new one), whenever it ends at all; and `tmoveto`
under origin mode ends with `top ≤ y ≤ bot`. -/
theorem C16_cursor_stays_in_bounds (env : Env) (s : State) (hg : Geom s) (hb : InBounds s) :
    (∀ x y, InBounds (tmoveto x y s) ∧
      (has s.term.c.state CURSOR_ORIGIN = true →
        s.term.top ≤ (tmoveto x y s).term.c.y ∧ (tmoveto x y s).term.c.y ≤ s.term.bot)) ∧
    (∀ x y, InBounds (tmoveato x y s)) ∧
    (∀ n s1, tputtab n s = some s1 → InBounds s1) ∧
    (∀ first_col s1, tnewline first_col s = some s1 → InBounds s1) ∧
    InBounds (tcursor CURSOR_LOAD s) ∧
    (∀ col row s1, tresize col row s = some s1 → InBounds s1) ∧
    (∀ u s1, s.term.esc = 0 → iscontrol u = false → tputc env u s = some s1 → InBounds s1) := by
  refine ⟨fun x y => tmoveto_bounds s x y hg.1 hg.2.1 hg.2.2, fun x y => ?_,
    fun n s1 h => tputtab_ok hg hb h, fun fc s1 h => (tnewline_ok hg h).2,
    tcursor_load_ok s hg, fun col row s1 h => tresize_ok hb h, fun u s1 hesc hctl h => ?_⟩
  · unfold tmoveato
    exact (tmoveto_ok s _ _ hg).2
  · rw [tputc_printable env u s hesc hctl] at h
    exact (tputcPrint_ok (s := { s with prn := (tputcPrn env u s).prn }) hg hb h).2

theorem C16_cursor_stays_in_bounds_witness :
    InBounds (tmoveto 9 (-9) (sampleState 4 3 (blankScreen 4 3) (blankScreen 4 3) 3 2)) ∧
    InBounds (tmoveato (-3) 7 (sampleState 4 3 (blankScreen 4 3) (blankScreen 4 3) 3 2)) ∧
    (∃ s1, tputtab 1 (sampleState 4 3 (blankScreen 4 3) (blankScreen 4 3) 3 2) = some s1 ∧
      InBounds s1) ∧
    (∃ s1, tnewline true (sampleState 4 3 (blankScreen 4 3) (blankScreen 4 3) 3 2) = some s1 ∧
      InBounds s1) ∧
    InBounds (tcursor CURSOR_LOAD (sampleState 4 3 (blankScreen 4 3) (blankScreen 4 3) 3 2)) ∧
    (∃ s1, tresize 2 2 (sampleState 4 3 (blankScreen 4 3) (blankScreen 4 3) 3 2) = some s1 ∧
      InBounds s1) ∧
    (∃ s1, tputc narrowEnv 97 (sampleState 4 3 (blankScreen 4 3) (blankScreen 4 3) 3 2) =
      some s1 ∧ InBounds s1) := by
  obtain ⟨h1, h2, h3, h4, h5, h6, h7⟩ := C16_cursor_stays_in_bounds narrowEnv
    (sampleState 4 3 (blankScreen 4 3) (blankScreen 4 3) 3 2) (by decide) (by decide)
  obtain ⟨a, ha⟩ := Option.isSome_iff_exists.1
    (by decide : (tputtab 1 (sampleState 4 3 (blankScreen 4 3) (blankScreen 4 3) 3 2)).isSome
      = true)
  obtain ⟨b, hb⟩ := Option.isSome_iff_exists.1
    (by decide : (tnewline true
      (sampleState 4 3 (blankScreen 4 3) (blankScreen 4 3) 3 2)).isSome = true)
  obtain ⟨c, hc⟩ := Option.isSome_iff_exists.1
    (by decide : (tresize 2 2 (sampleState 4 3 (blankScreen 4 3) (blankScreen 4 3) 3 2)).isSome
      = true)
  obtain ⟨d, hd⟩ := Option.isSome_iff_exists.1
    (by decide : (tputc narrowEnv 97
      (sampleState 4 3 (blankScreen 4 3) (blankScreen 4 3) 3 2)).isSome = true)
  exact ⟨(h1 9 (-9)).1, h2 (-3) 7, ⟨a, ha, h3 1 a ha⟩, ⟨b, hb, h4 true b hb⟩, h5,
    ⟨c, hc, h6 2 2 c hc⟩, ⟨d, hd, h7 97 d (by decide) (by decide) hd⟩⟩

/-! ## C21, C22: the selection at the failing inputs -/

/-- C21: on a blank terminal of three rows of ten cells, `selstart(5, 0, 0)` and
then `selextend(2, 1, SEL_RECTANGULAR, false)` leave the selection rectangular
with the normalized bounds `nb = (0, 0)` and `ne = (9, 1)`, those of a regular
selection, since `selnormalize` has run before the new type is stored; the same
`selextend` once more gives `nb = (2, 0)` and `ne = (5, 1)`. -/
theorem C21_rectangle_normalized_as_regular :
    ((selstart 5 0 0 (sampleState 10 3 (blankScreen 10 3) (blankScreen 10 3) 0 0)).bind
        (selextend 2 1 SEL_RECTANGULAR false)).map (fun t => (t.sel.typ, t.sel.nb, t.sel.ne)) =
      some (SEL_RECTANGULAR, ⟨0, 0⟩, ⟨9, 1⟩) ∧
    (((selstart 5 0 0 (sampleState 10 3 (blankScreen 10 3) (blankScreen 10 3) 0 0)).bind
        (selextend 2 1 SEL_RECTANGULAR false)).bind (selextend 2 1 SEL_RECTANGULAR false)).map
        (fun t => (t.sel.typ, t.sel.nb, t.sel.ne)) =
      some (SEL_RECTANGULAR, ⟨2, 0⟩, ⟨5, 1⟩) := by
  constructor <;> decide

/-- C22: on a terminal whose first row holds an `x` in column 3 only, the
rectangular selection of columns 0 and 1 of rows 0 and 1 (a press at `(0, 0)`, a
motion to and a release at `(1, 1)`) is set as the bounds say, and `getsel` on it
indexes row 0 at -1: the selected cells of that row are blank, the row is not. -/
theorem C22_getsel_blank_columns :
    (((selstart 0 0 0 xState).bind (selextend 1 1 SEL_RECTANGULAR false)).bind
        (selextend 1 1 SEL_RECTANGULAR true)).map
        (fun t => (t.sel.typ, t.sel.nb, t.sel.ne, t.sel.ob.x)) =
      some (SEL_RECTANGULAR, ⟨0, 0⟩, ⟨1, 1⟩, 0) ∧
    tlinelen 0 xState = some 4 ∧
    (((selstart 0 0 0 xState).bind (selextend 1 1 SEL_RECTANGULAR false)).bind
        (selextend 1 1 SEL_RECTANGULAR true)).map getsel = some none := by
  refine ⟨?_, ?_, ?_⟩ <;> decide

/-! ## C25, C27, C28: the decoder at the failing inputs -/

/-- C25: `csiparse` on the buffer `2 q` (digit, space, `q`) records the space as
the first mode byte and 0, not `q`, as the second; so the bytes ESC [ 2 SP q fed
to a fresh terminal leave the argument 2 and these mode bytes, and the cursor
style stays 0. -/
theorem C25_cursor_style_not_set :
    (csiparse { smallState with csiescseq := { CSIEscape.zero with buf := [50, 32, 113] } }).map
        (fun t => (t.csiescseq.mode0, t.csiescseq.mode1)) = some (32, 0) ∧
    (feed narrowEnv [27, 91, 50, 32, 113] smallState).map
        (fun t => (t.csiescseq.arg.take 1, t.csiescseq.mode0, t.csiescseq.mode1, t.win.cursor)) =
      some ([2], 32, 0, 0) := by
  constructor <;> decide

/-- C27: after ESC [ 1, the byte CAN empties the CSI accumulator and leaves the
start and CSI flags set, and so does SUB, which also writes `?` at the cursor;
the byte `A` that follows either is taken as the final byte of a CSI sequence:
the cursor moves up one row, no `A` is written and the decoder is then back to
ground. -/
theorem C27_can_sub_keep_csi_state :
    (feed narrowEnv [27, 91, 49, 24] smallState).map
        (fun t => (t.term.esc, t.csiescseq.buf)) = some (ESC_START ||| ESC_CSI, []) ∧
    (feed narrowEnv [27, 91, 49, 26] smallState).map
        (fun t => (t.term.esc, t.csiescseq.buf, (cell? t.term.line 1 0).map Glyph.u)) =
      some (ESC_START ||| ESC_CSI, [], some 63) ∧
    (feed narrowEnv [27, 91, 49, 24, 65] smallState).map
        (fun t => (t.term.esc, t.term.c.x, t.term.c.y, t.term.line)) =
      some (0, 0, 0, blankScreen 4 2) ∧
    (feed narrowEnv [27, 91, 49, 26, 65] smallState).map
        (fun t => (t.term.esc, t.term.c.x, t.term.c.y, (cell? t.term.line 0 0).map Glyph.u)) =
      some (0, 0, 0, some 32) := by
  refine ⟨?_, ?_, ?_, ?_⟩ <;> decide

/-- C28: `tcontrolcode` of SO (0x0E) leaves the active charset slot as it is, on
every state; of SI (0x0F) it sets the slot to 0. -/
theorem C28_shift_out_ignored (env : Env) (s : State) :
    (tcontrolcode env 14 s).map (fun t => t.term.charset) = some s.term.charset ∧
    (tcontrolcode env 15 s).map (fun t => t.term.charset) = some 0 := by
  constructor
  · simp +decide [tcontrolcode, escInterrupt, setEsc]
  · simp +decide [tcontrolcode, escInterrupt, setEsc]

/-! ## C29 -/

/-- C29: `tsetmode` with the non-private mode number 12 returns the state with a
new mode word in which the local-echo flag is set exactly when `set` is false,
and in which every flag that does not overlap the echo flag is as before. -/
theorem C29_mode_12_inverted (set : Bool) (s : State) :
    ∃ m, tsetmode false set [12] s = some (setTermMode m s) ∧
      has m MODE_ECHO = !set ∧
      ∀ f, f &&& MODE_ECHO = 0 → has m f = has s.term.mode f := by
  cases set
  · refine ⟨andNot s.term.mode MODE_ECHO ||| MODE_ECHO, ?_, ?_, ?_⟩
    · simp +decide [tsetmode, tsetmodeOne]
    · rw [has_or]; simp +decide
    · intro f hf
      rw [has_or, has_andNot_of_disjoint _ _ _ hf]
      have : has MODE_ECHO f = false := by
        unfold has; rw [Nat.and_comm, hf]; rfl
      rw [this, Bool.or_false]
  · refine ⟨andNot s.term.mode MODE_ECHO, ?_, ?_, ?_⟩
    · simp +decide [tsetmode, tsetmodeOne]
    · exact has_andNot_of_subset _ _ _ (by decide)
    · intro f hf
      exact has_andNot_of_disjoint _ _ _ hf

theorem C29_mode_12_inverted_witness :
    ∃ m, tsetmode false false [12] smallState = some (setTermMode m smallState) ∧
      has m MODE_ECHO = true ∧ ∀ f, f &&& MODE_ECHO = 0 → has m f = has smallState.term.mode f :=
  C29_mode_12_inverted false smallState

/-! ## C30: extended colours -/

/-- The bits that `truecolor` joins do not overlap: the result is a sum. -/
theorem truecolor_sum (r g b : Nat) (hr : r < 256) (hg : g < 256) (hb : b < 256) :
    16777216 ||| r <<< 16 ||| g <<< 8 ||| b = 16777216 + r * 65536 + g * 256 + b := by
  have h1 : 2 ^ 8 * g ||| b = 2 ^ 8 * g + b := (Nat.mul_add_lt_is_or (by omega : b < 2 ^ 8) g).symm
  have h2 : 2 ^ 16 * r ||| (2 ^ 8 * g + b) = 2 ^ 16 * r + (2 ^ 8 * g + b) :=
    (Nat.mul_add_lt_is_or (by omega : 2 ^ 8 * g + b < 2 ^ 16) r).symm
  have h3 : 2 ^ 24 * 1 ||| (2 ^ 16 * r + (2 ^ 8 * g + b)) = 2 ^ 24 * 1 + (2 ^ 16 * r + (2 ^ 8 * g + b)) :=
    (Nat.mul_add_lt_is_or (by omega : 2 ^ 16 * r + (2 ^ 8 * g + b) < 2 ^ 24) 1).symm
  rw [Nat.or_assoc, Nat.or_assoc, Nat.shiftLeft_eq, Nat.shiftLeft_eq, Nat.mul_comm r, Nat.mul_comm g,
    h1, h2, show (16777216 : Nat) = 2 ^ 24 * 1 by decide, h3]
  omega

/-- The value of `truecolor` on components in 0..255. -/
theorem truecolor_value (r g b : Int) (hr : 0 ≤ r ∧ r ≤ 255) (hg : 0 ≤ g ∧ g ≤ 255)
    (hb : 0 ≤ b ∧ b ≤ 255) :
    truecolor r g b = 2 ^ 24 + r * 65536 + g * 256 + b := by
  unfold truecolor
  rw [truecolor_sum _ _ _ (by omega) (by omega) (by omega)]
  push_cast
  rw [Int.toNat_of_nonneg hr.1, Int.toNat_of_nonneg hg.1, Int.toNat_of_nonneg hb.1]

theorem tsetattrOne_fg (attr : List Int) (i : Int) (s : State) :
    tsetattrOne attr i 38 s =
      (tdefcolor attr i).map fun r => (if r.1 ≥ 0 then setAttrFg r.1.toNat s else s, r.2) := by
  simp [tsetattrOne]

theorem tsetattrOne_bg (attr : List Int) (i : Int) (s : State) :
    tsetattrOne attr i 48 s =
      (tdefcolor attr i).map fun r => (if r.1 ≥ 0 then setAttrBg r.1.toNat s else s, r.2) := by
  simp [tsetattrOne]

theorem tdefcolor_rgb (a r g b : Int) :
    tdefcolor [a, 2, r, g, b] 0 =
      if ¬ (0 ≤ r ∧ r ≤ 255) ∨ ¬ (0 ≤ g ∧ g ≤ 255) ∨ ¬ (0 ≤ b ∧ b ≤ 255) then some (-1, 4)
      else some (truecolor r g b, 4) := by
  simp [tdefcolor, idx?]

theorem tdefcolor_indexed (a n : Int) :
    tdefcolor [a, 5, n] 0 = if ¬ (0 ≤ n ∧ n ≤ 255) then some (-1, 2) else some (n, 2) := by
  simp [tdefcolor, idx?]

theorem tsetattr_rgb (a r g b : Int) (s : State) :
    tsetattr [a, 2, r, g, b] s = (tsetattrOne [a, 2, r, g, b] 0 a s).bind fun p =>
      tsetattrLoop [a, 2, r, g, b] 4 (p.2 + 1) p.1 := by
  simp [tsetattr, tsetattrLoop, idx?]

theorem tsetattr_indexed (a n : Int) (s : State) :
    tsetattr [a, 5, n] s = (tsetattrOne [a, 5, n] 0 a s).bind fun p =>
      tsetattrLoop [a, 5, n] 2 (p.2 + 1) p.1 := by
  simp [tsetattr, tsetattrLoop, idx?]

theorem tsetattrLoop_end (attr : List Int) (fuel : Nat) (i : Int) (s : State)
    (h : (attr.length : Int) ≤ i) : tsetattrLoop attr fuel i s = some s := by
  cases fuel with
  | zero => rfl
  | succ n => simp only [tsetattrLoop, if_neg (not_lt.2 h)]

/-- C30: for components `r`, `g`, `b` and an index `n` in 0..255, `tsetattr` of
38;2;r;g;b replaces the foreground of the cursor template by
`2^24 + r*65536 + g*256 + b` and of 38;5;n by `n`; 48 does the same with the
background; nothing else of the state changes. With a component or an index
outside 0..255 the state is returned as it was. -/
theorem C30_extended_colour (s : State) (r g b n : Int) (hr : 0 ≤ r ∧ r ≤ 255)
    (hg : 0 ≤ g ∧ g ≤ 255) (hb : 0 ≤ b ∧ b ≤ 255) (hn : 0 ≤ n ∧ n ≤ 255) :
    (∃ v : Nat, (v : Int) = 2 ^ 24 + r * 65536 + g * 256 + b ∧
      tsetattr [38, 2, r, g, b] s = some (setAttrFg v s) ∧
      tsetattr [48, 2, r, g, b] s = some (setAttrBg v s)) ∧
    (∃ v : Nat, (v : Int) = n ∧
      tsetattr [38, 5, n] s = some (setAttrFg v s) ∧
      tsetattr [48, 5, n] s = some (setAttrBg v s)) ∧
    (∀ x y z : Int, ¬ (0 ≤ x ∧ x ≤ 255) ∨ ¬ (0 ≤ y ∧ y ≤ 255) ∨ ¬ (0 ≤ z ∧ z ≤ 255) →
      tsetattr [38, 2, x, y, z] s = some s ∧ tsetattr [48, 2, x, y, z] s = some s) ∧
    (∀ k : Int, ¬ (0 ≤ k ∧ k ≤ 255) →
      tsetattr [38, 5, k] s = some s ∧ tsetattr [48, 5, k] s = some s) := by
  have hv := truecolor_value r g b hr hg hb
  have hpos : (0 : Int) ≤ truecolor r g b := by rw [hv]; omega
  have hin : ¬ (¬ (0 ≤ r ∧ r ≤ 255) ∨ ¬ (0 ≤ g ∧ g ≤ 255) ∨ ¬ (0 ≤ b ∧ b ≤ 255)) := by
    simp only [not_or, not_not]; exact ⟨hr, hg, hb⟩
  refine ⟨⟨(truecolor r g b).toNat, ?_, ?_, ?_⟩, ⟨n.toNat, Int.toNat_of_nonneg hn.1, ?_, ?_⟩, ?_, ?_⟩
  · rw [Int.toNat_of_nonneg hpos, hv]
  · rw [tsetattr_rgb, tsetattrOne_fg, tdefcolor_rgb, if_neg hin]
    simp only [Option.map_some', Option.some_bind, ge_iff_le, hpos, if_true]
    exact tsetattrLoop_end _ _ _ _ (by simp)
  · rw [tsetattr_rgb, tsetattrOne_bg, tdefcolor_rgb, if_neg hin]
    simp only [Option.map_some', Option.some_bind, ge_iff_le, hpos, if_true]
    exact tsetattrLoop_end _ _ _ _ (by simp)
  · rw [tsetattr_indexed, tsetattrOne_fg, tdefcolor_indexed, if_neg (not_not.2 hn)]
    simp only [Option.map_some', Option.some_bind, ge_iff_le, hn.1, if_true]
    exact tsetattrLoop_end _ _ _ _ (by simp)
  · rw [tsetattr_indexed, tsetattrOne_bg, tdefcolor_indexed, if_neg (not_not.2 hn)]
    simp only [Option.map_some', Option.some_bind, ge_iff_le, hn.1, if_true]
    exact tsetattrLoop_end _ _ _ _ (by simp)
  · intro x y z hout
    constructor
    · rw [tsetattr_rgb, tsetattrOne_fg, tdefcolor_rgb, if_pos hout]
      simp only [Option.map_some', Option.some_bind]
      exact tsetattrLoop_end _ _ _ _ (by simp)
    · rw [tsetattr_rgb, tsetattrOne_bg, tdefcolor_rgb, if_pos hout]
      simp only [Option.map_some', Option.some_bind]
      exact tsetattrLoop_end _ _ _ _ (by simp)
  · intro k hout
    constructor
    · rw [tsetattr_indexed, tsetattrOne_fg, tdefcolor_indexed, if_pos hout]
      simp only [Option.map_some', Option.some_bind]
      exact tsetattrLoop_end _ _ _ _ (by simp)
    · rw [tsetattr_indexed, tsetattrOne_bg, tdefcolor_indexed, if_pos hout]
      simp only [Option.map_some', Option.some_bind]
      exact tsetattrLoop_end _ _ _ _ (by simp)

theorem C30_extended_colour_witness :
    (∃ v : Nat, (v : Int) = 2 ^ 24 + 1 * 65536 + 2 * 256 + 3 ∧
      tsetattr [38, 2, 1, 2, 3] smallState = some (setAttrFg v smallState) ∧
      tsetattr [48, 2, 1, 2, 3] smallState = some (setAttrBg v smallState)) ∧
    (∃ v : Nat, (v : Int) = 200 ∧
      tsetattr [38, 5, 200] smallState = some (setAttrFg v smallState) ∧
      tsetattr [48, 5, 200] smallState = some (setAttrBg v smallState)) :=
  ⟨(C30_extended_colour smallState 1 2 3 200 (by decide) (by decide) (by decide) (by decide)).1,
   (C30_extended_colour smallState 1 2 3 200 (by decide) (by decide) (by decide) (by decide)).2.1⟩

/-! ## C26: the string accumulator -/

theorem tputcPrn_term (env : Env) (u : Int) (s : State) :
    (tputcPrn env u s).term = s.term ∧ (tputcPrn env u s).strescseq = s.strescseq := by
  unfold tputcPrn tprinter
  split_ifs <;> exact ⟨rfl, rfl⟩

theorem tputcLen_congr (u : Int) (s t : State) (h : t.term = s.term) :
    tputcLen u t = tputcLen u s := by
  unfold tputcLen tputcRaw
  rw [h]

theorem tputcBytes_congr (env : Env) (u : Int) (s t : State) (h : t.term = s.term) :
    tputcBytes env u t = tputcBytes env u s := by
  unfold tputcBytes tputcLen tputcInvalid tputcRaw
  rw [h]

theorem tputcBytes_length (env : Env) (u : Int) (s : State) :
    (tputcBytes env u s).length ≤ tputcLen u s := by
  unfold tputcBytes tputcLen
  split_ifs
  · exact le_refl _
  · rw [List.length_take]; exact Nat.min_le_left _ _
  · exact le_refl _

theorem encodeRune_length_pos (u : Int) : 1 ≤ (encodeRune u).length := by
  unfold encodeRune
  split_ifs <;> simp

theorem tputcLen_pos (u : Int) (s : State) : 1 ≤ tputcLen u s := by
  unfold tputcLen
  split_ifs
  · exact le_refl _
  · exact encodeRune_length_pos u

/-- One non-terminator codepoint while a string sequence is open: `tputc`
returns, the escape flags, both screens and the cursor are as before, and the
accumulator is as before when the sixel flag is set or the encoding does not
fit, and is extended by the encoding otherwise. -/
theorem tputc_str_step (env : Env) (u : Int) (s : State)
    (hstr : has s.term.esc ESC_STR = true) (hnt : strTerminator u = false) :
    ∃ s1, tputc env u s = some s1 ∧ s1.term.esc = s.term.esc ∧ s1.term.line = s.term.line ∧
      s1.term.alt = s.term.alt ∧ s1.term.c = s.term.c ∧
      s1.strescseq.buf =
        (if has s.term.mode MODE_SIXEL = true ∨ s.strescseq.buf.length + tputcLen u s ≥ 511
          then s.strescseq.buf else s.strescseq.buf ++ tputcBytes env u s) := by
  obtain ⟨ht, hq⟩ := tputcPrn_term env u s
  obtain ⟨t, hteq⟩ : ∃ t, t = tputcPrn env u s := ⟨_, rfl⟩
  rw [← hteq] at ht hq
  have hlen := tputcLen_congr u s t ht
  have hbytes := tputcBytes_congr env u s t ht
  have hterm : ¬ (u = 7 ∨ u = 24 ∨ u = 26 ∨ u = 27 ∨ iscontrolc1 u = true) := by
    unfold strTerminator at hnt
    simp only [Bool.or_eq_false_iff, decide_eq_false_iff_not] at hnt
    rintro (h | h | h | h | h)
    · exact hnt.1 (Or.inl h)
    · exact hnt.1 (Or.inr (Or.inl h))
    · exact hnt.1 (Or.inr (Or.inr (Or.inl h)))
    · exact hnt.1 (Or.inr (Or.inr (Or.inr h)))
    · rw [hnt.2] at h; exact absurd h (by decide)
  have key : tputc env u s = tputcStr env u t := by
    unfold tputc
    rw [← hteq, ht, if_pos hstr]
  rw [key]
  unfold tputcStr
  rw [if_neg hterm, ht, hq, hlen, hbytes]
  by_cases hsix : has s.term.mode MODE_SIXEL = true
  · rw [if_pos hsix]
    refine ⟨t, rfl, by rw [ht], by rw [ht], by rw [ht], by rw [ht], ?_⟩
    rw [if_pos (Or.inl hsix), hq]
  · rw [if_neg hsix]
    dsimp only
    by_cases hq1 : has s.term.esc ESC_DCS = true ∧ s.strescseq.buf.length = 0 ∧ u = 113
    · rw [if_pos hq1]
      by_cases hfit : (setTermMode (s.term.mode ||| MODE_SIXEL) t).strescseq.buf.length
          + tputcLen u s ≥ STR_BUF_SIZ - 1
      · rw [if_pos hfit]
        refine ⟨_, rfl, ?_, ?_, ?_, ?_, ?_⟩
        · show t.term.esc = s.term.esc; rw [ht]
        · show t.term.line = s.term.line; rw [ht]
        · show t.term.alt = s.term.alt; rw [ht]
        · show t.term.c = s.term.c; rw [ht]
        · show t.strescseq.buf = _
          have hfit2 : s.strescseq.buf.length + tputcLen u s ≥ 511 := by
            have : t.strescseq.buf.length + tputcLen u s ≥ STR_BUF_SIZ - 1 := hfit
            rw [hq] at this; exact this
          rw [if_pos (Or.inr hfit2), hq]
      · rw [if_neg hfit]
        refine ⟨_, rfl, ?_, ?_, ?_, ?_, ?_⟩
        · show t.term.esc = s.term.esc; rw [ht]
        · show t.term.line = s.term.line; rw [ht]
        · show t.term.alt = s.term.alt; rw [ht]
        · show t.term.c = s.term.c; rw [ht]
        · show t.strescseq.buf ++ tputcBytes env u s = _
          have hfit2 : ¬ (has s.term.mode MODE_SIXEL = true ∨
              s.strescseq.buf.length + tputcLen u s ≥ 511) := by
            rintro (h | h)
            · exact hsix h
            · apply hfit
              show t.strescseq.buf.length + tputcLen u s ≥ STR_BUF_SIZ - 1
              rw [hq]; exact h
          rw [if_neg hfit2, hq]
    · rw [if_neg hq1]
      by_cases hfit : t.strescseq.buf.length + tputcLen u s ≥ STR_BUF_SIZ - 1
      · rw [if_pos hfit]
        refine ⟨t, rfl, by rw [ht], by rw [ht], by rw [ht], by rw [ht], ?_⟩
        have hfit2 : s.strescseq.buf.length + tputcLen u s ≥ 511 := by
          rw [hq] at hfit; exact hfit
        rw [if_pos (Or.inr hfit2), hq]
      · rw [if_neg hfit]
        refine ⟨_, rfl, ?_, ?_, ?_, ?_, ?_⟩
        · show t.term.esc = s.term.esc; rw [ht]
        · show t.term.line = s.term.line; rw [ht]
        · show t.term.alt = s.term.alt; rw [ht]
        · show t.term.c = s.term.c; rw [ht]
        · show t.strescseq.buf ++ tputcBytes env u s = _
          have hfit2 : ¬ (has s.term.mode MODE_SIXEL = true ∨
              s.strescseq.buf.length + tputcLen u s ≥ 511) := by
            rintro (h | h)
            · exact hsix h
            · apply hfit; rw [hq]; exact h
          rw [if_neg hfit2, hq]

theorem feed_append (env : Env) (a b : List Int) (s : State) :
    feed env (a ++ b) s = (feed env a s).bind (feed env b) := by
  induction a generalizing s with
  | nil => rfl
  | cons u us ih =>
    show (tputc env u s).bind (feed env (us ++ b)) = ((tputc env u s).bind (feed env us)).bind _
    cases tputc env u s with
    | none => rfl
    | some t => exact ih t

/-- Bytes `a` fed to an open OSC string in UTF-8 mode are appended to the
accumulator while they fit. -/
theorem feed_str_bytes (n : Nat) (s : State) (hm : s.term.mode = MODE_WRAP ||| MODE_UTF8)
    (he : s.term.esc = ESC_START ||| ESC_STR) (hfit : s.strescseq.buf.length + n ≤ 510) :
    feed narrowEnv (List.replicate n 97) s =
      some { s with strescseq := { s.strescseq with
        buf := s.strescseq.buf ++ List.replicate n 97 } } := by
  induction n generalizing s with
  | zero => simp [feed]
  | succ k ih =>
    have h1 : tputc narrowEnv 97 s = some { s with strescseq := { s.strescseq with
        buf := s.strescseq.buf ++ [97] } } := by
      have hfit1 : ¬ (510 ≤ s.strescseq.buf.length) := by omega
      simp +decide [tputc, tputcPrn, tputcStr, tputcLen, tputcRaw, tputcBytes, tputcInvalid,
        hm, he, hfit1, encodeRune, iscontrol, iscontrolc0, iscontrolc1, narrowEnv, STR_BUF_SIZ,
        ESC_BUF_SIZ, UTFMax]
    rw [List.replicate_succ]
    show (tputc narrowEnv 97 s).bind (feed narrowEnv (List.replicate k 97)) = _
    rw [h1, Option.some_bind, ih { s with strescseq := { s.strescseq with
        buf := s.strescseq.buf ++ [97] } } hm he
      (by simp only [List.length_append, List.length_singleton]; omega)]
    simp [List.replicate_succ]

set_option maxRecDepth 100000 in
/-- C26, as stated, fails: after ESC ] and 508 bytes `a` the accumulator holds
508 bytes; the codepoint U+10000, four bytes long, does not fit and is dropped;
the byte `b` that follows is appended all the same. -/
theorem C26_shorter_codepoint_appended :
    feed narrowEnv ([27, 93] ++ List.replicate 508 97) smallState = some strFullState ∧
    (tputc narrowEnv 0x10000 strFullState).map (fun t => t.strescseq.buf) =
      some (List.replicate 508 97) ∧
    (feed narrowEnv [0x10000, 98] strFullState).map (fun t => t.strescseq.buf) =
      some (List.replicate 508 97 ++ [98]) := by
  refine ⟨?_, ?_, ?_⟩
  · rw [feed_append]
    have h0 : feed narrowEnv [27, 93] smallState =
        some (tstrsequence 93 (setEsc ESC_START smallState)) := by decide
    rw [h0, Option.some_bind, feed_str_bytes 508 _ (by decide) (by decide) (by decide)]
    rfl
  · decide
  · decide

/-- C26 (amended): while a string sequence is open and its accumulator holds at
most 510 bytes, `tputc` of any sequence of non-terminator codepoints returns;
the accumulator then holds at most 510 bytes and starts with what it held; both
screens, the cursor and the escape flags are as before. A codepoint whose
encoding does not fit is dropped, and once the accumulator holds 510 bytes it
stays as it is. -/
theorem C26_string_accumulator (env : Env) (us : List Int) (s : State)
    (hstr : has s.term.esc ESC_STR = true) (hnt : ∀ u ∈ us, strTerminator u = false)
    (hlen : s.strescseq.buf.length ≤ 510) :
    (∃ s1, feed env us s = some s1 ∧ s1.strescseq.buf.length ≤ 510 ∧
      s.strescseq.buf <+: s1.strescseq.buf ∧
      (s.strescseq.buf.length = 510 → s1.strescseq.buf = s.strescseq.buf) ∧
      s1.term.line = s.term.line ∧ s1.term.alt = s.term.alt ∧ s1.term.c = s.term.c ∧
      s1.term.esc = s.term.esc) ∧
    (∀ u, strTerminator u = false → s.strescseq.buf.length + tputcLen u s ≥ 511 →
      (tputc env u s).map (fun t => t.strescseq.buf) = some s.strescseq.buf) := by
  constructor
  · induction us generalizing s with
    | nil => exact ⟨s, rfl, hlen, List.prefix_refl _, fun _ => rfl, rfl, rfl, rfl, rfl⟩
    | cons u us ih =>
      obtain ⟨t, ht, hesc, hline, halt, hc, hbuf⟩ :=
        tputc_str_step env u s hstr (hnt u (List.mem_cons_self _ _))
      have hb := tputcBytes_length env u s
      have hp := tputcLen_pos u s
      have htlen : t.strescseq.buf.length ≤ 510 := by
        rw [hbuf]; split_ifs with hc1
        · exact hlen
        · rw [List.length_append]
          have : ¬ (s.strescseq.buf.length + tputcLen u s ≥ 511) := fun h => hc1 (Or.inr h)
          omega
      have htpre : s.strescseq.buf <+: t.strescseq.buf := by
        rw [hbuf]; split_ifs
        · exact List.prefix_refl _
        · exact List.prefix_append _ _
      have htfull : s.strescseq.buf.length = 510 → t.strescseq.buf = s.strescseq.buf := by
        intro h
        rw [hbuf, if_pos (Or.inr (by omega))]
      obtain ⟨s1, hs1, h1, h2, h3, h4, h5, h6, h7⟩ := ih t (by rw [hesc]; exact hstr)
        (fun v hv => hnt v (List.mem_cons_of_mem _ hv)) htlen
      refine ⟨s1, ?_, h1, htpre.trans h2, ?_, by rw [h4, hline], by rw [h5, halt],
        by rw [h6, hc], by rw [h7, hesc]⟩
      · show (tputc env u s).bind (feed env us) = some s1
        rw [ht]; exact hs1
      · intro h
        have e1 := htfull h
        rw [h3 (by rw [e1]; exact h), e1]
  · intro u hu hfit
    obtain ⟨t, ht, _, _, _, _, hbuf⟩ := tputc_str_step env u s hstr hu
    rw [ht, Option.map_some', hbuf, if_pos (Or.inr hfit)]

set_option maxRecDepth 100000 in
theorem C26_string_accumulator_witness :
    has strFullState.term.esc ESC_STR = true ∧
    (∃ s1, feed narrowEnv [0x10000, 98, 99, 0x10000] strFullState = some s1 ∧
      s1.strescseq.buf.length ≤ 510 ∧
      strFullState.strescseq.buf <+: s1.strescseq.buf ∧
      (strFullState.strescseq.buf.length = 510 → s1.strescseq.buf = strFullState.strescseq.buf) ∧
      s1.term.line = strFullState.term.line ∧ s1.term.alt = strFullState.term.alt ∧
      s1.term.c = strFullState.term.c ∧ s1.term.esc = strFullState.term.esc) :=
  ⟨by decide, (C26_string_accumulator narrowEnv [0x10000, 98, 99, 0x10000] strFullState (by decide)
    (by decide) (by decide)).1⟩

/-! ## C23, C24: CSI parameter fields -/

theorem strtolDigits_digits (ds rest : List Nat) (acc : Int) (k : Nat) (hd : isDigits ds)
    (hr : ∀ c, rest.head? = some c → ¬ (48 ≤ c ∧ c ≤ 57)) :
    strtolDigits (ds ++ rest) acc k =
      (ds.foldl (fun a c => a * 10 + ((c : Int) - 48)) acc, k + ds.length) := by
  induction ds generalizing acc k with
  | nil =>
    cases rest with
    | nil => rfl
    | cons c p =>
      show (if 48 ≤ c ∧ c ≤ 57 then _ else (acc, k)) = _
      rw [if_neg (hr c rfl)]; rfl
  | cons d ds ih =>
    have h1 : 48 ≤ d ∧ d ≤ 57 := hd d (List.mem_cons_self _ _)
    show (if 48 ≤ d ∧ d ≤ 57 then strtolDigits (ds ++ rest) (acc * 10 + ((d : Int) - 48)) (k + 1)
      else (acc, k)) = _
    rw [if_pos h1, ih _ _ (fun c hc => hd c (List.mem_cons_of_mem _ hc))]
    refine Prod.ext rfl ?_
    simp only [List.length_cons]
    omega

theorem foldl_digits_nonneg (ds : List Nat) (acc : Int) (hd : isDigits ds) (ha : 0 ≤ acc) :
    0 ≤ ds.foldl (fun a c => a * 10 + ((c : Int) - 48)) acc := by
  induction ds generalizing acc with
  | nil => exact ha
  | cons d ds ih =>
    have h1 : 48 ≤ d ∧ d ≤ 57 := hd d (List.mem_cons_self _ _)
    exact ih _ (fun c hc => hd c (List.mem_cons_of_mem _ hc))
      (by show (0 : Int) ≤ acc * 10 + ((d : Int) - 48); omega)

theorem digitsVal_nonneg (ds : List Nat) (hd : isDigits ds) : 0 ≤ digitsVal ds :=
  foldl_digits_nonneg ds 0 hd (le_refl _)

theorem isspaceC_false (c : Nat) (h : 14 ≤ c ∧ c ≠ 32) : isspaceC c = false := by
  unfold isspaceC
  simp only [Bool.or_eq_false_iff, decide_eq_false_iff_not, Bool.and_eq_false_imp,
    decide_eq_true_eq]
  omega

/-- What `strtol` reads from a field of digits that a `;` or a final byte
follows. -/
theorem strtol_field (ds r : List Nat) (c : Nat) (hd : isDigits ds)
    (hc : c = 59 ∨ (64 ≤ c ∧ c ≤ 126)) :
    strtol (ds ++ c :: r) =
      if ds = [] then (0, 0)
      else (clamp (digitsVal ds) (-9223372036854775808) 9223372036854775807, (ds.length : Int)) := by
  cases ds with
  | nil =>
    have hsp : isspaceC c = false := isspaceC_false c (by omega)
    have h45 : c ≠ 45 := by omega
    have h43 : c ≠ 43 := by omega
    have hdg : ¬ (48 ≤ c ∧ c ≤ 57) := by omega
    simp [strtol, List.takeWhile, hsp, h45, h43, strtolDigits, hdg]
  | cons d ds =>
    have h1 : 48 ≤ d ∧ d ≤ 57 := hd d (List.mem_cons_self _ _)
    have hsp : isspaceC d = false := isspaceC_false d (by omega)
    have h45 : d ≠ 45 := by omega
    have h43 : d ≠ 43 := by omega
    have hdig := strtolDigits_digits (d :: ds) (c :: r) 0 0 hd
      (by intro x hx; simp only [List.head?_cons, Option.some.injEq] at hx; omega)
    have hdig2 : strtolDigits (d :: (ds ++ c :: r)) 0 0 = (digitsVal (d :: ds), ds.length + 1) := by
      have := hdig
      simp only [List.cons_append, List.length_cons, Nat.zero_add] at this
      exact this
    simp [strtol, List.takeWhile, hsp, h45, h43, hdig2]

/-- The value that `csiparse` stores for what `strtol` reads from a field. -/
theorem fieldArg_of_strtol (ds : List Nat) (hd : isDigits ds) (r : Int × Int)
    (hr : r = if ds = [] then (0, 0)
      else (clamp (digitsVal ds) (-9223372036854775808) 9223372036854775807, (ds.length : Int))) :
    (if (if r.2 = 0 then 0 else r.1) = 9223372036854775807 ∨
        (if r.2 = 0 then 0 else r.1) = -9223372036854775808 then (-1 : Int)
     else (if r.2 = 0 then 0 else r.1)) = fieldArg ds := by
  have h0 := digitsVal_nonneg ds hd
  cases ds with
  | nil =>
    rw [hr]
    simp +decide [fieldArg, digitsVal]
  | cons d ds =>
    have hl : ((List.length (d :: ds) : Nat) : Int) ≠ 0 := by
      simp only [List.length_cons]; omega
    rw [hr]
    simp only [if_neg (List.cons_ne_nil d ds), if_neg hl, fieldArg, clamp, imin, imax]
    split_ifs <;> omega

/-- One round of the argument loop of `csiparse` on a field of digits that a
`;` or a final byte follows. -/
theorem csiparseArgs_round (fuel : Nat) (ds r : List Nat) (c : Nat) (arg : List Int) (n : Nat)
    (hd : isDigits ds) (hc : c = 59 ∨ (64 ≤ c ∧ c ≤ 126)) (hn : n < arg.length) :
    csiparseArgs (fuel + 1) (ds ++ c :: r) arg n =
      if c ≠ 59 ∨ n + 1 = 16 then some (c :: r, arg.set n (fieldArg ds), ((n + 1 : Nat) : Int))
      else csiparseArgs fuel r (arg.set n (fieldArg ds)) ((n + 1 : Nat) : Int) := by
  have hlen : (ds ++ c :: r).length > 0 := by simp
  have hv := fieldArg_of_strtol ds hd (strtol (ds ++ c :: r)) (strtol_field ds r c hd hc)
  have hdrop : (ds ++ c :: r).drop (strtol (ds ++ c :: r)).2.toNat = c :: r := by
    rw [strtol_field ds r c hd hc]
    by_cases hnil : ds = []
    · rw [if_pos hnil, hnil]; rfl
    · rw [if_neg hnil]
      show (ds ++ c :: r).drop ((ds.length : Int)).toNat = c :: r
      rw [Int.toNat_natCast, List.drop_left]
  have hupd : upd? arg (n : Int) (fieldArg ds) = some (arg.set n (fieldArg ds)) := by
    unfold upd?
    rw [if_pos ⟨by omega, by omega⟩, Int.toNat_natCast]
  rw [csiparseArgs, if_pos hlen]
  simp only [hv, hupd, Option.some_bind, hdrop, List.length_cons, gt_iff_lt, Nat.zero_lt_succ,
    if_true, List.head?_cons, List.drop_succ_cons, List.drop_zero, ne_eq, Option.some.injEq,
    Nat.cast_add, Nat.cast_one]
  have e16 : ((n : Int) + 1 = 16) ↔ (n + 1 = 16) := by omega
  simp only [e16]

theorem joinFields_cons (fl fl2 : List Nat) (fls : List (List Nat)) :
    joinFields (fl :: fl2 :: fls) = fl ++ 59 :: joinFields (fl2 :: fls) := rfl

/-- The argument loop of `csiparse` on at most as many fields as the array has
free entries: every field is stored and the final byte is left. -/
theorem csiparseArgs_fields (fields : List (List Nat)) (f : Nat) (hf : 64 ≤ f ∧ f ≤ 126)
    (fuel : Nat) (arg : List Int) (n : Nat) (hne : fields ≠ [])
    (hd : ∀ fl ∈ fields, isDigits fl) (hfuel : fields.length ≤ fuel) (harg : arg.length = 16)
    (hn : n + fields.length ≤ 16) :
    csiparseArgs fuel (joinFields fields ++ [f]) arg n =
      some ([f], storeFields arg n fields, ((n + fields.length : Nat) : Int)) := by
  induction fields generalizing fuel arg n with
  | nil => exact absurd rfl hne
  | cons fl fls ih =>
    obtain ⟨k, rfl⟩ : ∃ k, fuel = k + 1 := ⟨fuel - 1, by simp only [List.length_cons] at hfuel; omega⟩
    have hfl : isDigits fl := hd fl (List.mem_cons_self _ _)
    simp only [List.length_cons] at hn hfuel
    cases fls with
    | nil =>
      show csiparseArgs (k + 1) (fl ++ [f]) arg n = _
      rw [csiparseArgs_round k fl [] f arg n hfl (Or.inr hf) (by omega),
        if_pos (Or.inl (by omega))]
      rfl
    | cons fl2 fls =>
      rw [joinFields_cons, List.append_assoc, List.cons_append,
        csiparseArgs_round k fl _ 59 arg n hfl (Or.inl rfl) (by omega)]
      simp only [List.length_cons] at hn hfuel
      rw [if_neg (by rintro (h | h); exact h rfl; omega)]
      rw [ih k (arg.set n (fieldArg fl)) (n + 1) (List.cons_ne_nil _ _)
        (fun x hx => hd x (List.mem_cons_of_mem _ hx))
        (by simp only [List.length_cons]; omega) (by rw [List.length_set]; exact harg)
        (by simp only [List.length_cons]; omega)]
      simp only [storeFields, List.length_cons, Option.some.injEq, Prod.mk.injEq, true_and]
      omega

/-- The argument loop of `csiparse` on more fields than the array has free
entries: the array is filled, and the rest starts with the `;` that follows the
last field stored. -/
theorem csiparseArgs_overflow (fields : List (List Nat)) (f : Nat)
    (fuel : Nat) (arg : List Int) (n : Nat)
    (hd : ∀ fl ∈ fields, isDigits fl) (hfuel : fields.length ≤ fuel) (harg : arg.length = 16)
    (hn : n < 16) (hmore : 16 < n + fields.length) :
    csiparseArgs fuel (joinFields fields ++ [f]) arg n =
      some (59 :: (joinFields (fields.drop (16 - n)) ++ [f]),
        storeFields arg n (fields.take (16 - n)), 16) := by
  induction fields generalizing fuel arg n with
  | nil => simp only [List.length_nil] at hmore; omega
  | cons fl fls ih =>
    obtain ⟨k, rfl⟩ : ∃ k, fuel = k + 1 := ⟨fuel - 1, by simp only [List.length_cons] at hfuel; omega⟩
    have hfl : isDigits fl := hd fl (List.mem_cons_self _ _)
    simp only [List.length_cons] at hmore hfuel
    cases fls with
    | nil => simp only [List.length_nil] at hmore; omega
    | cons fl2 fls =>
      rw [joinFields_cons, List.append_assoc, List.cons_append,
        csiparseArgs_round k fl _ 59 arg n hfl (Or.inl rfl) (by omega)]
      simp only [List.length_cons] at hmore hfuel
      obtain ⟨m, hm⟩ : ∃ m, 16 - n = m + 1 := ⟨15 - n, by omega⟩
      by_cases h15 : n + 1 = 16
      · rw [if_pos (Or.inr h15)]
        have hm0 : m = 0 := by omega
        rw [hm, hm0]
        simp only [List.drop_succ_cons, List.drop_zero, List.take_succ_cons, List.take_zero,
          storeFields, zero_add, Option.some.injEq, Prod.mk.injEq, true_and]
        omega
      · rw [if_neg (by rintro (h | h); exact h rfl; exact h15 h)]
        rw [ih k (arg.set n (fieldArg fl)) (n + 1)
          (fun x hx => hd x (List.mem_cons_of_mem _ hx))
          (by simp only [List.length_cons]; omega) (by rw [List.length_set]; exact harg)
          (by omega) (by simp only [List.length_cons]; omega)]
        have hm1 : 16 - (n + 1) = m := by omega
        rw [hm, hm1]
        simp only [List.drop_succ_cons, List.take_succ_cons, storeFields]

theorem storeFields_length (fls : List (List Nat)) (arg : List Int) (n : Nat) :
    (storeFields arg n fls).length = arg.length := by
  induction fls generalizing arg n with
  | nil => rfl
  | cons fl fls ih => rw [storeFields, ih, List.length_set]

theorem storeFields_below (fls : List (List Nat)) (arg : List Int) (n i : Nat) (hi : i < n) :
    (storeFields arg n fls)[i]? = arg[i]? := by
  induction fls generalizing arg n with
  | nil => rfl
  | cons fl fls ih =>
    rw [storeFields, ih _ _ (by omega), List.getElem?_set_ne (by omega)]

theorem storeFields_get (fls : List (List Nat)) (arg : List Int) (n : Nat)
    (h : n + fls.length ≤ arg.length) (j : Nat) (hj : j < fls.length) :
    (storeFields arg n fls)[n + j]? = some (fieldArg (fls.get ⟨j, hj⟩)) := by
  induction fls generalizing arg n j with
  | nil => exact absurd hj (Nat.not_lt_zero _)
  | cons fl fls ih =>
    simp only [List.length_cons] at h hj
    cases j with
    | zero =>
      rw [storeFields, storeFields_below _ _ _ _ (by omega)]
      show (arg.set n (fieldArg fl))[n]? = some (fieldArg fl)
      rw [List.getElem?_set_self (by omega)]
    | succ j =>
      rw [storeFields, show n + (j + 1) = n + 1 + j by omega,
        ih _ _ (by rw [List.length_set]; omega) j (by omega)]
      rfl

theorem joinFields_length (fields : List (List Nat)) :
    fields.length ≤ (joinFields fields).length + 1 := by
  induction fields with
  | nil => exact Nat.zero_le _
  | cons fl fls ih =>
    cases fls with
    | nil => simp [joinFields]
    | cons fl2 fls =>
      rw [joinFields_cons]
      simp only [List.length_cons, List.length_append] at ih ⊢
      omega

theorem joinFields_head (fields : List (List Nat)) (f : Nat) (hf : 64 ≤ f ∧ f ≤ 126)
    (hd : ∀ fl ∈ fields, isDigits fl) :
    (joinFields fields ++ [f]).head? ≠ some 63 := by
  cases fields with
  | nil => simp [joinFields]; omega
  | cons fl fls =>
    have hfl : isDigits fl := hd fl (List.mem_cons_self _ _)
    cases fl with
    | nil =>
      cases fls with
      | nil => simp [joinFields]; omega
      | cons fl2 fls => simp [joinFields]
    | cons d ds =>
      have h1 : 48 ≤ d ∧ d ≤ 57 := hfl d (List.mem_cons_self _ _)
      cases fls with
      | nil => simp [joinFields]; omega
      | cons fl2 fls => simp [joinFields]; omega

/-- The first mode byte `;` is no command: `csihandle` leaves the state. -/
theorem csihandle_semicolon (s : State) (h : s.csiescseq.mode0 = 59) : csihandle s = some s := by
  simp [csihandle, h]

/-- What `csiparse` does on a buffer of fields of digits and a final byte, after
an optional `?`. -/
theorem csiparse_fields (s : State) (q : Bool) (fields : List (List Nat)) (f : Nat)
    (hbuf : s.csiescseq.buf = (if q then [63] else []) ++ (joinFields fields ++ [f]))
    (hne : fields ≠ []) (hd : ∀ fl ∈ fields, isDigits fl) (hf : 64 ≤ f ∧ f ≤ 126)
    (harg : s.csiescseq.arg.length = 16) :
    ∃ s1, csiparse s = some s1 ∧ s1.term = s.term ∧
      s1.csiescseq.priv = (q || s.csiescseq.priv) ∧
      s1.csiescseq.arg = storeFields s.csiescseq.arg 0 (fields.take 16) ∧
      s1.csiescseq.narg = min fields.length 16 ∧
      s1.csiescseq.mode0 = if fields.length ≤ 16 then (f : Int) else 59 := by
  have hq : (s.csiescseq.buf.head? = some 63) ↔ q = true := by
    rw [hbuf]
    cases q
    · simp only [Bool.false_eq_true, if_false, List.nil_append, iff_false]
      exact joinFields_head fields f hf hd
    · simp
  have hp : (if s.csiescseq.buf.head? = some 63 then s.csiescseq.buf.drop 1 else s.csiescseq.buf)
      = joinFields fields ++ [f] := by
    rw [hbuf]
    cases q
    · rw [if_neg]
      · rfl
      · simp only [Bool.false_eq_true, if_false, List.nil_append]
        exact joinFields_head fields f hf hd
    · simp
  have hfuel : fields.length ≤ (joinFields fields ++ [f]).length + 1 := by
    have := joinFields_length fields
    simp only [List.length_append, List.length_singleton]; omega
  unfold csiparse
  simp only [hp]
  by_cases hlen : fields.length ≤ 16
  · have h0 := csiparseArgs_fields fields f hf _ s.csiescseq.arg 0 hne hd hfuel harg (by omega)
    rw [Nat.cast_zero] at h0
    rw [h0]
    refine ⟨_, rfl, rfl, ?_, ?_, ?_, ?_⟩
    · show (if s.csiescseq.buf.head? = some 63 then true else s.csiescseq.priv) = _
      cases q
      · rw [if_neg (fun h => absurd (hq.1 h) (by decide))]; rfl
      · rw [if_pos (hq.2 rfl)]; rfl
    · show storeFields s.csiescseq.arg 0 fields = _
      rw [List.take_of_length_le hlen]
    · show (((0 + fields.length : Nat) : Int)) = _
      rw [Nat.min_eq_left hlen, Nat.zero_add]
    · rw [if_pos hlen]; rfl
  · have h0 := csiparseArgs_overflow fields f _ s.csiescseq.arg 0 hd hfuel harg (by omega)
      (by omega)
    rw [Nat.cast_zero] at h0
    rw [h0]
    refine ⟨_, rfl, rfl, ?_, ?_, ?_, ?_⟩
    · show (if s.csiescseq.buf.head? = some 63 then true else s.csiescseq.priv) = _
      cases q
      · rw [if_neg (fun h => absurd (hq.1 h) (by decide))]; rfl
      · rw [if_pos (hq.2 rfl)]; rfl
    · rfl
    · show (16 : Int) = _
      rw [Nat.min_eq_right (by omega)]; rfl
    · rw [if_neg hlen]; simp

/-- C23, as stated, fails: the field 9223372036854775807 has a value inside the
64-bit range, and `csiparse` stores -1 for it; for 9223372036854775806 it stores
the value. -/
theorem C23_largest_value_stored_as_sentinel :
    digitsVal maxFieldDigits = 9223372036854775807 ∧
    (csiparse { smallState with csiescseq := { CSIEscape.zero with
        buf := maxFieldDigits ++ [109] } }).map (fun t => (t.csiescseq.arg.take 1, t.csiescseq.narg)) =
      some ([-1], 1) ∧
    (csiparse { smallState with csiescseq := { CSIEscape.zero with
        buf := maxFieldDigits.take 18 ++ [54, 109] } }).map
        (fun t => (t.csiescseq.arg.take 1, t.csiescseq.narg)) =
      some ([9223372036854775806], 1) := by
  refine ⟨?_, ?_, ?_⟩ <;> decide

/-- C23 (amended): on a buffer made of an optional `?`, fields of decimal digits
separated by `;` and a final byte, `csiparse` returns; the private flag is set
when the buffer starts with `?` and is as before otherwise; and for each of the
first 16 fields the argument stored is 0 when the field is empty, the decimal
value of the field when that is below `2^63 - 1`, and -1 when it is `2^63 - 1`
or more. -/
theorem C23_csiparse_fields (s : State) (q : Bool) (fields : List (List Nat)) (f : Nat)
    (hbuf : s.csiescseq.buf = (if q then [63] else []) ++ (joinFields fields ++ [f]))
    (hne : fields ≠ []) (hd : ∀ fl ∈ fields, isDigits fl) (hf : 64 ≤ f ∧ f ≤ 126)
    (harg : s.csiescseq.arg.length = 16) :
    ∃ s1, csiparse s = some s1 ∧
      s1.csiescseq.priv = (q || s.csiescseq.priv) ∧
      ∀ j (hj : j < fields.length), j < 16 →
        ∃ v, s1.csiescseq.arg[j]? = some v ∧
          (fields.get ⟨j, hj⟩ = [] → v = 0) ∧
          (digitsVal (fields.get ⟨j, hj⟩) < 9223372036854775807 →
            v = digitsVal (fields.get ⟨j, hj⟩)) ∧
          (9223372036854775807 ≤ digitsVal (fields.get ⟨j, hj⟩) → v = -1) := by
  obtain ⟨s1, h1, _, hpriv, harg1, _, _⟩ := csiparse_fields s q fields f hbuf hne hd hf harg
  refine ⟨s1, h1, hpriv, ?_⟩
  intro j hj hj16
  have hjt : j < (fields.take 16).length := by
    rw [List.length_take]; omega
  have hget := storeFields_get (fields.take 16) s.csiescseq.arg 0
    (by rw [List.length_take, harg]; omega) j hjt
  rw [Nat.zero_add] at hget
  have hfl : (fields.take 16).get ⟨j, hjt⟩ = fields.get ⟨j, hj⟩ := by
    simp only [List.get_eq_getElem, List.getElem_take]
  rw [hfl] at hget
  refine ⟨fieldArg (fields.get ⟨j, hj⟩), by rw [harg1]; exact hget, ?_, ?_, ?_⟩
  · intro he
    rw [he]; decide
  · intro hlt
    unfold fieldArg
    rw [if_neg (by omega)]
  · intro hge
    unfold fieldArg
    rw [if_pos hge]

theorem C23_csiparse_fields_witness :
    ∃ s1, csiparse { smallState with csiescseq := { CSIEscape.zero with
        buf := [63, 49, 50, 59, 59, 53, 104] } } = some s1 ∧
      s1.csiescseq.priv = (true || false) ∧
      ∀ j (hj : j < [[49, 50], [], [53]].length), j < 16 →
        ∃ v, s1.csiescseq.arg[j]? = some v ∧
          (([[49, 50], [], [53]] : List (List Nat)).get ⟨j, hj⟩ = [] → v = 0) ∧
          (digitsVal (([[49, 50], [], [53]] : List (List Nat)).get ⟨j, hj⟩) < 9223372036854775807 →
            v = digitsVal (([[49, 50], [], [53]] : List (List Nat)).get ⟨j, hj⟩)) ∧
          (9223372036854775807 ≤ digitsVal (([[49, 50], [], [53]] : List (List Nat)).get ⟨j, hj⟩) →
            v = -1) :=
  C23_csiparse_fields { smallState with csiescseq := { CSIEscape.zero with
      buf := [63, 49, 50, 59, 59, 53, 104] } } true [[49, 50], [], [53]] 104 rfl (by decide)
    (by decide) (by decide) rfl

/-- C24, as stated, fails: ESC [ and seventeen fields `1` before the final byte
`m` leave 16 arguments and `;` as the first mode byte, and the bold attribute is
not set; with sixteen fields the first mode byte is `m` and it is set. -/
theorem C24_seventeenth_field :
    (feed narrowEnv ([27, 91, 49] ++ sgrOnes 16) smallState).map
        (fun t => (t.csiescseq.narg, t.csiescseq.mode0, t.term.c.attr.mode)) = some (16, 59, 0) ∧
    (feed narrowEnv ([27, 91, 49] ++ sgrOnes 15) smallState).map
        (fun t => (t.csiescseq.narg, t.csiescseq.mode0, t.term.c.attr.mode)) =
      some (16, 109, ATTR_BOLD) := by
  constructor <;> decide

/-- C24 (amended): on a buffer of more than 16 fields of decimal digits
separated by `;` and a final byte, `csiparse` returns with exactly 16 arguments,
those of the first 16 fields, in an array of 16 entries still, and with the `;`
that follows the 16th field as the first mode byte; `csihandle` then leaves the
state as it is. -/
theorem C24_csiparse_overflow (s : State) (q : Bool) (fields : List (List Nat)) (f : Nat)
    (hbuf : s.csiescseq.buf = (if q then [63] else []) ++ (joinFields fields ++ [f]))
    (hd : ∀ fl ∈ fields, isDigits fl) (hf : 64 ≤ f ∧ f ≤ 126)
    (harg : s.csiescseq.arg.length = 16) (hmore : 16 < fields.length) :
    ∃ s1, csiparse s = some s1 ∧ s1.csiescseq.narg = 16 ∧ s1.csiescseq.arg.length = 16 ∧
      (∀ j (hj : j < fields.length), j < 16 →
        s1.csiescseq.arg[j]? = some (fieldArg (fields.get ⟨j, hj⟩))) ∧
      s1.csiescseq.mode0 = 59 ∧ csihandle s1 = some s1 := by
  have hne : fields ≠ [] := by
    intro h; rw [h] at hmore; exact absurd hmore (by decide)
  obtain ⟨s1, h1, _, _, harg1, hnarg, hm0⟩ := csiparse_fields s q fields f hbuf hne hd hf harg
  rw [if_neg (by omega)] at hm0
  refine ⟨s1, h1, ?_, ?_, ?_, hm0, csihandle_semicolon s1 hm0⟩
  · rw [hnarg, Nat.min_eq_right (by omega)]; rfl
  · rw [harg1, storeFields_length, harg]
  · intro j hj hj16
    have hjt : j < (fields.take 16).length := by
      rw [List.length_take]; omega
    have hget := storeFields_get (fields.take 16) s.csiescseq.arg 0
      (by rw [List.length_take, harg]; omega) j hjt
    rw [Nat.zero_add] at hget
    have hfl : (fields.take 16).get ⟨j, hjt⟩ = fields.get ⟨j, hj⟩ := by
      simp only [List.get_eq_getElem, List.getElem_take]
    rw [hfl] at hget
    rw [harg1]; exact hget

theorem C24_csiparse_overflow_witness :
    ∃ s1, csiparse { smallState with csiescseq := { CSIEscape.zero with
        buf := joinFields (List.replicate 17 [49]) ++ [109] } } = some s1 ∧
      s1.csiescseq.narg = 16 ∧ s1.csiescseq.arg.length = 16 ∧
      (∀ j (hj : j < (List.replicate 17 [49]).length), j < 16 →
        s1.csiescseq.arg[j]? = some (fieldArg ((List.replicate 17 [49]).get ⟨j, hj⟩))) ∧
      s1.csiescseq.mode0 = 59 ∧ csihandle s1 = some s1 :=
  C24_csiparse_overflow { smallState with csiescseq := { CSIEscape.zero with
      buf := joinFields (List.replicate 17 [49]) ++ [109] } } false (List.replicate 17 [49]) 109
    rfl (by decide) (by decide) rfl (by decide)

/-! ## C31, C39: device control strings at the failing inputs -/

/-- C31: after ESC P the bytes `q`, `a` are both appended to the string
accumulator and neither the DCS flag nor the sixel flag is set; after the C1
introducer 0x90 the byte `q` sets the sixel flag and `a` is dropped. -/
theorem C31_esc_p_sets_no_sixel :
    (feed narrowEnv [27, 80, 113, 97] smallState).map
        (fun t => (has t.term.mode MODE_SIXEL, has t.term.esc ESC_DCS, t.strescseq.buf)) =
      some (false, false, [113, 97]) ∧
    (feed narrowEnv [0x90, 113, 97] smallState).map
        (fun t => (has t.term.mode MODE_SIXEL, has t.term.esc ESC_DCS, t.strescseq.buf)) =
      some (true, true, [113]) := by
  constructor <;> decide

/-- C39: the bytes ESC P x ESC \ leave the sixel flag set in the terminal mode;
the payload of an OSC string that follows is then not captured, and the two
bytes of the UTF-8 encoding of U+00E9 that `twrite` reads are printed as the two
glyphs U+00C3 and U+00A9; on a fresh terminal the payload is captured and the
two bytes give one glyph. -/
theorem C39_dcs_sets_sixel_flag :
    (feed narrowEnv [27, 80, 120, 27, 92] smallState).map (fun t => (t.term.mode, t.term.esc)) =
      some (MODE_WRAP ||| MODE_UTF8 ||| MODE_SIXEL, 0) ∧
    (feed narrowEnv [27, 80, 120, 27, 92, 27, 93, 48, 59, 116] smallState).map
        (fun t => t.strescseq.buf) = some [] ∧
    (feed narrowEnv [27, 93, 48, 59, 116] smallState).map (fun t => t.strescseq.buf) =
      some [48, 59, 116] ∧
    ((feed narrowEnv [27, 80, 120, 27, 92] smallState).bind
        (fun t => twrite narrowEnv [0xc3, 0xa9] false t)).map
        (fun r => ((cell? r.1.term.line 1 0).map Glyph.u, (cell? r.1.term.line 1 1).map Glyph.u)) =
      some (some 0xc3, some 0xa9) ∧
    (twrite narrowEnv [0xc3, 0xa9] false smallState).map
        (fun r => ((cell? r.1.term.line 1 0).map Glyph.u, (cell? r.1.term.line 1 1).map Glyph.u)) =
      some (some 0xe9, some 32) := by
  refine ⟨?_, ?_, ?_, ?_, ?_⟩ <;> decide

/-! ## C34, C36, C37, C38: scrolling, erasing and copying at the failing inputs -/

/-- C34: on three rows `aaa`, `bbb`, `ccc` with the whole screen as scroll
region, a selection from `(1, 1)` to `(2, 2)` keeps its rows 1 and 2 when
`tscrollup(0, 1)` moves the text up, and a selection on row 1 keeps its row when
`tscrolldown(0, 1)` moves the text down. -/
theorem C34_selection_stays_behind :
    (((selstart 1 1 0 (abcState 0 2)).bind (selextend 2 2 SEL_REGULAR false)).bind
        (tscrollup 0 1)).map
        (fun t => (t.sel.ob.x, t.sel.ob.y, t.sel.oe.x, t.sel.oe.y, t.sel.nb.y, t.sel.ne.y)) =
      some (1, 1, 2, 2, 1, 2) ∧
    (((selstart 1 1 0 (abcState 0 2)).bind (selextend 2 2 SEL_REGULAR false)).bind
        (tscrollup 0 1)).map screenRunes =
      some [[98, 98, 98], [99, 99, 99], [32, 32, 32]] ∧
    (((selstart 1 1 0 (abcState 0 2)).bind (selextend 2 1 SEL_REGULAR false)).bind
        (tscrolldown 0 1)).map
        (fun t => (t.sel.ob.x, t.sel.ob.y, t.sel.oe.x, t.sel.oe.y, t.sel.nb.y, t.sel.ne.y)) =
      some (1, 1, 2, 1, 1, 1) ∧
    (((selstart 1 1 0 (abcState 0 2)).bind (selextend 2 1 SEL_REGULAR false)).bind
        (tscrolldown 0 1)).map screenRunes =
      some [[32, 32, 32], [97, 97, 97], [98, 98, 98]] := by
  refine ⟨?_, ?_, ?_, ?_⟩ <;> decide

/-- C36: on three rows `aaa`, `bbb`, `ccc`, the bytes ESC [ 1 J with the cursor
at column 1 of row 1 blank the columns 0 and 1 of row 1 and leave row 0 as it
is; with the cursor on row 2 the rows 0 and 1 are blanked. -/
theorem C36_erase_above_keeps_row_zero :
    (feed narrowEnv [27, 91, 49, 74] (abcState 1 1)).map screenRunes =
      some [[97, 97, 97], [32, 32, 98], [99, 99, 99]] ∧
    (feed narrowEnv [27, 91, 49, 74] (abcState 1 2)).map screenRunes =
      some [[32, 32, 32], [32, 32, 32], [32, 32, 99]] := by
  constructor <;> decide

/-- C37: on three rows `aaa`, `bbb`, `ccc`, `tscrollup(1, 0)` blanks the rows 0
and 1 and `tscrolldown(1, 0)` blanks row 2; the bytes ESC [ - 1 S blank row 0
and ESC [ - 1 T blank row 2. -/
theorem C37_scroll_by_zero_clears_rows :
    (tscrollup 1 0 (abcState 0 2)).map screenRunes =
      some [[32, 32, 32], [32, 32, 32], [99, 99, 99]] ∧
    (tscrolldown 1 0 (abcState 0 2)).map screenRunes =
      some [[97, 97, 97], [98, 98, 98], [32, 32, 32]] ∧
    (feed narrowEnv [27, 91, 45, 49, 83] (abcState 0 2)).map screenRunes =
      some [[32, 32, 32], [98, 98, 98], [99, 99, 99]] ∧
    (feed narrowEnv [27, 91, 45, 49, 84] (abcState 0 2)).map screenRunes =
      some [[97, 97, 97], [98, 98, 98], [32, 32, 32]] := by
  refine ⟨?_, ?_, ?_, ?_⟩ <;> decide

/-- C38: after ten spaces and an `x` on a terminal of ten columns, row 0 is a
wrapped row of spaces of length 10; the regular selection from `(0, 0)` to
`(0, 1)` has in-bounds normalized bounds, and `getsel` on it indexes row 0 at
-1. The selection of the `x` alone is copied. -/
theorem C38_getsel_wrapped_blank_row :
    wrappedBlankState.bind (tlinelen 0) = some 10 ∧
    (((wrappedBlankState.bind (selstart 0 0 0)).bind (selextend 0 1 SEL_REGULAR false)).bind
        (selextend 0 1 SEL_REGULAR true)).map
        (fun t => (t.sel.typ, t.sel.nb.x, t.sel.nb.y, t.sel.ne.x, t.sel.ne.y)) =
      some (SEL_REGULAR, 0, 0, 0, 1) ∧
    (((wrappedBlankState.bind (selstart 0 0 0)).bind (selextend 0 1 SEL_REGULAR false)).bind
        (selextend 0 1 SEL_REGULAR true)).map getsel = some none ∧
    (((wrappedBlankState.bind (selstart 0 1 0)).bind (selextend 0 1 SEL_REGULAR false)).bind
        (selextend 0 1 SEL_REGULAR true)).map getsel = some (some (some [120])) := by
  refine ⟨?_, ?_, ?_, ?_⟩ <;> decide

/-! ## C40: the colour helpers on `truecolor` -/

set_option maxRecDepth 100000 in
/-- The three byte positions of a colour value under the masks of the colour
helpers, for every byte. -/
theorem byte_masks :
    ∀ r, r < 256 →
      (0xff0000 &&& r <<< 16 = r <<< 16 ∧ 0xff00 &&& r <<< 16 = 0 ∧ 0xff &&& r <<< 16 = 0 ∧
        16777216 &&& r <<< 16 = 0) ∧
      (0xff0000 &&& r <<< 8 = 0 ∧ 0xff00 &&& r <<< 8 = r <<< 8 ∧ 0xff &&& r <<< 8 = 0 ∧
        16777216 &&& r <<< 8 = 0) ∧
      (0xff0000 &&& r = 0 ∧ 0xff00 &&& r = 0 ∧ 0xff &&& r = r ∧ 16777216 &&& r = 0) := by
  decide

set_option maxRecDepth 100000 in
theorem istruecol_palette : ∀ n, n < 258 → istruecol n = false := by
  decide

theorem truecolor_toNat (r g b : Nat) :
    (truecolor r g b).toNat = 16777216 ||| r <<< 16 ||| g <<< 8 ||| b := by
  unfold truecolor
  simp only [Int.toNat_natCast]

/-- A mask applied to the value of `truecolor` is applied to its four parts. -/
theorem mask_truecolor (m r g b : Nat) :
    m &&& (16777216 ||| r <<< 16 ||| g <<< 8 ||| b) =
      (m &&& 16777216) ||| (m &&& r <<< 16) ||| (m &&& g <<< 8) ||| (m &&& b) := by
  rw [Nat.and_or_distrib_left, Nat.and_or_distrib_left, Nat.and_or_distrib_left]

/-- C40: for `r`, `g`, `b` in 0..255 the value of `truecolor` is recognised by
`istruecol`, and `truered`, `truegreen` and `trueblue` give `r*256`, `g*256` and
`b*256` on it; `istruecol` is false on every palette index `n` in 0..257. -/
theorem C40_truecolor_components (r g b n : Nat) (hr : r < 256) (hg : g < 256) (hb : b < 256)
    (hn : n ≤ 257) :
    istruecol (truecolor r g b).toNat = true ∧
    truered (truecolor r g b).toNat = r * 256 ∧
    truegreen (truecolor r g b).toNat = g * 256 ∧
    trueblue (truecolor r g b).toNat = b * 256 ∧
    istruecol n = false := by
  obtain ⟨⟨r1, r2, r3, r4⟩, _, _⟩ := byte_masks r hr
  obtain ⟨_, ⟨g1, g2, g3, g4⟩, _⟩ := byte_masks g hg
  obtain ⟨_, _, ⟨b1, b2, b3, b4⟩⟩ := byte_masks b hb
  rw [truecolor_toNat]
  refine ⟨?_, ?_, ?_, ?_, istruecol_palette n (by omega)⟩
  · unfold istruecol
    rw [mask_truecolor, r4, g4, b4]
    decide
  · unfold truered
    rw [Nat.and_comm, mask_truecolor, r1, g1, b1, show (0xff0000 : Nat) &&& 16777216 = 0 by decide]
    simp only [Nat.zero_or, Nat.or_zero, Nat.shiftLeft_eq, Nat.shiftRight_eq_div_pow]
    omega
  · unfold truegreen
    rw [Nat.and_comm, mask_truecolor, r2, g2, b2, show (0xff00 : Nat) &&& 16777216 = 0 by decide]
    simp only [Nat.zero_or, Nat.or_zero, Nat.shiftLeft_eq]
  · unfold trueblue
    rw [Nat.and_comm, mask_truecolor, r3, g3, b3, show (0xff : Nat) &&& 16777216 = 0 by decide]
    simp only [Nat.zero_or, Nat.shiftLeft_eq]
    omega

theorem C40_truecolor_components_witness :
    istruecol (truecolor (1 : Nat) (2 : Nat) (3 : Nat)).toNat = true ∧
    truered (truecolor (1 : Nat) (2 : Nat) (3 : Nat)).toNat = 1 * 256 ∧
    truegreen (truecolor (1 : Nat) (2 : Nat) (3 : Nat)).toNat = 2 * 256 ∧
    trueblue (truecolor (1 : Nat) (2 : Nat) (3 : Nat)).toNat = 3 * 256 ∧
    istruecol 257 = false :=
  C40_truecolor_components 1 2 3 257 (by decide) (by decide) (by decide) (by decide)

/-! ## C35: deleting and inserting characters -/

/-- What the Go `copy` within one slice does when all of the source fits: the
cells `dst .. dst+size-1` take the former cells from `src` on, every other cell
is kept. -/
theorem copyWithin_spec {α : Type} (l : List α) (dst size src : Int)
    (h : 0 ≤ dst ∧ 0 ≤ size ∧ dst + size ≤ l.length ∧ 0 ≤ src ∧ src + size ≤ l.length) :
    ∃ l1, copyWithin l dst size src = some l1 ∧ l1.length = l.length ∧
      ∀ j, idx? l1 j = if dst ≤ j ∧ j < dst + size then idx? l (src + (j - dst)) else idx? l j := by
  obtain ⟨h0, h1, h2, h3, h4⟩ := h
  have hk : min size.toNat (l.length - src.toNat) = size.toNat := by omega
  unfold copyWithin
  rw [if_pos ⟨h0, by omega, h2, h3, by omega⟩]
  simp only [hk]
  refine ⟨_, rfl, ?_, ?_⟩
  · simp only [List.length_append, List.length_take, List.length_drop]
    omega
  · intro j
    unfold idx?
    by_cases hj0 : 0 ≤ j
    · simp only [hj0, if_true]
      by_cases hj1 : j < dst
      · rw [if_neg (by omega), List.append_assoc,
          List.getElem?_append_left (by simp only [List.length_take]; omega),
          List.getElem?_take_of_lt (by omega)]
      · by_cases hj2 : j < dst + size
        · rw [if_pos ⟨by omega, hj2⟩, if_pos (by omega),
            List.getElem?_append_left (by
              simp only [List.length_append, List.length_take, List.length_drop]; omega),
            List.getElem?_append_right (by simp only [List.length_take]; omega),
            List.getElem?_take_of_lt (by simp only [List.length_take]; omega),
            List.getElem?_drop]
          congr 1
          simp only [List.length_take]
          omega
        · rw [if_neg (by omega),
            List.getElem?_append_right (by
              simp only [List.length_append, List.length_take, List.length_drop]; omega),
            List.getElem?_drop]
          congr 1
          simp only [List.length_append, List.length_take, List.length_drop]
          omega
    · simp only [hj0, if_false]
      split_ifs <;> first | rfl | (exfalso; omega)

theorem cell?_of_row {g : List Line} {y : Int} {l : Line} (h : idx? g y = some l) (x : Int) :
    cell? g y x = idx? l x := by
  unfold cell?
  rw [h, Option.some_bind]

/-- What `tdeletechar(n)` does for `1 ≤ n ≤ col - x` with the cursor at column
`x` of a screen of consistent dimensions: on the cursor row the cells from `x`
on take the former cells `n` columns to the right and the last `n` cells are
blank; every other cell is kept. -/
theorem tdeletechar_spec (s : State) (n : Int) (hd : Dims s)
    (hx : 0 ≤ s.term.c.x ∧ s.term.c.x < s.term.col) (hy : 0 ≤ s.term.c.y ∧ s.term.c.y < s.term.row)
    (hn : 1 ≤ n ∧ n ≤ s.term.col - s.term.c.x) :
    ∃ L D S, tdeletechar n s = some (s.withLDS L D S) ∧ Rect L s.term.row s.term.col ∧
      ∀ y x, cell? L y x =
        if y = s.term.c.y ∧ s.term.c.x ≤ x ∧ x < s.term.col then
          (if x < s.term.col - n then cell? s.term.line y (x + n) else some (clearGlyph s))
        else cell? s.term.line y x := by
  obtain ⟨hrow, hcol, hrect, hdl⟩ := hd
  have hk : clamp n 0 (s.term.col - s.term.c.x) = n := clamp_of_mem _ _ _ (by omega) hn.2
  obtain ⟨line, hline⟩ := idx?_isSome s.term.line s.term.c.y hy.1 (by rw [hrect.1]; exact hy.2)
  have hll : (line.length : Int) = s.term.col := idx?_row_length hrect hline
  obtain ⟨l2, hl2, hlen2, hidx2⟩ := copyWithin_spec line s.term.c.x
    (s.term.col - (s.term.c.x + n)) (s.term.c.x + n)
    ⟨hx.1, by omega, by omega, by omega, by omega⟩
  have hu := upd?_of_bounds s.term.line s.term.c.y l2 hy.1 (by rw [hrect.1]; exact hy.2)
  have hrect2 : Rect (s.term.line.set s.term.c.y.toNat l2) s.term.row s.term.col :=
    rect_upd?_row hrect hu (by rw [hlen2]; exact hll)
  obtain ⟨L, D, S, h3, hrectL, _, _, _, hcell⟩ := tclearregion_spec
    (s.withLDS (s.term.line.set s.term.c.y.toNat l2) s.term.dirty s.sel)
    ⟨hrow, hcol, hrect2, hdl⟩ (s.term.col - n) s.term.c.y (s.term.col - 1) s.term.c.y
  simp only [withLDS_term_row, withLDS_term_col, withLDS_term_line, withLDS_withLDS] at h3 hcell
  have hx1 : clamp (if s.term.col - n > s.term.col - 1 then s.term.col - 1 else s.term.col - n) 0
      (s.term.col - 1) = s.term.col - n := by
    rw [if_neg (by omega)]; exact clamp_of_mem _ _ _ (by omega) (by omega)
  have hx2 : clamp (if s.term.col - n > s.term.col - 1 then s.term.col - n else s.term.col - 1) 0
      (s.term.col - 1) = s.term.col - 1 := by
    rw [if_neg (by omega)]; exact clamp_of_mem _ _ _ (by omega) (le_refl _)
  have hy1 : clamp (if s.term.c.y > s.term.c.y then s.term.c.y else s.term.c.y) 0
      (s.term.row - 1) = s.term.c.y := by
    rw [if_neg (by omega)]; exact clamp_of_mem _ _ _ hy.1 (by omega)
  rw [hx1, hx2, hy1] at hcell
  refine ⟨L, D, S, ?_, hrectL, ?_⟩
  · unfold tdeletechar
    simp only [hk, hline, Option.some_bind, hl2, hu]
    exact h3
  · intro y x
    rw [hcell y x, cell?_upd?_row hu y x, hidx2 x]
    have e1 : ∀ j, idx? line j = cell? s.term.line s.term.c.y j := fun j =>
      (cell?_of_row hline j).symm
    by_cases hyy : y = s.term.c.y
    · subst hyy
      simp only [if_true, true_and, e1, le_refl, and_self, clearGlyph, withLDS_term_c]
      split_ifs <;> first | rfl | (exfalso; omega) | (congr 1; omega)
    · simp only [hyy, if_false, false_and, and_false]
      have : ¬ ((s.term.c.y ≤ y ∧ y ≤ s.term.c.y) ∧ s.term.col - n ≤ x ∧ x ≤ s.term.col - 1) := by
        omega
      rw [if_neg this]

/-- What `tinsertblank(n)` does for `1 ≤ n ≤ col - x` with the cursor at column
`x` of a screen of consistent dimensions: on the cursor row the cells
`x .. x+n-1` are blank and the cells from `x + n` on take the former cells `n`
columns to the left; every other cell is kept. -/
theorem tinsertblank_spec (s : State) (n : Int) (hd : Dims s)
    (hx : 0 ≤ s.term.c.x ∧ s.term.c.x < s.term.col) (hy : 0 ≤ s.term.c.y ∧ s.term.c.y < s.term.row)
    (hn : 1 ≤ n ∧ n ≤ s.term.col - s.term.c.x) :
    ∃ L D S, tinsertblank n s = some (s.withLDS L D S) ∧ Rect L s.term.row s.term.col ∧
      ∀ y x, cell? L y x =
        if y = s.term.c.y ∧ s.term.c.x ≤ x ∧ x < s.term.col then
          (if x < s.term.c.x + n then some (clearGlyph s) else cell? s.term.line y (x - n))
        else cell? s.term.line y x := by
  obtain ⟨hrow, hcol, hrect, hdl⟩ := hd
  have hk : clamp n 0 (s.term.col - s.term.c.x) = n := clamp_of_mem _ _ _ (by omega) hn.2
  obtain ⟨line, hline⟩ := idx?_isSome s.term.line s.term.c.y hy.1 (by rw [hrect.1]; exact hy.2)
  have hll : (line.length : Int) = s.term.col := idx?_row_length hrect hline
  obtain ⟨l2, hl2, hlen2, hidx2⟩ := copyWithin_spec line (s.term.c.x + n)
    (s.term.col - (s.term.c.x + n)) s.term.c.x
    ⟨by omega, by omega, by omega, hx.1, by omega⟩
  have hu := upd?_of_bounds s.term.line s.term.c.y l2 hy.1 (by rw [hrect.1]; exact hy.2)
  have hrect2 : Rect (s.term.line.set s.term.c.y.toNat l2) s.term.row s.term.col :=
    rect_upd?_row hrect hu (by rw [hlen2]; exact hll)
  obtain ⟨L, D, S, h3, hrectL, _, _, _, hcell⟩ := tclearregion_spec
    (s.withLDS (s.term.line.set s.term.c.y.toNat l2) s.term.dirty s.sel)
    ⟨hrow, hcol, hrect2, hdl⟩ s.term.c.x s.term.c.y (s.term.c.x + n - 1) s.term.c.y
  simp only [withLDS_term_row, withLDS_term_col, withLDS_term_line, withLDS_withLDS] at h3 hcell
  have hx1 : clamp (if s.term.c.x > s.term.c.x + n - 1 then s.term.c.x + n - 1 else s.term.c.x) 0
      (s.term.col - 1) = s.term.c.x := by
    rw [if_neg (by omega)]; exact clamp_of_mem _ _ _ (by omega) (by omega)
  have hx2 : clamp (if s.term.c.x > s.term.c.x + n - 1 then s.term.c.x else s.term.c.x + n - 1) 0
      (s.term.col - 1) = s.term.c.x + n - 1 := by
    rw [if_neg (by omega)]; exact clamp_of_mem _ _ _ (by omega) (by omega)
  have hy1 : clamp (if s.term.c.y > s.term.c.y then s.term.c.y else s.term.c.y) 0
      (s.term.row - 1) = s.term.c.y := by
    rw [if_neg (by omega)]; exact clamp_of_mem _ _ _ hy.1 (by omega)
  rw [hx1, hx2, hy1] at hcell
  refine ⟨L, D, S, ?_, hrectL, ?_⟩
  · unfold tinsertblank
    simp only [hk, hline, Option.some_bind, hl2, hu]
    exact h3
  · intro y x
    rw [hcell y x, cell?_upd?_row hu y x, hidx2 x]
    have e1 : ∀ j, idx? line j = cell? s.term.line s.term.c.y j := fun j =>
      (cell?_of_row hline j).symm
    by_cases hyy : y = s.term.c.y
    · subst hyy
      simp only [if_true, true_and, e1, le_refl, and_self, clearGlyph, withLDS_term_c]
      split_ifs <;> first | rfl | (exfalso; omega) | (congr 1; omega)
    · simp only [hyy, if_false, false_and, and_false]
      have : ¬ ((s.term.c.y ≤ y ∧ y ≤ s.term.c.y) ∧ s.term.c.x ≤ x ∧ x ≤ s.term.c.x + n - 1) := by
        omega
      rw [if_neg this]

/-- C35: with the cursor at column `x` of a screen of consistent dimensions and
`1 ≤ n ≤ col - x`, `tdeletechar(n)` returns a state that differs in the screen,
the dirty flags and the selection only; on the cursor row the cells left of `x`
are kept, each cell from `x` up to `col - n - 1` holds the former cell `n`
columns to its right and the last `n` cells are blank; `tinsertblank(n)` keeps
the cells left of `x`, blanks the cells `x .. x+n-1` and gives each cell from
`x + n` on the former cell `n` columns to its left; no other row changes. -/
theorem C35_delete_insert_chars (s : State) (n : Int) (hd : Dims s)
    (hx : 0 ≤ s.term.c.x ∧ s.term.c.x < s.term.col) (hy : 0 ≤ s.term.c.y ∧ s.term.c.y < s.term.row)
    (hn : 1 ≤ n ∧ n ≤ s.term.col - s.term.c.x) :
    (∃ L D S, tdeletechar n s = some (s.withLDS L D S) ∧ Rect L s.term.row s.term.col ∧
      ∀ y x, cell? L y x =
        if y = s.term.c.y ∧ s.term.c.x ≤ x ∧ x < s.term.col then
          (if x < s.term.col - n then cell? s.term.line y (x + n) else some (clearGlyph s))
        else cell? s.term.line y x) ∧
    (∃ L D S, tinsertblank n s = some (s.withLDS L D S) ∧ Rect L s.term.row s.term.col ∧
      ∀ y x, cell? L y x =
        if y = s.term.c.y ∧ s.term.c.x ≤ x ∧ x < s.term.col then
          (if x < s.term.c.x + n then some (clearGlyph s) else cell? s.term.line y (x - n))
        else cell? s.term.line y x) :=
  ⟨tdeletechar_spec s n hd hx hy hn, tinsertblank_spec s n hd hx hy hn⟩

theorem C35_delete_insert_chars_witness :
    (∃ L D S, tdeletechar 2 (abcState 1 1) = some ((abcState 1 1).withLDS L D S) ∧
      Rect L (abcState 1 1).term.row (abcState 1 1).term.col ∧
      ∀ y x, cell? L y x =
        if y = (abcState 1 1).term.c.y ∧ (abcState 1 1).term.c.x ≤ x ∧ x < (abcState 1 1).term.col then
          (if x < (abcState 1 1).term.col - 2 then cell? (abcState 1 1).term.line y (x + 2)
            else some (clearGlyph (abcState 1 1)))
        else cell? (abcState 1 1).term.line y x) ∧
    (∃ L D S, tinsertblank 2 (abcState 1 1) = some ((abcState 1 1).withLDS L D S) ∧
      Rect L (abcState 1 1).term.row (abcState 1 1).term.col ∧
      ∀ y x, cell? L y x =
        if y = (abcState 1 1).term.c.y ∧ (abcState 1 1).term.c.x ≤ x ∧ x < (abcState 1 1).term.col then
          (if x < (abcState 1 1).term.c.x + 2 then some (clearGlyph (abcState 1 1))
            else cell? (abcState 1 1).term.line y (x - 2))
        else cell? (abcState 1 1).term.line y x) :=
  C35_delete_insert_chars (abcState 1 1) 2 (by decide) (by decide) (by decide) (by decide)

/-! ## The selection under scrolling -/

theorem forUp_proj {α : Type} (f : State → α) (body : Int → State → Option State)
    (h : ∀ i t t1, body i t = some t1 → f t1 = f t) (n : Nat) :
    ∀ (i : Int) (s s1 : State), forUp body n i s = some s1 → f s1 = f s := by
  induction n with
  | zero =>
    intro i s s1 hs
    rw [← Option.some.inj hs]
  | succ n ih =>
    intro i s s1 hs
    simp only [forUp, Option.bind_eq_some] at hs
    obtain ⟨t, ht, hs1⟩ := hs
    rw [ih _ _ _ hs1, h _ _ _ ht]

theorem tsetdirt_snap {top bot : Int} {s s1 : State} (h : tsetdirt top bot s = some s1) :
    s1.sel.snap = s.sel.snap := by
  unfold tsetdirt at h
  refine forUp_proj (fun t => t.sel.snap) _ ?_ _ _ _ _ h
  intro i t t1 ht
  simp only [Option.map_eq_some'] at ht
  obtain ⟨d, _, rfl⟩ := ht
  rfl

theorem selclear_snap {s s1 : State} (h : selclear s = some s1) : s1.sel.snap = s.sel.snap := by
  unfold selclear at h
  by_cases h0 : s.sel.ob.x = -1
  · rw [if_pos h0] at h
    rw [← Option.some.inj h]
  · rw [if_neg h0] at h
    have e := tsetdirt_snap h
    exact e

theorem tclearcell_snap {y x : Int} {s s1 : State} (h : tclearcell y x s = some s1) :
    s1.sel.snap = s.sel.snap := by
  unfold tclearcell at h
  simp only [Option.bind_eq_some, Option.map_eq_some'] at h
  obtain ⟨_, _, t, ht, g, _, rfl⟩ := h
  have e : t.sel.snap = s.sel.snap := by
    by_cases hs : selected x y s = true
    · rw [if_pos hs] at ht; exact selclear_snap ht
    · rw [if_neg hs] at ht; rw [← Option.some.inj ht]
  exact e

theorem tclearrow_snap {x1 x2 y : Int} {s s1 : State} (h : tclearrow x1 x2 y s = some s1) :
    s1.sel.snap = s.sel.snap := by
  unfold tclearrow at h
  simp only [Option.bind_eq_some] at h
  obtain ⟨d, _, h2⟩ := h
  have e := forUp_proj (fun t => t.sel.snap) (tclearcell y) (fun _ _ _ ht => tclearcell_snap ht)
    _ _ _ _ h2
  exact e

theorem tclearregion_snap {x1 y1 x2 y2 : Int} {s s1 : State}
    (h : tclearregion x1 y1 x2 y2 s = some s1) : s1.sel.snap = s.sel.snap := by
  unfold tclearregion at h
  exact forUp_proj (fun t => t.sel.snap) _ (fun _ _ _ ht => tclearrow_snap ht) _ _ _ _ h

/-- The upward line-snap loop returns a row between 0 and the row it starts on. -/
theorem selsnapLineUp_some (s : State) (hrect : Rect s.term.line s.term.row s.term.col)
    (hcol : 1 ≤ s.term.col) (fuel : Nat) :
    ∀ y : Int, 0 ≤ y → y < s.term.row →
      ∃ y1, selsnapLineUp s (-1) fuel y = some y1 ∧ 0 ≤ y1 ∧ y1 ≤ y := by
  induction fuel with
  | zero => intro y h0 _; exact ⟨y, rfl, h0, le_refl _⟩
  | succ k ih =>
    intro y h0 h1
    unfold selsnapLineUp
    by_cases hy : y > 0
    · rw [if_pos hy]
      obtain ⟨g, hg⟩ := cell?_isSome hrect (y - 1) (s.term.col - 1) (by omega) (by omega)
      rw [hg, Option.some_bind]
      by_cases hw : ¬ has g.mode ATTR_WRAP = true
      · rw [if_pos hw]; exact ⟨y, rfl, h0, le_refl _⟩
      · rw [if_neg hw]
        obtain ⟨y1, e, a, b⟩ := ih (y + -1) (by omega) (by omega)
        exact ⟨y1, e, a, by omega⟩
    · rw [if_neg hy]; exact ⟨y, rfl, h0, le_refl _⟩

/-- The downward line-snap loop returns a row between the row it starts on and
the last row. -/
theorem selsnapLineDown_some (s : State) (hrect : Rect s.term.line s.term.row s.term.col)
    (hcol : 1 ≤ s.term.col) (fuel : Nat) :
    ∀ y : Int, 0 ≤ y → y < s.term.row →
      ∃ y1, selsnapLineDown s 1 fuel y = some y1 ∧ y ≤ y1 ∧ y1 < s.term.row := by
  induction fuel with
  | zero => intro y _ h1; exact ⟨y, rfl, le_refl _, h1⟩
  | succ k ih =>
    intro y h0 h1
    unfold selsnapLineDown
    by_cases hy : y < s.term.row - 1
    · rw [if_pos hy]
      obtain ⟨g, hg⟩ := cell?_isSome hrect y (s.term.col - 1) ⟨h0, h1⟩ (by omega)
      rw [hg, Option.some_bind]
      by_cases hw : ¬ has g.mode ATTR_WRAP = true
      · rw [if_pos hw]; exact ⟨y, rfl, le_refl _, h1⟩
      · rw [if_neg hw]
        obtain ⟨y1, e, a, b⟩ := ih (y + 1) (by omega) (by omega)
        exact ⟨y1, e, by omega, b⟩
    · rw [if_neg hy]; exact ⟨y, rfl, le_refl _, h1⟩

/-- Without word snapping `selsnap` returns, on a row of the screen. -/
theorem selsnap_some (s : State) (hrect : Rect s.term.line s.term.row s.term.col)
    (hcol : 1 ≤ s.term.col) (hsnap : s.sel.snap ≠ SNAP_WORD) (x y direction : Int)
    (hdir : direction = -1 ∨ direction = 1) (hy : 0 ≤ y ∧ y < s.term.row) :
    ∃ b, selsnap x y direction s = some b ∧ 0 ≤ b.2 ∧ b.2 < s.term.row := by
  unfold selsnap
  rw [if_neg hsnap]
  by_cases hl : s.sel.snap = SNAP_LINE
  · rw [if_pos hl]
    rcases hdir with rfl | rfl
    · obtain ⟨y1, e, a, b⟩ := selsnapLineUp_some s hrect hcol y.toNat y hy.1 hy.2
      simp only [show ((-1 : Int) < 0) from by decide, if_true, e, Option.map_some']
      exact ⟨_, rfl, a, by show y1 < s.term.row; omega⟩
    · obtain ⟨y1, e, a, b⟩ := selsnapLineDown_some s hrect hcol (s.term.row - 1 - y).toNat y
        hy.1 hy.2
      simp only [show ¬ ((1 : Int) < 0) from by decide, show ((1 : Int) > 0) from by decide,
        if_true, if_false, e, Option.map_some']
      exact ⟨_, rfl, by show 0 ≤ y1; omega, b⟩
  · rw [if_neg hl]
    exact ⟨_, rfl, hy.1, hy.2⟩

/-- Without word snapping `selnormalize` returns when the two end rows of the
selection are rows of the screen. -/
theorem selnormalize_some (s : State) (hrect : Rect s.term.line s.term.row s.term.col)
    (hcol : 1 ≤ s.term.col) (hsnap : s.sel.snap ≠ SNAP_WORD)
    (hob : 0 ≤ s.sel.ob.y ∧ s.sel.ob.y < s.term.row)
    (hoe : 0 ≤ s.sel.oe.y ∧ s.sel.oe.y < s.term.row) :
    ∃ s1, selnormalize s = some s1 := by
  have hmin : 0 ≤ imin s.sel.ob.y s.sel.oe.y ∧ imin s.sel.ob.y s.sel.oe.y < s.term.row := by
    unfold imin; split_ifs <;> omega
  have hmax : 0 ≤ imax s.sel.ob.y s.sel.oe.y ∧ imax s.sel.ob.y s.sel.oe.y < s.term.row := by
    unfold imax; split_ifs <;> omega
  unfold selnormalize
  dsimp only
  obtain ⟨b, hb, b0, b1⟩ := selsnap_some s hrect hcol hsnap
    (if s.sel.typ = SEL_REGULAR ∧ s.sel.ob.y ≠ s.sel.oe.y then
      (if s.sel.ob.y < s.sel.oe.y then s.sel.ob.x else s.sel.oe.x)
      else imin s.sel.ob.x s.sel.oe.x) _ (-1) (Or.inl rfl) hmin
  obtain ⟨e, he, e0, e1⟩ := selsnap_some s hrect hcol hsnap
    (if s.sel.typ = SEL_REGULAR ∧ s.sel.ob.y ≠ s.sel.oe.y then
      (if s.sel.ob.y < s.sel.oe.y then s.sel.oe.x else s.sel.ob.x)
      else imax s.sel.ob.x s.sel.oe.x) _ 1 (Or.inr rfl) hmax
  rw [hb, Option.some_bind, he, Option.some_bind]
  by_cases hr : s.sel.typ = SEL_RECTANGULAR
  · rw [if_pos hr]; exact ⟨_, rfl⟩
  · rw [if_neg hr]
    obtain ⟨i, hi, _⟩ := tlinelen_some s b.2 hrect hcol ⟨b0, b1⟩
    obtain ⟨j, hj, _⟩ := tlinelen_some s e.2 hrect hcol ⟨e0, e1⟩
    rw [hi, Option.some_bind, hj, Option.some_bind]
    exact ⟨_, rfl⟩

/-- The terminal part of the state is left alone by `selnormalize`. -/
theorem selnormalize_term {s s1 : State} (h : selnormalize s = some s1) :
    ∃ S, s1 = s.withLDS s.term.line s.term.dirty S ∧ S.snap = s.sel.snap := by
  unfold selnormalize at h
  simp only [Option.bind_eq_some] at h
  obtain ⟨b, _, e, _, h2⟩ := h
  by_cases hr : s.sel.typ = SEL_RECTANGULAR
  · rw [if_pos hr] at h2
    rw [← Option.some.inj h2]; exact ⟨_, rfl, rfl⟩
  · rw [if_neg hr] at h2
    simp only [Option.bind_eq_some] at h2
    obtain ⟨i, _, j, _, h3⟩ := h2
    rw [← Option.some.inj h3]; exact ⟨_, rfl, rfl⟩

theorem selclear_frame (t : State) (hrow : 1 ≤ t.term.row)
    (hd : (t.term.dirty.length : Int) = t.term.row) (s1 : State) (h : selclear t = some s1) :
    ∃ D S, s1 = t.withLDS t.term.line D S ∧ DirtyGe D t.term.dirty := by
  obtain ⟨D, S, e, hge, _⟩ := selclear_dirtyGe t hrow hd
  rw [e] at h
  exact ⟨D, S, (Option.some.inj h).symm, hge⟩

/-- What `selscroll` leaves alone: the screen is kept and no dirty flag is
cleared. -/
theorem selscroll_frame (s : State) (hrow : 1 ≤ s.term.row)
    (hd : (s.term.dirty.length : Int) = s.term.row) (orig n : Int) (s1 : State)
    (h : selscroll orig n s = some s1) :
    ∃ D S, s1 = s.withLDS s.term.line D S ∧ DirtyGe D s.term.dirty := by
  unfold selscroll at h
  dsimp only at h
  split_ifs at h
  all_goals first
    | exact ⟨_, _, (Option.some.inj h).symm, DirtyGe.refl _⟩
    | (have e := selnormalize_term h; exact ⟨_, e.choose, e.choose_spec.1, DirtyGe.refl _⟩)
    | (have e := selclear_frame _ (by exact hrow) (by exact hd) _ h; exact e)

/-- Without word snapping, or without a selection, `selscroll` returns. -/
theorem selscroll_some (s : State) (hd : Dims s)
    (hreg : 0 ≤ s.term.top ∧ s.term.top ≤ s.term.bot ∧ s.term.bot < s.term.row)
    (hsnap : s.sel.ob.x = -1 ∨ s.sel.snap ≠ SNAP_WORD) (orig n : Int) :
    ∃ s1, selscroll orig n s = some s1 := by
  obtain ⟨hrow, hcol, hrect, hdl⟩ := hd
  unfold selscroll
  dsimp only
  by_cases h0 : s.sel.ob.x = -1
  · rw [if_pos h0]; exact ⟨_, rfl⟩
  · rw [if_neg h0]
    have hs : s.sel.snap ≠ SNAP_WORD := by
      rcases hsnap with h | h
      · exact absurd h h0
      · exact h
    split_ifs
    all_goals first
      | exact ⟨_, rfl⟩
      | (have e := selclear_dirtyGe
            { s with sel := { s.sel with ob := ⟨s.sel.ob.x, s.sel.ob.y + n⟩,
                                          oe := ⟨s.sel.oe.x, s.sel.oe.y + n⟩ } } hrow hdl
         exact ⟨_, e.choose_spec.choose_spec.1⟩)
      | (refine selnormalize_some _ hrect hcol hs ⟨?_, ?_⟩ ⟨?_, ?_⟩ <;> dsimp only <;> omega)

/-! ## C33: scrolling a region up and down -/

/-- The state that `tscrollup(orig, n)` hands to `selscroll`, for `n ≥ 1` and
`orig` in the scroll region of a screen of consistent dimensions, whatever the
selection: with `k` the clamped count, row `y` of `orig .. bot-k` holds the
former row `y + k`, the rows `bot-k+1 .. bot` are blank, every other row is
kept, and the rows `orig .. bot` are dirty. -/
theorem tscrollup_pre (s : State) (orig n : Int) (hd : Dims s)
    (ho : 0 ≤ orig ∧ orig ≤ s.term.bot) (hbot : s.term.bot < s.term.row) (hn : 1 ≤ n) :
    ∃ L D S, tscrollup orig n s =
        selscroll orig (-(clamp n 0 (s.term.bot - orig + 1))) (s.withLDS L D S) ∧
      Rect L s.term.row s.term.col ∧ DirtyGe D s.term.dirty ∧
      (∀ j, orig ≤ j ∧ j ≤ s.term.bot → idx? D j = some true) ∧
      S.snap = s.sel.snap ∧ (s.sel.ob.x = -1 → S = s.sel) ∧
      ∀ y x, cell? L y x =
        if orig ≤ y ∧ y ≤ s.term.bot - clamp n 0 (s.term.bot - orig + 1) then
          cell? s.term.line (y + clamp n 0 (s.term.bot - orig + 1)) x
        else if s.term.bot - clamp n 0 (s.term.bot - orig + 1) < y ∧ y ≤ s.term.bot then
          (if 0 ≤ x ∧ x < s.term.col then some (clearGlyph s) else none)
        else cell? s.term.line y x := by
  have hkb := clamp_bounds n 0 (s.term.bot - orig + 1) (by omega)
  have hk1 : 1 ≤ clamp n 0 (s.term.bot - orig + 1) := by
    unfold clamp imin imax
    split <;> split <;> omega
  generalize hk : clamp n 0 (s.term.bot - orig + 1) = k at hkb hk1 ⊢
  obtain ⟨hrow, hcol, hrect, hdl⟩ := hd
  obtain ⟨L1, D1, S1, h1, hrect1, hge1, hdirty1, hS1, hcell1⟩ :=
    tclearregion_spec s ⟨hrow, hcol, hrect, hdl⟩ 0 orig (s.term.col - 1) (orig + k - 1)
  have hsnap1 : S1.snap = s.sel.snap := tclearregion_snap h1
  have hx1 : clamp (if 0 > s.term.col - 1 then s.term.col - 1 else 0) 0 (s.term.col - 1) = 0 := by
    rw [if_neg (by omega)]; exact clamp_of_mem _ _ _ (le_refl _) (by omega)
  have hx2 : clamp (if 0 > s.term.col - 1 then 0 else s.term.col - 1) 0 (s.term.col - 1)
      = s.term.col - 1 := by
    rw [if_neg (by omega)]; exact clamp_of_mem _ _ _ (by omega) (le_refl _)
  have hy1 : clamp (if orig > orig + k - 1 then orig + k - 1 else orig) 0 (s.term.row - 1)
      = orig := by
    rw [if_neg (by omega)]; exact clamp_of_mem _ _ _ (by omega) (by omega)
  have hy2 : clamp (if orig > orig + k - 1 then orig else orig + k - 1) 0 (s.term.row - 1)
      = orig + k - 1 := by
    rw [if_neg (by omega)]; exact clamp_of_mem _ _ _ (by omega) (by omega)
  rw [hx1, hx2, hy1, hy2] at hcell1
  rw [hy1, hy2] at hdirty1
  obtain ⟨D2, h2, hge2, hdirty2⟩ := tsetdirt_dirtyGe (s.withLDS L1 D1 S1) (orig + k) s.term.bot
    hrow (by simp only [withLDS_term_dirty, withLDS_term_row]; rw [hge1.1]; exact hdl)
  simp only [withLDS_term_line, withLDS_term_dirty, withLDS_sel, withLDS_withLDS,
    withLDS_term_row] at h2 hge2 hdirty2
  have hinv0 : ScrollUpInv L1 L1 orig k orig := by
    intro y
    refine ⟨fun _ _ => rfl, fun h => by omega, fun h => ⟨y, h.1, h.2, fun _ => rfl⟩⟩
  obtain ⟨G, h3, hrectG, hinvG⟩ := forUp_scrollup L1 orig k hk1 s.term.row s.term.col
    (s.term.bot - k + 1 - orig).toNat orig (s.withLDS L1 D2 S1) ho.1 (le_refl _)
    (by omega) hrect1 hinv0
  simp only [withLDS_term_line, withLDS_term_dirty, withLDS_sel, withLDS_withLDS] at h3
  have hend : orig + ((s.term.bot - k + 1 - orig).toNat : Int) = s.term.bot - k + 1 := by omega
  rw [hend] at hinvG
  refine ⟨G, D2, S1, ?_, hrectG, hge2.trans hge1, ?_, hsnap1, hS1, ?_⟩
  · unfold tscrollup
    simp only [hk, h1, Option.some_bind, withLDS_term_bot, h2, h3]
  · intro j hj
    by_cases hjk : j ≤ orig + k - 1
    · exact hge2.2 j (hdirty1 j ⟨hj.1, hjk⟩)
    · apply hdirty2 j
      have c1 : clamp (orig + k) 0 (s.term.row - 1) = orig + k :=
        clamp_of_mem _ _ _ (by omega) (by omega)
      have c2 : clamp s.term.bot 0 (s.term.row - 1) = s.term.bot :=
        clamp_of_mem _ _ _ (by omega) (by omega)
      rw [c1, c2]; omega
  · intro y x
    obtain ⟨c1, c2, c3⟩ := hinvG y
    by_cases ha : orig ≤ y ∧ y ≤ s.term.bot - k
    · rw [if_pos ha, c2 (by omega) x, hcell1, if_neg (by omega)]
    · rw [if_neg ha]
      by_cases hb : s.term.bot - k < y ∧ y ≤ s.term.bot
      · rw [if_pos hb]
        obtain ⟨r, hr1, hr2, hr⟩ := c3 (by omega)
        rw [hr x, hcell1]
        by_cases hx : 0 ≤ x ∧ x < s.term.col
        · rw [if_pos hx, if_pos ⟨⟨hr1, by omega⟩, hx.1, by omega⟩]
        · rw [if_neg hx, if_neg (by omega)]
          exact cell?_none_of_col hrect r x hx
      · rw [if_neg hb, c1 (by omega) x, hcell1, if_neg (by omega)]

theorem forDown_scrolldown (g0 : List Line) (bot k : Int) (hk : 1 ≤ k) (row col : Int) (n : Nat) :
    ∀ (i : Int) (s : State), i ≤ bot → bot < row → 0 ≤ i - n - k + 1 →
      Rect s.term.line row col → ScrollDownInv g0 s.term.line bot k i →
      ∃ G, forDown (fun i t => (swapRows t.term.line i (i - k)).map
            (fun g => { t with term := { t.term with line := g } })) n i s
          = some (s.withLDS G s.term.dirty s.sel) ∧
        Rect G row col ∧ ScrollDownInv g0 G bot k (i - n) := by
  induction n with
  | zero =>
    intro i s _ _ _ hrect hinv
    refine ⟨s.term.line, rfl, hrect, ?_⟩
    simpa using hinv
  | succ n ih =>
    intro i s hi hbot hlen hrect hinv
    push_cast at hlen
    obtain ⟨a, ha⟩ := idx?_isSome s.term.line (i - k) (by omega) (by rw [hrect.1]; omega)
    obtain ⟨b, hb⟩ := idx?_isSome s.term.line i (by omega) (by rw [hrect.1]; omega)
    obtain ⟨g2, hsw, hlen2, hmem, hcell⟩ := swapRows_spec hb ha
    have hrect2 : Rect g2 row col := ⟨by rw [hlen2]; exact hrect.1, fun w hw => hrect.2 w (hmem w hw)⟩
    have hinv2 : ScrollDownInv g0 g2 bot k (i - 1) := by
      intro y
      obtain ⟨c1, c2, c3⟩ := hinv y
      refine ⟨?_, ?_, ?_⟩
      · intro hy x
        rw [hcell y x, if_neg (by omega), if_neg (by omega)]
        exact c1 (by omega) x
      · intro hy x
        by_cases hyi : y = i
        · subst hyi
          rw [hcell y x, if_neg (by omega), if_pos rfl]
          exact (hinv (y - k)).1 (Or.inr (le_refl _)) x
        · rw [hcell y x, if_neg (by omega), if_neg hyi]
          exact c2 (by omega) x
      · intro hy
        by_cases hyk : y = i - k
        · subst hyk
          obtain ⟨r, hr1, hr2, hr⟩ := (hinv i).2.2 (by omega)
          refine ⟨r, hr1, hr2, fun x => ?_⟩
          rw [hcell (i - k) x, if_pos rfl]
          exact hr x
        · obtain ⟨r, hr1, hr2, hr⟩ := c3 (by omega)
          refine ⟨r, hr1, hr2, fun x => ?_⟩
          rw [hcell y x, if_neg hyk, if_neg (by omega)]
          exact hr x
    obtain ⟨G, hG, hrectG, hinvG⟩ := ih (i - 1) (s.withLDS g2 s.term.dirty s.sel) (by omega) hbot
      (by omega) hrect2 hinv2
    refine ⟨G, ?_, hrectG, ?_⟩
    · simp only [forDown, hsw, Option.map_some', Option.some_bind]
      exact hG
    · have e : i - ((n + 1 : Nat) : Int) = i - 1 - (n : Int) := by push_cast; omega
      rw [e]; exact hinvG

/-- The state that `tscrolldown(orig, n)` hands to `selscroll`, for `n ≥ 1` and
`orig` in the scroll region of a screen of consistent dimensions, whatever the
selection: with `k` the clamped count, row `y` of `orig+k .. bot` holds the
former row `y - k`, the rows `orig .. orig+k-1` are blank, every other row is
kept, and the rows `orig .. bot` are dirty. -/
theorem tscrolldown_pre (s : State) (orig n : Int) (hd : Dims s)
    (ho : 0 ≤ orig ∧ orig ≤ s.term.bot) (hbot : s.term.bot < s.term.row) (hn : 1 ≤ n) :
    ∃ L D S, tscrolldown orig n s =
        selscroll orig (clamp n 0 (s.term.bot - orig + 1)) (s.withLDS L D S) ∧
      Rect L s.term.row s.term.col ∧ DirtyGe D s.term.dirty ∧
      (∀ j, orig ≤ j ∧ j ≤ s.term.bot → idx? D j = some true) ∧
      S.snap = s.sel.snap ∧ (s.sel.ob.x = -1 → S = s.sel) ∧
      ∀ y x, cell? L y x =
        if orig + clamp n 0 (s.term.bot - orig + 1) ≤ y ∧ y ≤ s.term.bot then
          cell? s.term.line (y - clamp n 0 (s.term.bot - orig + 1)) x
        else if orig ≤ y ∧ y < orig + clamp n 0 (s.term.bot - orig + 1) then
          (if 0 ≤ x ∧ x < s.term.col then some (clearGlyph s) else none)
        else cell? s.term.line y x := by
  have hkb := clamp_bounds n 0 (s.term.bot - orig + 1) (by omega)
  have hk1 : 1 ≤ clamp n 0 (s.term.bot - orig + 1) := by
    unfold clamp imin imax
    split <;> split <;> omega
  generalize hk : clamp n 0 (s.term.bot - orig + 1) = k at hkb hk1 ⊢
  obtain ⟨hrow, hcol, hrect, hdl⟩ := hd
  obtain ⟨D1, h1, hge1, hdirty1⟩ := tsetdirt_dirtyGe s orig (s.term.bot - k) hrow hdl
  obtain ⟨L2, D2, S2, h2, hrect2, hge2, hdirty2, hS2, hcell2⟩ :=
    tclearregion_spec (s.withLDS s.term.line D1 s.sel)
      ⟨hrow, hcol, hrect, by simp only [withLDS_term_dirty, withLDS_term_row]; rw [hge1.1]; exact hdl⟩
      0 (s.term.bot - k + 1) (s.term.col - 1) s.term.bot
  have hsnap2 : S2.snap = s.sel.snap := tclearregion_snap h2
  simp only [withLDS_term_line, withLDS_term_dirty, withLDS_sel, withLDS_withLDS,
    withLDS_term_row, withLDS_term_col] at h2 hge2 hdirty2 hS2 hcell2
  have hx1 : clamp (if 0 > s.term.col - 1 then s.term.col - 1 else 0) 0 (s.term.col - 1) = 0 := by
    rw [if_neg (by omega)]; exact clamp_of_mem _ _ _ (le_refl _) (by omega)
  have hx2 : clamp (if 0 > s.term.col - 1 then 0 else s.term.col - 1) 0 (s.term.col - 1)
      = s.term.col - 1 := by
    rw [if_neg (by omega)]; exact clamp_of_mem _ _ _ (by omega) (le_refl _)
  have hy1 : clamp (if s.term.bot - k + 1 > s.term.bot then s.term.bot else s.term.bot - k + 1) 0
      (s.term.row - 1) = s.term.bot - k + 1 := by
    rw [if_neg (by omega)]; exact clamp_of_mem _ _ _ (by omega) (by omega)
  have hy2 : clamp (if s.term.bot - k + 1 > s.term.bot then s.term.bot - k + 1 else s.term.bot) 0
      (s.term.row - 1) = s.term.bot := by
    rw [if_neg (by omega)]; exact clamp_of_mem _ _ _ (by omega) (by omega)
  rw [hx1, hx2, hy1, hy2] at hcell2
  rw [hy1, hy2] at hdirty2
  have hinv0 : ScrollDownInv L2 L2 s.term.bot k s.term.bot := by
    intro y
    refine ⟨fun _ _ => rfl, fun h => by omega, fun h => ⟨y, h.1, h.2, fun _ => rfl⟩⟩
  obtain ⟨G, h3, hrectG, hinvG⟩ := forDown_scrolldown L2 s.term.bot k hk1 s.term.row s.term.col
    (s.term.bot + 1 - (orig + k)).toNat s.term.bot (s.withLDS L2 D2 S2) (le_refl _) hbot
    (by omega) hrect2 hinv0
  simp only [withLDS_term_line, withLDS_term_dirty, withLDS_sel, withLDS_withLDS] at h3
  have hend : s.term.bot - ((s.term.bot + 1 - (orig + k)).toNat : Int) = orig + k - 1 := by omega
  rw [hend] at hinvG
  refine ⟨G, D2, S2, ?_, hrectG, hge2.trans hge1, ?_, hsnap2, hS2, ?_⟩
  · unfold tscrolldown
    simp only [hk, h1, Option.some_bind, withLDS_term_bot, withLDS_term_col, h2, h3]
  · intro j hj
    by_cases hjk : j ≤ s.term.bot - k
    · apply hge2.2 j
      apply hdirty1 j
      have c1 : clamp orig 0 (s.term.row - 1) = orig := clamp_of_mem _ _ _ (by omega) (by omega)
      have c2 : clamp (s.term.bot - k) 0 (s.term.row - 1) = s.term.bot - k :=
        clamp_of_mem _ _ _ (by omega) (by omega)
      rw [c1, c2]; exact ⟨hj.1, hjk⟩
    · exact hdirty2 j ⟨by omega, hj.2⟩
  · intro y x
    obtain ⟨c1, c2, c3⟩ := hinvG y
    by_cases ha : orig + k ≤ y ∧ y ≤ s.term.bot
    · rw [if_pos ha, c2 (by omega) x, hcell2, if_neg (by omega)]
    · rw [if_neg ha]
      by_cases hb : orig ≤ y ∧ y < orig + k
      · rw [if_pos hb]
        obtain ⟨r, hr1, hr2, hr⟩ := c3 (by omega)
        rw [hr x, hcell2]
        by_cases hx : 0 ≤ x ∧ x < s.term.col
        · rw [if_pos hx, if_pos ⟨⟨by omega, hr2⟩, hx.1, by omega⟩]
          rfl
        · rw [if_neg hx, if_neg (by omega)]
          exact cell?_none_of_col hrect r x hx
      · rw [if_neg hb, c1 (by omega) x, hcell2, if_neg (by omega)]

/-- Whenever `tscrollup(orig, n)` returns, for `n ≥ 1` and `orig` in the scroll
region of a screen of consistent dimensions, the state differs in the screen,
the dirty flags and the selection only, the rows are moved as `tscrollup_pre`
says and the rows `orig .. bot` are dirty. -/
theorem tscrollup_rows (s : State) (orig n : Int) (hd : Dims s)
    (ho : 0 ≤ orig ∧ orig ≤ s.term.bot) (hbot : s.term.bot < s.term.row) (hn : 1 ≤ n)
    (s1 : State) (h : tscrollup orig n s = some s1) :
    ∃ L D S, s1 = s.withLDS L D S ∧ Rect L s.term.row s.term.col ∧
      (∀ j, orig ≤ j ∧ j ≤ s.term.bot → idx? D j = some true) ∧
      ∀ y x, cell? L y x =
        if orig ≤ y ∧ y ≤ s.term.bot - clamp n 0 (s.term.bot - orig + 1) then
          cell? s.term.line (y + clamp n 0 (s.term.bot - orig + 1)) x
        else if s.term.bot - clamp n 0 (s.term.bot - orig + 1) < y ∧ y ≤ s.term.bot then
          (if 0 ≤ x ∧ x < s.term.col then some (clearGlyph s) else none)
        else cell? s.term.line y x := by
  obtain ⟨L, D, S, e, hrect, hge, hdirty, _, _, hcell⟩ := tscrollup_pre s orig n hd ho hbot hn
  rw [e] at h
  obtain ⟨D2, S2, e2, hge2⟩ := selscroll_frame (s.withLDS L D S) hd.1
    (by simp only [withLDS_term_dirty, withLDS_term_row]; rw [hge.1]; exact hd.2.2.2) _ _ _ h
  simp only [withLDS_term_line, withLDS_term_dirty, withLDS_withLDS] at e2 hge2
  exact ⟨L, D2, S2, e2, hrect, fun j hj => hge2.2 j (hdirty j hj), hcell⟩

/-- Without a selection, or without word snapping, `tscrollup` returns. -/
theorem tscrollup_some (s : State) (orig n : Int) (hd : Dims s)
    (hreg : 0 ≤ s.term.top ∧ s.term.top ≤ s.term.bot ∧ s.term.bot < s.term.row)
    (ho : 0 ≤ orig ∧ orig ≤ s.term.bot) (hn : 1 ≤ n)
    (hsnap : s.sel.ob.x = -1 ∨ s.sel.snap ≠ SNAP_WORD) :
    ∃ s1, tscrollup orig n s = some s1 := by
  obtain ⟨L, D, S, e, hrect, hge, _, hsn, hS, _⟩ := tscrollup_pre s orig n hd ho hreg.2.2 hn
  rw [e]
  refine selscroll_some (s.withLDS L D S) ⟨hd.1, hd.2.1, hrect, ?_⟩ hreg ?_ _ _
  · simp only [withLDS_term_dirty, withLDS_term_row]; rw [hge.1]; exact hd.2.2.2
  · rcases hsnap with h0 | h0
    · left; show S.ob.x = -1; rw [hS h0]; exact h0
    · right; show S.snap ≠ SNAP_WORD; rw [hsn]; exact h0

/-- Whenever `tscrolldown(orig, n)` returns, for `n ≥ 1` and `orig` in the
scroll region of a screen of consistent dimensions, the state differs in the
screen, the dirty flags and the selection only, the rows are moved as
`tscrolldown_pre` says and the rows `orig .. bot` are dirty. -/
theorem tscrolldown_rows (s : State) (orig n : Int) (hd : Dims s)
    (ho : 0 ≤ orig ∧ orig ≤ s.term.bot) (hbot : s.term.bot < s.term.row) (hn : 1 ≤ n)
    (s1 : State) (h : tscrolldown orig n s = some s1) :
    ∃ L D S, s1 = s.withLDS L D S ∧ Rect L s.term.row s.term.col ∧
      (∀ j, orig ≤ j ∧ j ≤ s.term.bot → idx? D j = some true) ∧
      ∀ y x, cell? L y x =
        if orig + clamp n 0 (s.term.bot - orig + 1) ≤ y ∧ y ≤ s.term.bot then
          cell? s.term.line (y - clamp n 0 (s.term.bot - orig + 1)) x
        else if orig ≤ y ∧ y < orig + clamp n 0 (s.term.bot - orig + 1) then
          (if 0 ≤ x ∧ x < s.term.col then some (clearGlyph s) else none)
        else cell? s.term.line y x := by
  obtain ⟨L, D, S, e, hrect, hge, hdirty, _, _, hcell⟩ := tscrolldown_pre s orig n hd ho hbot hn
  rw [e] at h
  obtain ⟨D2, S2, e2, hge2⟩ := selscroll_frame (s.withLDS L D S) hd.1
    (by simp only [withLDS_term_dirty, withLDS_term_row]; rw [hge.1]; exact hd.2.2.2) _ _ _ h
  simp only [withLDS_term_line, withLDS_term_dirty, withLDS_withLDS] at e2 hge2
  exact ⟨L, D2, S2, e2, hrect, fun j hj => hge2.2 j (hdirty j hj), hcell⟩

/-- Without a selection, or without word snapping, `tscrolldown` returns. -/
theorem tscrolldown_some (s : State) (orig n : Int) (hd : Dims s)
    (hreg : 0 ≤ s.term.top ∧ s.term.top ≤ s.term.bot ∧ s.term.bot < s.term.row)
    (ho : 0 ≤ orig ∧ orig ≤ s.term.bot) (hn : 1 ≤ n)
    (hsnap : s.sel.ob.x = -1 ∨ s.sel.snap ≠ SNAP_WORD) :
    ∃ s1, tscrolldown orig n s = some s1 := by
  obtain ⟨L, D, S, e, hrect, hge, _, hsn, hS, _⟩ := tscrolldown_pre s orig n hd ho hreg.2.2 hn
  rw [e]
  refine selscroll_some (s.withLDS L D S) ⟨hd.1, hd.2.1, hrect, ?_⟩ hreg ?_ _ _
  · simp only [withLDS_term_dirty, withLDS_term_row]; rw [hge.1]; exact hd.2.2.2
  · rcases hsnap with h0 | h0
    · left; show S.ob.x = -1; rw [hS h0]; exact h0
    · right; show S.snap ≠ SNAP_WORD; rw [hsn]; exact h0

/-- C33: on a screen of consistent dimensions whose scroll region lies inside
it, for `orig` in the region and `1 ≤ n ≤ bot - orig + 1`: whenever
`tscrollup(orig, n)` returns, the state differs in the screen, the dirty flags
and the selection only, row `y` of `orig .. bot-n` holds the former row `y + n`,
the rows `bot-n+1 .. bot` are blank in the colours of the cursor template, every
other row is kept and the rows `orig .. bot` are dirty; whenever
`tscrolldown(orig, n)` returns, row `y` of `orig+n .. bot` holds the former row
`y - n`, the rows `orig .. orig+n-1` are blank, every other row is kept and the
rows `orig .. bot` are dirty; and both return when there is no selection or the
selection does not snap to words. -/
theorem C33_scroll_region (s : State) (orig n : Int) (hd : Dims s)
    (hreg : 0 ≤ s.term.top ∧ s.term.bot < s.term.row)
    (ho : s.term.top ≤ orig ∧ orig ≤ s.term.bot) (hn : 1 ≤ n ∧ n ≤ s.term.bot - orig + 1) :
    (∀ s1, tscrollup orig n s = some s1 →
      ∃ L D S, s1 = s.withLDS L D S ∧ Rect L s.term.row s.term.col ∧
        (∀ j, orig ≤ j ∧ j ≤ s.term.bot → idx? D j = some true) ∧
        ∀ y x, cell? L y x =
          if orig ≤ y ∧ y ≤ s.term.bot - n then cell? s.term.line (y + n) x
          else if s.term.bot - n < y ∧ y ≤ s.term.bot then
            (if 0 ≤ x ∧ x < s.term.col then some (clearGlyph s) else none)
          else cell? s.term.line y x) ∧
    (∀ s1, tscrolldown orig n s = some s1 →
      ∃ L D S, s1 = s.withLDS L D S ∧ Rect L s.term.row s.term.col ∧
        (∀ j, orig ≤ j ∧ j ≤ s.term.bot → idx? D j = some true) ∧
        ∀ y x, cell? L y x =
          if orig + n ≤ y ∧ y ≤ s.term.bot then cell? s.term.line (y - n) x
          else if orig ≤ y ∧ y < orig + n then
            (if 0 ≤ x ∧ x < s.term.col then some (clearGlyph s) else none)
          else cell? s.term.line y x) ∧
    (s.sel.ob.x = -1 ∨ s.sel.snap ≠ SNAP_WORD →
      (∃ s1, tscrollup orig n s = some s1) ∧ ∃ s1, tscrolldown orig n s = some s1) := by
  have hk : clamp n 0 (s.term.bot - orig + 1) = n := clamp_of_mem _ _ _ (by omega) hn.2
  refine ⟨?_, ?_, ?_⟩
  · intro s1 h
    have e := tscrollup_rows s orig n hd ⟨by omega, ho.2⟩ hreg.2 hn.1 s1 h
    rw [hk] at e
    exact e
  · intro s1 h
    have e := tscrolldown_rows s orig n hd ⟨by omega, ho.2⟩ hreg.2 hn.1 s1 h
    rw [hk] at e
    exact e
  · intro hsnap
    exact ⟨tscrollup_some s orig n hd ⟨hreg.1, by omega, hreg.2⟩ ⟨by omega, ho.2⟩ hn.1 hsnap,
      tscrolldown_some s orig n hd ⟨hreg.1, by omega, hreg.2⟩ ⟨by omega, ho.2⟩ hn.1 hsnap⟩

theorem C33_scroll_region_witness :
    ∃ s1, tscrollup 0 1 (abcState 0 2) = some s1 ∧
      ∃ L D S, s1 = (abcState 0 2).withLDS L D S ∧
        ∀ y x, cell? L y x =
          if 0 ≤ y ∧ y ≤ (abcState 0 2).term.bot - 1 then cell? (abcState 0 2).term.line (y + 1) x
          else if (abcState 0 2).term.bot - 1 < y ∧ y ≤ (abcState 0 2).term.bot then
            (if 0 ≤ x ∧ x < (abcState 0 2).term.col then some (clearGlyph (abcState 0 2)) else none)
          else cell? (abcState 0 2).term.line y x := by
  have h := C33_scroll_region (abcState 0 2) 0 1 (by decide) (by decide) (by decide) (by decide)
  obtain ⟨s1, h1⟩ := (h.2.2 (Or.inl (by decide))).1
  obtain ⟨L, D, S, e, _, _, hc⟩ := h.1 s1 h1
  exact ⟨s1, h1, L, D, S, e, hc⟩

/-! ## C32: line feed -/

/-- C32: on a screen of consistent dimensions whose scroll region lies inside
it, with the cursor on the screen (and inside the region under origin mode):
whenever `tnewline` returns, the cursor row is the same when the cursor was on
the region bottom or on the last row and the next row otherwise; when the
cursor was not on the region bottom no cell has changed; when it was, each row
`y` of `top .. bot-1` holds the former row `y + 1`, row `bot` is blank and every
other row is kept. And `tnewline` returns when the cursor is not on the region
bottom, when there is no selection, or when the selection does not snap to
words. -/
theorem C32_newline_scrolls (first_col : Bool) (s : State) (hd : Dims s)
    (hreg : 0 ≤ s.term.top ∧ s.term.top ≤ s.term.bot ∧ s.term.bot < s.term.row)
    (hy : 0 ≤ s.term.c.y ∧ s.term.c.y < s.term.row)
    (ho : has s.term.c.state CURSOR_ORIGIN = true →
      s.term.top ≤ s.term.c.y ∧ s.term.c.y ≤ s.term.bot) :
    (∀ s1, tnewline first_col s = some s1 →
      s1.term.c.y = (if s.term.c.y ≠ s.term.bot ∧ s.term.c.y + 1 < s.term.row
        then s.term.c.y + 1 else s.term.c.y) ∧
      (s.term.c.y ≠ s.term.bot → s1.term.line = s.term.line) ∧
      (s.term.c.y = s.term.bot → Rect s1.term.line s.term.row s.term.col ∧
        ∀ y x, cell? s1.term.line y x =
          if s.term.top ≤ y ∧ y ≤ s.term.bot - 1 then cell? s.term.line (y + 1) x
          else if s.term.bot - 1 < y ∧ y ≤ s.term.bot then
            (if 0 ≤ x ∧ x < s.term.col then some (clearGlyph s) else none)
          else cell? s.term.line y x)) ∧
    (s.term.c.y ≠ s.term.bot ∨ s.sel.ob.x = -1 ∨ s.sel.snap ≠ SNAP_WORD →
      ∃ s1, tnewline first_col s = some s1) := by
  have hk : clamp 1 0 (s.term.bot - s.term.top + 1) = 1 := clamp_of_mem _ _ _ (by omega) (by omega)
  constructor
  · intro s1 h
    by_cases hb : s.term.c.y = s.term.bot
    · unfold tnewline at h
      rw [if_pos hb] at h
      simp only [Option.map_eq_some'] at h
      obtain ⟨t, ht, rfl⟩ := h
      obtain ⟨L, D, S, e, hrect, _, hcell⟩ := tscrollup_rows s s.term.top 1 hd
        ⟨hreg.1, hreg.2.1⟩ hreg.2.2 (le_refl _) t ht
      rw [hk] at hcell
      subst e
      have hrow := tmoveto_newline_row (s.withLDS L D S) (if first_col then 0 else s.term.c.x)
        hy hreg ho
      simp only [withLDS_term_c, withLDS_term_bot, withLDS_term_row] at hrow
      rw [if_pos hb] at hrow
      refine ⟨hrow, fun hne => absurd hb hne, fun _ => ⟨hrect, hcell⟩⟩
    · unfold tnewline at h
      rw [if_neg hb] at h
      rw [← Option.some.inj h]
      have hrow := tmoveto_newline_row s (if first_col then 0 else s.term.c.x) hy hreg ho
      rw [if_neg hb] at hrow
      exact ⟨hrow, fun _ => rfl, fun he => absurd he hb⟩
  · intro hc
    by_cases hb : s.term.c.y = s.term.bot
    · have hsnap : s.sel.ob.x = -1 ∨ s.sel.snap ≠ SNAP_WORD := by
        rcases hc with h | h
        · exact absurd hb h
        · exact h
      obtain ⟨t, ht⟩ := tscrollup_some s s.term.top 1 hd hreg ⟨hreg.1, hreg.2.1⟩ (le_refl _) hsnap
      unfold tnewline
      rw [if_pos hb, ht]
      exact ⟨_, rfl⟩
    · unfold tnewline
      rw [if_neg hb]
      exact ⟨_, rfl⟩

theorem C32_newline_scrolls_witness :
    ∃ s1, tnewline false (abcState 1 2) = some s1 ∧ s1.term.c.y = 2 ∧
      ∀ y x, cell? s1.term.line y x =
        if (abcState 1 2).term.top ≤ y ∧ y ≤ (abcState 1 2).term.bot - 1 then
          cell? (abcState 1 2).term.line (y + 1) x
        else if (abcState 1 2).term.bot - 1 < y ∧ y ≤ (abcState 1 2).term.bot then
          (if 0 ≤ x ∧ x < (abcState 1 2).term.col then some (clearGlyph (abcState 1 2)) else none)
        else cell? (abcState 1 2).term.line y x := by
  have h := C32_newline_scrolls false (abcState 1 2) (by decide) (by decide) (by decide)
    (fun h => absurd h (by decide))
  obtain ⟨s1, h1⟩ := h.2 (Or.inr (Or.inl (by decide)))
  obtain ⟨hy, _, hc⟩ := h.1 s1 h1
  exact ⟨s1, h1, hy, (hc (by decide)).2⟩

/-! ## The tags of a wide pair on the printable path -/

theorem copyShift_mem {α : Type} (l l1 : List α) (x width k : Int)
    (h : copyShift l x width k = some l1) : ∀ a ∈ l1, a ∈ l := by
  unfold copyShift at h
  split_ifs at h with hc
  have e := Option.some.inj h
  intro a ha
  rw [← e] at ha
  simp only [List.mem_append] at ha
  rcases ha with (ha | ha) | ha
  · exact List.mem_of_mem_take ha
  · exact List.mem_of_mem_drop (List.mem_of_mem_take ha)
  · exact List.mem_of_mem_drop ha

theorem idx?_of_mem {α : Type} {l : List α} {a : α} (h : a ∈ l) : ∃ i, idx? l i = some a := by
  obtain ⟨n, hn⟩ := List.mem_iff_getElem?.1 h
  exact ⟨(n : Int), (idx?_eq_some_iff _ _ _).2 ⟨by omega, by simpa using hn⟩⟩

/-- The insert-mode shift of `tputcPlace` moves cells within the cursor row:
every cell of the screen it returns is a cell of the same row before. -/
theorem tputcShift_cells (s s4 : State) (width : Int)
    (h : (if has s.term.mode MODE_INSERT ∧ s.term.c.x + width < s.term.col then
        (idx? s.term.line s.term.c.y).bind fun row =>
        (copyShift row s.term.c.x width (s.term.col - s.term.c.x - width)).bind fun row1 =>
        (upd? s.term.line s.term.c.y row1).map fun l =>
          { s with term := { s.term with line := l } }
      else some s) = some s4) :
    ∀ y1 x1 g, cell? s4.term.line y1 x1 = some g → ∃ x0, cell? s.term.line y1 x0 = some g := by
  intro y1 x1 g hg
  by_cases hi : has s.term.mode MODE_INSERT = true ∧ s.term.c.x + width < s.term.col
  · rw [if_pos hi] at h
    obtain ⟨row, hrow, h⟩ := Option.bind_eq_some.1 h
    obtain ⟨row1, hrow1, h⟩ := Option.bind_eq_some.1 h
    obtain ⟨l, hl, h⟩ := Option.map_eq_some'.1 h
    have e : s4.term.line = l := by rw [← h]
    rw [e, cell?_upd?_row hl] at hg
    by_cases hy : y1 = s.term.c.y
    · rw [if_pos hy] at hg
      obtain ⟨i, hi2⟩ := idx?_of_mem (copyShift_mem _ _ _ _ _ hrow1 g (idx?_mem hg))
      refine ⟨i, ?_⟩
      rw [hy]
      unfold cell?
      rw [hrow]; exact hi2
    · rw [if_neg hy] at hg
      exact ⟨x1, hg⟩
  · rw [if_neg hi] at h
    rw [← Option.some.inj h] at hg
    exact ⟨x1, hg⟩

/-- The stores of the printable path of `tputc` keep the two tags of a wide pair
exclusive: when no cell of the screen carries both the wide and the wide-dummy
tag and the cursor template has no wide-dummy tag, no cell carries both after
the glyph is placed. The insert-mode shift moves cells, `tsetchar` stores a copy
of the template, and a wide glyph adds the wide tag to that copy and stores the
wide-dummy tag alone in the next cell. -/
theorem tputcPlace_tags_exclusive (u width : Int) (s s1 : State) (c : Glyph)
    (hd : Dims s) (hcs : 0 ≤ s.term.charset ∧ s.term.charset < s.term.trantbl.length)
    (hw : width = 1 ∨ width = 2)
    (hx : 0 ≤ s.term.c.x ∧ s.term.c.x + width ≤ s.term.col)
    (hc : cell? s.term.line s.term.c.y s.term.c.x = some c)
    (hx0 : has c.mode ATTR_WIDE = false → has c.mode ATTR_WDUMMY = true → 1 ≤ s.term.c.x)
    (htpl : has s.term.c.attr.mode ATTR_WDUMMY = false)
    (hall : ∀ y1 x1 g, cell? s.term.line y1 x1 = some g →
      has g.mode ATTR_WIDE = false ∨ has g.mode ATTR_WDUMMY = false)
    (h1 : tputcPlace u width s = some s1) :
    ∀ y1 x1 g, cell? s1.term.line y1 x1 = some g →
      has g.mode ATTR_WIDE = false ∨ has g.mode ATTR_WDUMMY = false := by
  have hb := cell?_bounds hd.2.2.1 hc
  obtain ⟨L4, h4, hrect4, hrows4, hleft4⟩ :=
    tputcShift_spec s width hd.2.2.1 hx.1 hb.1 (by omega)
  have hall4 : ∀ y1 x1 g, cell? L4 y1 x1 = some g →
      has g.mode ATTR_WIDE = false ∨ has g.mode ATTR_WDUMMY = false := by
    intro y1 x1 g hg
    obtain ⟨x0, h0⟩ := tputcShift_cells s _ width h4 y1 x1 g hg
    exact hall _ _ _ h0
  have hd4 : Dims (s.withLDS L4 s.term.dirty s.sel) := ⟨hd.1, hd.2.1, hrect4, hd.2.2.2⟩
  have hc4 : cell? (s.withLDS L4 s.term.dirty s.sel).term.line s.term.c.y s.term.c.x = some c := by
    simp only [withLDS_term_line]
    rw [hleft4 _ (by omega)]; exact hc
  obtain ⟨u1, L6, D6, hu1, h6, hrect6, hge6, hcell6, hrows6, _⟩ :=
    tsetchar_cells u s.term.c.attr s.term.c.x s.term.c.y (s.withLDS L4 s.term.dirty s.sel) c
      hd4 hcs hc4 hx0
  have hrect6 : Rect L6 s.term.row s.term.col := hrect6
  have hall6 : ∀ y1 x1 g, cell? L6 y1 x1 = some g →
      has g.mode ATTR_WIDE = false ∨ has g.mode ATTR_WDUMMY = false :=
    tsetchar_tags_exclusive u s.term.c.attr s.term.c.x s.term.c.y
      (s.withLDS L4 s.term.dirty s.sel) _ c hd4 hcs hc4 hx0 h6 (Or.inr htpl) hall4
  have hnov : ¬ (s.term.c.x + width > s.term.col) := by omega
  have hstart : tputcPlace u width s =
      ((if width = 2 then
          (cell? L6 s.term.c.y s.term.c.x).bind fun g =>
          (setCell? L6 s.term.c.y s.term.c.x { g with mode := g.mode ||| ATTR_WIDE }).bind fun l =>
          if s.term.c.x + 1 < s.term.col then
            (cell? l s.term.c.y (s.term.c.x + 1)).bind fun h =>
            (setCell? l s.term.c.y (s.term.c.x + 1) { h with u := 0, mode := ATTR_WDUMMY }).map
              fun l1 => s.withLDS l1 D6 s.sel
          else some (s.withLDS l D6 s.sel)
        else some (s.withLDS L6 D6 s.sel)).map (tputcAdvance width)) := by
    unfold tputcPlace
    rw [h4]
    simp only [Option.some_bind, withLDS_term_c, withLDS_term_col, hnov, if_false]
    rw [h6]
    simp only [Option.some_bind, withLDS_term_c, withLDS_term_col, withLDS_term_line,
      withLDS_withLDS, withLDS_sel]
    rfl
  rw [hstart] at h1
  rcases hw with hw | hw
  · subst hw
    have e : s1.term.line = L6 := by
      simp only [show ¬ ((1 : Int) = 2) by decide, if_false, Option.map_some'] at h1
      rw [← Option.some.inj h1, tputcAdvance_line]; rfl
    rw [e]; exact hall6
  · subst hw
    obtain ⟨L7, hL7⟩ := setCell?_isSome hcell6
      { ({ s.term.c.attr with u := u1 } : Glyph) with
        mode := ({ s.term.c.attr with u := u1 } : Glyph).mode ||| ATTR_WIDE }
    have hrect7 := setCell?_rect hrect6 hL7
    obtain ⟨h, hh⟩ := cell?_isSome hrect7 s.term.c.y (s.term.c.x + 1) hb.1 ⟨by omega, by omega⟩
    obtain ⟨L8, hL8⟩ := setCell?_isSome hh { h with u := 0, mode := ATTR_WDUMMY }
    have hlt : s.term.c.x + 1 < s.term.col := by omega
    have e : s1.term.line = L8 := by
      simp only [if_true, hcell6, Option.some_bind, hL7, hlt, hh, hL8, Option.map_some'] at h1
      rw [← Option.some.inj h1, tputcAdvance_line]; rfl
    intro y1 x1 g hg
    rw [e, cell?_setCell? hL8] at hg
    by_cases hn : y1 = s.term.c.y ∧ x1 = s.term.c.x + 1
    · rw [if_pos hn] at hg
      rw [← Option.some.inj hg]
      exact Or.inl (by show has ATTR_WDUMMY ATTR_WIDE = false; decide)
    · rw [if_neg hn, cell?_setCell? hL7] at hg
      by_cases hm : y1 = s.term.c.y ∧ x1 = s.term.c.x
      · rw [if_pos hm] at hg
        rw [← Option.some.inj hg]
        right
        show has (s.term.c.attr.mode ||| ATTR_WIDE) ATTR_WDUMMY = false
        rw [has_or, htpl]; decide
      · rw [if_neg hm] at hg
        exact hall6 _ _ _ hg

/-! ## The deferred wrap, whatever the selection -/

/-- The test on the selection that opens the printable path of `tputc`: the
selection is cleared or kept; its snap mode is kept. -/
theorem tputcPrint_sel (s : State) (hd : Dims s) :
    ∃ D S, (if s.sel.ob.x ≠ -1 ∧ s.sel.ob.y ≤ s.term.c.y ∧ s.term.c.y ≤ s.sel.oe.y then selclear s
        else some s) = some (s.withLDS s.term.line D S) ∧
      DirtyGe D s.term.dirty ∧ S.snap = s.sel.snap ∧ (s.sel.ob.x = -1 → S.ob.x = -1) := by
  by_cases hs : s.sel.ob.x ≠ -1 ∧ s.sel.ob.y ≤ s.term.c.y ∧ s.term.c.y ≤ s.sel.oe.y
  · obtain ⟨D, S, h, hge, h1, _⟩ := selclear_dirtyGe s hd.1 hd.2.2.2
    have hsn : S.snap = s.sel.snap := selclear_snap h
    exact ⟨D, S, by rw [if_pos hs]; exact h, hge, hsn, fun _ => h1⟩
  · exact ⟨s.term.dirty, s.sel, by rw [if_neg hs]; rfl, DirtyGe.refl _, rfl, fun h => h⟩

/-- A printable glyph of width 1 at the last column with no wrap pending,
whatever the selection: the cell takes the glyph, the cursor stays and the
wrap-pending flag is set; no cell of another row changes, no wide-dummy cell
appears, and the selection keeps its snap mode. -/
theorem tputc_last_column (env : Env) (u : Int) (s : State) (c : Glyph) (hd : Dims s)
    (hcs : 0 ≤ s.term.charset ∧ s.term.charset < s.term.trantbl.length)
    (hesc : s.term.esc = 0) (hctl : iscontrol u = false) (hwidth : tputcWidth env u s = 1)
    (hx : s.term.c.x + 1 = s.term.col)
    (hnw : has s.term.c.state CURSOR_WRAPNEXT = false)
    (hc : cell? s.term.line s.term.c.y s.term.c.x = some c)
    (hx0 : has c.mode ATTR_WIDE = false → has c.mode ATTR_WDUMMY = true → 1 ≤ s.term.c.x) :
    ∃ v L D p S, tsetcharRune u s = some v ∧
      tputc env u s = some { s with
        prn := p
        sel := S
        term := { s.term with
          line := L
          dirty := D
          c := { s.term.c with state := s.term.c.state ||| CURSOR_WRAPNEXT } } } ∧
      Rect L s.term.row s.term.col ∧ (D.length : Int) = s.term.row ∧
      S.snap = s.sel.snap ∧ (s.sel.ob.x = -1 → S.ob.x = -1) ∧
      cell? L s.term.c.y s.term.c.x = some { s.term.c.attr with u := v } ∧
      (∀ y1 x1, y1 ≠ s.term.c.y → cell? L y1 x1 = cell? s.term.line y1 x1) ∧
      (∀ x1 g, x1 ≠ s.term.c.x → cell? L s.term.c.y x1 = some g →
        has g.mode ATTR_WDUMMY = true →
        ∃ g0, cell? s.term.line s.term.c.y x1 = some g0 ∧ has g0.mode ATTR_WDUMMY = true) := by
  rw [tputc_printable env u s hesc hctl, hwidth]
  obtain ⟨D, S, hpre, hge, hsn, hob⟩ := tputcPrint_sel { s with prn := (tputcPrn env u s).prn } hd
  have hd1 : Dims (({ s with prn := (tputcPrn env u s).prn } : State).withLDS s.term.line D S) :=
    ⟨hd.1, hd.2.1, hd.2.2.1, by
      show (D.length : Int) = s.term.row
      rw [hge.1]; exact hd.2.2.2⟩
  obtain ⟨v, L, D2, hv, hval, hrect, hge2, hcell, hrows, _⟩ :=
    tsetchar_cells u s.term.c.attr s.term.c.x s.term.c.y _ c hd1 hcs hc hx0
  have hdum := tsetchar_no_new_dummy u s.term.c.attr s.term.c.x s.term.c.y _ _ c hd1 hcs hc hx0 hval
  refine ⟨v, L, D2, (tputcPrn env u s).prn, S, hv, ?_, hrect, ?_, hsn, hob, hcell, hrows, ?_⟩
  · unfold tputcPrint
    rw [hpre]
    have hnw2 : ¬ (has s.term.mode MODE_WRAP = true ∧ has s.term.c.state CURSOR_WRAPNEXT = true) := by
      rw [hnw]; simp
    simp only [Option.some_bind, tputcFetch, withLDS_term_line, withLDS_term_c, hc, Option.map_some',
      withLDS_term_mode, hnw2, if_false]
    rw [tputcPlace_margin u _ (by exact hx)]
    show (tsetchar u s.term.c.attr s.term.c.x s.term.c.y _).map (tputcAdvance 1) = _
    rw [hval, Option.map_some', tputcAdvance_margin 1 _ (by show ¬ (s.term.c.x + 1 < s.term.col); omega)]
    rfl
  · have h1 : D2.length = D.length := hge2.1
    rw [h1, hge.1]; exact hd.2.2.2
  · intro x1 g hne hg hgd
    exact hdum x1 g hne hg hgd

/-- Without a selection, or without word snapping, `tscrollup(orig, n)` returns
for `n ≥ 1` and `orig` in the scroll region, with the rows moved as
`tscrollup_pre` says. -/
theorem tscrollup_total (s : State) (orig n : Int) (hd : Dims s)
    (hreg : 0 ≤ s.term.top ∧ s.term.top ≤ s.term.bot ∧ s.term.bot < s.term.row)
    (ho : 0 ≤ orig ∧ orig ≤ s.term.bot) (hn : 1 ≤ n)
    (hsnap : s.sel.ob.x = -1 ∨ s.sel.snap ≠ SNAP_WORD) :
    ∃ L D S, tscrollup orig n s = some (s.withLDS L D S) ∧ Rect L s.term.row s.term.col ∧
      DirtyGe D s.term.dirty ∧
      ∀ y x, cell? L y x =
        if orig ≤ y ∧ y ≤ s.term.bot - clamp n 0 (s.term.bot - orig + 1) then
          cell? s.term.line (y + clamp n 0 (s.term.bot - orig + 1)) x
        else if s.term.bot - clamp n 0 (s.term.bot - orig + 1) < y ∧ y ≤ s.term.bot then
          (if 0 ≤ x ∧ x < s.term.col then some (clearGlyph s) else none)
        else cell? s.term.line y x := by
  obtain ⟨L, D, S, e, hrect, hge, _, hsn, hS, hcell⟩ := tscrollup_pre s orig n hd ho hreg.2.2 hn
  have hdl : (((s.withLDS L D S).term.dirty.length : Nat) : Int) = (s.withLDS L D S).term.row := by
    simp only [withLDS_term_dirty, withLDS_term_row]; rw [hge.1]; exact hd.2.2.2
  obtain ⟨s1, h1⟩ := selscroll_some (s.withLDS L D S) ⟨hd.1, hd.2.1, hrect, hdl⟩ hreg
    (by
      rcases hsnap with h0 | h0
      · left; show S.ob.x = -1; rw [hS h0]; exact h0
      · right; show S.snap ≠ SNAP_WORD; rw [hsn]; exact h0)
    orig (-(clamp n 0 (s.term.bot - orig + 1)))
  obtain ⟨D2, S2, e2, hge2⟩ := selscroll_frame (s.withLDS L D S) hd.1 hdl _ _ _ h1
  simp only [withLDS_term_line, withLDS_term_dirty, withLDS_withLDS] at e2 hge2
  refine ⟨L, D2, S2, ?_, hrect, hge2.trans hge, hcell⟩
  rw [e, h1, e2]

/-- The function `tnewline` returns, provided that no word-snapping selection is
there when the cursor is on the scroll-region bottom: on the bottom the region
scrolls up by one row and the cursor stays; elsewhere no cell changes and the
cursor moves down, clamped. -/
theorem tnewline_total (first_col : Bool) (s : State) (hd : Dims s)
    (hreg : 0 ≤ s.term.top ∧ s.term.top ≤ s.term.bot ∧ s.term.bot < s.term.row)
    (hsnap : s.term.c.y = s.term.bot → s.sel.ob.x = -1 ∨ s.sel.snap ≠ SNAP_WORD) :
    ∃ L D S, tnewline first_col s =
        some (tmoveto (if first_col then 0 else s.term.c.x)
          (if s.term.c.y = s.term.bot then s.term.c.y else s.term.c.y + 1)
          (s.withLDS L D S)) ∧
      Rect L s.term.row s.term.col ∧ DirtyGe D s.term.dirty ∧
      (s.term.c.y ≠ s.term.bot → L = s.term.line) ∧
      (s.term.c.y = s.term.bot → ∀ y x, cell? L y x =
        if s.term.top ≤ y ∧ y ≤ s.term.bot - 1 then cell? s.term.line (y + 1) x
        else if y = s.term.bot then (if 0 ≤ x ∧ x < s.term.col then some (clearGlyph s) else none)
        else cell? s.term.line y x) := by
  by_cases hy : s.term.c.y = s.term.bot
  · obtain ⟨L, D, S, h, hrect, hge, hcell⟩ := tscrollup_total s s.term.top 1 hd hreg
      ⟨hreg.1, hreg.2.1⟩ (le_refl _) (hsnap hy)
    have hk : clamp 1 0 (s.term.bot - s.term.top + 1) = 1 :=
      clamp_of_mem _ _ _ (by omega) (by omega)
    rw [hk] at hcell
    refine ⟨L, D, S, ?_, hrect, hge, fun h2 => absurd hy h2, fun _ y x => ?_⟩
    · unfold tnewline
      simp only [hy, if_true, h, Option.map_some', withLDS_term_c]
    · rw [hcell y x]
      split_ifs <;> first | rfl | (exfalso; omega)
  · refine ⟨s.term.line, s.term.dirty, s.sel, ?_, hd.2.2.1, DirtyGe.refl _, fun _ => rfl,
      fun h2 => absurd h2 hy⟩
    unfold tnewline
    simp only [hy, if_false]
    rfl

/-- The function `tsetchar` keeps the wrap tag of the other cells of the row it
writes to: the repair of a neighbour clears a wide or wide-dummy tag only. -/
theorem tsetchar_keeps_wrap (u : Int) (attr : Glyph) (x y : Int) (s s1 : State) (c : Glyph)
    (hd : Dims s) (hcs : 0 ≤ s.term.charset ∧ s.term.charset < s.term.trantbl.length)
    (hc : cell? s.term.line y x = some c)
    (hx0 : has c.mode ATTR_WIDE = false → has c.mode ATTR_WDUMMY = true → 1 ≤ x)
    (h1 : tsetchar u attr x y s = some s1) (x1 : Int) (g0 : Glyph) (hne : x1 ≠ x)
    (hg0 : cell? s.term.line y x1 = some g0) (hw : has g0.mode ATTR_WRAP = true) :
    ∃ g, cell? s1.term.line y x1 = some g ∧ has g.mode ATTR_WRAP = true := by
  obtain ⟨u1, g1, L, D, _, hfix, hL, hval, _, _, _⟩ := tsetchar_spec u attr x y s c hd hcs hc hx0
  obtain ⟨g2, hfix2, _, hcase⟩ := tsetcharFix_cases s x y c hd.2.2.1 hc hx0
  have hgg : g2 = g1 := by rw [hfix] at hfix2; exact (Option.some.inj hfix2).symm
  subst hgg
  rw [hval] at h1
  have hs1 : s1.term.line = L := by rw [← Option.some.inj h1]; rfl
  rw [hs1, cell?_setCell? hL, if_neg (by omega)]
  rcases hcase with ⟨_, _, h, hh, hset⟩ | ⟨_, _, e⟩ | ⟨_, _, h, hh, hset⟩ | ⟨_, _, e⟩
  · rw [cell?_setCell? hset]
    by_cases hx1 : y = y ∧ x1 = x + 1
    · rw [if_pos hx1]
      rw [hx1.2, hh] at hg0
      have e0 : h = g0 := Option.some.inj hg0
      refine ⟨_, rfl, ?_⟩
      show has (andNot h.mode ATTR_WDUMMY) ATTR_WRAP = true
      rw [has_andNot_of_disjoint _ _ _ (by decide), e0]; exact hw
    · rw [if_neg hx1]; exact ⟨g0, hg0, hw⟩
  · rw [e]; exact ⟨g0, hg0, hw⟩
  · rw [cell?_setCell? hset]
    by_cases hx1 : y = y ∧ x1 = x - 1
    · rw [if_pos hx1]
      rw [hx1.2, hh] at hg0
      have e0 : h = g0 := Option.some.inj hg0
      refine ⟨_, rfl, ?_⟩
      show has (andNot h.mode ATTR_WIDE) ATTR_WRAP = true
      rw [has_andNot_of_disjoint _ _ _ (by decide), e0]; exact hw
    · rw [if_neg hx1]; exact ⟨g0, hg0, hw⟩
  · rw [e]; exact ⟨g0, hg0, hw⟩

/-- With insert mode off a glyph of width 1 that fits on the cursor row is stored
by `tsetchar` alone. -/
theorem tputcPlace_plain (u : Int) (s : State) (hins : has s.term.mode MODE_INSERT = false)
    (hx : s.term.c.x + 1 ≤ s.term.col) :
    tputcPlace u 1 s = (tsetchar u s.term.c.attr s.term.c.x s.term.c.y s).map (tputcAdvance 1) := by
  unfold tputcPlace
  have h1 : ¬ (has s.term.mode MODE_INSERT = true ∧ s.term.c.x + 1 < s.term.col) := by
    rw [hins]; simp
  have h2 : ¬ (s.term.c.x + 1 > s.term.col) := by omega
  simp only [h1, if_false, Option.some_bind, h2]
  cases tsetchar u s.term.c.attr s.term.c.x s.term.c.y s with
  | none => rfl
  | some s6 => simp

/-- A printable glyph of width 1 while a wrap is pending, with no word-snapping
selection when the region is to scroll: the cell under the cursor is tagged as
wrapped, `tnewline` runs, and the glyph is stored at column 0 of the row the
cursor is on then. The tagged cell is found on its row when the cursor has moved
to the next row, one row up when a region of more than one row has scrolled,
and on its row, still tagged, when the cursor has stayed on the last row of the
screen with insert mode off. -/
theorem tputc_wrap_pending (env : Env) (u : Int) (t : State) (g : Glyph) (hd : Dims t)
    (hcs : 0 ≤ t.term.charset ∧ t.term.charset < t.term.trantbl.length)
    (hesc : t.term.esc = 0) (hctl : iscontrol u = false) (hwidth : tputcWidth env u t = 1)
    (hsnap : t.term.c.y = t.term.bot → t.sel.ob.x = -1 ∨ t.sel.snap ≠ SNAP_WORD)
    (hwrap : has t.term.mode MODE_WRAP = true)
    (hwn : has t.term.c.state CURSOR_WRAPNEXT = true)
    (hg : cell? t.term.line t.term.c.y t.term.c.x = some g)
    (hreg : 0 ≤ t.term.top ∧ t.term.top ≤ t.term.bot ∧ t.term.bot < t.term.row)
    (ho : has t.term.c.state CURSOR_ORIGIN = true →
      t.term.top ≤ t.term.c.y ∧ t.term.c.y ≤ t.term.bot)
    (hcol0 : ∀ y c, cell? t.term.line y 0 = some c → has c.mode ATTR_WDUMMY = false) :
    ∃ s2 v, tputc env u t = some s2 ∧ tsetcharRune u t = some v ∧
      cell? s2.term.line
        (if t.term.c.y ≠ t.term.bot ∧ t.term.c.y + 1 < t.term.row then t.term.c.y + 1
         else t.term.c.y) 0 = some { t.term.c.attr with u := v } ∧
      (t.term.c.y ≠ t.term.bot → t.term.c.y + 1 < t.term.row →
        cell? s2.term.line t.term.c.y t.term.c.x = some { g with mode := g.mode ||| ATTR_WRAP }) ∧
      (t.term.c.y = t.term.bot → t.term.top < t.term.bot →
        cell? s2.term.line (t.term.c.y - 1) t.term.c.x =
          some { g with mode := g.mode ||| ATTR_WRAP }) ∧
      (t.term.c.y ≠ t.term.bot → ¬ (t.term.c.y + 1 < t.term.row) → 1 ≤ t.term.c.x →
        has t.term.mode MODE_INSERT = false →
        ∃ g1, cell? s2.term.line t.term.c.y t.term.c.x = some g1 ∧
          has g1.mode ATTR_WRAP = true) := by
  have hb := cell?_bounds hd.2.2.1 hg
  rw [tputc_printable env u t hesc hctl, hwidth]
  obtain ⟨D0, S0, hpre, hge0, hsn0, hob0⟩ :=
    tputcPrint_sel { t with prn := (tputcPrn env u t).prn } hd
  have hD0 : (D0.length : Int) = t.term.row := by
    have h1 : D0.length = t.term.dirty.length := hge0.1
    rw [h1]; exact hd.2.2.2
  have hsnap0 : t.term.c.y = t.term.bot → S0.ob.x = -1 ∨ S0.snap ≠ SNAP_WORD := by
    intro hy
    rcases hsnap hy with h | h
    · exact Or.inl (hob0 h)
    · right; rw [hsn0]; exact h
  obtain ⟨L1, hL1⟩ := setCell?_isSome hg { g with mode := g.mode ||| ATTR_WRAP }
  have hrect1 := setCell?_rect hd.2.2.1 hL1
  have hd1 : Dims (({ t with prn := (tputcPrn env u t).prn } : State).withLDS L1 D0 S0) :=
    ⟨hd.1, hd.2.1, hrect1, hD0⟩
  obtain ⟨L2, D2, S2, hnl, hrect2, hge2, hsame, hscroll⟩ :=
    tnewline_total true _ hd1 hreg hsnap0
  have hrect2 : Rect L2 t.term.row t.term.col := hrect2
  have hsame : t.term.c.y ≠ t.term.bot → L2 = L1 := hsame
  have hscroll : t.term.c.y = t.term.bot → ∀ y x, cell? L2 y x =
      if t.term.top ≤ y ∧ y ≤ t.term.bot - 1 then cell? L1 (y + 1) x
      else if y = t.term.bot then (if 0 ≤ x ∧ x < t.term.col then some (clearGlyph t) else none)
      else cell? L1 y x := hscroll
  have hD2 : (D2.length : Int) = t.term.row := by
    have h1 : D2.length = D0.length := hge2.1
    rw [h1]; exact hD0
  have hrow := tmoveto_newline_row
    ((({ t with prn := (tputcPrn env u t).prn } : State).withLDS L1 D0 S0).withLDS L2 D2 S2)
    0 hb.1 hreg ho
  obtain ⟨s3, hs3⟩ : ∃ s3 : State, s3 = tmoveto 0
      (if t.term.c.y = t.term.bot then t.term.c.y else t.term.c.y + 1)
      ((({ t with prn := (tputcPrn env u t).prn } : State).withLDS L1 D0 S0).withLDS
        L2 D2 S2) := ⟨_, rfl⟩
  have hnl : tnewline true
      (({ t with prn := (tputcPrn env u t).prn } : State).withLDS L1 D0 S0) = some s3 := by
    rw [hnl, hs3]; rfl
  have e_line : s3.term.line = L2 := by rw [hs3]; rfl
  have e_dirty : s3.term.dirty = D2 := by rw [hs3]; rfl
  have e_row : s3.term.row = t.term.row := by rw [hs3]; rfl
  have e_col : s3.term.col = t.term.col := by rw [hs3]; rfl
  have e_attr : s3.term.c.attr = t.term.c.attr := by rw [hs3]; rfl
  have e_tr : s3.term.trantbl = t.term.trantbl := by rw [hs3]; rfl
  have e_cs : s3.term.charset = t.term.charset := by rw [hs3]; rfl
  have e_mode : s3.term.mode = t.term.mode := by rw [hs3]; rfl
  have e_x : s3.term.c.x = 0 := by
    rw [hs3]
    show clamp 0 0 (t.term.col - 1) = 0
    exact clamp_of_mem _ _ _ (le_refl _) (by have := hd.2.1; omega)
  have e_y : s3.term.c.y =
      (if t.term.c.y ≠ t.term.bot ∧ t.term.c.y + 1 < t.term.row then t.term.c.y + 1
       else t.term.c.y) := by rw [hs3]; exact hrow
  have hyn : 0 ≤ s3.term.c.y ∧ s3.term.c.y < t.term.row := by
    rw [e_y]; split_ifs <;> omega
  obtain ⟨c3, hc3⟩ := cell?_isSome hrect2 s3.term.c.y 0 hyn ⟨le_refl _, by have := hd.2.1; omega⟩
  have hc3s : cell? s3.term.line s3.term.c.y s3.term.c.x = some c3 := by
    rw [e_line, e_x]; exact hc3
  have hstep : tputcPrint u 1 { t with prn := (tputcPrn env u t).prn } = tputcPlace u 1 s3 := by
    unfold tputcPrint
    rw [hpre]
    simp only [Option.some_bind, tputcFetch, withLDS_term_line, withLDS_term_c, withLDS_term_mode,
      hg, Option.map_some', hwrap, hwn, and_self, if_true, hL1]
    show ((tnewline true
      (({ t with prn := (tputcPrn env u t).prn } : State).withLDS L1 D0 S0)).bind
        tputcFetch).bind (tputcPlace u 1) = _
    rw [hnl]
    simp only [Option.some_bind, tputcFetch, hc3s, Option.map_some']
  have hnd : has c3.mode ATTR_WDUMMY = false := by
    by_cases hy : t.term.c.y = t.term.bot
    · have hyy : s3.term.c.y = t.term.bot := by
        rw [e_y, if_neg (fun h => h.1 hy)]; exact hy
      rw [hyy, hscroll hy, if_neg (by omega), if_pos rfl,
        if_pos ⟨le_refl _, by have := hd.2.1; omega⟩] at hc3
      rw [← Option.some.inj hc3]
      show has 0 ATTR_WDUMMY = false
      decide
    · rw [hsame hy, cell?_setCell? hL1] at hc3
      by_cases hxy : s3.term.c.y = t.term.c.y ∧ 0 = t.term.c.x
      · rw [if_pos hxy] at hc3
        rw [← Option.some.inj hc3]
        show has (g.mode ||| ATTR_WRAP) ATTR_WDUMMY = false
        rw [has_or]
        have h0 : has g.mode ATTR_WDUMMY = false := by
          apply hcol0 t.term.c.y g
          rw [hxy.2]; exact hg
        rw [h0]; decide
      · rw [if_neg hxy] at hc3
        exact hcol0 _ _ hc3
  have hd3 : Dims s3 := by
    refine ⟨?_, ?_, ?_, ?_⟩
    · rw [e_row]; exact hd.1
    · rw [e_col]; exact hd.2.1
    · rw [e_line, e_row, e_col]; exact hrect2
    · rw [e_dirty, e_row]; exact hD2
  have hcs3 : 0 ≤ s3.term.charset ∧ s3.term.charset < s3.term.trantbl.length := by
    rw [e_tr, e_cs]; exact hcs
  have hx03 : has c3.mode ATTR_WIDE = false → has c3.mode ATTR_WDUMMY = true →
      1 ≤ s3.term.c.x := fun _ h => by rw [hnd] at h; exact absurd h (by decide)
  obtain ⟨v, L, D, hv, hval, _, _, hcell, _, hrows⟩ := tputcPlace_spec u 1 s3 c3 hd3
    hcs3 (Or.inl rfl)
    (by rw [e_x, e_col]; exact ⟨le_refl _, by have := hd.2.1; omega⟩) hc3s hx03
  refine ⟨_, v, by rw [hstep]; exact hval, ?_, ?_, ?_, ?_, ?_⟩
  · rw [← tsetcharRune_congr u t s3 e_tr e_cs]; exact hv
  · rw [tputcAdvance_line]
    show cell? L _ 0 = _
    rw [← e_y]
    rw [e_x, e_attr] at hcell
    simpa using hcell
  · intro hy hlt
    rw [tputcAdvance_line]
    show cell? L _ _ = _
    rw [hrows _ _ (by rw [e_y, if_pos ⟨hy, hlt⟩]; omega), e_line, hsame hy, cell?_setCell? hL1,
      if_pos ⟨rfl, rfl⟩]
  · intro hy hlt
    rw [tputcAdvance_line]
    show cell? L _ _ = _
    rw [hrows _ _ (by rw [e_y, if_neg (fun h => h.1 hy)]; omega), e_line, hscroll hy,
      if_pos (by omega)]
    have e1 : t.term.c.y - 1 + 1 = t.term.c.y := by omega
    rw [e1, cell?_setCell? hL1, if_pos ⟨rfl, rfl⟩]
  · intro hy hlast h1x hins
    have hplain := tputcPlace_plain u s3 (by rw [e_mode]; exact hins)
      (by rw [e_x, e_col]; have := hd.2.1; omega)
    rw [hval] at hplain
    obtain ⟨s6, h6, e6⟩ := Option.map_eq_some'.1 hplain.symm
    have hl6 : s6.term.line = L := by
      have e7 := congrArg (fun z : State => z.term.line) e6
      simp only [tputcAdvance_line] at e7
      exact e7
    have hy3 : s3.term.c.y = t.term.c.y := by
      rw [e_y, if_neg (fun h => hlast h.2)]
    have hcellw : cell? s3.term.line s3.term.c.y t.term.c.x =
        some { g with mode := g.mode ||| ATTR_WRAP } := by
      rw [e_line, hsame hy, hy3, cell?_setCell? hL1, if_pos ⟨rfl, rfl⟩]
    obtain ⟨g1, hg1, hw1⟩ := tsetchar_keeps_wrap u s3.term.c.attr s3.term.c.x s3.term.c.y s3 s6
      c3 hd3 hcs3 hc3s hx03 h6 t.term.c.x _ (by rw [e_x]; omega) hcellw
      (has_one_bit_or _ _ _ (by decide))
    refine ⟨g1, ?_, hw1⟩
    rw [tputcAdvance_line]
    show cell? L _ _ = _
    rw [← hl6, ← hy3]; exact hg1

/-! ## C2 -/

/-- C2 (amended): with wrap mode on, the decoder in the ground state and the
cursor at the last column without wrap-pending, `tputc` of a printable glyph of
width 1 stores it there and leaves the cursor in that column with the
wrap-pending flag set. A second such `tputc` stores its glyph at column 0 of the
next row when the cursor row is neither the scroll-region bottom nor the last
row of the screen, and at column 0 of the same row index otherwise. The last
cell of the row the first glyph was written to carries the wrap tag afterwards:
on its row, with the first glyph, when the cursor moved to the next row; one row
up, with the first glyph, when the cursor was on the bottom of a scroll region
of more than one row; and on its row when the cursor was on the last row of the
screen outside the region bottom, the screen has two columns or more and insert
mode is off. The selection is arbitrary, except that a word-snapping selection
is left out when the cursor is on the region bottom. -/
theorem C2_deferred_wrap (env : Env) (u1 u2 : Int) (s : State) (c : Glyph) (hd : Dims s)
    (hcs : 0 ≤ s.term.charset ∧ s.term.charset < s.term.trantbl.length)
    (hesc : s.term.esc = 0) (hctl1 : iscontrol u1 = false) (hctl2 : iscontrol u2 = false)
    (hw1 : tputcWidth env u1 s = 1) (hw2 : tputcWidth env u2 s = 1)
    (hsnap : s.term.c.y = s.term.bot → s.sel.ob.x = -1 ∨ s.sel.snap ≠ SNAP_WORD)
    (hwrap : has s.term.mode MODE_WRAP = true)
    (hx : s.term.c.x = s.term.col - 1)
    (hnw : has s.term.c.state CURSOR_WRAPNEXT = false)
    (hc : cell? s.term.line s.term.c.y s.term.c.x = some c)
    (hreg : 0 ≤ s.term.top ∧ s.term.top ≤ s.term.bot ∧ s.term.bot < s.term.row)
    (ho : has s.term.c.state CURSOR_ORIGIN = true →
      s.term.top ≤ s.term.c.y ∧ s.term.c.y ≤ s.term.bot)
    (hcol0 : ∀ y g, cell? s.term.line y 0 = some g → has g.mode ATTR_WDUMMY = false)
    (htpl : has s.term.c.attr.mode ATTR_WDUMMY = false) :
    ∃ s1 s2 v1 v2, tputc env u1 s = some s1 ∧ tsetcharRune u1 s = some v1 ∧
      tsetcharRune u2 s = some v2 ∧
      s1.term.c.x = s.term.col - 1 ∧ s1.term.c.y = s.term.c.y ∧
      has s1.term.c.state CURSOR_WRAPNEXT = true ∧
      cell? s1.term.line s.term.c.y (s.term.col - 1) = some { s.term.c.attr with u := v1 } ∧
      tputc env u2 s1 = some s2 ∧
      cell? s2.term.line
        (if s.term.c.y ≠ s.term.bot ∧ s.term.c.y + 1 < s.term.row then s.term.c.y + 1
         else s.term.c.y) 0 = some { s.term.c.attr with u := v2 } ∧
      (s.term.c.y ≠ s.term.bot → s.term.c.y + 1 < s.term.row →
        cell? s2.term.line s.term.c.y (s.term.col - 1) =
          some { s.term.c.attr with u := v1, mode := s.term.c.attr.mode ||| ATTR_WRAP }) ∧
      (s.term.c.y = s.term.bot → s.term.top < s.term.bot →
        cell? s2.term.line (s.term.c.y - 1) (s.term.col - 1) =
          some { s.term.c.attr with u := v1, mode := s.term.c.attr.mode ||| ATTR_WRAP }) ∧
      (s.term.c.y ≠ s.term.bot → ¬ (s.term.c.y + 1 < s.term.row) → 2 ≤ s.term.col →
        has s.term.mode MODE_INSERT = false →
        ∃ g, cell? s2.term.line s.term.c.y (s.term.col - 1) = some g ∧
          has g.mode ATTR_WRAP = true) := by
  have hb := cell?_bounds hd.2.2.1 hc
  have hx0 : has c.mode ATTR_WIDE = false → has c.mode ATTR_WDUMMY = true → 1 ≤ s.term.c.x := by
    intro _ hdm
    by_cases h0 : s.term.c.x = 0
    · rw [h0] at hc
      rw [hcol0 _ _ hc] at hdm
      exact absurd hdm (by decide)
    · omega
  obtain ⟨v1, L, D, p, S, hv1, hput1, hrect, hD, hsn, hob, hcell, hrows, hdum⟩ :=
    tputc_last_column env u1 s c hd hcs hesc hctl1 hw1 (by omega) hnw hc hx0
  have hsnap1 : s.term.c.y = s.term.bot → S.ob.x = -1 ∨ S.snap ≠ SNAP_WORD := by
    intro hy
    rcases hsnap hy with h | h
    · exact Or.inl (hob h)
    · right; rw [hsn]; exact h
  have hwn : has (s.term.c.state ||| CURSOR_WRAPNEXT) CURSOR_WRAPNEXT = true :=
    has_one_bit_or _ _ _ (by decide)
  have ho1 : has (s.term.c.state ||| CURSOR_WRAPNEXT) CURSOR_ORIGIN = true →
      s.term.top ≤ s.term.c.y ∧ s.term.c.y ≤ s.term.bot := by
    intro h
    have e : has CURSOR_WRAPNEXT CURSOR_ORIGIN = false := by decide
    rw [has_or, e, Bool.or_false] at h
    exact ho h
  have hcol1 : ∀ y g, cell? L y 0 = some g → has g.mode ATTR_WDUMMY = false := by
    intro y g hg
    by_cases hy : y = s.term.c.y
    · subst hy
      by_cases h0 : (0 : Int) = s.term.c.x
      · rw [h0, hcell] at hg
        rw [← Option.some.inj hg]
        exact htpl
      · cases hgd : has g.mode ATTR_WDUMMY with
        | false => rfl
        | true =>
          obtain ⟨g0, hg0, hg0d⟩ := hdum 0 g h0 hg hgd
          rw [hcol0 _ _ hg0] at hg0d
          exact absurd hg0d (by decide)
    · rw [hrows y 0 hy] at hg
      exact hcol0 _ _ hg
  obtain ⟨s2, v2, hput2, hv2, hcell2, hwa, hwb, hwc⟩ := tputc_wrap_pending env u2
    { s with
      prn := p
      sel := S
      term := { s.term with
        line := L
        dirty := D
        c := { s.term.c with state := s.term.c.state ||| CURSOR_WRAPNEXT } } }
    { s.term.c.attr with u := v1 } ⟨hd.1, hd.2.1, hrect, hD⟩ hcs hesc hctl2
    ((tputcWidth_congr env u2 s _ rfl).trans hw2) hsnap1 hwrap hwn hcell hreg ho1 hcol1
  refine ⟨_, s2, v1, v2, hput1, hv1, ?_, hx, rfl, hwn, ?_, hput2, hcell2, ?_, ?_, ?_⟩
  · rw [← tsetcharRune_congr u2 s _ rfl rfl]; exact hv2
  · rw [← hx]; exact hcell
  · intro h1 h2
    rw [← hx]; exact hwa h1 h2
  · intro h1 h2
    rw [← hx]; exact hwb h1 h2
  · intro h1 h2 h3 h4
    rw [← hx]
    exact hwc h1 h2 (by show 1 ≤ s.term.c.x; omega) h4

theorem C2_deferred_wrap_witness :
    ∃ s1 s2 v1 v2,
      tputc narrowEnv 97 (sampleState 4 2 (blankScreen 4 2) (blankScreen 4 2) 3 0) = some s1 ∧
      tsetcharRune 97 (sampleState 4 2 (blankScreen 4 2) (blankScreen 4 2) 3 0) = some v1 ∧
      tsetcharRune 98 (sampleState 4 2 (blankScreen 4 2) (blankScreen 4 2) 3 0) = some v2 ∧
      s1.term.c.x = 4 - 1 ∧ s1.term.c.y = 0 ∧
      has s1.term.c.state CURSOR_WRAPNEXT = true ∧
      cell? s1.term.line 0 (4 - 1) = some ⟨v1, 0, defaultfg, defaultbg⟩ ∧
      tputc narrowEnv 98 s1 = some s2 ∧
      cell? s2.term.line (if (0 : Int) ≠ 2 - 1 ∧ (0 : Int) + 1 < 2 then 0 + 1 else 0) 0 =
        some ⟨v2, 0, defaultfg, defaultbg⟩ ∧
      ((0 : Int) ≠ 2 - 1 → (0 : Int) + 1 < 2 →
        cell? s2.term.line 0 (4 - 1) = some ⟨v1, 0 ||| ATTR_WRAP, defaultfg, defaultbg⟩) ∧
      ((0 : Int) = 2 - 1 → (0 : Int) < 2 - 1 →
        cell? s2.term.line (0 - 1) (4 - 1) = some ⟨v1, 0 ||| ATTR_WRAP, defaultfg, defaultbg⟩) ∧
      ((0 : Int) ≠ 2 - 1 → ¬ ((0 : Int) + 1 < 2) → (2 : Int) ≤ 4 →
        has (MODE_WRAP ||| MODE_UTF8) MODE_INSERT = false →
        ∃ g, cell? s2.term.line 0 (4 - 1) = some g ∧ has g.mode ATTR_WRAP = true) :=
  C2_deferred_wrap narrowEnv 97 98 (sampleState 4 2 (blankScreen 4 2) (blankScreen 4 2) 3 0)
    blankGlyph (by decide) (by decide) (by decide) (by decide) (by decide) (by decide)
    (by decide) (fun _ => Or.inl (by decide)) (by decide) (by decide) (by decide) (by decide)
    (by decide) (by decide)
    (fun y g h => by rw [blankScreen_cell 4 2 y 0 g h]; decide)
    (by decide)

/-- C2, the claim as stated fails: on a terminal of three rows of four columns
with the scroll region set to rows 1 to 2 and the cursor moved to the last column
of row 3 (wrap mode on, no wrap pending), two narrow glyphs leave the second one at column 0 of the same row 3,
which is not the bottom of the scroll region and has not scrolled; there is no
following row. The last cell of that row keeps the first glyph and the wrap tag.
The tag is not there afterwards in three cases: with the scroll region set to
row 2 alone and the cursor on it, the scroll erases the row; with insert mode on
and the cursor on row 3 below the region, the second glyph shifts the tagged cell
out of the row; and on a terminal of one column the second glyph overwrites it. -/
theorem C2_last_row_below_region :
    (feed narrowEnv [27, 91, 49, 59, 50, 114, 27, 91, 51, 59, 52, 72]
        (sampleState 4 3 (blankScreen 4 3) (blankScreen 4 3) 0 0)).map
      (fun t => (t.term.c.x, t.term.c.y, t.term.bot, has t.term.mode MODE_WRAP,
        has t.term.c.state CURSOR_WRAPNEXT)) = some (3, 2, 1, true, false) ∧
    (feed narrowEnv [27, 91, 49, 59, 50, 114, 27, 91, 51, 59, 52, 72, 97, 98]
        (sampleState 4 3 (blankScreen 4 3) (blankScreen 4 3) 0 0)).map
      (fun t => (t.term.bot, t.term.c.y, t.term.line)) =
      some (1, 2, [List.replicate 4 blankGlyph, List.replicate 4 blankGlyph,
        [⟨98, 0, 7, 0⟩, blankGlyph, blankGlyph, ⟨97, ATTR_WRAP, 7, 0⟩]]) ∧
    ((feed narrowEnv [27, 91, 49, 59, 50, 114, 27, 91, 51, 59, 52, 72, 97, 98]
        (sampleState 4 3 (blankScreen 4 3) (blankScreen 4 3) 0 0)).bind
      (fun t => cell? t.term.line 3 0)) = none ∧
    (feed narrowEnv [27, 91, 50, 59, 50, 114, 27, 91, 50, 59, 52, 72, 97, 98]
        (sampleState 4 3 (blankScreen 4 3) (blankScreen 4 3) 0 0)).map
      (fun t => (t.term.top, t.term.bot, t.term.c.y, t.term.line)) =
      some (1, 1, 1, [List.replicate 4 blankGlyph,
        [⟨98, 0, 7, 0⟩, blankGlyph, blankGlyph, blankGlyph], List.replicate 4 blankGlyph]) ∧
    (feed narrowEnv [27, 91, 49, 59, 50, 114, 27, 91, 52, 104, 27, 91, 51, 59, 52, 72, 97, 98]
        (sampleState 4 3 (blankScreen 4 3) (blankScreen 4 3) 0 0)).map
      (fun t => (has t.term.mode MODE_INSERT, t.term.c.y, t.term.line)) =
      some (true, 2, [List.replicate 4 blankGlyph, List.replicate 4 blankGlyph,
        [⟨98, 0, 7, 0⟩, blankGlyph, blankGlyph, blankGlyph]]) ∧
    (feed narrowEnv [27, 91, 49, 59, 50, 114, 27, 91, 51, 59, 49, 72, 97, 98]
        (sampleState 1 3 (blankScreen 1 3) (blankScreen 1 3) 0 0)).map
      (fun t => (t.term.bot, t.term.c.y, t.term.line)) =
      some (1, 2, [[blankGlyph], [blankGlyph], [⟨98, 0, 7, 0⟩]]) := by
  refine ⟨?_, ?_, ?_, ?_, ?_, ?_⟩ <;> decide

end GoSt
